import Mathlib

/-!
# Token state-transition core: a shallow embedding

The built-in token functions of the repository are translated into pure Lean
functions.  Go pointers to accounts become values that are threaded through
and returned (also on the error path, since the Go code mutates the account
object in place before an error can be returned).  Go `error` results are
`Option Error` (`none` is `nil`), `(T, error)` results are `Except Error T`.
Byte slices are lists of naturals, a `nil` slice is the empty list, and
`*big.Int` is `Int`.
-/

set_option autoImplicit false

namespace DCT

/-- A Go byte slice; the `nil` slice and the empty slice are both `[]`. -/
abbrev Bytes := List Nat

/-- The sentinel errors of the package that the modelled functions return,
`GoPanic` for a run-time panic that aborts the call (an index out of range), and
two carriers for errors produced by the external collaborators. -/
inductive Error where
  | ErrNilVmInput
  | ErrNilValue
  | ErrBuiltInFunctionCalledWithValue
  | ErrInvalidArguments
  | ErrInvalidRcvAddr
  | ErrNegativeValue
  | ErrNotEnoughGas
  | ErrInsufficientFunds
  | ErrOnlyFungibleTokensHaveBalanceTransfer
  | ErrDCTIsFrozenForAccount
  | ErrDCTTokenIsPaused
  | ErrNilDCTData
  | ErrInvalidLiquidityForDCT
  | ErrNewNFTDataOnSenderAddress
  | ErrNFTDoesNotHaveMetadata
  | ErrInvalidNFTQuantity
  | ErrNilUserAccount
  | ErrWrongTypeAssertion
  | ErrActionNotAllowed
  | ErrAddressIsNotDCTSystemSC
  | ErrNilTransactionHandler
  | ErrOnlySystemAccountAccepted
  | ErrTooManyTransferAddresses
  | ErrCannotWipeAccountNotFrozen
  | ErrInsufficientQuantityDCT
  | ErrNotEnoughArguments
  | ErrNotDCTTransferInput
  | ErrInvalidNumOfArgs
  | ErrInvalidTokenID
  | ErrInvalidNonce
  | GoPanic
  | ErrMarshalizer (code : Nat)
  | ErrExternal (code : Nat)
deriving DecidableEq, Repr

/-- Modelled from the spec: the NFT metadata of a token record
(`dct.MetaData`, declared in the external core library): nonce, name, creator,
royalties, hash, URI list, attributes. -/
structure MetaData where
  Nonce : Nat := 0
  Name : Bytes := []
  Creator : Bytes := []
  Royalties : Nat := 0
  Hash : Bytes := []
  URIs : List Bytes := []
  Attributes : Bytes := []
deriving DecidableEq, Repr

/-- Modelled from the spec: the token record (`dct.DCToken`, declared in the
external core library): type, value, properties, optional metadata, reserved
marker.  The defaults are the fields of the Go zero value `dct.DCToken{}`,
with the value read as the integer zero. -/
structure DCToken where
  Type_ : Nat := 0
  Value : Int := 0
  Properties : Bytes := []
  TokenMetaData : Option MetaData := none
  Reserved : Bytes := []
deriving DecidableEq, Repr

/-- The token type `core.Fungible`, the type of the Go zero value of a record. -/
def Fungible : Nat := 0

/-- The token type `core.NonFungible`. -/
def NonFungible : Nat := 1

/-- Modelled from the spec: the role list of an account for a token
(`dct.DCTRoles`, declared in the external core library): an ordered list of
role identifiers. -/
structure DCTRoles where
  Roles : List Bytes := []
deriving DecidableEq, Repr

/-- Modelled from the spec: the generic marshaler collaborator (an interface
declared outside the source files), restricted to token records and role
lists.  `Unmarshal` receives the object to fill and the bytes, as the Go call
does; a failure carries the collaborator's own error code. -/
structure Marshalizer where
  Marshal : DCToken → Except Nat Bytes
  Unmarshal : DCToken → Bytes → Except Nat DCToken
  MarshalRoles : DCTRoles → Except Nat Bytes
  UnmarshalRoles : DCTRoles → Bytes → Except Nat DCTRoles

/-- Modelled from the spec: an account handle of the account store (an
interface declared outside the source files) with its per-account key
retrieve/save operations.  `DataTrie` maps a key to the stored bytes, the
empty list standing for an absent key. -/
structure UserAccount where
  Address : Bytes
  DataTrie : Bytes → Bytes

/-- Modelled from the spec: per-account key retrieve.  The callers treat a
retrieval error and empty bytes alike, so the bytes alone are returned. -/
def UserAccount.RetrieveValue (a : UserAccount) (key : Bytes) : Bytes :=
  a.DataTrie key

/-- Modelled from the spec: per-account key save; saving `nil` removes the key. -/
def UserAccount.SaveKeyValue (a : UserAccount) (key value : Bytes) : UserAccount :=
  { a with DataTrie := Function.update a.DataTrie key value }

/-- Modelled from the spec: the global settings registry as seen by its
consumers (an interface declared outside the source files). -/
structure DCTGlobalSettingsHandler where
  IsPaused : Bytes → Bool
  IsLimitedTransfer : Bytes → Bool
  IsBurnForAll : Bytes → Bool
  IsSenderOrDestinationWithTransferRole : Bytes → Bytes → Bytes → Bool

/-- Modelled from the spec: the constants and address predicates that the
functions read from declarations outside the source files (the external core
library and the package's own constant file).  They are kept as parameters. -/
structure Core where
  DCTSCAddress : Bytes
  SystemAccountAddress : Bytes
  MetachainShardId : Nat
  AsynchronousCallBack : Nat
  BuiltInFunctionDCTTransfer : Bytes
  BuiltInFunctionDCTNFTTransfer : Bytes
  DCTRoleTransfer : Bytes
  IsSmartContractAddress : Bytes → Bool
  BuiltInFunctionMultiDCTNFTTransfer : Bytes
  MaxLengthForValueToOptTransfer : Nat
  ProtectedKeyPrefix : Bytes
  DCTKeyIdentifier : Bytes
  DCTRoleIdentifier : Bytes
  DCTNFTLatestNonceIdentifier : Bytes
  DCTRoleNFTCreateMultiShard : Bytes
  BuiltInFunctionDCTPause : Bytes
  BuiltInFunctionDCTUnPause : Bytes
  BuiltInFunctionDCTSetLimitedTransfer : Bytes
  BuiltInFunctionDCTUnSetLimitedTransfer : Bytes
  IsSystemAccountAddress : Bytes → Bool
  BuiltInFunctionDCTLocalMint : Bytes
  DCTRoleLocalMint : Bytes
  MaxLenForDCTIssueMint : Nat
  BuiltInFunctionDCTNFTBurn : Bytes
  DCTRoleNFTBurn : Bytes
  DCTRoleNFTCreate : Bytes
  BuiltInFunctionDCTNFTCreateRoleTransfer : Bytes
  BuiltInFunctionDCTNFTAddURI : Bytes
  DCTRoleNFTAddURI : Bytes

/-- Modelled from the spec: the named-boolean protocol-version-gate provider
(an interface declared outside the source files); one field per gate read. -/
structure EnableEpochsHandler where
  IsSaveToSystemAccountFlagEnabled : Bool := false
  IsSendAlwaysFlagEnabled : Bool := false
  IsFixOldTokenLiquidityEnabled : Bool := false
  IsCheckFrozenCollectionFlagEnabled : Bool := false
  IsAlwaysSaveTokenMetaDataEnabled : Bool := false
  IsTransferToMetaFlagEnabled : Bool := false
  IsCheckCorrectTokenIDForTransferRoleFlagEnabled : Bool := false
  IsCheckTransferFlagEnabled : Bool := false
  IsWipeSingleNFTLiquidityDecreaseEnabled : Bool := false

/-- Modelled from the spec: the shard coordinator collaborator (compute-shard-id,
self-id, same-shard, shard-count). -/
structure Coordinator where
  NumberOfShards : Nat
  ComputeId : Bytes → Nat
  SelfId : Nat
  SameShard : Bytes → Bytes → Bool

/-- Modelled from the spec: the account store (load/save by address).  The
store maps an address to the data trie of its account; loading yields a handle
holding a copy, saving writes the handle back. -/
structure AccountsDB where
  Tries : Bytes → Bytes → Bytes

/-- Modelled from the spec: account store load. -/
def AccountsDB.LoadAccount (accounts : AccountsDB) (address : Bytes) : UserAccount :=
  { Address := address, DataTrie := accounts.Tries address }

/-- Modelled from the spec: account store save. -/
def AccountsDB.SaveAccount (accounts : AccountsDB) (account : UserAccount) : AccountsDB :=
  { Tries := Function.update accounts.Tries account.Address account.DataTrie }

/-- The value of `big.NewInt(0).SetBytes(b)`: the big-endian reading of `b`. -/
def bigIntSetBytes (b : Bytes) : Nat :=
  b.foldl (fun acc x => acc * 256 + x) 0

/-- Produces the big-endian digits of `n`, most significant first, in at most
`fuel` steps. -/
def bigIntBytesAux : Nat → Nat → Bytes → Bytes
  | 0, _, acc => acc
  | fuel + 1, n, acc =>
    if n = 0 then acc else bigIntBytesAux fuel (n / 256) ((n % 256) :: acc)

/-- The value of `big.Int.Bytes()` on a natural number: the minimal big-endian
encoding, empty for zero. -/
def bigIntBytes (n : Nat) : Bytes :=
  bigIntBytesAux n n []

/-- The value of `big.Int.Uint64()` on a natural number: its low 64 bits. -/
def bigIntUint64 (n : Nat) : Nat :=
  n % 2 ^ 64

/-- Modelled from the spec: the per-NFT key `prefix|tickerID|nonceBytes`, with
`nonceBytes` the minimal big-endian encoding of the nonce (the function is
declared in a file outside the source files). -/
def computeDCTNFTTokenKey (dctTokenKey : Bytes) (nonce : Nat) : Bytes :=
  dctTokenKey ++ bigIntBytes nonce

/-! ## Metadata codec (`dctMetaData.go`) -/

def lengthOfDCTMetadata : Nat := 2

def MetadataPaused : Nat := 1

def MetadataLimitedTransfer : Nat := 2

def BurnRoleForAll : Nat := 4

def MetadataFrozen : Nat := 1

structure DCTGlobalMetadata where
  Paused : Bool := false
  LimitedTransfer : Bool := false
  BurnRoleForAll : Bool := false
deriving DecidableEq, Repr

/-- The byte at index zero of a slice whose length has been checked. -/
def byteAt (bytes : Bytes) (i : Nat) : Nat := bytes.getD i 0

def DCTGlobalMetadataFromBytes (bytes : Bytes) : DCTGlobalMetadata :=
  if bytes.length ≠ lengthOfDCTMetadata then {}
  else
    { Paused := (byteAt bytes 0 &&& MetadataPaused) ≠ 0
      LimitedTransfer := (byteAt bytes 0 &&& MetadataLimitedTransfer) ≠ 0
      BurnRoleForAll := (byteAt bytes 0 &&& DCT.BurnRoleForAll) ≠ 0 }

def DCTGlobalMetadata.ToBytes (metadata : DCTGlobalMetadata) : Bytes :=
  let b0 : Nat := 0
  let b0 := if metadata.Paused then b0 ||| MetadataPaused else b0
  let b0 := if metadata.LimitedTransfer then b0 ||| MetadataLimitedTransfer else b0
  let b0 := if metadata.BurnRoleForAll then b0 ||| DCT.BurnRoleForAll else b0
  [b0, 0]

structure DCTUserMetadata where
  Frozen : Bool := false
deriving DecidableEq, Repr

def DCTUserMetadataFromBytes (bytes : Bytes) : DCTUserMetadata :=
  if bytes.length ≠ lengthOfDCTMetadata then {}
  else { Frozen := (byteAt bytes 0 &&& MetadataFrozen) ≠ 0 }

def DCTUserMetadata.ToBytes (metadata : DCTUserMetadata) : Bytes :=
  let b0 : Nat := 0
  let b0 := if metadata.Frozen then b0 ||| MetadataFrozen else b0
  [b0, 0]

/-! ## Fungible balance helpers (`dctTransfer.go`) -/

/-- Lifts a marshaler failure to the package error type. -/
def liftMarshal {α : Type} : Except Nat α → Except Error α
  | .ok a => .ok a
  | .error c => .error (.ErrMarshalizer c)

def checkFrozeAndPause (c : Core) (senderAddr key : Bytes) (dctData : DCToken)
    (globalSettingsHandler : DCTGlobalSettingsHandler) (isReturnWithError : Bool) :
    Option Error :=
  if isReturnWithError then none
  else if senderAddr = c.DCTSCAddress then none
  else if (DCTUserMetadataFromBytes dctData.Properties).Frozen then
    some .ErrDCTIsFrozenForAccount
  else if globalSettingsHandler.IsPaused key then some .ErrDCTTokenIsPaused
  else none

def arePropertiesEmpty : Bytes → Bool
  | [] => true
  | property :: rest => if property ≠ 0 then false else arePropertiesEmpty rest

def saveDCTData (userAcnt : UserAccount) (dctData : DCToken) (key : Bytes)
    (marshaller : Marshalizer) : Option Error × UserAccount :=
  let isValueZero := decide (dctData.Value = 0)
  if isValueZero && arePropertiesEmpty dctData.Properties then
    (none, userAcnt.SaveKeyValue key [])
  else
    match marshaller.Marshal dctData with
    | .error c => (some (.ErrMarshalizer c), userAcnt)
    | .ok marshaledData => (none, userAcnt.SaveKeyValue key marshaledData)

def getDCTDataFromKey (userAcnt : UserAccount) (key : Bytes) (marshaller : Marshalizer) :
    Except Error DCToken :=
  let dctData : DCToken := { Value := 0, Type_ := Fungible }
  let marshaledData := userAcnt.RetrieveValue key
  if marshaledData.length = 0 then .ok dctData
  else liftMarshal (marshaller.Unmarshal dctData marshaledData)

def addToDCTBalance (c : Core) (userAcnt : UserAccount) (key : Bytes) (value : Int)
    (marshaller : Marshalizer) (globalSettingsHandler : DCTGlobalSettingsHandler)
    (isReturnWithError : Bool) : Option Error × UserAccount :=
  match getDCTDataFromKey userAcnt key marshaller with
  | .error err => (some err, userAcnt)
  | .ok dctData =>
    if dctData.Type_ ≠ Fungible then (some .ErrOnlyFungibleTokensHaveBalanceTransfer, userAcnt)
    else
      match checkFrozeAndPause c userAcnt.Address key dctData globalSettingsHandler
          isReturnWithError with
      | some err => (some err, userAcnt)
      | none =>
        let dctData := { dctData with Value := dctData.Value + value }
        if dctData.Value < 0 then (some .ErrInsufficientFunds, userAcnt)
        else saveDCTData userAcnt dctData key marshaller

/-! ## Call input and output (declared outside the source files) -/

/-- Modelled from the spec: the call input handed over by the dispatcher. -/
structure ContractCallInput where
  CallerAddr : Bytes := []
  Arguments : List Bytes := []
  CallValue : Option Int := some 0
  CallType : Nat := 0
  GasProvided : Nat := 0
  GasLocked : Nat := 0
  ReturnCallAfterError : Bool := false
  RecipientAddr : Bytes := []
  Function : Bytes := []

/-- Modelled from the spec: an outbound message.  The wire payload is
`functionName` followed by `"@" + hex(arg)` for each argument; the model keeps
the function name and the argument list that this rendering concatenates. -/
structure OutputTransfer where
  Value : Int := 0
  GasLimit : Nat := 0
  GasLocked : Nat := 0
  DataFunction : Bytes := []
  DataArguments : List Bytes := []
  CallType : Nat := 0
  SenderAddress : Bytes := []
deriving DecidableEq, Repr

structure OutputAccount where
  Address : Bytes := []
  OutputTransfers : List OutputTransfer := []
deriving DecidableEq, Repr

structure LogEntry where
  Identifier : Bytes := []
  Address : Bytes := []
  Topics : List Bytes := []
deriving DecidableEq, Repr

/-- Modelled from the spec: the call output; `OutputAccounts` is the Go map
from recipient to output account, as an association list. -/
structure VMOutput where
  ReturnCode : Nat := 0
  GasRemaining : Nat := 0
  OutputAccounts : List (Bytes × OutputAccount) := []
  Logs : List LogEntry := []
deriving DecidableEq, Repr

/-- The return code `vmcommon.Ok`. -/
def Ok : Nat := 0

/-- Modelled from the spec: the payable checker hook of the transfer family. -/
structure PayableChecker where
  CheckPayable : ContractCallInput → Bytes → Nat → Option Error
  DetermineIsSCCallAfter : ContractCallInput → Bytes → Nat → Bool

/-- Modelled from the spec: the roles registry as seen by the transfer
functions; an absent account is `none`. -/
structure DCTRoleHandler where
  CheckAllowedToExecute : Option UserAccount → Bytes → Bytes → Option Error

/-- The constant `core.MinLenArgumentsDCTTransfer`: token identifier and value. -/
def MinLenArgumentsDCTTransfer : Nat := 2

/-- The constant `core.MinLenArgumentsDCTNFTTransfer`: token identifier, nonce,
quantity and destination. -/
def MinLenArgumentsDCTNFTTransfer : Nat := 4

/-- The element `args[i]` of an argument list whose length has been checked. -/
def argAt (args : List Bytes) (i : Nat) : Bytes := args.getD i []

/-! ## Log entries (`logsAndEvents.go`) -/

def newEntryForDCT (identifier tokenID : Bytes) (nonce : Nat) (value : Int)
    (args : List Bytes) : LogEntry :=
  let logEntry : LogEntry :=
    { Identifier := identifier
      Topics := [tokenID, bigIntBytes nonce, bigIntBytes value.natAbs] }
  let logEntry := if args.length > 0 then { logEntry with Address := argAt args 0 } else logEntry
  if args.length > 1 then { logEntry with Topics := logEntry.Topics ++ args.drop 1 }
  else logEntry

def addDCTEntryInVMOutput (vmOutput : VMOutput) (identifier tokenID : Bytes) (nonce : Nat)
    (value : Int) (args : List Bytes) : VMOutput :=
  let entry := newEntryForDCT identifier tokenID nonce value args
  { vmOutput with Logs := vmOutput.Logs ++ [entry] }

/-! ## Fungible transfer (`dctTransfer.go`, `dctLocalBurn.go`) -/

def checkBasicDCTArguments (vmInput : Option ContractCallInput) : Option Error :=
  match vmInput with
  | none => some .ErrNilVmInput
  | some vmInput =>
    match vmInput.CallValue with
    | none => some .ErrNilValue
    | some callValue =>
      if callValue ≠ 0 then some .ErrBuiltInFunctionCalledWithValue
      else if vmInput.Arguments.length < MinLenArgumentsDCTTransfer then
        some .ErrInvalidArguments
      else none

/-- Modelled from the spec: gas is charged once, on the sender leg only; the
function is declared in a file outside the source files. -/
def computeGasRemaining (snd : Option UserAccount) (gasProvided gasToUse : Nat) : Nat :=
  if gasProvided < gasToUse then 0
  else if snd.isNone then gasProvided
  else gasProvided - gasToUse

/-- The value returned by `SafeSubUint64` (`gasCost.go`): checked subtraction on
64-bit gas values, zero when it would underflow.  The Go function returns the
error `ErrSubtractionOverflow` alongside the zero; its only caller, the
destination leg of the fungible transfer (`dctTransfer.go`), assigns the error
to a variable it never reads, so the value alone is returned here. -/
def SafeSubUint64 (a b : Nat) : Nat :=
  if a < b then 0 else a - b

def addOutputTransferToVMOutput (senderAddress function : Bytes) (arguments : List Bytes)
    (recipient : Bytes) (gasLocked callType : Nat) (vmOutput : VMOutput) : VMOutput :=
  let outTransfer : OutputTransfer :=
    { Value := 0
      GasLimit := vmOutput.GasRemaining
      GasLocked := gasLocked
      DataFunction := function
      DataArguments := arguments
      CallType := callType
      SenderAddress := senderAddress }
  { vmOutput with
    OutputAccounts := [(recipient, { Address := recipient, OutputTransfers := [outTransfer] })]
    GasRemaining := 0 }

def checkIfTransferCanHappenWithLimitedTransfer (c : Core) (tokenID dctTokenKey : Bytes)
    (senderAddress destinationAddress : Bytes)
    (globalSettingsHandler : DCTGlobalSettingsHandler) (roleHandler : DCTRoleHandler)
    (acntSnd acntDst : Option UserAccount) (isReturnWithError : Bool) : Option Error :=
  if isReturnWithError then none
  else if acntSnd.isNone then none
  else if !globalSettingsHandler.IsLimitedTransfer dctTokenKey then none
  else if globalSettingsHandler.IsSenderOrDestinationWithTransferRole senderAddress
      destinationAddress tokenID then none
  else
    match roleHandler.CheckAllowedToExecute acntSnd tokenID c.DCTRoleTransfer with
    | none => none
    | some _ => roleHandler.CheckAllowedToExecute acntDst tokenID c.DCTRoleTransfer

structure dctTransfer where
  funcGasCost : Nat
  marshaller : Marshalizer
  keyPrefix : Bytes
  globalSettingsHandler : DCTGlobalSettingsHandler
  payableHandler : PayableChecker
  shardCoordinator : Coordinator
  rolesHandler : DCTRoleHandler
  enableEpochsHandler : EnableEpochsHandler


/-- The sender leg of the transfer: the gas check and the debit, performed only
when the sender account is present. -/
def dctTransfer.debitSender (e : dctTransfer) (c : Core) (acntSnd : Option UserAccount)
    (vmInput : ContractCallInput) (dctTokenKey : Bytes) (value : Int) :
    Option Error × Option UserAccount :=
  match acntSnd with
  | none => (none, none)
  | some snd =>
    if vmInput.GasProvided < e.funcGasCost then (some .ErrNotEnoughGas, some snd)
    else
      let r := addToDCTBalance c snd dctTokenKey (-value) e.marshaller e.globalSettingsHandler
        vmInput.ReturnCallAfterError
      (r.1, some r.2)

/-- The fungible transfer.  The two account handles are returned together with
the result, since the Go function mutates them in place; the sender and the
destination handle are different objects. -/
def dctTransfer.ProcessBuiltinFunction (e : dctTransfer) (c : Core)
    (acntSnd acntDst : Option UserAccount) (vmInputPtr : Option ContractCallInput) :
    Except Error VMOutput × Option UserAccount × Option UserAccount :=
  match checkBasicDCTArguments vmInputPtr, vmInputPtr with
  | some err, _ => (.error err, acntSnd, acntDst)
  | none, none => (.error .ErrNilVmInput, acntSnd, acntDst)
  | none, some vmInput =>
    let isInvalidTransferToMeta :=
      e.shardCoordinator.ComputeId vmInput.RecipientAddr == c.MetachainShardId
        && !e.enableEpochsHandler.IsTransferToMetaFlagEnabled
    if isInvalidTransferToMeta then (.error .ErrInvalidRcvAddr, acntSnd, acntDst)
    else
      let value : Int := bigIntSetBytes (argAt vmInput.Arguments 1)
      if value ≤ 0 then (.error .ErrNegativeValue, acntSnd, acntDst)
      else
        let gasRemaining := computeGasRemaining acntSnd vmInput.GasProvided e.funcGasCost
        let dctTokenKey := e.keyPrefix ++ argAt vmInput.Arguments 0
        let tokenID := argAt vmInput.Arguments 0
        let keyToCheck :=
          if e.enableEpochsHandler.IsCheckCorrectTokenIDForTransferRoleFlagEnabled then tokenID
          else dctTokenKey
        match checkIfTransferCanHappenWithLimitedTransfer c keyToCheck dctTokenKey
            vmInput.CallerAddr vmInput.RecipientAddr e.globalSettingsHandler e.rolesHandler
            acntSnd acntDst vmInput.ReturnCallAfterError with
        | some err => (.error err, acntSnd, acntDst)
        | none =>
          match e.debitSender c acntSnd vmInput dctTokenKey value with
          | (some err, acntSndNew) => (.error err, acntSndNew, acntDst)
          | (none, acntSndNew) =>
            let isSCCallAfter := e.payableHandler.DetermineIsSCCallAfter vmInput
              vmInput.RecipientAddr MinLenArgumentsDCTTransfer
            let vmOutput : VMOutput := { GasRemaining := gasRemaining, ReturnCode := Ok }
            match acntDst with
            | some dst =>
              match e.payableHandler.CheckPayable vmInput vmInput.RecipientAddr
                  MinLenArgumentsDCTTransfer with
              | some err => (.error err, acntSndNew, some dst)
              | none =>
                match addToDCTBalance c dst dctTokenKey value e.marshaller
                    e.globalSettingsHandler vmInput.ReturnCallAfterError with
                | (some err, dstNew) => (.error err, acntSndNew, some dstNew)
                | (none, dstNew) =>
                  if isSCCallAfter then
                    let vmOutput := { vmOutput with
                      GasRemaining := SafeSubUint64 vmInput.GasProvided e.funcGasCost }
                    let callArgs :=
                      if vmInput.Arguments.length > MinLenArgumentsDCTTransfer + 1 then
                        vmInput.Arguments.drop (MinLenArgumentsDCTTransfer + 1)
                      else []
                    let vmOutput := addOutputTransferToVMOutput vmInput.CallerAddr
                      (argAt vmInput.Arguments MinLenArgumentsDCTTransfer) callArgs
                      vmInput.RecipientAddr vmInput.GasLocked vmInput.CallType vmOutput
                    let vmOutput := addDCTEntryInVMOutput vmOutput c.BuiltInFunctionDCTTransfer
                      tokenID 0 value [vmInput.CallerAddr, dstNew.Address]
                    (.ok vmOutput, acntSndNew, some dstNew)
                  else
                    let vmOutput :=
                      if vmInput.CallType == c.AsynchronousCallBack && acntSnd.isNone then
                        { vmOutput with GasRemaining := vmInput.GasProvided }
                      else vmOutput
                    let vmOutput := addDCTEntryInVMOutput vmOutput c.BuiltInFunctionDCTTransfer
                      tokenID 0 value [vmInput.CallerAddr, dstNew.Address]
                    (.ok vmOutput, acntSndNew, some dstNew)
            | none =>
              let vmOutput :=
                if c.IsSmartContractAddress vmInput.CallerAddr then
                  addOutputTransferToVMOutput vmInput.CallerAddr c.BuiltInFunctionDCTTransfer
                    vmInput.Arguments vmInput.RecipientAddr vmInput.GasLocked vmInput.CallType
                    vmOutput
                else vmOutput
              let vmOutput := addDCTEntryInVMOutput vmOutput c.BuiltInFunctionDCTTransfer
                tokenID 0 value [vmInput.CallerAddr, vmInput.RecipientAddr]
              (.ok vmOutput, acntSndNew, none)


/-! ## Token storage engine (`dctDataStorage.go`)

The accounts adapter field of the Go struct is the mutable account store; it is
passed to every method as `accounts` and returned when the method writes to it. -/

def existsOnShard : Nat := 1

structure queryOptions where
  isCustomSystemAccountSet : Bool := false
  customSystemAccount : Option UserAccount := none

def defaultQueryOptions : queryOptions := {}

/-- Modelled from the spec: the call-data parser collaborator (declared
outside the source files), which splits `functionName@hex(arg)...` into the
function name and the decoded arguments, or fails. -/
structure CallArgsParser where
  ParseData : Bytes → Except Error (Bytes × List Bytes)

structure dctDataStorage where
  globalSettingsHandler : DCTGlobalSettingsHandler
  marshaller : Marshalizer
  keyPrefix : Bytes
  shardCoordinator : Coordinator
  txDataParser : CallArgsParser
  enableEpochsHandler : EnableEpochsHandler

/-- Loads the system account; the load of the modelled account store cannot
fail and always yields a user account, so no error is returned. -/
def dctDataStorage.loadSystemAccount (_e : dctDataStorage) (c : Core) (accounts : AccountsDB) :
    UserAccount :=
  accounts.LoadAccount c.SystemAccountAddress

def dctDataStorage.getSystemAccount (e : dctDataStorage) (c : Core) (accounts : AccountsDB)
    (options : queryOptions) : UserAccount :=
  match options.isCustomSystemAccountSet, options.customSystemAccount with
  | true, some customSystemAccount => customSystemAccount
  | _, _ => e.loadSystemAccount c accounts

def dctDataStorage.getDCTDigitalTokenDataFromSystemAccount (e : dctDataStorage) (c : Core)
    (accounts : AccountsDB) (tokenKey : Bytes) (options : queryOptions) :
    Except Error (Option DCToken × UserAccount) :=
  let systemAcc := e.getSystemAccount c accounts options
  let marshaledData := systemAcc.RetrieveValue tokenKey
  if marshaledData.length = 0 then .ok (none, systemAcc)
  else
    match e.marshaller.Unmarshal {} marshaledData with
    | .error code => .error (.ErrMarshalizer code)
    | .ok dctData => .ok (some dctData, systemAcc)

def dctDataStorage.getDCTMetaDataFromSystemAccount (e : dctDataStorage) (c : Core)
    (accounts : AccountsDB) (tokenKey : Bytes) (options : queryOptions) :
    Except Error (Option MetaData) :=
  match e.getDCTDigitalTokenDataFromSystemAccount c accounts tokenKey options with
  | .error err => .error err
  | .ok (none, _) => .ok none
  | .ok (some dctData, _) => .ok dctData.TokenMetaData

def dctDataStorage.getDCTNFTTokenOnDestinationWithAccountsAdapterOptions (e : dctDataStorage)
    (c : Core) (accounts : AccountsDB) (accnt : UserAccount) (dctTokenKey : Bytes) (nonce : Nat)
    (options : queryOptions) : Except Error (DCToken × Bool) :=
  let dctNFTTokenKey := computeDCTNFTTokenKey dctTokenKey nonce
  let dctData : DCToken := { Value := 0, Type_ := Fungible }
  let marshaledData := accnt.RetrieveValue dctNFTTokenKey
  if marshaledData.length = 0 then .ok (dctData, true)
  else
    match e.marshaller.Unmarshal dctData marshaledData with
    | .error code => .error (.ErrMarshalizer code)
    | .ok dctData =>
      if !e.enableEpochsHandler.IsSaveToSystemAccountFlagEnabled || nonce = 0 then
        .ok (dctData, false)
      else
        match e.getDCTMetaDataFromSystemAccount c accounts dctNFTTokenKey options with
        | .error err => .error err
        | .ok none => .ok (dctData, false)
        | .ok (some dctMetaData) => .ok ({ dctData with TokenMetaData := some dctMetaData }, false)

def dctDataStorage.GetDCTNFTTokenOnDestination (e : dctDataStorage) (c : Core)
    (accounts : AccountsDB) (accnt : UserAccount) (dctTokenKey : Bytes) (nonce : Nat) :
    Except Error (DCToken × Bool) :=
  e.getDCTNFTTokenOnDestinationWithAccountsAdapterOptions c accounts accnt dctTokenKey nonce
    defaultQueryOptions

def dctDataStorage.GetDCTNFTTokenOnSender (e : dctDataStorage) (c : Core)
    (accounts : AccountsDB) (accnt : UserAccount) (dctTokenKey : Bytes) (nonce : Nat) :
    Except Error DCToken :=
  match e.GetDCTNFTTokenOnDestination c accounts accnt dctTokenKey nonce with
  | .error err => .error err
  | .ok (dctData, isNew) =>
    if isNew then .error .ErrNewNFTDataOnSenderAddress else .ok dctData

def dctDataStorage.checkCollectionIsFrozenForAccount (e : dctDataStorage) (accnt : UserAccount)
    (dctTokenKey : Bytes) (nonce : Nat) (isReturnWithError : Bool) : Option Error :=
  if !e.enableEpochsHandler.IsCheckFrozenCollectionFlagEnabled then none
  else if nonce = 0 || isReturnWithError then none
  else
    let dctData : DCToken := { Value := 0, Type_ := Fungible }
    let marshaledData := accnt.RetrieveValue dctTokenKey
    if marshaledData.length = 0 then none
    else
      match e.marshaller.Unmarshal dctData marshaledData with
      | .error code => some (.ErrMarshalizer code)
      | .ok dctData =>
        if (DCTUserMetadataFromBytes dctData.Properties).Frozen then
          some .ErrDCTIsFrozenForAccount
        else none

def dctDataStorage.checkFrozenPauseProperties (e : dctDataStorage) (c : Core)
    (acnt : UserAccount) (dctTokenKey : Bytes) (nonce : Nat) (dctData : DCToken)
    (isReturnWithError : Bool) : Option Error :=
  match checkFrozeAndPause c acnt.Address dctTokenKey dctData e.globalSettingsHandler
      isReturnWithError with
  | some err => some err
  | none =>
    let dctNFTTokenKey := computeDCTNFTTokenKey dctTokenKey nonce
    match checkFrozeAndPause c acnt.Address dctNFTTokenKey dctData e.globalSettingsHandler
        isReturnWithError with
    | some err => some err
    | none => e.checkCollectionIsFrozenForAccount acnt dctTokenKey nonce isReturnWithError

def dctDataStorage.marshalAndSaveData (e : dctDataStorage) (accounts : AccountsDB)
    (systemAcc : UserAccount) (dctData : DCToken) (dctNFTTokenKey : Bytes) :
    Option Error × UserAccount × AccountsDB :=
  match e.marshaller.Marshal dctData with
  | .error code => (some (.ErrMarshalizer code), systemAcc, accounts)
  | .ok marshaledData =>
    let systemAcc := systemAcc.SaveKeyValue dctNFTTokenKey marshaledData
    (none, systemAcc, accounts.SaveAccount systemAcc)

def dctDataStorage.AddToLiquiditySystemAcc (e : dctDataStorage) (c : Core)
    (accounts : AccountsDB) (dctTokenKey : Bytes) (nonce : Nat) (transferValue : Int) :
    Option Error × AccountsDB :=
  let isSaveToSystemAccountFlagEnabled := e.enableEpochsHandler.IsSaveToSystemAccountFlagEnabled
  let isSendAlwaysFlagEnabled := e.enableEpochsHandler.IsSendAlwaysFlagEnabled
  if !isSaveToSystemAccountFlagEnabled || !isSendAlwaysFlagEnabled || nonce = 0 then
    (none, accounts)
  else
    let dctNFTTokenKey := computeDCTNFTTokenKey dctTokenKey nonce
    match e.getDCTDigitalTokenDataFromSystemAccount c accounts dctNFTTokenKey
        defaultQueryOptions with
    | .error err => (some err, accounts)
    | .ok (none, _) => (some .ErrNilDCTData, accounts)
    | .ok (some dctData, systemAcc) =>
      if dctData.Reserved.length = 0 then (none, accounts)
      else if e.enableEpochsHandler.IsFixOldTokenLiquidityEnabled
          && (dctData.Value = 0 && transferValue < 0) then
        let r := e.marshalAndSaveData accounts systemAcc { dctData with Reserved := [] }
          dctNFTTokenKey
        (r.1, r.2.2)
      else
        let dctData := { dctData with Value := dctData.Value + transferValue }
        if dctData.Value < 0 then (some .ErrInvalidLiquidityForDCT, accounts)
        else if dctData.Value = 0 then
          let systemAcc := systemAcc.SaveKeyValue dctNFTTokenKey []
          (none, accounts.SaveAccount systemAcc)
        else
          let r := e.marshalAndSaveData accounts systemAcc dctData dctNFTTokenKey
          (r.1, r.2.2)


def dctDataStorage.saveMetadataIfRequired (e : dctDataStorage) (accounts : AccountsDB)
    (dctNFTTokenKey : Bytes) (systemAcc : UserAccount) (currentSaveData : Bytes)
    (dctData : DCToken) : Option Error × UserAccount × AccountsDB :=
  if !e.enableEpochsHandler.IsAlwaysSaveTokenMetaDataEnabled then (none, systemAcc, accounts)
  else if !e.enableEpochsHandler.IsSendAlwaysFlagEnabled then (none, systemAcc, accounts)
  else if currentSaveData.length = 0 then (none, systemAcc, accounts)
  else
    match e.marshaller.Unmarshal {} currentSaveData with
    | .error code => (some (.ErrMarshalizer code), systemAcc, accounts)
    | .ok dctDataOnSystemAcc =>
      if dctDataOnSystemAcc.Reserved.length > 0 then (none, systemAcc, accounts)
      else
        e.marshalAndSaveData accounts systemAcc
          { dctDataOnSystemAcc with TokenMetaData := dctData.TokenMetaData } dctNFTTokenKey

def dctDataStorage.setReservedToNilForOldToken (e : dctDataStorage)
    (dctDataOnSystemAcc : DCToken) (userAcc : Option UserAccount) (dctNFTTokenKey : Bytes) :
    Except Error DCToken :=
  if !e.enableEpochsHandler.IsFixOldTokenLiquidityEnabled then .ok dctDataOnSystemAcc
  else
    match userAcc with
    | none => .error .ErrNilUserAccount
    | some userAcc =>
      let dataOnUserAcc := userAcc.RetrieveValue dctNFTTokenKey
      let shouldIgnoreToken := decide (dataOnUserAcc.length = 0)
      if shouldIgnoreToken then .ok dctDataOnSystemAcc
      else
        match e.marshaller.Unmarshal {} dataOnUserAcc with
        | .error code => .error (.ErrMarshalizer code)
        | .ok dctDataOnUserAcc =>
          if dctDataOnUserAcc.TokenMetaData.isSome then
            .ok { dctDataOnSystemAcc with Reserved := [] }
          else .ok dctDataOnSystemAcc

/-- The assignment `properties[index] = value`, which panics when the index is
out of range. -/
def setProperty (properties : Bytes) (index value : Nat) : Except Error Bytes :=
  if index < properties.length then .ok (properties.set index value) else .error .GoPanic

/-- The legacy branch of the canonical-record write: marks the local shard and
the sender shard in the per-shard bitset, skipping the coordinator shard. -/
def dctDataStorage.markShards (e : dctDataStorage) (c : Core) (senderShardID : Nat)
    (properties : Bytes) : Except Error Bytes :=
  let selfID := e.shardCoordinator.SelfId
  let afterSelf :=
    if selfID ≠ c.MetachainShardId then setProperty properties selfID existsOnShard
    else .ok properties
  match afterSelf with
  | .error err => .error err
  | .ok properties =>
    if senderShardID ≠ c.MetachainShardId then setProperty properties senderShardID existsOnShard
    else .ok properties

def dctDataStorage.saveDCTMetaDataToSystemAccount (e : dctDataStorage) (c : Core)
    (accounts : AccountsDB) (userAcc : Option UserAccount) (senderShardID : Nat)
    (dctNFTTokenKey : Bytes) (nonce : Nat) (dctData : DCToken) (mustUpdateAllFields : Bool) :
    Option Error × AccountsDB :=
  if nonce = 0 then (none, accounts)
  else if dctData.TokenMetaData.isNone then (none, accounts)
  else
    let systemAcc := e.getSystemAccount c accounts defaultQueryOptions
    let currentSaveData := systemAcc.RetrieveValue dctNFTTokenKey
    match e.saveMetadataIfRequired accounts dctNFTTokenKey systemAcc currentSaveData dctData with
    | (some err, _, accounts) => (some err, accounts)
    | (none, systemAcc, accounts) =>
      if !mustUpdateAllFields && currentSaveData.length > 0 then (none, accounts)
      else
        let dctDataOnSystemAcc : DCToken :=
          { Type_ := dctData.Type_
            Value := 0
            TokenMetaData := dctData.TokenMetaData
            Properties := List.replicate e.shardCoordinator.NumberOfShards 0 }
        let isSendAlwaysFlagEnabled := e.enableEpochsHandler.IsSendAlwaysFlagEnabled
        let afterReserved : Except Error DCToken :=
          if currentSaveData.length = 0 && isSendAlwaysFlagEnabled then
            e.setReservedToNilForOldToken
              { dctDataOnSystemAcc with Properties := [], Reserved := [1] } userAcc dctNFTTokenKey
          else .ok dctDataOnSystemAcc
        match afterReserved with
        | .error err => (some err, accounts)
        | .ok dctDataOnSystemAcc =>
          let afterShards : Except Error DCToken :=
            if !isSendAlwaysFlagEnabled then
              match e.markShards c senderShardID dctDataOnSystemAcc.Properties with
              | .error err => .error err
              | .ok properties => .ok { dctDataOnSystemAcc with Properties := properties }
            else .ok dctDataOnSystemAcc
          match afterShards with
          | .error err => (some err, accounts)
          | .ok dctDataOnSystemAcc =>
            let r := e.marshalAndSaveData accounts systemAcc dctDataOnSystemAcc dctNFTTokenKey
            (r.1, r.2.2)

/-- Saves the token record to the user account and the canonical record to the
system account; the user account handle and the account store are returned
with the result. -/
def dctDataStorage.SaveDCTNFTToken (e : dctDataStorage) (c : Core) (accounts : AccountsDB)
    (senderAddress : Bytes) (acnt : UserAccount) (dctTokenKey : Bytes) (nonce : Nat)
    (dctData : DCToken) (mustUpdateAllFields : Bool) (isReturnWithError : Bool) :
    Except Error Bytes × UserAccount × AccountsDB :=
  match e.checkFrozenPauseProperties c acnt dctTokenKey nonce dctData isReturnWithError with
  | some err => (.error err, acnt, accounts)
  | none =>
    let dctNFTTokenKey := computeDCTNFTTokenKey dctTokenKey nonce
    let senderShardID := e.shardCoordinator.ComputeId senderAddress
    let metaSave : Option Error × AccountsDB :=
      if e.enableEpochsHandler.IsSaveToSystemAccountFlagEnabled then
        e.saveDCTMetaDataToSystemAccount c accounts (some acnt) senderShardID dctNFTTokenKey
          nonce dctData mustUpdateAllFields
      else (none, accounts)
    match metaSave with
    | (some err, accounts) => (.error err, acnt, accounts)
    | (none, accounts) =>
      if dctData.Value ≤ 0 then (.ok [], acnt.SaveKeyValue dctNFTTokenKey [], accounts)
      else if !e.enableEpochsHandler.IsSaveToSystemAccountFlagEnabled then
        match e.marshaller.Marshal dctData with
        | .error code => (.error (.ErrMarshalizer code), acnt, accounts)
        | .ok marshaledData =>
          (.ok marshaledData, acnt.SaveKeyValue dctNFTTokenKey marshaledData, accounts)
      else
        let dctDataOnAccount : DCToken :=
          { Type_ := dctData.Type_, Value := dctData.Value, Properties := dctData.Properties }
        match e.marshaller.Marshal dctDataOnAccount with
        | .error code => (.error (.ErrMarshalizer code), acnt, accounts)
        | .ok marshaledData =>
          (.ok marshaledData, acnt.SaveKeyValue dctNFTTokenKey marshaledData, accounts)

/-- The bitset `properties` grown with zero bytes to `n` entries when shorter. -/
def growProperties (properties : Bytes) (n : Nat) : Bytes :=
  if properties.length < n then properties ++ List.replicate (n - properties.length) 0
  else properties

def dctDataStorage.WasAlreadySentToDestinationShardAndUpdateState (e : dctDataStorage)
    (c : Core) (accounts : AccountsDB) (tickerID : Bytes) (nonce : Nat) (dstAddress : Bytes) :
    Except Error Bool × AccountsDB :=
  if !e.enableEpochsHandler.IsSaveToSystemAccountFlagEnabled then (.ok false, accounts)
  else if nonce = 0 then (.ok true, accounts)
  else
    let dstShardID := e.shardCoordinator.ComputeId dstAddress
    if dstShardID = e.shardCoordinator.SelfId then (.ok true, accounts)
    else if e.enableEpochsHandler.IsSendAlwaysFlagEnabled then (.ok false, accounts)
    else if dstShardID = c.MetachainShardId then (.ok true, accounts)
    else
      let dctTokenKey := e.keyPrefix ++ tickerID
      let dctNFTTokenKey := computeDCTNFTTokenKey dctTokenKey nonce
      match e.getDCTDigitalTokenDataFromSystemAccount c accounts dctNFTTokenKey
          defaultQueryOptions with
      | .error err => (.error err, accounts)
      | .ok (none, _) => (.ok false, accounts)
      | .ok (some dctData, systemAcc) =>
        let properties := growProperties dctData.Properties e.shardCoordinator.NumberOfShards
        if dstShardID < properties.length then
          if properties.getD dstShardID 0 > 0 then (.ok true, accounts)
          else
            let r := e.marshalAndSaveData accounts systemAcc
              { dctData with Properties := properties.set dstShardID existsOnShard }
              dctNFTTokenKey
            match r.1 with
            | some err => (.error err, r.2.2)
            | none => (.ok false, r.2.2)
        else (.error .GoPanic, accounts)


/-! ## Single NFT transfer (`dctNFTTransfer.go`)

The storage handler field is the storage engine above, and the accounts
adapter is the account store shared with it. -/

def oneValue : Int := 1

def zeroByteArray : Bytes := [0]

/-- Modelled from the spec: the part of the hot-swappable gas-cost
configuration read by the transfer (`gasCost.go`). -/
structure BaseOperationCost where
  DataCopyPerByte : Nat := 0
  StorePerByte : Nat := 0

structure dctNFTTransfer where
  keyPrefix : Bytes
  marshaller : Marshalizer
  globalSettingsHandler : DCTGlobalSettingsHandler
  payableHandler : PayableChecker
  funcGasCost : Nat
  shardCoordinator : Coordinator
  gasConfig : BaseOperationCost
  rolesHandler : DCTRoleHandler
  dctStorageHandler : dctDataStorage
  enableEpochsHandler : EnableEpochsHandler

def addNFTTransferToVMOutput (senderAddress recipient funcToCall : Bytes)
    (arguments : List Bytes) (gasLocked gasLimit callType : Nat) (vmOutput : VMOutput) :
    VMOutput :=
  let outTransfer : OutputTransfer :=
    { Value := 0
      GasLimit := gasLimit
      GasLocked := gasLocked
      DataFunction := funcToCall
      DataArguments := arguments
      CallType := callType
      SenderAddress := senderAddress }
  { vmOutput with
    OutputAccounts := [(recipient, { Address := recipient, OutputTransfers := [outTransfer] })] }

/-- Credits the destination; the record to transfer is returned as well, since
the Go function adds the destination's current value into it in place. -/
def dctNFTTransfer.addNFTToDestination (e : dctNFTTransfer) (c : Core) (accounts : AccountsDB)
    (sndAddress dstAddress : Bytes) (userAccount : UserAccount) (dctDataToTransfer : DCToken)
    (dctTokenKey : Bytes) (nonce : Nat) (isReturnWithError : Bool) :
    Option Error × DCToken × UserAccount × AccountsDB :=
  match e.dctStorageHandler.GetDCTNFTTokenOnDestination c accounts userAccount dctTokenKey
      nonce with
  | .error err => (some err, dctDataToTransfer, userAccount, accounts)
  | .ok (currentDCTData, _) =>
    match checkFrozeAndPause c dstAddress dctTokenKey currentDCTData e.globalSettingsHandler
        isReturnWithError with
    | some err => (some err, dctDataToTransfer, userAccount, accounts)
    | none =>
      let transferValue := dctDataToTransfer.Value
      let dctDataToTransfer :=
        { dctDataToTransfer with Value := dctDataToTransfer.Value + currentDCTData.Value }
      match e.dctStorageHandler.SaveDCTNFTToken c accounts sndAddress userAccount dctTokenKey
          nonce dctDataToTransfer false isReturnWithError with
      | (.error err, userAccount, accounts) =>
        (some err, dctDataToTransfer, userAccount, accounts)
      | (.ok _, userAccount, accounts) =>
        let isSameShard := e.shardCoordinator.SameShard sndAddress dstAddress
        if !isSameShard then
          let r := e.dctStorageHandler.AddToLiquiditySystemAcc c accounts dctTokenKey nonce
            transferValue
          (r.1, dctDataToTransfer, userAccount, r.2)
        else (none, dctDataToTransfer, userAccount, accounts)

def dctNFTTransfer.createNFTOutputTransfers (e : dctNFTTransfer) (c : Core)
    (accounts : AccountsDB) (vmInput : ContractCallInput) (vmOutput : VMOutput)
    (dctTransferData : DCToken) (dstAddress tickerID : Bytes) (nonce : Nat) :
    Except Error VMOutput × AccountsDB :=
  let nftTransferCallArgs := vmInput.Arguments.take 3
  match e.dctStorageHandler.WasAlreadySentToDestinationShardAndUpdateState c accounts tickerID
      nonce dstAddress with
  | (.error err, accounts) => (.error err, accounts)
  | (.ok wasAlreadySent, accounts) =>
    let withRecord : Except Error (VMOutput × List Bytes) :=
      if !wasAlreadySent || dctTransferData.Value = oneValue then
        match e.marshaller.Marshal dctTransferData with
        | .error code => .error (.ErrMarshalizer code)
        | .ok marshaledNFTTransfer =>
          let gasForTransfer :=
            (marshaledNFTTransfer.length * e.gasConfig.DataCopyPerByte) % 2 ^ 64
          if gasForTransfer > vmOutput.GasRemaining then .error .ErrNotEnoughGas
          else
            .ok ({ vmOutput with GasRemaining := vmOutput.GasRemaining - gasForTransfer },
              nftTransferCallArgs ++ [marshaledNFTTransfer])
      else .ok (vmOutput, nftTransferCallArgs ++ [zeroByteArray])
    match withRecord with
    | .error err => (.error err, accounts)
    | .ok (vmOutput, nftTransferCallArgs) =>
      let nftTransferCallArgs :=
        if vmInput.Arguments.length > MinLenArgumentsDCTNFTTransfer then
          nftTransferCallArgs ++ vmInput.Arguments.drop 4
        else nftTransferCallArgs
      let isSCCallAfter := e.payableHandler.DetermineIsSCCallAfter vmInput dstAddress
        MinLenArgumentsDCTNFTTransfer
      if e.shardCoordinator.SelfId ≠ e.shardCoordinator.ComputeId dstAddress then
        let gasToTransfer := if isSCCallAfter then vmOutput.GasRemaining else 0
        let vmOutput := if isSCCallAfter then { vmOutput with GasRemaining := 0 } else vmOutput
        (.ok (addNFTTransferToVMOutput vmInput.CallerAddr dstAddress
          c.BuiltInFunctionDCTNFTTransfer nftTransferCallArgs vmInput.GasLocked gasToTransfer
          vmInput.CallType vmOutput), accounts)
      else if isSCCallAfter then
        let callArgs :=
          if vmInput.Arguments.length > MinLenArgumentsDCTNFTTransfer + 1 then
            vmInput.Arguments.drop (MinLenArgumentsDCTNFTTransfer + 1)
          else []
        (.ok (addOutputTransferToVMOutput vmInput.CallerAddr
          (argAt vmInput.Arguments MinLenArgumentsDCTNFTTransfer) callArgs dstAddress
          vmInput.GasLocked vmInput.CallType vmOutput), accounts)
      else (.ok vmOutput, accounts)

/-- The move of the quantity on the sender shard after the sender's record has
been saved: an in-shard destination is loaded, credited and saved; otherwise
the liquidity of the system account is decreased.  Returns the record as left
by the credit and the destination handle when one was loaded. -/
def dctNFTTransfer.moveOnSenderShard (e : dctNFTTransfer) (c : Core) (accounts : AccountsDB)
    (vmInput : ContractCallInput) (dstAddress : Bytes) (dctData : DCToken)
    (dctTokenKey : Bytes) (nonce : Nat) (quantityToTransfer : Int) :
    Option Error × DCToken × Option UserAccount × AccountsDB :=
  if e.shardCoordinator.SelfId = e.shardCoordinator.ComputeId dstAddress then
    let userAccount := accounts.LoadAccount dstAddress
    match e.payableHandler.CheckPayable vmInput dstAddress MinLenArgumentsDCTNFTTransfer with
    | some err => (some err, dctData, some userAccount, accounts)
    | none =>
      match e.addNFTToDestination c accounts vmInput.CallerAddr dstAddress userAccount dctData
          dctTokenKey nonce vmInput.ReturnCallAfterError with
      | (some err, dctData, userAccount, accounts) =>
        (some err, dctData, some userAccount, accounts)
      | (none, dctData, userAccount, accounts) =>
        (none, dctData, some userAccount, accounts.SaveAccount userAccount)
  else
    let r := e.dctStorageHandler.AddToLiquiditySystemAcc c accounts dctTokenKey nonce
      (-quantityToTransfer)
    (r.1, dctData, none, r.2)


def dctNFTTransfer.processNFTTransferOnSenderShard (e : dctNFTTransfer) (c : Core)
    (accounts : AccountsDB) (acntSnd : Option UserAccount) (vmInput : ContractCallInput) :
    Except Error VMOutput × Option UserAccount × AccountsDB :=
  let dstAddress := argAt vmInput.Arguments 3
  if dstAddress.length ≠ vmInput.CallerAddr.length then
    (.error .ErrInvalidArguments, acntSnd, accounts)
  else if dstAddress = vmInput.CallerAddr then (.error .ErrInvalidArguments, acntSnd, accounts)
  else
    let isTransferToMetaFlagEnabled := e.enableEpochsHandler.IsTransferToMetaFlagEnabled
    let isInvalidTransferToMeta :=
      e.shardCoordinator.ComputeId dstAddress == c.MetachainShardId
        && !isTransferToMetaFlagEnabled
    if isInvalidTransferToMeta then (.error .ErrInvalidRcvAddr, acntSnd, accounts)
    else if vmInput.GasProvided < e.funcGasCost then (.error .ErrNotEnoughGas, acntSnd, accounts)
    else
      let tickerID := argAt vmInput.Arguments 0
      let dctTokenKey := e.keyPrefix ++ tickerID
      let nonce := bigIntUint64 (bigIntSetBytes (argAt vmInput.Arguments 1))
      match acntSnd with
      | none => (.error .GoPanic, none, accounts)
      | some snd =>
        match e.dctStorageHandler.GetDCTNFTTokenOnSender c accounts snd dctTokenKey nonce with
        | .error err => (.error err, some snd, accounts)
        | .ok dctData =>
          if nonce = 0 then (.error .ErrNFTDoesNotHaveMetadata, some snd, accounts)
          else
            let quantityToTransfer : Int := bigIntSetBytes (argAt vmInput.Arguments 2)
            if dctData.Value < quantityToTransfer then
              (.error .ErrInvalidNFTQuantity, some snd, accounts)
            else if e.enableEpochsHandler.IsCheckTransferFlagEnabled
                && decide (quantityToTransfer ≤ 0) then
              (.error .ErrInvalidNFTQuantity, some snd, accounts)
            else
              let dctData := { dctData with Value := dctData.Value - quantityToTransfer }
              match e.dctStorageHandler.SaveDCTNFTToken c accounts snd.Address snd dctTokenKey
                  nonce dctData false vmInput.ReturnCallAfterError with
              | (.error err, snd, accounts) => (.error err, some snd, accounts)
              | (.ok _, snd, accounts) =>
                let dctData := { dctData with Value := quantityToTransfer }
                match e.moveOnSenderShard c accounts vmInput dstAddress dctData dctTokenKey
                    nonce quantityToTransfer with
                | (some err, _, _, accounts) => (.error err, some snd, accounts)
                | (none, dctData, userAccount, accounts) =>
                  let tokenID :=
                    if e.enableEpochsHandler.IsCheckCorrectTokenIDForTransferRoleFlagEnabled
                    then tickerID else dctTokenKey
                  match checkIfTransferCanHappenWithLimitedTransfer c tokenID dctTokenKey
                      snd.Address dstAddress e.globalSettingsHandler e.rolesHandler (some snd)
                      userAccount vmInput.ReturnCallAfterError with
                  | some err => (.error err, some snd, accounts)
                  | none =>
                    let vmOutput : VMOutput :=
                      { ReturnCode := Ok, GasRemaining := vmInput.GasProvided - e.funcGasCost }
                    match e.createNFTOutputTransfers c accounts vmInput vmOutput dctData
                        dstAddress tickerID nonce with
                    | (.error err, accounts) => (.error err, some snd, accounts)
                    | (.ok vmOutput, accounts) =>
                      (.ok (addDCTEntryInVMOutput vmOutput c.BuiltInFunctionDCTNFTTransfer
                        (argAt vmInput.Arguments 0) nonce quantityToTransfer
                        [vmInput.CallerAddr, dstAddress]), some snd, accounts)

/-- The record carried by the payload on the destination shard: the unmarshaled
fourth argument, or a non-fungible record of the transferred quantity when the
argument is the one-byte sentinel. -/
def dctNFTTransfer.transferDataOnDestination (e : dctNFTTransfer) (vmInput : ContractCallInput)
    (value : Int) : Except Error DCToken :=
  if argAt vmInput.Arguments 3 ≠ zeroByteArray then
    liftMarshal (e.marshaller.Unmarshal {} (argAt vmInput.Arguments 3))
  else .ok { Value := value, Type_ := NonFungible }

/-- The single NFT transfer.  Returns the result, the two account handles and
the account store. -/
def dctNFTTransfer.ProcessBuiltinFunction (e : dctNFTTransfer) (c : Core)
    (accounts : AccountsDB) (acntSnd acntDst : Option UserAccount)
    (vmInputPtr : Option ContractCallInput) :
    Except Error VMOutput × Option UserAccount × Option UserAccount × AccountsDB :=
  match checkBasicDCTArguments vmInputPtr, vmInputPtr with
  | some err, _ => (.error err, acntSnd, acntDst, accounts)
  | none, none => (.error .ErrNilVmInput, acntSnd, acntDst, accounts)
  | none, some vmInput =>
    if vmInput.Arguments.length < 4 then (.error .ErrInvalidArguments, acntSnd, acntDst, accounts)
    else if vmInput.CallerAddr = vmInput.RecipientAddr then
      let r := e.processNFTTransferOnSenderShard c accounts acntSnd vmInput
      (r.1, r.2.1, acntDst, r.2.2)
    else if acntSnd.isSome then (.error .ErrInvalidRcvAddr, acntSnd, acntDst, accounts)
    else
      match acntDst with
      | none => (.error .ErrInvalidRcvAddr, acntSnd, none, accounts)
      | some dst =>
        let tickerID := argAt vmInput.Arguments 0
        let dctTokenKey := e.keyPrefix ++ tickerID
        let nonce := bigIntUint64 (bigIntSetBytes (argAt vmInput.Arguments 1))
        let value : Int := bigIntSetBytes (argAt vmInput.Arguments 2)
        match e.transferDataOnDestination vmInput value with
        | .error err => (.error err, acntSnd, some dst, accounts)
        | .ok dctTransferData =>
          match e.payableHandler.CheckPayable vmInput vmInput.RecipientAddr
              MinLenArgumentsDCTNFTTransfer with
          | some err => (.error err, acntSnd, some dst, accounts)
          | none =>
            match e.addNFTToDestination c accounts vmInput.CallerAddr vmInput.RecipientAddr dst
                dctTransferData dctTokenKey nonce vmInput.ReturnCallAfterError with
            | (some err, _, dst, accounts) => (.error err, acntSnd, some dst, accounts)
            | (none, _, dst, accounts) =>
              let vmOutput : VMOutput := { GasRemaining := vmInput.GasProvided }
              let vmOutput :=
                if vmInput.Arguments.length > MinLenArgumentsDCTNFTTransfer
                    && c.IsSmartContractAddress vmInput.RecipientAddr then
                  let callArgs :=
                    if vmInput.Arguments.length > MinLenArgumentsDCTNFTTransfer + 1 then
                      vmInput.Arguments.drop (MinLenArgumentsDCTNFTTransfer + 1)
                    else []
                  addOutputTransferToVMOutput vmInput.CallerAddr
                    (argAt vmInput.Arguments MinLenArgumentsDCTNFTTransfer) callArgs
                    vmInput.RecipientAddr vmInput.GasLocked vmInput.CallType vmOutput
                else vmOutput
              (.ok (addDCTEntryInVMOutput vmOutput c.BuiltInFunctionDCTNFTTransfer
                (argAt vmInput.Arguments 0) nonce value [vmInput.CallerAddr, dst.Address]),
                acntSnd, some dst, accounts)


/-! ## Roles registry (`dctRoles.go`, `dctNFTCreateRoleTransfer.go`) -/

/-- The key prefix of the role lists, built from constants of the core library. -/
def roleKeyPrefix (c : Core) : Bytes :=
  c.ProtectedKeyPrefix ++ c.DCTRoleIdentifier ++ c.DCTKeyIdentifier

structure dctRoles where
  set : Bool
  marshaller : Marshalizer

/-- The constant `math.MaxUint64`. -/
def MaxUint64 : Nat := 2 ^ 64 - 1

/-- The start nonce of an address.  Indexing the last byte of an empty address
panics; the product is a 64-bit multiplication. -/
def computeStartNonce (destAddress : Bytes) : Except Error Nat :=
  match destAddress.getLast? with
  | none => .error .GoPanic
  | some lastByteOfAddress => .ok (((MaxUint64 / 256) * lastByteOfAddress) % 2 ^ 64)

/-- The search loop of `doesRoleExist`, started at index `i`. -/
def doesRoleExistFrom (i : Nat) : List Bytes → Bytes → Int × Bool
  | [], _ => (-1, false)
  | currentRole :: rest, role =>
    if currentRole = role then ((i : Int), true) else doesRoleExistFrom (i + 1) rest role

def doesRoleExist (roles : DCTRoles) (role : Bytes) : Int × Bool :=
  doesRoleExistFrom 0 roles.Roles role

/-- Removes, for each role to delete in turn, the entry at the index found by
`doesRoleExist`; the updated role list is returned. -/
def deleteRoles (roles : DCTRoles) : List Bytes → DCTRoles
  | [] => roles
  | deleteRole :: rest =>
    if !(doesRoleExist roles deleteRole).2 then deleteRoles roles rest
    else
      deleteRoles { Roles := roles.Roles.eraseIdx (doesRoleExist roles deleteRole).1.toNat } rest

def getDCTRolesForAcnt (marshaller : Marshalizer) (acnt : UserAccount) (key : Bytes) :
    Except Error (DCTRoles × Bool) :=
  let roles : DCTRoles := { Roles := [] }
  let marshaledData := acnt.RetrieveValue key
  if marshaledData.length = 0 then .ok (roles, true)
  else
    match marshaller.UnmarshalRoles roles marshaledData with
    | .error code => .error (.ErrMarshalizer code)
    | .ok roles => .ok (roles, false)

def dctRoles.CheckAllowedToExecute (e : dctRoles) (c : Core) (account : Option UserAccount)
    (tokenID action : Bytes) : Option Error :=
  match account with
  | none => some .ErrNilUserAccount
  | some account =>
    let dctTokenRoleKey := roleKeyPrefix c ++ tokenID
    match getDCTRolesForAcnt e.marshaller account dctTokenRoleKey with
    | .error err => some err
    | .ok (roles, isNew) =>
      if isNew then some .ErrActionNotAllowed
      else if !(doesRoleExist roles action).2 then some .ErrActionNotAllowed
      else none

def saveRolesToAccount (acntDst : UserAccount) (dctTokenRoleKey : Bytes) (roles : DCTRoles)
    (marshaller : Marshalizer) : Option Error × UserAccount :=
  match marshaller.MarshalRoles roles with
  | .error code => (some (.ErrMarshalizer code), acntDst)
  | .ok marshaledData => (none, acntDst.SaveKeyValue dctTokenRoleKey marshaledData)

/-- Modelled from the spec: the key of the per-account nonce counter of a token
(declared in a file outside the source files), a prefix distinct from the value
and role prefixes followed by the token identifier. -/
def getNonceKey (c : Core) (tokenID : Bytes) : Bytes :=
  c.ProtectedKeyPrefix ++ c.DCTNFTLatestNonceIdentifier ++ tokenID

/-- Modelled from the spec: saves the per-account nonce counter of a token as
the minimal big-endian bytes of the nonce (declared in a file outside the
source files). -/
def saveLatestNonce (c : Core) (acnt : UserAccount) (tokenID : Bytes) (nonce : Nat) :
    Option Error × UserAccount :=
  (none, acnt.SaveKeyValue (getNonceKey c tokenID) (bigIntBytes nonce))

/-- The loop over the role arguments that seeds the nonce counter at the first
argument equal to the multi-shard create role, then stops. -/
def seedStartNonce (c : Core) (acntDst : UserAccount) (vmInput : ContractCallInput) :
    List Bytes → Option Error × UserAccount
  | [] => (none, acntDst)
  | arg :: rest =>
    if arg ≠ c.DCTRoleNFTCreateMultiShard then seedStartNonce c acntDst vmInput rest
    else
      match computeStartNonce vmInput.RecipientAddr with
      | .error err => (some err, acntDst)
      | .ok startNonce => saveLatestNonce c acntDst (argAt vmInput.Arguments 0) startNonce

/-- The set-roles / unset-roles function; the destination account handle is
returned with the result. -/
def dctRoles.ProcessBuiltinFunction (e : dctRoles) (c : Core) (acntDst : Option UserAccount)
    (vmInputPtr : Option ContractCallInput) : Except Error VMOutput × Option UserAccount :=
  match checkBasicDCTArguments vmInputPtr, vmInputPtr with
  | some err, _ => (.error err, acntDst)
  | none, none => (.error .ErrNilVmInput, acntDst)
  | none, some vmInput =>
    if vmInput.CallerAddr ≠ c.DCTSCAddress then (.error .ErrAddressIsNotDCTSystemSC, acntDst)
    else
      match acntDst with
      | none => (.error .ErrNilUserAccount, none)
      | some dst =>
        let dctTokenRoleKey := roleKeyPrefix c ++ argAt vmInput.Arguments 0
        match getDCTRolesForAcnt e.marshaller dst dctTokenRoleKey with
        | .error err => (.error err, some dst)
        | .ok (roles, _) =>
          let roles : DCTRoles :=
            if e.set then { Roles := roles.Roles ++ vmInput.Arguments.drop 1 }
            else deleteRoles roles (vmInput.Arguments.drop 1)
          match seedStartNonce c dst vmInput (vmInput.Arguments.drop 1) with
          | (some err, dst) => (.error err, some dst)
          | (none, dst) =>
            match saveRolesToAccount dst dctTokenRoleKey roles e.marshaller with
            | (some err, dst) => (.error err, some dst)
            | (none, dst) =>
              let vmOutput : VMOutput := { ReturnCode := Ok }
              let logData := [dst.Address] ++ vmInput.Arguments.drop 1
              (.ok (addDCTEntryInVMOutput vmOutput vmInput.Function
                (argAt vmInput.Arguments 0) 0 0 logData), some dst)


/-! ## Metadata repair after a cross-shard transaction (`dctDataStorage.go`) -/

/-- Modelled from the spec: the part of a transaction read by the repair
(`data.TransactionHandler`, declared in the external core library). -/
structure TransactionHandler where
  SndAddr : Bytes := []
  RcvAddr : Bytes := []
  Data : Bytes := []

def argumentsPerTransfer : Nat := 3

def dctDataStorage.addMetaDataToSystemAccountFromNFTTransfer (e : dctDataStorage) (c : Core)
    (accounts : AccountsDB) (sndShardID : Nat) (arguments : List Bytes) :
    Option Error × AccountsDB :=
  if argAt arguments 3 ≠ zeroByteArray then
    match e.marshaller.Unmarshal {} (argAt arguments 3) with
    | .error code => (some (.ErrMarshalizer code), accounts)
    | .ok dctTransferData =>
      let dctTokenKey := e.keyPrefix ++ argAt arguments 0
      let nonce := bigIntUint64 (bigIntSetBytes (argAt arguments 1))
      let dctNFTTokenKey := computeDCTNFTTokenKey dctTokenKey nonce
      e.saveDCTMetaDataToSystemAccount c accounts none sndShardID dctNFTTokenKey nonce
        dctTransferData true
  else (none, accounts)

/-- The loop of the multi-transfer repair: `remaining` iterations are left and
`i` is the loop counter.  Indices are 64-bit values; an index out of range
panics. -/
def dctDataStorage.multiTransferLoop (e : dctDataStorage) (c : Core) (sndShardID : Nat)
    (arguments : List Bytes) : Nat → Nat → AccountsDB → Option Error × AccountsDB
  | 0, _, accounts => (none, accounts)
  | remaining + 1, i, accounts =>
    let tokenStartIndex := (1 + i * argumentsPerTransfer) % 2 ^ 64
    match arguments[tokenStartIndex]?, arguments[(tokenStartIndex + 1) % 2 ^ 64]? with
    | some tokenID, some nonceBytes =>
      let nonce := bigIntUint64 (bigIntSetBytes nonceBytes)
      if nonce > 0 then
        match arguments[(tokenStartIndex + 2) % 2 ^ 64]? with
        | none => (some .GoPanic, accounts)
        | some marshaledNFTTransfer =>
          if marshaledNFTTransfer.length > c.MaxLengthForValueToOptTransfer then
            match e.marshaller.Unmarshal {} marshaledNFTTransfer with
            | .error code => (some (.ErrMarshalizer code), accounts)
            | .ok dctTransferData =>
              let dctTokenKey := e.keyPrefix ++ tokenID
              let dctNFTTokenKey := computeDCTNFTTokenKey dctTokenKey nonce
              match e.saveDCTMetaDataToSystemAccount c accounts none sndShardID dctNFTTokenKey
                  nonce dctTransferData true with
              | (some err, accounts) => (some err, accounts)
              | (none, accounts) =>
                e.multiTransferLoop c sndShardID arguments remaining (i + 1) accounts
          else e.multiTransferLoop c sndShardID arguments remaining (i + 1) accounts
      else e.multiTransferLoop c sndShardID arguments remaining (i + 1) accounts
    | _, _ => (some .GoPanic, accounts)

def dctDataStorage.addMetaDataToSystemAccountFromMultiTransfer (e : dctDataStorage) (c : Core)
    (accounts : AccountsDB) (sndShardID : Nat) (arguments : List Bytes) :
    Option Error × AccountsDB :=
  let numOfTransfers := bigIntUint64 (bigIntSetBytes (argAt arguments 0))
  if numOfTransfers = 0 then (some .ErrInvalidArguments, accounts)
  else
    let minNumOfArguments := (numOfTransfers * argumentsPerTransfer + 1) % 2 ^ 64
    if arguments.length < minNumOfArguments then (some .ErrInvalidArguments, accounts)
    else e.multiTransferLoop c sndShardID arguments numOfTransfers 0 accounts

def dctDataStorage.SaveNFTMetaDataToSystemAccount (e : dctDataStorage) (c : Core)
    (accounts : AccountsDB) (tx : Option TransactionHandler) : Option Error × AccountsDB :=
  if !e.enableEpochsHandler.IsSaveToSystemAccountFlagEnabled then (none, accounts)
  else if e.enableEpochsHandler.IsSendAlwaysFlagEnabled then (none, accounts)
  else
    match tx with
    | none => (some .ErrNilTransactionHandler, accounts)
    | some tx =>
      let sndShardID := e.shardCoordinator.ComputeId tx.SndAddr
      let dstShardID := e.shardCoordinator.ComputeId tx.RcvAddr
      let isCrossShardTxAtDest :=
        sndShardID != dstShardID && e.shardCoordinator.SelfId == dstShardID
      if !isCrossShardTxAtDest then (none, accounts)
      else
        match e.txDataParser.ParseData tx.Data with
        | .error _ => (none, accounts)
        | .ok (function, arguments) =>
          if arguments.length < 4 then (none, accounts)
          else if function = c.BuiltInFunctionDCTNFTTransfer then
            e.addMetaDataToSystemAccountFromNFTTransfer c accounts sndShardID arguments
          else if function = c.BuiltInFunctionMultiDCTNFTTransfer then
            e.addMetaDataToSystemAccountFromMultiTransfer c accounts sndShardID arguments
          else (none, accounts)


/-! ## Token identifier validation (`common.go`) -/

def tickerMinLength : Nat := 3

def tickerMaxLength : Nat := 10

def additionalRandomCharsLength : Nat := 6

def identifierMinLength : Nat := tickerMinLength + additionalRandomCharsLength + 1

def identifierMaxLength : Nat := tickerMaxLength + additionalRandomCharsLength + 1

/-- The Go slice expression `b[lo:hi]`, which panics unless `lo ≤ hi ≤ len(b)`. -/
def sliceBytes (b : Bytes) (lo hi : Nat) : Except Error Bytes :=
  if lo ≤ hi ∧ hi ≤ b.length then .ok ((b.take hi).drop lo) else .error .GoPanic

/-- The ticker must be all uppercase alphanumeric: `'A'..'Z'` is 65..90 and
`'0'..'9'` is 48..57. -/
def isTickerValid (tickerName : Bytes) : Bool :=
  if tickerName.length < tickerMinLength || tickerName.length > tickerMaxLength then false
  else
    tickerName.all fun ch =>
      let isBigCharacter := decide (ch ≥ 65) && decide (ch ≤ 90)
      let isNumber := decide (ch ≥ 48) && decide (ch ≤ 57)
      isBigCharacter || isNumber

/-- The random characters are lowercase hexadecimal: `'a'..'f'` is 97..102. -/
def randomCharsAreValid (chars : Bytes) : Bool :=
  if chars.length ≠ additionalRandomCharsLength then false
  else
    chars.all fun ch =>
      let isSmallCharacter := decide (ch ≥ 97) && decide (ch ≤ 102)
      let isNumber := decide (ch ≥ 48) && decide (ch ≤ 57)
      isSmallCharacter || isNumber

/-- Validates the token identifier.  Slice and index expressions are kept
fallible, so that a run-time panic would show as `GoPanic`; the dash `'-'` is
the byte 45.  The subtractions are taken after the length check, where the Go
`int` values are positive. -/
def ValidateToken (tokenID : Bytes) : Except Error Bool :=
  let tokenIDLen := tokenID.length
  if tokenIDLen < identifierMinLength || tokenIDLen > identifierMaxLength then .ok false
  else
    let tickerLen := tokenIDLen - additionalRandomCharsLength
    match sliceBytes tokenID 0 (tickerLen - 1) with
    | .error err => .error err
    | .ok ticker =>
      if !isTickerValid ticker then .ok false
      else
        match tokenID[tickerLen - 1]? with
        | none => .error .GoPanic
        | some dash =>
          if dash ≠ 45 then .ok false
          else
            match sliceBytes tokenID tickerLen tokenIDLen with
            | .error err => .error err
            | .ok chars => if !randomCharsAreValid chars then .ok false else .ok true


/-! ## Identifier and nonce of a wipe argument (`logsAndEvents.go`) -/

/-- The separator `"-"` of the token identifier, as a byte. -/
def dctIdentifierSeparator : Nat := 45

def dctRandomSequenceLength : Nat := 6

/-- The value of `bytes.Split(s, sep)` for a one-byte separator: the pieces of
`s` between the occurrences of the separator, one piece more than there are
occurrences. -/
def bytesSplit (sep : Nat) : Bytes → List Bytes
  | [] => [[]]
  | x :: rest =>
    if x = sep then [] :: bytesSplit sep rest
    else
      match bytesSplit sep rest with
      | [] => [[x]]
      | piece :: pieces => (x :: piece) :: pieces

/-- Splits a wipe argument into the token identifier and the nonce.  The
identifier is rebuilt as `"%s-%s"` from the first piece and the first six
bytes of the second piece. -/
def extractTokenIdentifierAndNonceDCTWipe (args : Bytes) : Bytes × Nat :=
  let argsSplit := bytesSplit dctIdentifierSeparator args
  if argsSplit.length < 2 then (args, 0)
  else if (argAt argsSplit 1).length ≤ dctRandomSequenceLength then (args, 0)
  else
    let identifier :=
      argAt argsSplit 0 ++ [dctIdentifierSeparator] ++
        (argAt argsSplit 1).take dctRandomSequenceLength
    let nonce := bigIntSetBytes ((argAt argsSplit 1).drop dctRandomSequenceLength)
    (identifier, bigIntUint64 nonce)


/-! ## Global settings registry (`dctGlobalSettings.go`) -/

/-- The bytes of a Go string constant. -/
def stringBytes (s : String) : Bytes := s.toList.map Char.toNat

/-- The function name `vmcommon.BuiltInFunctionDCTSetBurnRoleForAll` (`common.go`). -/
def BuiltInFunctionDCTSetBurnRoleForAll : Bytes := stringBytes ("DCTSetBurnRoleForAll")

/-- The function name `vmcommon.BuiltInFunctionDCTUnSetBurnRoleForAll` (`common.go`). -/
def BuiltInFunctionDCTUnSetBurnRoleForAll : Bytes := stringBytes ("DCTUnSetBurnRoleForAll")

/-- The global settings component; `activeHandler` is the value returned by the
activation predicate of the embedded handler. -/
structure dctGlobalSettings where
  activeHandler : Bool
  keyPrefix : Bytes
  set : Bool
  marshaller : Marshalizer
  function : Bytes

def isCorrectFunction (c : Core) (function : Bytes) : Bool :=
  if function = c.BuiltInFunctionDCTPause ∨ function = c.BuiltInFunctionDCTUnPause ∨
      function = c.BuiltInFunctionDCTSetLimitedTransfer ∨
      function = c.BuiltInFunctionDCTUnSetLimitedTransfer then true
  else if function = BuiltInFunctionDCTSetBurnRoleForAll ∨
      function = BuiltInFunctionDCTUnSetBurnRoleForAll then true
  else false

/-- Loads the system account; the load of the modelled account store cannot
fail and always yields a user account. -/
def dctGlobalSettings.getSystemAccount (_e : dctGlobalSettings) (c : Core)
    (accounts : AccountsDB) : UserAccount :=
  accounts.LoadAccount c.SystemAccountAddress

def dctGlobalSettings.getGlobalMetadata (e : dctGlobalSettings) (c : Core)
    (accounts : AccountsDB) (dctTokenKey : Bytes) : DCTGlobalMetadata :=
  let systemSCAccount := e.getSystemAccount c accounts
  let val := systemSCAccount.RetrieveValue dctTokenKey
  DCTGlobalMetadataFromBytes val

/-- Sets or clears the flag of the family of the component's function and stores
the encoding under the token key of the system account.  The `switch` takes the
first matching case. -/
def dctGlobalSettings.toggleSetting (e : dctGlobalSettings) (c : Core) (accounts : AccountsDB)
    (dctTokenKey : Bytes) : Option Error × AccountsDB :=
  let systemSCAccount := e.getSystemAccount c accounts
  let dctMetaData := e.getGlobalMetadata c accounts dctTokenKey
  let dctMetaData : DCTGlobalMetadata :=
    if e.function = c.BuiltInFunctionDCTSetLimitedTransfer ∨
        e.function = c.BuiltInFunctionDCTUnSetLimitedTransfer then
      { dctMetaData with LimitedTransfer := e.set }
    else if e.function = c.BuiltInFunctionDCTPause ∨
        e.function = c.BuiltInFunctionDCTUnPause then
      { dctMetaData with Paused := e.set }
    else if e.function = BuiltInFunctionDCTUnSetBurnRoleForAll ∨
        e.function = BuiltInFunctionDCTSetBurnRoleForAll then
      { dctMetaData with BurnRoleForAll := e.set }
    else dctMetaData
  let systemSCAccount := systemSCAccount.SaveKeyValue dctTokenKey dctMetaData.ToBytes
  (none, accounts.SaveAccount systemSCAccount)

def dctGlobalSettings.ProcessBuiltinFunction (e : dctGlobalSettings) (c : Core)
    (accounts : AccountsDB) (vmInput : Option ContractCallInput) :
    Except Error VMOutput × AccountsDB :=
  match vmInput with
  | none => (.error .ErrNilVmInput, accounts)
  | some vmInput =>
    match vmInput.CallValue with
    | none => (.error .GoPanic, accounts)
    | some callValue =>
      if callValue ≠ 0 then (.error .ErrBuiltInFunctionCalledWithValue, accounts)
      else if vmInput.Arguments.length ≠ 1 then (.error .ErrInvalidArguments, accounts)
      else if vmInput.CallerAddr ≠ c.DCTSCAddress then
        (.error .ErrAddressIsNotDCTSystemSC, accounts)
      else if !c.IsSystemAccountAddress vmInput.RecipientAddr then
        (.error .ErrOnlySystemAccountAccepted, accounts)
      else
        let dctTokenKey := e.keyPrefix ++ argAt vmInput.Arguments 0
        match e.toggleSetting c accounts dctTokenKey with
        | (some err, accounts) => (.error err, accounts)
        | (none, accounts) => (.ok { ReturnCode := Ok }, accounts)

def dctGlobalSettings.IsPaused (e : dctGlobalSettings) (c : Core) (accounts : AccountsDB)
    (dctTokenKey : Bytes) : Bool :=
  (e.getGlobalMetadata c accounts dctTokenKey).Paused

def dctGlobalSettings.IsLimitedTransfer (e : dctGlobalSettings) (c : Core)
    (accounts : AccountsDB) (dctTokenKey : Bytes) : Bool :=
  (e.getGlobalMetadata c accounts dctTokenKey).LimitedTransfer

def dctGlobalSettings.IsBurnForAll (e : dctGlobalSettings) (c : Core) (accounts : AccountsDB)
    (dctTokenKey : Bytes) : Bool :=
  (e.getGlobalMetadata c accounts dctTokenKey).BurnRoleForAll


/-! ## Transfer-role address list (`dctTransferRole.go`) -/

/-- The key prefix of the transfer-role address lists. -/
def transferAddressesKeyPrefix (c : Core) : Bytes :=
  c.ProtectedKeyPrefix ++ stringBytes ("transfer") ++ c.DCTKeyIdentifier

/-- The transfer-role address component; `maxNumAddresses` is a 32-bit value. -/
structure dctTransferAddress where
  activeHandler : Bool
  set : Bool
  marshaller : Marshalizer
  maxNumAddresses : Nat

/-- The loop of `addNewAddresses`: an address is appended when it is equal to no
address of the list built so far. -/
def addNewAddressesLoop (addresses : DCTRoles) : List Bytes → DCTRoles
  | [] => addresses
  | newAddress :: rest =>
    let isNew := !(addresses.Roles.any fun address => decide (newAddress = address))
    if isNew then addNewAddressesLoop { Roles := addresses.Roles ++ [newAddress] } rest
    else addNewAddressesLoop addresses rest

/-- Adds the new addresses; the length is compared as a 32-bit value.  The
updated list is returned with the result. -/
def dctTransferAddress.addNewAddresses (e : dctTransferAddress) (vmInput : ContractCallInput)
    (addresses : DCTRoles) : Option Error × DCTRoles :=
  let addresses := addNewAddressesLoop addresses (vmInput.Arguments.drop 1)
  if addresses.Roles.length % 2 ^ 32 > e.maxNumAddresses then
    (some .ErrTooManyTransferAddresses, addresses)
  else (none, addresses)

/-- The add-address / delete-address function.  The system account is loaded
from the store, updated and saved back; an error leaves the store as it was. -/
def dctTransferAddress.ProcessBuiltinFunction (e : dctTransferAddress) (c : Core)
    (accounts : AccountsDB) (vmInputPtr : Option ContractCallInput) :
    Except Error VMOutput × AccountsDB :=
  match checkBasicDCTArguments vmInputPtr, vmInputPtr with
  | some err, _ => (.error err, accounts)
  | none, none => (.error .ErrNilVmInput, accounts)
  | none, some vmInput =>
    if vmInput.CallerAddr ≠ c.DCTSCAddress then (.error .ErrAddressIsNotDCTSystemSC, accounts)
    else if !c.IsSystemAccountAddress vmInput.RecipientAddr then
      (.error .ErrOnlySystemAccountAccepted, accounts)
    else
      let systemAcc := accounts.LoadAccount c.SystemAccountAddress
      let dctTokenTransferRoleKey := transferAddressesKeyPrefix c ++ argAt vmInput.Arguments 0
      match getDCTRolesForAcnt e.marshaller systemAcc dctTokenTransferRoleKey with
      | .error err => (.error err, accounts)
      | .ok (addresses, _) =>
        let updated : Option Error × DCTRoles :=
          if e.set then e.addNewAddresses vmInput addresses
          else (none, deleteRoles addresses (vmInput.Arguments.drop 1))
        match updated with
        | (some err, _) => (.error err, accounts)
        | (none, addresses) =>
          match saveRolesToAccount systemAcc dctTokenTransferRoleKey addresses e.marshaller with
          | (some err, _) => (.error err, accounts)
          | (none, systemAcc) =>
            let accounts := accounts.SaveAccount systemAcc
            let vmOutput : VMOutput := { ReturnCode := Ok }
            let logData := [systemAcc.Address] ++ vmInput.Arguments.drop 1
            (.ok (addDCTEntryInVMOutput vmOutput vmInput.Function
              (argAt vmInput.Arguments 0) 0 0 logData), accounts)


/-! ## Local mint (`dctLocalMint.go`, `dctLocalBurn.go`) -/

def checkInputArgumentsForLocalAction (acntSnd : Option UserAccount)
    (vmInput : Option ContractCallInput) (funcGasCost : Nat) : Option Error :=
  match checkBasicDCTArguments vmInput, vmInput with
  | some err, _ => some err
  | none, none => some .ErrNilVmInput
  | none, some vmInput =>
    if vmInput.CallerAddr ≠ vmInput.RecipientAddr then some .ErrInvalidRcvAddr
    else if acntSnd.isNone then some .ErrNilUserAccount
    else
      let value : Int := bigIntSetBytes (argAt vmInput.Arguments 1)
      if value ≤ 0 then some .ErrNegativeValue
      else if vmInput.GasProvided < funcGasCost then some .ErrNotEnoughGas
      else none

structure dctLocalMint where
  keyPrefix : Bytes
  marshaller : Marshalizer
  globalSettingsHandler : DCTGlobalSettingsHandler
  rolesHandler : DCTRoleHandler
  funcGasCost : Nat

/-- The local mint.  The sender account handle is returned with the result.
The gas subtraction follows the check `GasProvided < funcGasCost` of the
argument check, so it does not wrap. -/
def dctLocalMint.ProcessBuiltinFunction (e : dctLocalMint) (c : Core)
    (acntSnd : Option UserAccount) (vmInputPtr : Option ContractCallInput) :
    Except Error VMOutput × Option UserAccount :=
  match checkInputArgumentsForLocalAction acntSnd vmInputPtr e.funcGasCost, acntSnd,
      vmInputPtr with
  | some err, _, _ => (.error err, acntSnd)
  | none, some snd, some vmInput =>
    let tokenID := argAt vmInput.Arguments 0
    match e.rolesHandler.CheckAllowedToExecute (some snd) tokenID c.DCTRoleLocalMint with
    | some err => (.error err, some snd)
    | none =>
      if (argAt vmInput.Arguments 1).length > c.MaxLenForDCTIssueMint then
        (.error .ErrInvalidArguments, some snd)
      else
        let value : Int := bigIntSetBytes (argAt vmInput.Arguments 1)
        let dctTokenKey := e.keyPrefix ++ tokenID
        match addToDCTBalance c snd dctTokenKey value e.marshaller e.globalSettingsHandler
            vmInput.ReturnCallAfterError with
        | (some err, snd) => (.error err, some snd)
        | (none, snd) =>
          let vmOutput : VMOutput :=
            { ReturnCode := Ok, GasRemaining := vmInput.GasProvided - e.funcGasCost }
          (.ok (addDCTEntryInVMOutput vmOutput c.BuiltInFunctionDCTLocalMint
            (argAt vmInput.Arguments 0) 0 value [vmInput.CallerAddr]), some snd)
  | none, _, _ => (.error .GoPanic, acntSnd)


/-! ## NFT burn (`dctNFTBurn.go`) -/

/-- Modelled from the spec: the argument check shared by the NFT create, burn
and add-quantity functions (declared in `dctNFTCreate.go`, outside the source
files): the basic argument check, caller equal to recipient, a present account
and enough gas, in the order in which the tests of the burn function expect
the errors. -/
def checkDCTNFTCreateBurnAddInput (account : Option UserAccount)
    (vmInput : Option ContractCallInput) (funcGasCost : Nat) : Option Error :=
  match checkBasicDCTArguments vmInput, vmInput with
  | some err, _ => some err
  | none, none => some .ErrNilVmInput
  | none, some vmInput =>
    if vmInput.CallerAddr ≠ vmInput.RecipientAddr then some .ErrInvalidRcvAddr
    else if account.isNone then some .ErrNilUserAccount
    else if vmInput.GasProvided < funcGasCost then some .ErrNotEnoughGas
    else none

structure dctNFTBurn where
  keyPrefix : Bytes
  dctStorageHandler : dctDataStorage
  funcGasCost : Nat
  rolesHandler : DCTRoleHandler
  globalSettingsHandler : DCTGlobalSettingsHandler

def dctNFTBurn.isAllowedToBurn (e : dctNFTBurn) (c : Core) (acntSnd : Option UserAccount)
    (tokenID : Bytes) : Option Error :=
  let dctTokenKey := e.keyPrefix ++ tokenID
  let isBurnForAll := e.globalSettingsHandler.IsBurnForAll dctTokenKey
  if isBurnForAll then none
  else e.rolesHandler.CheckAllowedToExecute acntSnd tokenID c.DCTRoleNFTBurn

/-- The NFT burn.  The sender account handle and the account store are
returned with the result. -/
def dctNFTBurn.ProcessBuiltinFunction (e : dctNFTBurn) (c : Core) (accounts : AccountsDB)
    (acntSnd : Option UserAccount) (vmInputPtr : Option ContractCallInput) :
    Except Error VMOutput × Option UserAccount × AccountsDB :=
  match checkDCTNFTCreateBurnAddInput acntSnd vmInputPtr e.funcGasCost, acntSnd,
      vmInputPtr with
  | some err, _, _ => (.error err, acntSnd, accounts)
  | none, some snd, some vmInput =>
    if vmInput.Arguments.length < 3 then (.error .ErrInvalidArguments, some snd, accounts)
    else
      let dctTokenKey := e.keyPrefix ++ argAt vmInput.Arguments 0
      match e.isAllowedToBurn c (some snd) (argAt vmInput.Arguments 0) with
      | some err => (.error err, some snd, accounts)
      | none =>
        let nonce := bigIntUint64 (bigIntSetBytes (argAt vmInput.Arguments 1))
        match e.dctStorageHandler.GetDCTNFTTokenOnSender c accounts snd dctTokenKey nonce with
        | .error err => (.error err, some snd, accounts)
        | .ok dctData =>
          if nonce = 0 then (.error .ErrNFTDoesNotHaveMetadata, some snd, accounts)
          else
            let quantityToBurn : Int := bigIntSetBytes (argAt vmInput.Arguments 2)
            if dctData.Value < quantityToBurn then
              (.error .ErrInvalidNFTQuantity, some snd, accounts)
            else
              let dctData := { dctData with Value := dctData.Value - quantityToBurn }
              match e.dctStorageHandler.SaveDCTNFTToken c accounts snd.Address snd dctTokenKey
                  nonce dctData false vmInput.ReturnCallAfterError with
              | (.error err, snd, accounts) => (.error err, some snd, accounts)
              | (.ok _, snd, accounts) =>
                match e.dctStorageHandler.AddToLiquiditySystemAcc c accounts dctTokenKey nonce
                    (-quantityToBurn) with
                | (some err, accounts) => (.error err, some snd, accounts)
                | (none, accounts) =>
                  let vmOutput : VMOutput :=
                    { ReturnCode := Ok, GasRemaining := vmInput.GasProvided - e.funcGasCost }
                  (.ok (addDCTEntryInVMOutput vmOutput c.BuiltInFunctionDCTNFTBurn
                    (argAt vmInput.Arguments 0) nonce quantityToBurn [vmInput.CallerAddr]),
                    some snd, accounts)
  | none, _, _ => (.error .GoPanic, acntSnd, accounts)


/-! ## Freeze, unfreeze and wipe (`dctFreezeWipe.go`) -/

/-- Returns 0 if the input is nil, otherwise returns the input (`common.go`). -/
def ZeroValueIfNil (value : Option Int) : Int :=
  match value with
  | none => 0
  | some value => value

structure dctFreezeWipe where
  dctStorageHandler : dctDataStorage
  enableEpochsHandler : EnableEpochsHandler
  marshaller : Marshalizer
  keyPrefix : Bytes
  wipe : Bool
  freeze : Bool

def dctFreezeWipe.removeLiquidity (e : dctFreezeWipe) (c : Core) (accounts : AccountsDB)
    (tokenIdentifier : Bytes) (nonce : Nat) (value : Int) : Option Error × AccountsDB :=
  if !e.enableEpochsHandler.IsWipeSingleNFTLiquidityDecreaseEnabled then (none, accounts)
  else
    let tokenIDKey := e.keyPrefix ++ tokenIdentifier
    e.dctStorageHandler.AddToLiquiditySystemAcc c accounts tokenIDKey nonce (-value)

/-- Wipes a frozen record; the account handle and the account store are
returned with the result. -/
def dctFreezeWipe.wipeIfApplicable (e : dctFreezeWipe) (c : Core) (accounts : AccountsDB)
    (acntDst : UserAccount) (tokenKey identifier : Bytes) (nonce : Nat) :
    Except Error Int × UserAccount × AccountsDB :=
  match getDCTDataFromKey acntDst tokenKey e.marshaller with
  | .error err => (.error err, acntDst, accounts)
  | .ok tokenData =>
    let dctUserMetadata := DCTUserMetadataFromBytes tokenData.Properties
    if !dctUserMetadata.Frozen then (.error .ErrCannotWipeAccountNotFrozen, acntDst, accounts)
    else
      let acntDst := acntDst.SaveKeyValue tokenKey []
      match e.removeLiquidity c accounts identifier nonce tokenData.Value with
      | (some err, accounts) => (.error err, acntDst, accounts)
      | (none, accounts) =>
        let wipedAmount := ZeroValueIfNil (some tokenData.Value)
        (.ok wipedAmount, acntDst, accounts)

/-- Sets the frozen flag of the record to the component's `freeze` value; the
account handle is returned with the result. -/
def dctFreezeWipe.toggleFreeze (e : dctFreezeWipe) (acntDst : UserAccount) (tokenKey : Bytes) :
    Except Error Int × UserAccount :=
  match getDCTDataFromKey acntDst tokenKey e.marshaller with
  | .error err => (.error err, acntDst)
  | .ok tokenData =>
    let dctUserMetadata := DCTUserMetadataFromBytes tokenData.Properties
    let dctUserMetadata := { dctUserMetadata with Frozen := e.freeze }
    let tokenData := { tokenData with Properties := dctUserMetadata.ToBytes }
    match saveDCTData acntDst tokenData tokenKey e.marshaller with
    | (some err, acntDst) => (.error err, acntDst)
    | (none, acntDst) =>
      let frozenAmount := ZeroValueIfNil (some tokenData.Value)
      (.ok frozenAmount, acntDst)

/-- The freeze / unfreeze / wipe function.  A nil call value makes the
comparison with zero panic. -/
def dctFreezeWipe.ProcessBuiltinFunction (e : dctFreezeWipe) (c : Core) (accounts : AccountsDB)
    (acntDst : Option UserAccount) (vmInput : Option ContractCallInput) :
    Except Error VMOutput × Option UserAccount × AccountsDB :=
  match vmInput with
  | none => (.error .ErrNilVmInput, acntDst, accounts)
  | some vmInput =>
    match vmInput.CallValue with
    | none => (.error .GoPanic, acntDst, accounts)
    | some callValue =>
      if callValue ≠ 0 then (.error .ErrBuiltInFunctionCalledWithValue, acntDst, accounts)
      else if vmInput.Arguments.length ≠ 1 then (.error .ErrInvalidArguments, acntDst, accounts)
      else if vmInput.CallerAddr ≠ c.DCTSCAddress then
        (.error .ErrAddressIsNotDCTSystemSC, acntDst, accounts)
      else
        match acntDst with
        | none => (.error .ErrNilUserAccount, none, accounts)
        | some dst =>
          let dctTokenKey := e.keyPrefix ++ argAt vmInput.Arguments 0
          let extracted := extractTokenIdentifierAndNonceDCTWipe (argAt vmInput.Arguments 0)
          let identifier := extracted.1
          let nonce := extracted.2
          let result : Except Error Int × UserAccount × AccountsDB :=
            if e.wipe then e.wipeIfApplicable c accounts dst dctTokenKey identifier nonce
            else ((e.toggleFreeze dst dctTokenKey).1, (e.toggleFreeze dst dctTokenKey).2, accounts)
          match result with
          | (.error err, dst, accounts) => (.error err, some dst, accounts)
          | (.ok amount, dst, accounts) =>
            let vmOutput : VMOutput := { ReturnCode := Ok }
            (.ok (addDCTEntryInVMOutput vmOutput vmInput.Function identifier nonce amount
              [vmInput.CallerAddr, dst.Address]), some dst, accounts)


/-! ## NFT-create role transfer (`dctNFTCreateRoleTransfer.go`) -/

/-- Modelled from the spec: reads the per-account nonce counter of a token
(declared in `dctNFTCreate.go`, outside the source files): zero when the key
holds no bytes, else the 64-bit value of the stored big-endian bytes. -/
def getLatestNonce (c : Core) (acnt : UserAccount) (tokenID : Bytes) : Except Error Nat :=
  let nonceData := acnt.RetrieveValue (getNonceKey c tokenID)
  if nonceData.length = 0 then .ok 0
  else .ok (bigIntUint64 (bigIntSetBytes nonceData))

/-- The bytes of `strconv.FormatBool(b)`. -/
def boolToSlice (b : Bool) : Bytes :=
  if b then stringBytes ("true") else stringBytes ("false")

structure dctNFTCreateRoleTransfer where
  keyPrefix : Bytes
  marshaller : Marshalizer
  shardCoordinator : Coordinator

def dctNFTCreateRoleTransfer.deleteCreateRoleFromAccount (e : dctNFTCreateRoleTransfer)
    (c : Core) (acntDst : UserAccount) (dctTokenRoleKey : Bytes) : Option Error × UserAccount :=
  match getDCTRolesForAcnt e.marshaller acntDst dctTokenRoleKey with
  | .error err => (some err, acntDst)
  | .ok (roles, _) =>
    let roles := deleteRoles roles [c.DCTRoleNFTCreate]
    saveRolesToAccount acntDst dctTokenRoleKey roles e.marshaller

def dctNFTCreateRoleTransfer.addCreateRoleToAccount (e : dctNFTCreateRoleTransfer) (c : Core)
    (acntDst : UserAccount) (dctTokenRoleKey : Bytes) : Option Error × UserAccount :=
  match getDCTRolesForAcnt e.marshaller acntDst dctTokenRoleKey with
  | .error err => (some err, acntDst)
  | .ok (roles, _) =>
    if roles.Roles.any fun role => decide (role = c.DCTRoleNFTCreate) then (none, acntDst)
    else
      saveRolesToAccount acntDst dctTokenRoleKey
        { Roles := roles.Roles ++ [c.DCTRoleNFTCreate] } e.marshaller

/-- The change at the current owner.  The output account with its one transfer
(function name, token identifier and nonce bytes as arguments) and the output
with its log entries are returned on success; the account handle and the
account store are returned in every case. -/
def dctNFTCreateRoleTransfer.executeTransferNFTCreateChangeAtCurrentOwner
    (e : dctNFTCreateRoleTransfer) (c : Core) (accounts : AccountsDB) (vmOutput : VMOutput)
    (acntDst : UserAccount) (vmInput : ContractCallInput) :
    Except Error (OutputAccount × VMOutput) × UserAccount × AccountsDB :=
  if vmInput.Arguments.length ≠ 2 then (.error .ErrInvalidArguments, acntDst, accounts)
  else if (argAt vmInput.Arguments 1).length ≠ vmInput.CallerAddr.length then
    (.error .ErrInvalidArguments, acntDst, accounts)
  else
    let tokenID := argAt vmInput.Arguments 0
    match getLatestNonce c acntDst tokenID with
    | .error err => (.error err, acntDst, accounts)
    | .ok nonce =>
      match saveLatestNonce c acntDst tokenID 0 with
      | (some err, acntDst) => (.error err, acntDst, accounts)
      | (none, acntDst) =>
        let dctTokenRoleKey := roleKeyPrefix c ++ tokenID
        match e.deleteCreateRoleFromAccount c acntDst dctTokenRoleKey with
        | (some err, acntDst) => (.error err, acntDst, accounts)
        | (none, acntDst) =>
          let logData := [acntDst.Address, boolToSlice false]
          let vmOutput := addDCTEntryInVMOutput vmOutput vmInput.Function tokenID 0 0 logData
          let destAddress := argAt vmInput.Arguments 1
          let outAcc : OutputAccount :=
            { Address := destAddress
              OutputTransfers :=
                [{ Value := 0
                   DataFunction := c.BuiltInFunctionDCTNFTCreateRoleTransfer
                   DataArguments := [tokenID, bigIntBytes nonce]
                   SenderAddress := vmInput.CallerAddr }] }
          if e.shardCoordinator.ComputeId destAddress = e.shardCoordinator.SelfId then
            let newDestUserAcc := accounts.LoadAccount destAddress
            match saveLatestNonce c newDestUserAcc tokenID nonce with
            | (some err, _) => (.error err, acntDst, accounts)
            | (none, newDestUserAcc) =>
              match e.addCreateRoleToAccount c newDestUserAcc dctTokenRoleKey with
              | (some err, _) => (.error err, acntDst, accounts)
              | (none, newDestUserAcc) =>
                let accounts := accounts.SaveAccount newDestUserAcc
                let logData := [destAddress, boolToSlice true]
                let vmOutput :=
                  addDCTEntryInVMOutput vmOutput vmInput.Function tokenID 0 0 logData
                (.ok (outAcc, vmOutput), acntDst, accounts)
          else (.ok (outAcc, vmOutput), acntDst, accounts)

def dctNFTCreateRoleTransfer.executeTransferNFTCreateChangeAtNextOwner
    (e : dctNFTCreateRoleTransfer) (c : Core) (vmOutput : VMOutput) (acntDst : UserAccount)
    (vmInput : ContractCallInput) : Except Error VMOutput × UserAccount :=
  if vmInput.Arguments.length ≠ 2 then (.error .ErrInvalidArguments, acntDst)
  else
    let tokenID := argAt vmInput.Arguments 0
    let nonce := bigIntUint64 (bigIntSetBytes (argAt vmInput.Arguments 1))
    match saveLatestNonce c acntDst tokenID nonce with
    | (some err, acntDst) => (.error err, acntDst)
    | (none, acntDst) =>
      let dctTokenRoleKey := roleKeyPrefix c ++ tokenID
      match e.addCreateRoleToAccount c acntDst dctTokenRoleKey with
      | (some err, acntDst) => (.error err, acntDst)
      | (none, acntDst) =>
        let logData := [acntDst.Address, boolToSlice true]
        (.ok (addDCTEntryInVMOutput vmOutput vmInput.Function tokenID 0 0 logData), acntDst)

/-- The create-role transfer.  The destination account handle and the account
store are returned with the result. -/
def dctNFTCreateRoleTransfer.ProcessBuiltinFunction (e : dctNFTCreateRoleTransfer) (c : Core)
    (accounts : AccountsDB) (acntSnd acntDst : Option UserAccount)
    (vmInputPtr : Option ContractCallInput) :
    Except Error VMOutput × Option UserAccount × AccountsDB :=
  match checkBasicDCTArguments vmInputPtr, vmInputPtr with
  | some err, _ => (.error err, acntDst, accounts)
  | none, none => (.error .ErrNilVmInput, acntDst, accounts)
  | none, some vmInput =>
    if acntSnd.isSome then (.error .ErrInvalidArguments, acntDst, accounts)
    else
      match acntDst with
      | none => (.error .ErrNilUserAccount, none, accounts)
      | some dst =>
        let vmOutput : VMOutput := { ReturnCode := Ok }
        if vmInput.CallerAddr = c.DCTSCAddress then
          match e.executeTransferNFTCreateChangeAtCurrentOwner c accounts vmOutput dst
              vmInput with
          | (.error errExec, dst, accounts) => (.error errExec, some dst, accounts)
          | (.ok (outAcc, vmOutput), dst, accounts) =>
            (.ok { vmOutput with OutputAccounts := [(outAcc.Address, outAcc)] }, some dst,
              accounts)
        else
          match e.executeTransferNFTCreateChangeAtNextOwner c vmOutput dst vmInput with
          | (.error err, dst) => (.error err, some dst, accounts)
          | (.ok vmOutput, dst) => (.ok vmOutput, some dst, accounts)


/-! ## Multi-token transfer, sender shard (`multiDCTNFTTransfer.go`)

Every product and sum the Go code takes on `uint64` values is reduced modulo
`2 ^ 64`; an index outside the argument list is the Go index panic. -/

/-- Modelled from the spec: one leg of a multi-transfer as kept for the log and
the outgoing payload (`vmcommon.DCTTransfer`, declared outside the source
files). -/
structure DCTTransfer where
  DCTValue : Int := 0
  DCTTokenName : Bytes := []
  DCTTokenType : Nat := 0
  DCTTokenNonce : Nat := 0
deriving DecidableEq, Repr

/-- The largest length the Go runtime accepts in `make` for a slice of
pointers on a 64-bit platform (`maxAlloc / 8` with `maxAlloc = 2 ^ 48`); a
longer request is a run-time panic. -/
def maxSliceLen : Nat := 2 ^ 45

structure dctNFTMultiTransfer where
  keyPrefix : Bytes
  marshaller : Marshalizer
  globalSettingsHandler : DCTGlobalSettingsHandler
  payableHandler : PayableChecker
  funcGasCost : Nat
  shardCoordinator : Coordinator
  gasConfig : BaseOperationCost
  dctStorageHandler : dctDataStorage
  rolesHandler : DCTRoleHandler
  enableEpochsHandler : EnableEpochsHandler

def computeInsufficientQuantityDCTError (_tokenID : Bytes) (_nonce : Nat) : Error :=
  .ErrInsufficientQuantityDCT

def dctNFTMultiTransfer.loadAccountIfInShard (e : dctNFTMultiTransfer) (accounts : AccountsDB)
    (dstAddress : Bytes) : Option UserAccount :=
  if e.shardCoordinator.SelfId ≠ e.shardCoordinator.ComputeId dstAddress then none
  else some (accounts.LoadAccount dstAddress)

/-- Credits the destination; the record to transfer is returned as well, since
the Go function adds the destination's current value into it in place. -/
def dctNFTMultiTransfer.addNFTToDestination (e : dctNFTMultiTransfer) (c : Core)
    (accounts : AccountsDB) (sndAddress dstAddress : Bytes) (userAccount : UserAccount)
    (dctDataToTransfer : DCToken) (dctTokenKey : Bytes) (nonce : Nat)
    (isReturnCallWithError : Bool) : Option Error × DCToken × UserAccount × AccountsDB :=
  match e.dctStorageHandler.GetDCTNFTTokenOnDestination c accounts userAccount dctTokenKey
      nonce with
  | .error err => (some err, dctDataToTransfer, userAccount, accounts)
  | .ok (currentDCTData, _) =>
    match checkFrozeAndPause c dstAddress dctTokenKey currentDCTData e.globalSettingsHandler
        isReturnCallWithError with
    | some err => (some err, dctDataToTransfer, userAccount, accounts)
    | none =>
      let transferValue := dctDataToTransfer.Value
      let dctDataToTransfer :=
        { dctDataToTransfer with Value := dctDataToTransfer.Value + currentDCTData.Value }
      match e.dctStorageHandler.SaveDCTNFTToken c accounts sndAddress userAccount dctTokenKey
          nonce dctDataToTransfer false isReturnCallWithError with
      | (.error err, userAccount, accounts) =>
        (some err, dctDataToTransfer, userAccount, accounts)
      | (.ok _, userAccount, accounts) =>
        let isSameShard := e.shardCoordinator.SameShard sndAddress dstAddress
        if !isSameShard then
          let r := e.dctStorageHandler.AddToLiquiditySystemAcc c accounts dctTokenKey nonce
            transferValue
          (r.1, dctDataToTransfer, userAccount, r.2)
        else (none, dctDataToTransfer, userAccount, accounts)

/-- One leg on the sender shard.  Returns the record of the leg, the two
account handles and the account store. -/
def dctNFTMultiTransfer.transferOneTokenOnSenderShard (e : dctNFTMultiTransfer) (c : Core)
    (accounts : AccountsDB) (acntSnd acntDst : Option UserAccount) (dstAddress : Bytes)
    (transferData : DCTTransfer) (isReturnCallWithError : Bool) :
    Except Error DCToken × Option UserAccount × Option UserAccount × AccountsDB :=
  if transferData.DCTValue ≤ 0 then (.error .ErrInvalidNFTQuantity, acntSnd, acntDst, accounts)
  else
    let dctTokenKey := e.keyPrefix ++ transferData.DCTTokenName
    match acntSnd with
    | none => (.error .GoPanic, none, acntDst, accounts)
    | some snd =>
      match e.dctStorageHandler.GetDCTNFTTokenOnSender c accounts snd dctTokenKey
          transferData.DCTTokenNonce with
      | .error err => (.error err, some snd, acntDst, accounts)
      | .ok dctData =>
        if dctData.Value < transferData.DCTValue then
          (.error (computeInsufficientQuantityDCTError transferData.DCTTokenName
            transferData.DCTTokenNonce), some snd, acntDst, accounts)
        else
          let dctData := { dctData with Value := dctData.Value - transferData.DCTValue }
          match e.dctStorageHandler.SaveDCTNFTToken c accounts snd.Address snd dctTokenKey
              transferData.DCTTokenNonce dctData false isReturnCallWithError with
          | (.error err, snd, accounts) => (.error err, some snd, acntDst, accounts)
          | (.ok _, snd, accounts) =>
            let dctData := { dctData with Value := transferData.DCTValue }
            let tokenID :=
              if e.enableEpochsHandler.IsCheckCorrectTokenIDForTransferRoleFlagEnabled
              then transferData.DCTTokenName else dctTokenKey
            match checkIfTransferCanHappenWithLimitedTransfer c tokenID dctTokenKey snd.Address
                dstAddress e.globalSettingsHandler e.rolesHandler (some snd) acntDst
                isReturnCallWithError with
            | some err => (.error err, some snd, acntDst, accounts)
            | none =>
              match acntDst with
              | some dst =>
                match e.addNFTToDestination c accounts snd.Address dstAddress dst dctData
                    dctTokenKey transferData.DCTTokenNonce isReturnCallWithError with
                | (some err, _, dst, accounts) => (.error err, some snd, some dst, accounts)
                | (none, dctData, dst, accounts) => (.ok dctData, some snd, some dst, accounts)
              | none =>
                match e.dctStorageHandler.AddToLiquiditySystemAcc c accounts dctTokenKey
                    transferData.DCTTokenNonce (-transferData.DCTValue) with
                | (some err, accounts) => (.error err, some snd, none, accounts)
                | (none, accounts) => (.ok dctData, some snd, none, accounts)

/-- The loop of `createDCTNFTOutputTransfers` over the legs from index `i` on:
appends the three payload arguments of each leg and charges the data-copy gas
of every marshaled record. -/
def dctNFTMultiTransfer.outputTransferArgs (e : dctNFTMultiTransfer) (c : Core)
    (listDCTData : List DCToken) (dstAddress : Bytes) :
    List DCTTransfer → Nat → AccountsDB → VMOutput → List Bytes →
      Except Error (VMOutput × List Bytes) × AccountsDB
  | [], _, accounts, vmOutput, multiTransferCallArgs =>
    (.ok (vmOutput, multiTransferCallArgs), accounts)
  | dctTransfer :: rest, i, accounts, vmOutput, multiTransferCallArgs =>
    let multiTransferCallArgs := multiTransferCallArgs ++ [dctTransfer.DCTTokenName]
    let nonceAsBytes :=
      if dctTransfer.DCTTokenNonce > 0 then bigIntBytes dctTransfer.DCTTokenNonce else [0]
    let multiTransferCallArgs := multiTransferCallArgs ++ [nonceAsBytes]
    if dctTransfer.DCTTokenNonce > 0 then
      match e.dctStorageHandler.WasAlreadySentToDestinationShardAndUpdateState c accounts
          dctTransfer.DCTTokenName dctTransfer.DCTTokenNonce dstAddress with
      | (.error err, accounts) => (.error err, accounts)
      | (.ok wasAlreadySent, accounts) =>
        let sendCrossShardAsMarshalledData :=
          !wasAlreadySent || decide (dctTransfer.DCTValue = oneValue)
            || decide ((bigIntBytes dctTransfer.DCTValue.natAbs).length
                > c.MaxLengthForValueToOptTransfer)
        if sendCrossShardAsMarshalledData then
          match listDCTData[i]? with
          | none => (.error .GoPanic, accounts)
          | some dctData =>
            match e.marshaller.Marshal dctData with
            | .error code => (.error (.ErrMarshalizer code), accounts)
            | .ok marshaledNFTTransfer =>
              let gasForTransfer :=
                (marshaledNFTTransfer.length * e.gasConfig.DataCopyPerByte) % 2 ^ 64
              if gasForTransfer > vmOutput.GasRemaining then (.error .ErrNotEnoughGas, accounts)
              else
                e.outputTransferArgs c listDCTData dstAddress rest (i + 1) accounts
                  { vmOutput with GasRemaining := vmOutput.GasRemaining - gasForTransfer }
                  (multiTransferCallArgs ++ [marshaledNFTTransfer])
        else
          e.outputTransferArgs c listDCTData dstAddress rest (i + 1) accounts vmOutput
            (multiTransferCallArgs ++ [bigIntBytes dctTransfer.DCTValue.natAbs])
    else
      e.outputTransferArgs c listDCTData dstAddress rest (i + 1) accounts vmOutput
        (multiTransferCallArgs ++ [bigIntBytes dctTransfer.DCTValue.natAbs])

def dctNFTMultiTransfer.createDCTNFTOutputTransfers (e : dctNFTMultiTransfer) (c : Core)
    (accounts : AccountsDB) (vmInput : ContractCallInput) (vmOutput : VMOutput)
    (listDCTData : List DCToken) (listDCTTransfers : List DCTTransfer) (dstAddress : Bytes) :
    Except Error VMOutput × AccountsDB :=
  let numTokenTransfer := bigIntBytes listDCTTransfers.length
  match e.outputTransferArgs c listDCTData dstAddress listDCTTransfers 0 accounts vmOutput
      [numTokenTransfer] with
  | (.error err, accounts) => (.error err, accounts)
  | (.ok (vmOutput, multiTransferCallArgs), accounts) =>
    let minNumOfArguments := (listDCTTransfers.length * argumentsPerTransfer + 2) % 2 ^ 64
    let multiTransferCallArgs :=
      if vmInput.Arguments.length > minNumOfArguments then
        multiTransferCallArgs ++ vmInput.Arguments.drop minNumOfArguments
      else multiTransferCallArgs
    let isSCCallAfter :=
      e.payableHandler.DetermineIsSCCallAfter vmInput dstAddress minNumOfArguments
    if e.shardCoordinator.SelfId ≠ e.shardCoordinator.ComputeId dstAddress then
      let gasToTransfer := if isSCCallAfter then vmOutput.GasRemaining else 0
      let vmOutput := if isSCCallAfter then { vmOutput with GasRemaining := 0 } else vmOutput
      (.ok (addNFTTransferToVMOutput vmInput.CallerAddr dstAddress
        c.BuiltInFunctionMultiDCTNFTTransfer multiTransferCallArgs vmInput.GasLocked
        gasToTransfer vmInput.CallType vmOutput), accounts)
    else if isSCCallAfter then
      let callArgs :=
        if vmInput.Arguments.length > (minNumOfArguments + 1) % 2 ^ 64 then
          vmInput.Arguments.drop ((minNumOfArguments + 1) % 2 ^ 64)
        else []
      match vmInput.Arguments[minNumOfArguments]? with
      | none => (.error .GoPanic, accounts)
      | some function =>
        (.ok (addOutputTransferToVMOutput vmInput.CallerAddr function callArgs dstAddress
          vmInput.GasLocked vmInput.CallType vmOutput), accounts)
    else (.ok vmOutput, accounts)

/-- The state carried through the leg loop of the sender shard. -/
structure senderLoopState where
  acntSnd : Option UserAccount
  acntDst : Option UserAccount
  accounts : AccountsDB
  vmOutput : VMOutput
  listDctData : List DCToken
  listTransferData : List DCTTransfer

/-- The leg loop of `processDCTNFTMultiTransferOnSenderShard`: `remaining` legs
are still to run, starting with leg `i`. -/
def dctNFTMultiTransfer.senderLegs (e : dctNFTMultiTransfer) (c : Core)
    (vmInput : ContractCallInput) (dstAddress : Bytes) :
    Nat → Nat → senderLoopState → Option Error × senderLoopState
  | 0, _, s => (none, s)
  | remaining + 1, i, s =>
    let tokenStartIndex := (2 + i * argumentsPerTransfer) % 2 ^ 64
    match vmInput.Arguments[(tokenStartIndex + 2) % 2 ^ 64]?, vmInput.Arguments[tokenStartIndex]?,
        vmInput.Arguments[(tokenStartIndex + 1) % 2 ^ 64]? with
    | some valueBytes, some tokenName, some nonceBytes =>
      let nonce := bigIntUint64 (bigIntSetBytes nonceBytes)
      let transferData : DCTTransfer :=
        { DCTValue := bigIntSetBytes valueBytes
          DCTTokenName := tokenName
          DCTTokenType := if nonce > 0 then NonFungible else 0
          DCTTokenNonce := nonce }
      match e.transferOneTokenOnSenderShard c s.accounts s.acntSnd s.acntDst dstAddress
          transferData vmInput.ReturnCallAfterError with
      | (.error err, acntSnd, acntDst, accounts) =>
        (some err, { s with acntSnd := acntSnd, acntDst := acntDst, accounts := accounts })
      | (.ok dctData, acntSnd, acntDst, accounts) =>
        e.senderLegs c vmInput dstAddress remaining (i + 1)
          { acntSnd := acntSnd
            acntDst := acntDst
            accounts := accounts
            vmOutput := addDCTEntryInVMOutput s.vmOutput c.BuiltInFunctionMultiDCTNFTTransfer
              transferData.DCTTokenName transferData.DCTTokenNonce transferData.DCTValue
              [vmInput.CallerAddr, dstAddress]
            listDctData := s.listDctData ++ [dctData]
            listTransferData := s.listTransferData ++ [transferData] }
    | _, _, _ => (some .GoPanic, s)

/-- The sender-shard multi-transfer.  Returns the result, the sender handle and
the account store. -/
def dctNFTMultiTransfer.processDCTNFTMultiTransferOnSenderShard (e : dctNFTMultiTransfer)
    (c : Core) (accounts : AccountsDB) (acntSnd : Option UserAccount)
    (vmInput : ContractCallInput) : Except Error VMOutput × Option UserAccount × AccountsDB :=
  match vmInput.Arguments[0]?, vmInput.Arguments[1]? with
  | some dstAddress, some countBytes =>
    if dstAddress.length ≠ vmInput.CallerAddr.length then
      (.error .ErrInvalidArguments, acntSnd, accounts)
    else if dstAddress = vmInput.CallerAddr then
      (.error .ErrInvalidArguments, acntSnd, accounts)
    else
      let isTransferToMetaFlagEnabled := e.enableEpochsHandler.IsTransferToMetaFlagEnabled
      let isInvalidTransferToMeta :=
        e.shardCoordinator.ComputeId dstAddress == c.MetachainShardId
          && !isTransferToMetaFlagEnabled
      if isInvalidTransferToMeta then (.error .ErrInvalidRcvAddr, acntSnd, accounts)
      else
        let numOfTransfers := bigIntUint64 (bigIntSetBytes countBytes)
        if numOfTransfers = 0 then (.error .ErrInvalidArguments, acntSnd, accounts)
        else
          let minNumOfArguments := (numOfTransfers * argumentsPerTransfer + 2) % 2 ^ 64
          if vmInput.Arguments.length < minNumOfArguments then
            (.error .ErrInvalidArguments, acntSnd, accounts)
          else
            let multiTransferCost := (numOfTransfers * e.funcGasCost) % 2 ^ 64
            if vmInput.GasProvided < multiTransferCost then
              (.error .ErrNotEnoughGas, acntSnd, accounts)
            else
              let acntDst := e.loadAccountIfInShard accounts dstAddress
              match (if acntDst.isSome then
                  e.payableHandler.CheckPayable vmInput dstAddress minNumOfArguments
                else none) with
              | some err => (.error err, acntSnd, accounts)
              | none =>
                if numOfTransfers > maxSliceLen then (.error .GoPanic, acntSnd, accounts)
                else
                  let vmOutput : VMOutput :=
                    { ReturnCode := Ok
                      GasRemaining := vmInput.GasProvided - multiTransferCost }
                  match e.senderLegs c vmInput dstAddress numOfTransfers 0
                      { acntSnd := acntSnd
                        acntDst := acntDst
                        accounts := accounts
                        vmOutput := vmOutput
                        listDctData := []
                        listTransferData := [] } with
                  | (some err, s) => (.error err, s.acntSnd, s.accounts)
                  | (none, s) =>
                    let accounts :=
                      match s.acntDst with
                      | some dst => s.accounts.SaveAccount dst
                      | none => s.accounts
                    match e.createDCTNFTOutputTransfers c accounts vmInput s.vmOutput
                        s.listDctData s.listTransferData dstAddress with
                    | (.error err, accounts) => (.error err, s.acntSnd, accounts)
                    | (.ok vmOutput, accounts) => (.ok vmOutput, s.acntSnd, accounts)
  | _, _ => (.error .GoPanic, acntSnd, accounts)


/-! ## Transfer parser (`parsers/dctTransferParser.go`)

The sums and products on `uint64` values are reduced modulo `2 ^ 64`; an index
outside the argument list and a `make` of more than `maxSliceLen` entries are
run-time panics. -/

def MinArgsForDCTTransfer : Nat := 2

def MinArgsForDCTNFTTransfer : Nat := 4

def MinArgsForMultiDCTNFTTransfer : Nat := 4

def ArgsPerTransfer : Nat := 3

/-- Modelled from the spec: the result of the parser
(`vmcommon.ParsedDCTTransfers`, declared outside the source files). -/
structure ParsedDCTTransfers where
  DCTTransfers : List DCTTransfer := []
  RcvAddr : Bytes := []
  CallFunction : Bytes := []
  CallArgs : List Bytes := []
deriving DecidableEq, Repr

structure dctTransferParser where
  marshaller : Marshalizer

def dctTransferParser.parseSingleDCTTransfer (_e : dctTransferParser) (rcvAddr : Bytes)
    (args : List Bytes) : Except Error ParsedDCTTransfers :=
  if args.length < MinArgsForDCTTransfer then .error .ErrNotEnoughArguments
  else
    let callFunction :=
      if args.length > MinArgsForDCTTransfer then argAt args MinArgsForDCTTransfer else []
    let callArgs :=
      if args.length > MinArgsForDCTTransfer + 1 then args.drop (MinArgsForDCTTransfer + 1)
      else []
    .ok { DCTTransfers :=
            [{ DCTValue := bigIntSetBytes (argAt args 1)
               DCTTokenName := argAt args 0
               DCTTokenType := Fungible
               DCTTokenNonce := 0 }]
          RcvAddr := rcvAddr
          CallFunction := callFunction
          CallArgs := callArgs }

def dctTransferParser.parseSingleDCTNFTTransfer (_e : dctTransferParser)
    (sndAddr rcvAddr : Bytes) (args : List Bytes) : Except Error ParsedDCTTransfers :=
  if args.length < MinArgsForDCTNFTTransfer then .error .ErrNotEnoughArguments
  else
    let rcv := if sndAddr = rcvAddr then argAt args 3 else rcvAddr
    let callFunction :=
      if args.length > MinArgsForDCTNFTTransfer then argAt args MinArgsForDCTNFTTransfer
      else []
    let callArgs :=
      if args.length > MinArgsForDCTNFTTransfer + 1 then
        args.drop (MinArgsForDCTNFTTransfer + 1)
      else []
    .ok { DCTTransfers :=
            [{ DCTValue := bigIntSetBytes (argAt args 2)
               DCTTokenName := argAt args 0
               DCTTokenType := NonFungible
               DCTTokenNonce := bigIntUint64 (bigIntSetBytes (argAt args 1)) }]
          RcvAddr := rcv
          CallFunction := callFunction
          CallArgs := callArgs }

def dctTransferParser.createNewDCTTransfer (e : dctTransferParser) (c : Core)
    (tokenStartIndex : Nat) (args : List Bytes) (isTxAtSender : Bool) :
    Except Error DCTTransfer :=
  match args[(tokenStartIndex + 2) % 2 ^ 64]?, args[tokenStartIndex]?,
      args[(tokenStartIndex + 1) % 2 ^ 64]? with
  | some valueBytes, some tokenName, some nonceBytes =>
    let dctTransfer : DCTTransfer :=
      { DCTValue := bigIntSetBytes valueBytes
        DCTTokenName := tokenName
        DCTTokenType := Fungible
        DCTTokenNonce := bigIntUint64 (bigIntSetBytes nonceBytes) }
    if dctTransfer.DCTTokenNonce > 0 then
      let dctTransfer := { dctTransfer with DCTTokenType := NonFungible }
      if !isTxAtSender && decide (valueBytes.length > c.MaxLengthForValueToOptTransfer) then
        match e.marshaller.Unmarshal {} valueBytes with
        | .error code => .error (.ErrMarshalizer code)
        | .ok transferDCTData => .ok { dctTransfer with DCTValue := transferDCTData.Value }
      else .ok dctTransfer
    else .ok dctTransfer
  | _, _, _ => .error .GoPanic

/-- The loop of `parseMultiDCTNFTTransfer` over the declared transfers:
`remaining` transfers are still to be read, starting with transfer `i`. -/
def dctTransferParser.parseTransfers (e : dctTransferParser) (c : Core) (args : List Bytes)
    (startIndex : Nat) (isTxAtSender : Bool) :
    Nat → Nat → List DCTTransfer → Except Error (List DCTTransfer)
  | 0, _, transfers => .ok transfers
  | remaining + 1, i, transfers =>
    let tokenStartIndex := (startIndex + i * ArgsPerTransfer) % 2 ^ 64
    match e.createNewDCTTransfer c tokenStartIndex args isTxAtSender with
    | .error err => .error err
    | .ok dctTransfer =>
      e.parseTransfers c args startIndex isTxAtSender remaining (i + 1)
        (transfers ++ [dctTransfer])

def dctTransferParser.parseMultiDCTNFTTransfer (e : dctTransferParser) (c : Core)
    (rcvAddr : Bytes) (args : List Bytes) : Except Error ParsedDCTTransfers :=
  if args.length < MinArgsForMultiDCTNFTTransfer then .error .ErrNotEnoughArguments
  else
    match args[0]?, args[1]? with
    | some arg0, some arg1 =>
      let isFirstArgumentAnAddress :=
        decide (arg0.length = rcvAddr.length) && !decide (bigIntSetBytes arg0 < 2 ^ 64)
      let rcv := if isFirstArgumentAnAddress then arg0 else rcvAddr
      let numOfTransfer :=
        if isFirstArgumentAnAddress then bigIntSetBytes arg1 else bigIntSetBytes arg0
      let startIndex := if isFirstArgumentAnAddress then 2 else 1
      let isTxAtSender := isFirstArgumentAnAddress
      let minLenArgs := (ArgsPerTransfer * bigIntUint64 numOfTransfer + startIndex) % 2 ^ 64
      if args.length < minLenArgs then .error .ErrNotEnoughArguments
      else
        let callFunction := if args.length > minLenArgs then argAt args minLenArgs else []
        let callArgs :=
          if args.length > (minLenArgs + 1) % 2 ^ 64 then args.drop ((minLenArgs + 1) % 2 ^ 64)
          else []
        if bigIntUint64 numOfTransfer > maxSliceLen then .error .GoPanic
        else
          match e.parseTransfers c args startIndex isTxAtSender (bigIntUint64 numOfTransfer) 0
              [] with
          | .error err => .error err
          | .ok transfers =>
            .ok { DCTTransfers := transfers
                  RcvAddr := rcv
                  CallFunction := callFunction
                  CallArgs := callArgs }
    | _, _ => .error .GoPanic

def dctTransferParser.ParseDCTTransfers (e : dctTransferParser) (c : Core)
    (sndAddr rcvAddr function : Bytes) (args : List Bytes) : Except Error ParsedDCTTransfers :=
  if function = c.BuiltInFunctionDCTTransfer then e.parseSingleDCTTransfer rcvAddr args
  else if function = c.BuiltInFunctionDCTNFTTransfer then
    e.parseSingleDCTNFTTransfer sndAddr rcvAddr args
  else if function = c.BuiltInFunctionMultiDCTNFTTransfer then
    e.parseMultiDCTNFTTransfer c rcvAddr args
  else .error .ErrNotDCTTransferInput


/-! ## Multi-token transfer, destination shard and entry point
(`multiDCTNFTTransfer.go`) -/

/-- The state carried through the leg loop of the destination shard. -/
structure destinationLoopState where
  acntDst : UserAccount
  accounts : AccountsDB
  vmOutput : VMOutput

/-- The record carried by a non-fungible leg on the destination shard: the
unmarshaled argument when it is longer than the optimised value, else a
non-fungible record of the value read from the argument. -/
def dctNFTMultiTransfer.transferDataOnDestination (e : dctNFTMultiTransfer) (c : Core)
    (valueBytes : Bytes) : Except Error DCToken :=
  if valueBytes.length > c.MaxLengthForValueToOptTransfer then
    liftMarshal (e.marshaller.Unmarshal {} valueBytes)
  else .ok { Value := bigIntSetBytes valueBytes, Type_ := NonFungible }

/-- The leg loop of the destination shard: `remaining` legs are still to run,
starting with leg `i`. -/
def dctNFTMultiTransfer.destinationLegs (e : dctNFTMultiTransfer) (c : Core)
    (vmInput : ContractCallInput) :
    Nat → Nat → destinationLoopState → Option Error × destinationLoopState
  | 0, _, s => (none, s)
  | remaining + 1, i, s =>
    let tokenStartIndex := (1 + i * argumentsPerTransfer) % 2 ^ 64
    match vmInput.Arguments[tokenStartIndex]?, vmInput.Arguments[(tokenStartIndex + 1) % 2 ^ 64]?,
        vmInput.Arguments[(tokenStartIndex + 2) % 2 ^ 64]? with
    | some tokenID, some nonceBytes, some valueBytes =>
      let nonce := bigIntUint64 (bigIntSetBytes nonceBytes)
      let dctTokenKey := e.keyPrefix ++ tokenID
      if nonce > 0 then
        match e.transferDataOnDestination c valueBytes with
        | .error err => (some err, s)
        | .ok dctTransferData =>
          let value := dctTransferData.Value
          match e.addNFTToDestination c s.accounts vmInput.CallerAddr vmInput.RecipientAddr
              s.acntDst dctTransferData dctTokenKey nonce vmInput.ReturnCallAfterError with
          | (some err, _, dst, accounts) =>
            (some err, { s with acntDst := dst, accounts := accounts })
          | (none, _, dst, accounts) =>
            e.destinationLegs c vmInput remaining (i + 1)
              { acntDst := dst
                accounts := accounts
                vmOutput := addDCTEntryInVMOutput s.vmOutput
                  c.BuiltInFunctionMultiDCTNFTTransfer tokenID nonce value
                  [vmInput.CallerAddr, dst.Address] }
      else
        let transferredValue : Int := bigIntSetBytes valueBytes
        match addToDCTBalance c s.acntDst dctTokenKey transferredValue e.marshaller
            e.globalSettingsHandler vmInput.ReturnCallAfterError with
        | (some err, dst) => (some err, { s with acntDst := dst })
        | (none, dst) =>
          e.destinationLegs c vmInput remaining (i + 1)
            { acntDst := dst
              accounts := s.accounts
              vmOutput := addDCTEntryInVMOutput s.vmOutput
                c.BuiltInFunctionMultiDCTNFTTransfer tokenID nonce transferredValue
                [vmInput.CallerAddr, dst.Address] }
    | _, _, _ => (some .GoPanic, s)

/-- The multi-token transfer.  Returns the result, the two account handles and
the account store. -/
def dctNFTMultiTransfer.ProcessBuiltinFunction (e : dctNFTMultiTransfer) (c : Core)
    (accounts : AccountsDB) (acntSnd acntDst : Option UserAccount)
    (vmInputPtr : Option ContractCallInput) :
    Except Error VMOutput × Option UserAccount × Option UserAccount × AccountsDB :=
  match checkBasicDCTArguments vmInputPtr, vmInputPtr with
  | some err, _ => (.error err, acntSnd, acntDst, accounts)
  | none, none => (.error .ErrNilVmInput, acntSnd, acntDst, accounts)
  | none, some vmInput =>
    if vmInput.Arguments.length < 4 then (.error .ErrInvalidArguments, acntSnd, acntDst, accounts)
    else if vmInput.CallerAddr = vmInput.RecipientAddr then
      let r := e.processDCTNFTMultiTransferOnSenderShard c accounts acntSnd vmInput
      (r.1, r.2.1, acntDst, r.2.2)
    else if acntSnd.isSome then (.error .ErrInvalidRcvAddr, acntSnd, acntDst, accounts)
    else
      match acntDst with
      | none => (.error .ErrInvalidRcvAddr, acntSnd, none, accounts)
      | some dst =>
        let numOfTransfers := bigIntUint64 (bigIntSetBytes (argAt vmInput.Arguments 0))
        if numOfTransfers = 0 then (.error .ErrInvalidArguments, acntSnd, some dst, accounts)
        else
          let minNumOfArguments := (numOfTransfers * argumentsPerTransfer + 1) % 2 ^ 64
          if vmInput.Arguments.length < minNumOfArguments then
            (.error .ErrInvalidArguments, acntSnd, some dst, accounts)
          else if numOfTransfers > maxSliceLen then
            (.error .GoPanic, acntSnd, some dst, accounts)
          else
            let vmOutput : VMOutput := { GasRemaining := vmInput.GasProvided }
            match e.payableHandler.CheckPayable vmInput vmInput.RecipientAddr
                minNumOfArguments with
            | some err => (.error err, acntSnd, some dst, accounts)
            | none =>
              match e.destinationLegs c vmInput numOfTransfers 0
                  { acntDst := dst, accounts := accounts, vmOutput := vmOutput } with
              | (some err, s) => (.error err, acntSnd, some s.acntDst, s.accounts)
              | (none, s) =>
                let vmOutput :=
                  if vmInput.Arguments.length > minNumOfArguments
                      && c.IsSmartContractAddress vmInput.RecipientAddr then
                    let callArgs :=
                      if vmInput.Arguments.length > minNumOfArguments + 1 then
                        vmInput.Arguments.drop (minNumOfArguments + 1)
                      else []
                    addOutputTransferToVMOutput vmInput.CallerAddr
                      (argAt vmInput.Arguments minNumOfArguments) callArgs
                      vmInput.RecipientAddr vmInput.GasLocked vmInput.CallType s.vmOutput
                  else s.vmOutput
                (.ok vmOutput, acntSnd, some s.acntDst, s.accounts)


/-! ## NFT add URI (`dctNFTAddUri.go`) -/

/-- The difference of two `uint64` values, which wraps around below zero. -/
def subUint64 (a b : Nat) : Nat := (a + (2 ^ 64 - b % 2 ^ 64)) % 2 ^ 64

structure dctNFTAddUri where
  keyPrefix : Bytes
  dctStorageHandler : dctDataStorage
  globalSettingsHandler : DCTGlobalSettingsHandler
  rolesHandler : DCTRoleHandler
  gasConfig : BaseOperationCost
  funcGasCost : Nat

def dctNFTAddUri.getGasCostForURIStore (e : dctNFTAddUri) (vmInput : ContractCallInput) :
    Nat :=
  let lenURIs := ((vmInput.Arguments.drop 2).map List.length).sum
  (lenURIs * e.gasConfig.StorePerByte) % 2 ^ 64

/-- The NFT add URI.  The sender account handle and the account store are
returned with the result; appending to the URI list of an absent metadata is
the Go nil-pointer panic. -/
def dctNFTAddUri.ProcessBuiltinFunction (e : dctNFTAddUri) (c : Core) (accounts : AccountsDB)
    (acntSnd : Option UserAccount) (vmInputPtr : Option ContractCallInput) :
    Except Error VMOutput × Option UserAccount × AccountsDB :=
  match checkDCTNFTCreateBurnAddInput acntSnd vmInputPtr e.funcGasCost, acntSnd,
      vmInputPtr with
  | some err, _, _ => (.error err, acntSnd, accounts)
  | none, some snd, some vmInput =>
    if vmInput.Arguments.length < 3 then (.error .ErrInvalidArguments, some snd, accounts)
    else
      match e.rolesHandler.CheckAllowedToExecute (some snd) (argAt vmInput.Arguments 0)
          c.DCTRoleNFTAddURI with
      | some err => (.error err, some snd, accounts)
      | none =>
        let gasCostForStore := e.getGasCostForURIStore vmInput
        if vmInput.GasProvided < (e.funcGasCost + gasCostForStore) % 2 ^ 64 then
          (.error .ErrNotEnoughGas, some snd, accounts)
        else
          let dctTokenKey := e.keyPrefix ++ argAt vmInput.Arguments 0
          let nonce := bigIntUint64 (bigIntSetBytes (argAt vmInput.Arguments 1))
          if nonce = 0 then (.error .ErrNFTDoesNotHaveMetadata, some snd, accounts)
          else
            match e.dctStorageHandler.GetDCTNFTTokenOnSender c accounts snd dctTokenKey
                nonce with
            | .error err => (.error err, some snd, accounts)
            | .ok dctData =>
              match dctData.TokenMetaData with
              | none => (.error .GoPanic, some snd, accounts)
              | some metaData =>
                let dctData :=
                  { dctData with
                    TokenMetaData :=
                      some { metaData with URIs := metaData.URIs ++ vmInput.Arguments.drop 2 } }
                match e.dctStorageHandler.SaveDCTNFTToken c accounts snd.Address snd
                    dctTokenKey nonce dctData true vmInput.ReturnCallAfterError with
                | (.error err, snd, accounts) => (.error err, some snd, accounts)
                | (.ok _, snd, accounts) =>
                  let vmOutput : VMOutput :=
                    { ReturnCode := Ok
                      GasRemaining :=
                        subUint64 (subUint64 vmInput.GasProvided e.funcGasCost) gasCostForStore }
                  (.ok (addDCTEntryInVMOutput vmOutput c.BuiltInFunctionDCTNFTAddURI
                    (argAt vmInput.Arguments 0) nonce 0
                    ([vmInput.CallerAddr] ++ vmInput.Arguments.drop 2)), some snd, accounts)
  | none, _, _ => (.error .GoPanic, acntSnd, accounts)


/-! ## Metadata deletion (`dctDeleteMetadata.go`)

The three loops of the deletion are modelled with a step budget: a loop that
has not finished when the budget is used up yields `none`, so a call returns
exactly when some budget yields a result. -/

structure dctDeleteMetaData where
  allowedAddress : Bytes
  delete : Bool
  keyPrefix : Bytes
  marshaller : Marshalizer
  funcGasCost : Nat
  function : Bytes

/-- The loop of `deleteMetadataForInterval` from `nonce` on: the key of every
nonce up to `endIndex` is removed; the increment is the one of `uint64`. -/
def deleteNonces (dctTokenKey : Bytes) (endIndex : Nat) : Nat → Nat → UserAccount →
    Option UserAccount
  | 0, _, _ => none
  | fuel + 1, nonce, systemAcc =>
    if nonce ≤ endIndex then
      deleteNonces dctTokenKey endIndex fuel ((nonce + 1) % 2 ^ 64)
        (systemAcc.SaveKeyValue (computeDCTNFTTokenKey dctTokenKey nonce) [])
    else some systemAcc

def dctDeleteMetaData.deleteMetadataForInterval (e : dctDeleteMetaData) (fuel : Nat)
    (systemAcc : UserAccount) (tokenID : Bytes) (startIndex endIndex : Nat) :
    Option (Option Error × UserAccount) :=
  if endIndex < startIndex then some (some .ErrInvalidArguments, systemAcc)
  else if startIndex = 0 then some (some .ErrInvalidNonce, systemAcc)
  else
    match deleteNonces (e.keyPrefix ++ tokenID) endIndex fuel startIndex systemAcc with
    | none => none
    | some systemAcc => some (none, systemAcc)

/-- The loop of `deleteMetadataForListIntervals` from the argument index `j`
on; the bound `index + numIntervals * 2` is the one of `uint64`. -/
def dctDeleteMetaData.deleteMetadataForListIntervals (e : dctDeleteMetaData)
    (tokenID : Bytes) (args : List Bytes) (index numIntervals : Nat) :
    Nat → Nat → UserAccount → Option (Option Error × UserAccount)
  | 0, _, _ => none
  | fuel + 1, j, systemAcc =>
    if j < (index + numIntervals * 2) % 2 ^ 64 then
      if j > subUint64 args.length 2 then some (some .ErrInvalidNumOfArgs, systemAcc)
      else
        match args[j]?, args[(j + 1) % 2 ^ 64]? with
        | some startBytes, some endBytes =>
          match e.deleteMetadataForInterval fuel systemAcc tokenID
              (bigIntUint64 (bigIntSetBytes startBytes))
              (bigIntUint64 (bigIntSetBytes endBytes)) with
          | none => none
          | some (some err, systemAcc) => some (some err, systemAcc)
          | some (none, systemAcc) =>
            e.deleteMetadataForListIntervals tokenID args index numIntervals fuel
              ((j + 2) % 2 ^ 64) systemAcc
        | _, _ => some (some .GoPanic, systemAcc)
    else some (none, systemAcc)

/-- The loop of `deleteMetadata` over the tokens from the argument index `i`
on; the index arithmetic is the one of `uint64`. -/
def dctDeleteMetaData.deleteMetadataTokens (e : dctDeleteMetaData) (args : List Bytes) :
    Nat → Nat → UserAccount → Option (Option Error × UserAccount)
  | 0, _, _ => none
  | fuel + 1, i, systemAcc =>
    if (i + 1) % 2 ^ 64 < args.length then
      match args[i]?, args[(i + 1) % 2 ^ 64]? with
      | some tokenID, some numBytes =>
        let numIntervals := bigIntUint64 (bigIntSetBytes numBytes)
        let i := (i + 2) % 2 ^ 64
        match ValidateToken tokenID with
        | .error err => some (some err, systemAcc)
        | .ok false => some (some .ErrInvalidTokenID, systemAcc)
        | .ok true =>
          if i ≥ args.length then some (some .ErrInvalidNumOfArgs, systemAcc)
          else
            match e.deleteMetadataForListIntervals tokenID args i numIntervals fuel i
                systemAcc with
            | none => none
            | some (some err, systemAcc) => some (some err, systemAcc)
            | some (none, systemAcc) =>
              e.deleteMetadataTokens args fuel ((i + numIntervals * 2) % 2 ^ 64) systemAcc
      | _, _ => some (some .GoPanic, systemAcc)
    else some (none, systemAcc)

/-- The deletion of metadata with the step budget `fuel`: the error, if any,
and the account store, or `none` when the budget does not suffice.  The system
account is written back only when every interval has been processed. -/
def dctDeleteMetaData.deleteMetadata (e : dctDeleteMetaData) (c : Core) (fuel : Nat)
    (accounts : AccountsDB) (args : List Bytes) : Option (Option Error × AccountsDB) :=
  if args.length < 4 then some (some .ErrInvalidNumOfArgs, accounts)
  else
    let systemAcc := accounts.LoadAccount c.SystemAccountAddress
    match e.deleteMetadataTokens args fuel 0 systemAcc with
    | none => none
    | some (some err, _) => some (some err, accounts)
    | some (none, systemAcc) => some (none, accounts.SaveAccount systemAcc)


/-! ## Liquidity of a cross-shard transfer

The vocabulary of the liquidity statements: the accumulator that
`AddToLiquiditySystemAcc` maintains, read back from an account store, and the
two calls of one cross-shard single NFT transfer with the change that each of
them makes to the accumulator of its shard. -/

/-- The liquidity accumulator of a token nonce in an account store, read the way
`AddToLiquiditySystemAcc` reads it: the value of the canonical record stored
at the nonce key of the system account, zero when no record is stored there
(or the stored bytes do not decode). -/
def dctDataStorage.liquidity (e : dctDataStorage) (c : Core) (accounts : AccountsDB)
    (dctTokenKey : Bytes) (nonce : Nat) : Int :=
  match e.getDCTDigitalTokenDataFromSystemAccount c accounts
      (computeDCTNFTTokenKey dctTokenKey nonce) defaultQueryOptions with
  | .ok (some dctData, _) => dctData.Value
  | _ => 0

/-- The two calls of one cross-shard single NFT transfer: the transfer
components and the account stores of the sender shard (`eS`, `accS`) and of
the destination shard (`eD`, `accD`), the handles of the sender and of the
destination account, the call processed on the sender shard and the call
processed on the destination shard. -/
structure crossShardNFTTransfer where
  eS : dctNFTTransfer
  eD : dctNFTTransfer
  accS : AccountsDB
  accD : AccountsDB
  snd : UserAccount
  dst : UserAccount
  vmInput : ContractCallInput
  vmInputD : ContractCallInput

/-- The nonce of the transferred token, as the sender-shard call reads it. -/
def crossShardNFTTransfer.nonce (t : crossShardNFTTransfer) : Nat :=
  bigIntUint64 (bigIntSetBytes (argAt t.vmInput.Arguments 1))

/-- The transferred quantity, as the sender-shard call reads it. -/
def crossShardNFTTransfer.quantity (t : crossShardNFTTransfer) : Int :=
  bigIntSetBytes (argAt t.vmInput.Arguments 2)

/-- The call on the sender shard. -/
def crossShardNFTTransfer.senderCall (t : crossShardNFTTransfer) (c : Core) :
    Except Error VMOutput × Option UserAccount × Option UserAccount × AccountsDB :=
  t.eS.ProcessBuiltinFunction c t.accS (some t.snd) none (some t.vmInput)

/-- The call on the destination shard. -/
def crossShardNFTTransfer.destinationCall (t : crossShardNFTTransfer) (c : Core) :
    Except Error VMOutput × Option UserAccount × Option UserAccount × AccountsDB :=
  t.eD.ProcessBuiltinFunction c t.accD none (some t.dst) (some t.vmInputD)

/-- The liquidity delta that the sender-shard call applied: the accumulator of
the transferred token nonce in the account store the call returns, minus the
accumulator in the store it started from. -/
def crossShardNFTTransfer.senderDelta (t : crossShardNFTTransfer) (c : Core) : Int :=
  t.eS.dctStorageHandler.liquidity c (t.senderCall c).2.2.2
      (t.eS.keyPrefix ++ argAt t.vmInput.Arguments 0) t.nonce
    - t.eS.dctStorageHandler.liquidity c t.accS
      (t.eS.keyPrefix ++ argAt t.vmInput.Arguments 0) t.nonce

/-- The liquidity delta that the destination-shard call applied to the
accumulator of the same token nonce on its shard. -/
def crossShardNFTTransfer.destinationDelta (t : crossShardNFTTransfer) (c : Core) : Int :=
  t.eD.dctStorageHandler.liquidity c (t.destinationCall c).2.2.2
      (t.eD.keyPrefix ++ argAt t.vmInput.Arguments 0) t.nonce
    - t.eD.dctStorageHandler.liquidity c t.accD
      (t.eD.keyPrefix ++ argAt t.vmInput.Arguments 0) t.nonce

/-- The liquidity of the transferred token nonce is tracked on the sender shard:
both liquidity gates of its storage engine are on and its system account holds
a canonical record `recS` with a non-empty reserved marker, which is not the
zero accumulator that the fix-old-token-liquidity gate treats apart; the
storage marshaler reads back the record it writes for the decreased value. -/
def crossShardNFTTransfer.liquidityTrackedOnSender (t : crossShardNFTTransfer) (c : Core) :
    Prop :=
  t.eS.dctStorageHandler.enableEpochsHandler.IsSaveToSystemAccountFlagEnabled = true ∧
  t.eS.dctStorageHandler.enableEpochsHandler.IsSendAlwaysFlagEnabled = true ∧
  ∃ recS : DCToken,
    (t.accS.LoadAccount c.SystemAccountAddress).RetrieveValue
        (computeDCTNFTTokenKey (t.eS.keyPrefix ++ argAt t.vmInput.Arguments 0) t.nonce) ≠ [] ∧
    t.eS.dctStorageHandler.marshaller.Unmarshal {}
        ((t.accS.LoadAccount c.SystemAccountAddress).RetrieveValue
          (computeDCTNFTTokenKey (t.eS.keyPrefix ++ argAt t.vmInput.Arguments 0) t.nonce))
      = .ok recS ∧
    recS.Reserved ≠ [] ∧
    (t.eS.dctStorageHandler.enableEpochsHandler.IsFixOldTokenLiquidityEnabled = true →
      recS.Value ≠ 0) ∧
    ∀ b, t.eS.dctStorageHandler.marshaller.Marshal
          { recS with Value := recS.Value - t.quantity } = .ok b →
      b ≠ [] ∧
      t.eS.dctStorageHandler.marshaller.Unmarshal {} b
        = .ok { recS with Value := recS.Value - t.quantity }

/-- The liquidity of the transferred token nonce is tracked on the destination
shard: both liquidity gates of its storage engine are on and either its system
account holds a canonical record `recD` with a non-empty reserved marker, or it
holds no record for the token nonce and the fix-old-token-liquidity gate is
off (the call then creates the record from the carried one).  The storage
marshaler reads back the records it writes. -/
def crossShardNFTTransfer.liquidityTrackedOnDestination (t : crossShardNFTTransfer)
    (c : Core) : Prop :=
  t.eD.dctStorageHandler.enableEpochsHandler.IsSaveToSystemAccountFlagEnabled = true ∧
  t.eD.dctStorageHandler.enableEpochsHandler.IsSendAlwaysFlagEnabled = true ∧
  ((∃ recD : DCToken,
      (t.accD.LoadAccount c.SystemAccountAddress).RetrieveValue
          (computeDCTNFTTokenKey (t.eD.keyPrefix ++ argAt t.vmInput.Arguments 0) t.nonce) ≠ [] ∧
      t.eD.dctStorageHandler.marshaller.Unmarshal {}
          ((t.accD.LoadAccount c.SystemAccountAddress).RetrieveValue
            (computeDCTNFTTokenKey (t.eD.keyPrefix ++ argAt t.vmInput.Arguments 0) t.nonce))
        = .ok recD ∧
      recD.Reserved ≠ [] ∧
      ∀ b, t.eD.dctStorageHandler.marshaller.Marshal
            { recD with Value := recD.Value + t.quantity } = .ok b →
        b ≠ [] ∧
        t.eD.dctStorageHandler.marshaller.Unmarshal {} b
          = .ok { recD with Value := recD.Value + t.quantity }) ∨
    ((t.accD.LoadAccount c.SystemAccountAddress).RetrieveValue
        (computeDCTNFTTokenKey (t.eD.keyPrefix ++ argAt t.vmInput.Arguments 0) t.nonce) = [] ∧
      t.eD.dctStorageHandler.enableEpochsHandler.IsFixOldTokenLiquidityEnabled = false ∧
      ∀ dS : DCToken,
        t.eS.dctStorageHandler.GetDCTNFTTokenOnSender c t.accS t.snd
          (t.eS.keyPrefix ++ argAt t.vmInput.Arguments 0) t.nonce = .ok dS →
        ∀ v : Int, v = 0 ∨ v = t.quantity →
          ∀ b, t.eD.dctStorageHandler.marshaller.Marshal
              { Type_ := dS.Type_, Value := v, TokenMetaData := dS.TokenMetaData,
                Properties := [], Reserved := [1] } = .ok b →
            b ≠ [] ∧
            t.eD.dctStorageHandler.marshaller.Unmarshal {} b
              = .ok { Type_ := dS.Type_, Value := v, TokenMetaData := dS.TokenMetaData,
                      Properties := [], Reserved := [1] }))


/-! ## A concrete marshaler and sample collaborators

A length-prefixed encoding of token records, used to instantiate the
collaborator parameters on concrete inputs. -/

/-- A length-prefixed field. -/
def putField (b : Bytes) : Bytes := b.length :: b

/-- Reads one length-prefixed field and returns it with the remaining input. -/
def takeField : Bytes → Option (Bytes × Bytes)
  | [] => none
  | n :: rest => if n ≤ rest.length then some (rest.take n, rest.drop n) else none

/-- Reads the given number of length-prefixed fields. -/
def takeFields : Nat → Bytes → Option (List Bytes × Bytes)
  | 0, rest => some ([], rest)
  | k + 1, rest =>
    match takeField rest with
    | none => none
    | some (field, rest) =>
      match takeFields k rest with
      | none => none
      | some (fields, rest) => some (field :: fields, rest)

def encodeMetaData : Option MetaData → Bytes
  | none => [0]
  | some md =>
    [1, md.Nonce, md.Royalties] ++ putField md.Name ++ putField md.Creator ++ putField md.Hash
      ++ putField md.Attributes ++ [md.URIs.length] ++ (md.URIs.map putField).flatten

def decodeMetaData : Bytes → Option (Option MetaData)
  | [0] => some none
  | 1 :: nonce :: royalties :: rest =>
    match takeField rest with
    | none => none
    | some (name, rest) =>
      match takeField rest with
      | none => none
      | some (creator, rest) =>
        match takeField rest with
        | none => none
        | some (hash, rest) =>
          match takeField rest with
          | none => none
          | some (_, []) => none
          | some (attributes, n :: rest) =>
            match takeFields n rest with
            | some (uris, []) =>
              some (some { Nonce := nonce, Name := name, Creator := creator,
                           Royalties := royalties, Hash := hash, URIs := uris,
                           Attributes := attributes })
            | _ => none
  | _ => none

def encodeDCToken (d : DCToken) : Bytes :=
  [d.Type_, if d.Value < 0 then 1 else 0, d.Value.natAbs] ++ putField d.Properties
    ++ putField d.Reserved ++ encodeMetaData d.TokenMetaData

def decodeDCToken : Bytes → Option DCToken
  | ty :: sign :: magnitude :: rest =>
    match takeField rest with
    | none => none
    | some (properties, rest) =>
      match takeField rest with
      | none => none
      | some (reserved, rest) =>
        match decodeMetaData rest with
        | none => none
        | some md =>
          some { Type_ := ty
                 Value := if sign = 1 then -(magnitude : Int) else (magnitude : Int)
                 Properties := properties
                 TokenMetaData := md
                 Reserved := reserved }
  | _ => none

def encodeDCTRoles (r : DCTRoles) : Bytes :=
  r.Roles.length :: (r.Roles.map putField).flatten

def decodeDCTRoles : Bytes → Option DCTRoles
  | [] => none
  | n :: rest =>
    match takeFields n rest with
    | some (roles, []) => some { Roles := roles }
    | _ => none

/-- The concrete marshaler: never fails to marshal, and unmarshals by replacing
the object with the decoded record. -/
def listMarshalizer : Marshalizer where
  Marshal d := .ok (encodeDCToken d)
  Unmarshal _ b :=
    match decodeDCToken b with
    | some d => .ok d
    | none => .error 1
  MarshalRoles r := .ok (encodeDCTRoles r)
  UnmarshalRoles _ b :=
    match decodeDCTRoles b with
    | some r => .ok r
    | none => .error 1

/-- Sample constants: a one-byte system address and shard identifiers. -/
def sampleCore : Core where
  DCTSCAddress := [255]
  SystemAccountAddress := [254]
  MetachainShardId := 4294967295
  AsynchronousCallBack := 2
  BuiltInFunctionDCTTransfer := [1]
  BuiltInFunctionDCTNFTTransfer := [2]
  DCTRoleTransfer := [3]
  IsSmartContractAddress := fun _ => false
  BuiltInFunctionMultiDCTNFTTransfer := [4]
  MaxLengthForValueToOptTransfer := 100
  ProtectedKeyPrefix := [100]
  DCTKeyIdentifier := []
  DCTRoleIdentifier := [101]
  DCTNFTLatestNonceIdentifier := [102]
  DCTRoleNFTCreateMultiShard := [5]
  BuiltInFunctionDCTPause := [10]
  BuiltInFunctionDCTUnPause := [11]
  BuiltInFunctionDCTSetLimitedTransfer := [12]
  BuiltInFunctionDCTUnSetLimitedTransfer := [13]
  IsSystemAccountAddress := fun a => a == [254]
  BuiltInFunctionDCTLocalMint := [14]
  DCTRoleLocalMint := [15]
  MaxLenForDCTIssueMint := 100
  BuiltInFunctionDCTNFTBurn := [16]
  DCTRoleNFTBurn := [17]
  DCTRoleNFTCreate := [18]
  BuiltInFunctionDCTNFTCreateRoleTransfer := [19]
  BuiltInFunctionDCTNFTAddURI := [20]
  DCTRoleNFTAddURI := [21]

/-- Sample settings: nothing paused, nothing limited. -/
def sampleSettings : DCTGlobalSettingsHandler where
  IsPaused := fun _ => false
  IsLimitedTransfer := fun _ => false
  IsBurnForAll := fun _ => false
  IsSenderOrDestinationWithTransferRole := fun _ _ _ => false

/-- A sample account with the given address and one stored key. -/
def sampleAccount (address key value : Bytes) : UserAccount where
  Address := address
  DataTrie := fun k => if k = key then value else []

/-- A sample call-data parser: the first byte is the function name, every
following byte is a one-byte argument; empty data does not parse. -/
def sampleParser : CallArgsParser where
  ParseData
    | [] => .error (.ErrExternal 1)
    | f :: args => .ok ([f], args.map fun a => [a])

/-- A sample storage engine over the concrete marshaler with the given gates. -/
def sampleStorage (gates : EnableEpochsHandler) : dctDataStorage where
  globalSettingsHandler := sampleSettings
  marshaller := listMarshalizer
  keyPrefix := [100]
  shardCoordinator :=
    { NumberOfShards := 3, ComputeId := fun a => a.headD 0, SelfId := 0,
      SameShard := fun a b => a.headD 0 == b.headD 0 }
  txDataParser := sampleParser
  enableEpochsHandler := gates

/-- A sample account store whose system account holds one key. -/
def sampleAccounts (key value : Bytes) : AccountsDB where
  Tries := fun address k =>
    if address = sampleCore.SystemAccountAddress ∧ k = key then value else []


/-- Sample gates: system-account metadata and always-propagate active. -/
def liquidityGates : EnableEpochsHandler :=
  { IsSaveToSystemAccountFlagEnabled := true, IsSendAlwaysFlagEnabled := true }

/-- A sample record of value 10 carrying metadata. -/
def sampleNFT (value : Int) : DCToken :=
  { Value := value, Type_ := NonFungible, TokenMetaData := some { Nonce := 7, Name := [116] } }


/-- A sample payable checker: every destination is payable, no call follows. -/
def samplePayable : PayableChecker where
  CheckPayable := fun _ _ _ => none
  DetermineIsSCCallAfter := fun _ _ _ => false

/-- A sample roles registry that allows every action. -/
def sampleRoles : DCTRoleHandler where
  CheckAllowedToExecute := fun _ _ _ => none

/-- A sample fungible transfer component with gas cost 10. -/
def sampleTransfer : dctTransfer where
  funcGasCost := 10
  marshaller := listMarshalizer
  keyPrefix := [100]
  globalSettingsHandler := sampleSettings
  payableHandler := samplePayable
  shardCoordinator :=
    { NumberOfShards := 3, ComputeId := fun a => a.headD 0, SelfId := 0,
      SameShard := fun a b => a.headD 0 == b.headD 0 }
  rolesHandler := sampleRoles
  enableEpochsHandler := {}

/-- A sample call: transfer 10 of token `[5]` with 50 gas. -/
def sampleTransferInput : ContractCallInput :=
  { CallerAddr := [0, 1], RecipientAddr := [0, 2], Arguments := [[5], [10]], GasProvided := 50 }


/-- A sample NFT transfer component of the shard `selfId`, over the concrete
marshaler, with gas cost 10 and the liquidity gates active. -/
def sampleNFTTransfer (selfId : Nat) : dctNFTTransfer where
  keyPrefix := [100]
  marshaller := listMarshalizer
  globalSettingsHandler := sampleSettings
  payableHandler := samplePayable
  funcGasCost := 10
  shardCoordinator :=
    { NumberOfShards := 3, ComputeId := fun a => a.headD 0, SelfId := selfId,
      SameShard := fun a b => a.headD 0 == b.headD 0 }
  gasConfig := { DataCopyPerByte := 1 }
  rolesHandler := sampleRoles
  dctStorageHandler :=
    { globalSettingsHandler := sampleSettings
      marshaller := listMarshalizer
      keyPrefix := [100]
      shardCoordinator :=
        { NumberOfShards := 3, ComputeId := fun a => a.headD 0, SelfId := selfId,
          SameShard := fun a b => a.headD 0 == b.headD 0 }
      txDataParser := sampleParser
      enableEpochsHandler := liquidityGates }
  enableEpochsHandler := liquidityGates

/-- The sample call on the sender shard: the account `[0, 1]` of shard 0 sends
3 of token `[5]`, nonce 7, to the account `[1, 2]` of shard 1. -/
def sampleNFTInput : ContractCallInput :=
  { CallerAddr := [0, 1], RecipientAddr := [0, 1], Arguments := [[5], [7], [3], [1, 2]],
    GasProvided := 100 }

/-- The sample call on the destination shard, carrying the marshaled record. -/
def sampleNFTInputOnDestination : ContractCallInput :=
  { CallerAddr := [0, 1], RecipientAddr := [1, 2],
    Arguments := [[5], [7], [3], encodeDCToken (sampleNFT 3)] }


/-- Sample gates of the legacy mode: system-account metadata active,
always-propagate inactive. -/
def legacyGates : EnableEpochsHandler :=
  { IsSaveToSystemAccountFlagEnabled := true }


/-- A sample roles registry component over the concrete marshaler. -/
def sampleRolesRegistry (set : Bool) : dctRoles :=
  { set := set, marshaller := listMarshalizer }

/-- A sample account at address `[7]` storing the given role list for token `[84]`. -/
def sampleRoleAccount (roles : List Bytes) : UserAccount :=
  sampleAccount [7] (roleKeyPrefix sampleCore ++ [84]) (encodeDCTRoles { Roles := roles })

/-- A sample roles call from the system contract on token `[84]` with the given roles. -/
def sampleRolesInput (roles : List Bytes) : ContractCallInput :=
  { CallerAddr := [255], Arguments := [84] :: roles, RecipientAddr := [7], Function := [6] }


/-- The sample NFT transfer component of shard 0 in legacy mode. -/
def sampleLegacyNFTTransfer : dctNFTTransfer :=
  { sampleNFTTransfer 0 with
    dctStorageHandler := sampleStorage legacyGates
    enableEpochsHandler := legacyGates }

/-- The sample sender-shard call in legacy mode: the sender `[0, 1]` holds 5 of
token `[5]`, nonce 7, and the system account holds the record with metadata,
marked (when `marked` is set) as already sent to shard 1. -/
def sampleLegacyResult (marked : Bool) : Except Error VMOutput × Option UserAccount × AccountsDB :=
  sampleLegacyNFTTransfer.processNFTTransferOnSenderShard sampleCore
    (sampleAccounts [100, 5, 7]
      (encodeDCToken { sampleNFT 10 with Properties := if marked then [0, 1, 0] else [] }))
    (some (sampleAccount [0, 1] [100, 5, 7] (encodeDCToken { Value := 5, Type_ := 1 })))
    sampleNFTInput


/-- A sample transaction from shard 1 to shard 0 with the given call data. -/
def sampleRepairTx (data : Bytes) : TransactionHandler :=
  { SndAddr := [1], RcvAddr := [0], Data := data }


/-- A sample global settings component over the concrete marshaler. -/
def sampleGlobalSettings (set : Bool) (function : Bytes) : dctGlobalSettings :=
  { activeHandler := true, keyPrefix := [100], set := set, marshaller := listMarshalizer,
    function := function }


/-- A sample transfer-role address component allowing two addresses per token. -/
def sampleTransferAddress (set : Bool) : dctTransferAddress :=
  { activeHandler := true, set := set, marshaller := listMarshalizer, maxNumAddresses := 2 }

/-- A sample store whose system account holds the given transfer-role address
list for token `[84]`. -/
def sampleAddressStore (addresses : List Bytes) : AccountsDB :=
  sampleAccounts (transferAddressesKeyPrefix sampleCore ++ [84])
    (encodeDCTRoles { Roles := addresses })

/-- A sample add-address / delete-address call from the system contract to the
system account on token `[84]`. -/
def sampleAddressInput (addresses : List Bytes) : ContractCallInput :=
  { CallerAddr := [255], RecipientAddr := [254], Arguments := [84] :: addresses,
    Function := [7] }


/-- A sample local mint component with gas cost 10. -/
def sampleLocalMint : dctLocalMint :=
  { keyPrefix := [100], marshaller := listMarshalizer, globalSettingsHandler := sampleSettings,
    rolesHandler := sampleRoles, funcGasCost := 10 }

/-- The sample local mint call of scenario A: 100 of token `[88]` with gas 50. -/
def sampleMintInput : ContractCallInput :=
  { CallerAddr := [0, 1], RecipientAddr := [0, 1], Arguments := [[88], [100]], GasProvided := 50 }


/-- A sample NFT burn component of shard 0 with gas cost 10 and the liquidity
gates active. -/
def sampleNFTBurn : dctNFTBurn :=
  { keyPrefix := [100], dctStorageHandler := sampleStorage liquidityGates, funcGasCost := 10,
    rolesHandler := sampleRoles, globalSettingsHandler := sampleSettings }

/-- The sample burn call: the account `[0, 1]` burns the given quantity of token
`[5]`, nonce 7, with gas 50. -/
def sampleBurnInput (quantity : Nat) : ContractCallInput :=
  { CallerAddr := [0, 1], RecipientAddr := [0, 1], Arguments := [[5], [7], [quantity]],
    GasProvided := 50 }


/-- A sample freeze / unfreeze / wipe component over the sample storage. -/
def sampleFreezeWipe (gates : EnableEpochsHandler) (wipe freeze : Bool) : dctFreezeWipe :=
  { dctStorageHandler := sampleStorage gates, enableEpochsHandler := gates,
    marshaller := listMarshalizer, keyPrefix := [100], wipe := wipe, freeze := freeze }

/-- A sample freeze / unfreeze / wipe call from the system contract on the
account `[0, 1]` with the given token argument. -/
def sampleFreezeInput (token : Bytes) : ContractCallInput :=
  { CallerAddr := [255], RecipientAddr := [0, 1], Arguments := [token], Function := [8] }


/-- A sample create-role transfer component of shard 0. -/
def sampleCreateRoleTransfer : dctNFTCreateRoleTransfer :=
  { keyPrefix := [100], marshaller := listMarshalizer,
    shardCoordinator :=
      { NumberOfShards := 3, ComputeId := fun a => a.headD 0, SelfId := 0,
        SameShard := fun a b => a.headD 0 == b.headD 0 } }

/-- A sample current owner `[0, 1]` of token `[84]` with the given role list and
the nonce counter 9. -/
def sampleOwner (roles : List Bytes) : UserAccount :=
  { Address := [0, 1]
    DataTrie := fun k =>
      if k = roleKeyPrefix sampleCore ++ [84] then encodeDCTRoles { Roles := roles }
      else if k = getNonceKey sampleCore [84] then [9]
      else [] }

/-- The sample call at the current owner: the system contract moves the create
role of token `[84]` to the account `[0]` of the same shard. -/
def sampleRoleTransferInput : ContractCallInput :=
  { CallerAddr := [255], RecipientAddr := [0, 1], Arguments := [[84], [0]], Function := [19] }


/-- A sample multi-transfer component of shard 0 with the given per-transfer
cost, over the concrete marshaler. -/
def sampleMultiTransfer (funcGasCost : Nat) : dctNFTMultiTransfer where
  keyPrefix := [100]
  marshaller := listMarshalizer
  globalSettingsHandler := sampleSettings
  payableHandler := samplePayable
  funcGasCost := funcGasCost
  shardCoordinator :=
    { NumberOfShards := 3, ComputeId := fun a => a.headD 0, SelfId := 0,
      SameShard := fun a b => a.headD 0 == b.headD 0 }
  gasConfig := { DataCopyPerByte := 1 }
  dctStorageHandler := sampleStorage liquidityGates
  rolesHandler := sampleRoles
  enableEpochsHandler := liquidityGates

/-- A sample sender `[0, 1]` holding 10 units of the fungible token `[5]` and
10 units of the fungible token `[6]`. -/
def sampleMultiSender : UserAccount where
  Address := [0, 1]
  DataTrie := fun k =>
    if k = [100, 5] ∨ k = [100, 6] then encodeDCToken { Value := 10, Type_ := Fungible }
    else []

/-- A sample sender-shard call: the account `[0, 1]` of shard 0 sends 3 of token
`[5]` and 4 of token `[6]` to the account `[1, 2]` of shard 1. -/
def sampleMultiInput (gasProvided : Nat) : ContractCallInput :=
  { CallerAddr := [0, 1], RecipientAddr := [0, 1],
    Arguments := [[1, 2], [2], [5], [0], [3], [6], [0], [4]], GasProvided := gasProvided }


/-- Sample gates: the liquidity gates together with the fix for the liquidity
of old tokens. -/
def fixGates : EnableEpochsHandler :=
  { IsSaveToSystemAccountFlagEnabled := true, IsSendAlwaysFlagEnabled := true,
    IsFixOldTokenLiquidityEnabled := true }


/-- Sample gates: system-account metadata, always-propagate and
always-save-metadata active. -/
def alwaysSaveGates : EnableEpochsHandler :=
  { IsSaveToSystemAccountFlagEnabled := true, IsSendAlwaysFlagEnabled := true,
    IsAlwaysSaveTokenMetaDataEnabled := true }

/-- A sample canonical record without reserved marker, carrying the name
`[116]`. -/
def sampleOldRecord : DCToken :=
  { Value := 5, Type_ := NonFungible, Properties := [1, 0],
    TokenMetaData := some { Nonce := 7, Name := [116] } }

/-- A sample record to save: value 3 carrying the name `[110]`. -/
def sampleRenamed : DCToken :=
  { Value := 3, Type_ := NonFungible, TokenMetaData := some { Nonce := 7, Name := [110] } }


/-- A sample NFT transfer component of shard 0 whose token is under limited
transfer and whose roles registry refuses every action. -/
def sampleLimitedNFTTransfer : dctNFTTransfer :=
  { sampleNFTTransfer 0 with
    globalSettingsHandler :=
      { IsPaused := fun _ => false
        IsLimitedTransfer := fun _ => true
        IsBurnForAll := fun _ => false
        IsSenderOrDestinationWithTransferRole := fun _ _ _ => false }
    rolesHandler := { CheckAllowedToExecute := fun _ _ _ => some .ErrActionNotAllowed } }

/-- The sample sender of the NFT transfer: the account `[0, 1]` holding 5 of
token `[5]`, nonce 7. -/
def sampleNFTSender : UserAccount :=
  sampleAccount [0, 1] [100, 5, 7] (encodeDCToken { Value := 5, Type_ := 1 })

/-- The sample account store of the NFT transfer: the system account holds the
canonical record of token `[5]`, nonce 7, with liquidity 10. -/
def sampleNFTStore : AccountsDB :=
  sampleAccounts [100, 5, 7] (encodeDCToken { sampleNFT 10 with Reserved := [1] })


/-- A sample unset-roles call from the system contract: the multi-shard create
role `[5]` of token `[84]` is taken from the account `[0, 1]`. -/
def sampleUnsetMultiShardInput : ContractCallInput :=
  { CallerAddr := [255], Arguments := [[84], [5]], RecipientAddr := [0, 1], Function := [6] }


/-- A sample transfer parser over the concrete marshaler. -/
def sampleTransferParser : dctTransferParser := { marshaller := listMarshalizer }

/-- The eight bytes `0x55` of the number `6148914691236517205`, the largest
`N` with `3 * N < 2 ^ 64`. -/
def thirdOfUint64 : Bytes := [85, 85, 85, 85, 85, 85, 85, 85]


/-- The eight bytes of the number `6148914691236517206`, the smallest `N` with
`3 * N` beyond 64 bits. -/
def thirdOfUint64Next : Bytes := [85, 85, 85, 85, 85, 85, 85, 86]

/-- A sample sender-shard multi-transfer call that declares
`6148914691236517206` legs and carries four arguments. -/
def sampleWrappedSenderInput : ContractCallInput :=
  { CallerAddr := [0, 1], RecipientAddr := [0, 1],
    Arguments := [[1, 2], thirdOfUint64Next, [5], [0]], GasProvided := 100 }

/-- A sample destination-shard multi-transfer call that declares
`6148914691236517205` legs and carries four arguments. -/
def sampleWrappedDestinationInput : ContractCallInput :=
  { CallerAddr := [1, 2], RecipientAddr := [0, 1],
    Arguments := [thirdOfUint64, [5], [0], [3]], GasProvided := 100 }


/-- A sample add-URI component over the sample storage, with function cost 10
and a store cost of 1 per byte. -/
def sampleAddUri : dctNFTAddUri :=
  { keyPrefix := [100], dctStorageHandler := sampleStorage liquidityGates,
    globalSettingsHandler := sampleSettings, rolesHandler := sampleRoles,
    gasConfig := { StorePerByte := 1 }, funcGasCost := 10 }

/-- The sample add-URI call: the account `[0, 1]` adds the URI `[117]` to token
`[5]` at the given nonce, with gas 50. -/
def sampleAddUriInput (nonce : Nat) : ContractCallInput :=
  { CallerAddr := [0, 1], RecipientAddr := [0, 1], Arguments := [[5], [nonce], [117]],
    GasProvided := 50 }


/-- A sample metadata deletion component. -/
def sampleDeleteMetaData : dctDeleteMetaData :=
  { allowedAddress := [0, 1], delete := true, keyPrefix := [100],
    marshaller := listMarshalizer, funcGasCost := 10, function := [4] }

/-- The token identifier `ALC-6258d2`. -/
def sampleTokenID : Bytes := [65, 76, 67, 45, 54, 50, 53, 56, 100, 50]

/-- The eight bytes of `2 ^ 63 - 1`. -/
def halfOfUint64 : Bytes := [127, 255, 255, 255, 255, 255, 255, 255]

/-- The eight bytes of `2 ^ 64 - 1`. -/
def maxUint64Bytes : Bytes := [255, 255, 255, 255, 255, 255, 255, 255]


/-- The sender handle left by the first legacy-mode sample transfer: 2 of the 5
units remain on the account `[0, 1]`. -/
def sampleLegacySecondSender : UserAccount :=
  (sampleAccount [0, 1] [100, 5, 7] (encodeDCToken { Value := 5, Type_ := 1 })).SaveKeyValue
    [100, 5, 7] (encodeDCToken { Value := 2, Type_ := 1 })

/-- The second sample call on the sender shard: the account `[0, 1]` sends its
remaining 2 of token `[5]`, nonce 7, to the account `[1, 2]` of shard 1. -/
def sampleLegacySecondInput : ContractCallInput :=
  { CallerAddr := [0, 1], RecipientAddr := [0, 1], Arguments := [[5], [7], [2], [1, 2]],
    GasProvided := 100 }

/-- The second legacy-mode sample transfer, run on the account store that the
first one (towards the never-marked shard 1) left. -/
def sampleLegacySecondResult : Except Error VMOutput × Option UserAccount × AccountsDB :=
  sampleLegacyNFTTransfer.processNFTTransferOnSenderShard sampleCore
    (sampleLegacyResult false).2.2 (some sampleLegacySecondSender) sampleLegacySecondInput


/-- The outward leg of the sample cycle: 3 of the 5 units that the account
`[0, 1]` of shard 0 holds of token `[5]`, nonce 7, move to the account `[1, 2]`
of shard 1.  The system account of shard 0 holds a liquidity of 10 and shard 1
holds no record of the token nonce. -/
def sampleOutwardLeg : crossShardNFTTransfer where
  eS := sampleNFTTransfer 0
  eD := sampleNFTTransfer 1
  accS := sampleAccounts [100, 5, 7] (encodeDCToken { sampleNFT 10 with Reserved := [1] })
  accD := sampleAccounts [] []
  snd := sampleAccount [0, 1] [100, 5, 7] (encodeDCToken { Value := 5, Type_ := 1 })
  dst := sampleAccount [1, 2] [] []
  vmInput := sampleNFTInput
  vmInputD := sampleNFTInputOnDestination

/-- The return leg of the sample cycle: the account `[1, 2]` of shard 1 sends
the 3 units back to the account `[0, 1]` of shard 0.  Each shard continues from
the account store that the outward leg left there, and each account from the
record that the outward leg left it. -/
def sampleReturnLeg : crossShardNFTTransfer where
  eS := sampleNFTTransfer 1
  eD := sampleNFTTransfer 0
  accS := (sampleOutwardLeg.destinationCall sampleCore).2.2.2
  accD := (sampleOutwardLeg.senderCall sampleCore).2.2.2
  snd := (sampleAccount [1, 2] [] []).SaveKeyValue [100, 5, 7]
    (encodeDCToken { Value := 3, Type_ := 1 })
  dst := (sampleAccount [0, 1] [100, 5, 7] (encodeDCToken { Value := 5, Type_ := 1 })).SaveKeyValue
    [100, 5, 7] (encodeDCToken { Value := 2, Type_ := 1 })
  vmInput :=
    { CallerAddr := [1, 2], RecipientAddr := [1, 2], Arguments := [[5], [7], [3], [0, 1]],
      GasProvided := 100 }
  vmInputD :=
    { CallerAddr := [1, 2], RecipientAddr := [0, 1],
      Arguments := [[5], [7], [3], encodeDCToken (sampleNFT 3)] }


/-- A transfer whose payload carries the one-byte sentinel: the sender shard 0
is in legacy mode and its canonical record already marks shard 1 as sent; the
system account of shard 1 holds a liquidity of 4. -/
def sampleSentinelLeg : crossShardNFTTransfer where
  eS := sampleLegacyNFTTransfer
  eD := sampleNFTTransfer 1
  accS := sampleAccounts [100, 5, 7] (encodeDCToken { sampleNFT 10 with Properties := [0, 1, 0] })
  accD := sampleAccounts [100, 5, 7] (encodeDCToken { sampleNFT 4 with Reserved := [1] })
  snd := sampleAccount [0, 1] [100, 5, 7] (encodeDCToken { Value := 5, Type_ := 1 })
  dst := sampleAccount [1, 2] [] []
  vmInput := sampleNFTInput
  vmInputD := { CallerAddr := [0, 1], RecipientAddr := [1, 2], Arguments := [[5], [7], [3], [0]] }

/-! ## Theorems -/

/-- C10: decoding the encoding of any global metadata (all eight flag
combinations) and of any user metadata (both values of the frozen flag) gives
the metadata back. -/
theorem metadata_roundtrip :
    (∀ g : DCTGlobalMetadata, DCTGlobalMetadataFromBytes g.ToBytes = g) ∧
    (∀ u : DCTUserMetadata, DCTUserMetadataFromBytes u.ToBytes = u) := by
  constructor
  · rintro ⟨p, l, b⟩
    cases p <;> cases l <;> cases b <;> rfl
  · rintro ⟨f⟩
    cases f <;> rfl


/-! ### Storage lemmas -/

@[simp] theorem retrieve_save_same (a : UserAccount) (key value : Bytes) :
    (a.SaveKeyValue key value).RetrieveValue key = value := by
  simp [UserAccount.SaveKeyValue, UserAccount.RetrieveValue]

theorem retrieve_save_other (a : UserAccount) (key value k : Bytes) (h : k ≠ key) :
    (a.SaveKeyValue key value).RetrieveValue k = a.RetrieveValue k := by
  simp [UserAccount.SaveKeyValue, UserAccount.RetrieveValue, Function.update_noteq h]

@[simp] theorem save_address (a : UserAccount) (key value : Bytes) :
    (a.SaveKeyValue key value).Address = a.Address := rfl

theorem arePropertiesEmpty_iff (properties : Bytes) :
    arePropertiesEmpty properties = true ↔ ∀ p ∈ properties, p = 0 := by
  induction properties with
  | nil => simp [arePropertiesEmpty]
  | cons x rest ih =>
    by_cases hx : x = 0
    · simp [arePropertiesEmpty, hx, ih]
    · simp [arePropertiesEmpty, hx]

/-- C9: for a record that the marshaler encodes to non-empty bytes,
`saveDCTData` returns no error and leaves the key without bytes if and only if
the value is zero and every property byte is zero; in every other case the key
holds the marshaled record, so a zero-value record is kept exactly when some
property byte is set.  No other key is touched. -/
theorem saveDCTData_removes_iff (userAcnt : UserAccount) (dctData : DCToken) (key : Bytes)
    (marshaller : Marshalizer) (b : Bytes)
    (hm : marshaller.Marshal dctData = .ok b) (hb : b ≠ []) :
    (saveDCTData userAcnt dctData key marshaller).1 = none ∧
    ((saveDCTData userAcnt dctData key marshaller).2.RetrieveValue key = [] ↔
      (dctData.Value = 0 ∧ ∀ p ∈ dctData.Properties, p = 0)) ∧
    ((saveDCTData userAcnt dctData key marshaller).2.RetrieveValue key = b ↔
      ¬ (dctData.Value = 0 ∧ ∀ p ∈ dctData.Properties, p = 0)) ∧
    (dctData.Value = 0 →
      ((saveDCTData userAcnt dctData key marshaller).2.RetrieveValue key = b ↔
        ∃ p ∈ dctData.Properties, p ≠ 0)) ∧
    (∀ k, k ≠ key →
      (saveDCTData userAcnt dctData key marshaller).2.RetrieveValue k
        = userAcnt.RetrieveValue k) := by
  by_cases hc : dctData.Value = 0 ∧ ∀ p ∈ dctData.Properties, p = 0
  · have hp : arePropertiesEmpty dctData.Properties = true :=
      (arePropertiesEmpty_iff _).2 hc.2
    have hs : saveDCTData userAcnt dctData key marshaller
        = (none, userAcnt.SaveKeyValue key []) := by
      simp [saveDCTData, hc.1, hp]
    rw [hs]
    refine ⟨rfl, ?_, ?_, ?_, ?_⟩
    · simp only [retrieve_save_same, true_iff]
      exact hc
    · simp only [retrieve_save_same]
      constructor
      · intro h; exact absurd h.symm hb
      · intro h; exact absurd hc h
    · intro _
      simp only [retrieve_save_same]
      constructor
      · intro h; exact absurd h.symm hb
      · rintro ⟨p, hp1, hp2⟩; exact absurd (hc.2 p hp1) hp2
    · intro k hk; exact retrieve_save_other _ _ _ _ hk
  · have hcond : (decide (dctData.Value = 0) && arePropertiesEmpty dctData.Properties)
        = false := by
      by_cases hv : dctData.Value = 0
      · have : ¬ arePropertiesEmpty dctData.Properties = true := fun h =>
          hc ⟨hv, (arePropertiesEmpty_iff _).1 h⟩
        simp [hv, this]
      · simp [hv]
    have hs : saveDCTData userAcnt dctData key marshaller
        = (none, userAcnt.SaveKeyValue key b) := by
      simp [saveDCTData, hcond, hm]
    rw [hs]
    refine ⟨rfl, ?_, ?_, ?_, ?_⟩
    · simp only [retrieve_save_same]
      constructor
      · intro h; exact absurd h hb
      · intro h; exact absurd h hc
    · simp [hc]
    · intro hv
      simp only [retrieve_save_same, true_iff]
      by_contra hne
      push_neg at hne
      exact hc ⟨hv, hne⟩
    · intro k hk; exact retrieve_save_other _ _ _ _ hk

/-- Witness for C9: a frozen zero-value record is stored by the concrete
marshaler. -/
theorem saveDCTData_removes_iff_witness :
    listMarshalizer.Marshal { Value := 0, Properties := [1, 0] } = .ok [0, 0, 0, 2, 1, 0, 0, 0] ∧
    (saveDCTData (sampleAccount [7] [] []) { Value := 0, Properties := [1, 0] } [9]
        listMarshalizer).2.RetrieveValue [9] = [0, 0, 0, 2, 1, 0, 0, 0] :=
  ⟨rfl,
    ((saveDCTData_removes_iff (sampleAccount [7] [] []) { Value := 0, Properties := [1, 0] } [9]
      listMarshalizer [0, 0, 0, 2, 1, 0, 0, 0] rfl (by decide)).2.2.1).2 (by decide)⟩


/-- The record read back from a key right after `saveDCTData` wrote it, when
the marshaler round-trips the record through non-empty bytes: the saved value. -/
theorem getDCTDataFromKey_saveDCTData (userAcnt : UserAccount) (dctData : DCToken)
    (key : Bytes) (marshaller : Marshalizer)
    (hrt : ∃ b, marshaller.Marshal dctData = .ok b ∧ b ≠ [] ∧
      marshaller.Unmarshal { Value := 0, Type_ := Fungible } b = .ok dctData) :
    (saveDCTData userAcnt dctData key marshaller).1 = none ∧
    ∃ d, getDCTDataFromKey (saveDCTData userAcnt dctData key marshaller).2 key marshaller
        = .ok d ∧ d.Value = dctData.Value := by
  obtain ⟨b, hm, hb, hun⟩ := hrt
  by_cases hc : (decide (dctData.Value = 0) && arePropertiesEmpty dctData.Properties) = true
  · have hs : saveDCTData userAcnt dctData key marshaller
        = (none, userAcnt.SaveKeyValue key []) := by
      simp only [saveDCTData, hc, if_true]
    have hv : dctData.Value = 0 := by
      simp only [Bool.and_eq_true, decide_eq_true_eq] at hc
      exact hc.1
    rw [hs]
    refine ⟨rfl, { Value := 0, Type_ := Fungible }, ?_, hv.symm⟩
    simp [getDCTDataFromKey]
  · have hs : saveDCTData userAcnt dctData key marshaller
        = (none, userAcnt.SaveKeyValue key b) := by
      simp only [saveDCTData, hc, hm]
      rfl
    rw [hs]
    refine ⟨rfl, dctData, ?_, rfl⟩
    have hlen : b.length ≠ 0 := fun h => hb (List.length_eq_zero.1 h)
    simp [getDCTDataFromKey, hlen, hun, liftMarshal]

/-- C3: for a stored fungible record `d` (the default zero record when the key
is absent) that passes the frozen/paused check, `addToDCTBalance` returns
`ErrInsufficientFunds` and leaves the account unchanged if and only if
`d.Value + delta < 0`; otherwise it returns no error and the record read back
from the key has the value `d.Value + delta`, which is not negative.  The
marshaler is assumed to round-trip the updated record through non-empty bytes. -/
theorem addToDCTBalance_insufficient_iff (c : Core) (userAcnt : UserAccount) (key : Bytes)
    (delta : Int) (marshaller : Marshalizer) (gs : DCTGlobalSettingsHandler)
    (isReturnWithError : Bool) (d : DCToken)
    (hget : getDCTDataFromKey userAcnt key marshaller = .ok d)
    (hty : d.Type_ = Fungible)
    (hchk : checkFrozeAndPause c userAcnt.Address key d gs isReturnWithError = none)
    (hrt : 0 ≤ d.Value + delta →
      ∃ b, marshaller.Marshal { d with Value := d.Value + delta } = .ok b ∧ b ≠ [] ∧
        marshaller.Unmarshal { Value := 0, Type_ := Fungible } b
          = .ok { d with Value := d.Value + delta }) :
    (((addToDCTBalance c userAcnt key delta marshaller gs isReturnWithError).1
          = some .ErrInsufficientFunds ∧
        (addToDCTBalance c userAcnt key delta marshaller gs isReturnWithError).2 = userAcnt)
      ↔ d.Value + delta < 0) ∧
    (0 ≤ d.Value + delta →
      (addToDCTBalance c userAcnt key delta marshaller gs isReturnWithError).1 = none ∧
      ∃ d1, getDCTDataFromKey
          (addToDCTBalance c userAcnt key delta marshaller gs isReturnWithError).2 key marshaller
          = .ok d1 ∧ d1.Value = d.Value + delta ∧ 0 ≤ d1.Value) := by
  by_cases hneg : d.Value + delta < 0
  · have hs : addToDCTBalance c userAcnt key delta marshaller gs isReturnWithError
        = (some .ErrInsufficientFunds, userAcnt) := by
      simp [addToDCTBalance, hget, hty, hchk, hneg]
    rw [hs]
    exact ⟨⟨fun _ => hneg, fun _ => ⟨rfl, rfl⟩⟩, fun h => absurd hneg (not_lt.2 h)⟩
  · have hs : addToDCTBalance c userAcnt key delta marshaller gs isReturnWithError
        = saveDCTData userAcnt { d with Value := d.Value + delta } key marshaller := by
      simp [addToDCTBalance, hget, hty, hchk, hneg]
    have hnn : 0 ≤ d.Value + delta := not_lt.1 hneg
    obtain ⟨hnone, d1, hd1, hv⟩ :=
      getDCTDataFromKey_saveDCTData userAcnt { d with Value := d.Value + delta } key marshaller
        (hrt hnn)
    rw [hs]
    refine ⟨⟨fun h => ?_, fun h => absurd h hneg⟩, fun _ => ⟨hnone, d1, hd1, hv, ?_⟩⟩
    · rw [hnone] at h
      exact absurd h.1 (by simp)
    · rw [hv]; exact hnn

/-- Witness for C3: adding 5 to a stored balance of 10 with the concrete
marshaler. -/
theorem addToDCTBalance_insufficient_iff_witness :
    getDCTDataFromKey (sampleAccount [7] [9] (encodeDCToken { Value := 10 })) [9] listMarshalizer
      = .ok { Value := 10 } ∧
    (addToDCTBalance sampleCore (sampleAccount [7] [9] (encodeDCToken { Value := 10 })) [9] 5
      listMarshalizer sampleSettings false).1 = none :=
  ⟨rfl,
    ((addToDCTBalance_insufficient_iff sampleCore
      (sampleAccount [7] [9] (encodeDCToken { Value := 10 })) [9] 5 listMarshalizer
      sampleSettings false { Value := 10 } rfl rfl rfl
      (fun _ => ⟨encodeDCToken { Value := 15 }, rfl, by decide, rfl⟩)).2 (by decide)).1⟩


/-- The destination-side read reports a new record exactly when no bytes are
stored under the user key, and then returns the zero-value fungible record. -/
theorem GetDCTNFTTokenOnDestination_isNew (e : dctDataStorage) (c : Core)
    (accounts : AccountsDB) (accnt : UserAccount) (dctTokenKey : Bytes) (nonce : Nat)
    (d : DCToken) :
    e.GetDCTNFTTokenOnDestination c accounts accnt dctTokenKey nonce = .ok (d, true) ↔
      (accnt.RetrieveValue (computeDCTNFTTokenKey dctTokenKey nonce) = [] ∧
        d = { Value := 0, Type_ := Fungible }) := by
  unfold dctDataStorage.GetDCTNFTTokenOnDestination
    dctDataStorage.getDCTNFTTokenOnDestinationWithAccountsAdapterOptions
  by_cases hlen : (accnt.RetrieveValue (computeDCTNFTTokenKey dctTokenKey nonce)).length = 0
  · have hnil := List.length_eq_zero.1 hlen
    simp only [hnil, List.length_nil, if_true, true_and]
    constructor
    · intro h; injection h with h; injection h with h1 _; exact h1.symm
    · intro h; rw [h]
  · have hnil : accnt.RetrieveValue (computeDCTNFTTokenKey dctTokenKey nonce) ≠ [] :=
      fun h => hlen (by rw [h]; rfl)
    simp only [hlen, if_false, hnil, false_and, iff_false]
    cases e.marshaller.Unmarshal { Value := 0, Type_ := Fungible }
        (accnt.RetrieveValue (computeDCTNFTTokenKey dctTokenKey nonce)) with
    | error code => simp
    | ok d1 =>
      by_cases hg : (!e.enableEpochsHandler.IsSaveToSystemAccountFlagEnabled
          || decide (nonce = 0)) = true
      · simp [hg]
      · simp only [hg]
        cases e.getDCTMetaDataFromSystemAccount c accounts
            (computeDCTNFTTokenKey dctTokenKey nonce) defaultQueryOptions with
        | error err => simp
        | ok md => cases md <;> simp

/-- The canonical-record read only fails with a marshaler error. -/
theorem getDCTDigitalTokenDataFromSystemAccount_error (e : dctDataStorage) (c : Core)
    (accounts : AccountsDB) (tokenKey : Bytes) (options : queryOptions) (err : Error)
    (h : e.getDCTDigitalTokenDataFromSystemAccount c accounts tokenKey options = .error err) :
    ∃ code, err = .ErrMarshalizer code := by
  unfold dctDataStorage.getDCTDigitalTokenDataFromSystemAccount at h
  by_cases hlen : ((e.getSystemAccount c accounts options).RetrieveValue tokenKey).length = 0
  · simp [hlen] at h
  · cases hu : e.marshaller.Unmarshal {}
        ((e.getSystemAccount c accounts options).RetrieveValue tokenKey) with
    | error code =>
      simp [hlen, hu] at h
      exact ⟨code, h.symm⟩
    | ok d => simp [hlen, hu] at h

/-- The canonical-metadata read only fails with a marshaler error. -/
theorem getDCTMetaDataFromSystemAccount_error (e : dctDataStorage) (c : Core)
    (accounts : AccountsDB) (tokenKey : Bytes) (options : queryOptions) (err : Error)
    (h : e.getDCTMetaDataFromSystemAccount c accounts tokenKey options = .error err) :
    ∃ code, err = .ErrMarshalizer code := by
  unfold dctDataStorage.getDCTMetaDataFromSystemAccount at h
  cases hd : e.getDCTDigitalTokenDataFromSystemAccount c accounts tokenKey options with
  | error err1 =>
    rw [hd] at h
    simp at h
    subst h
    exact getDCTDigitalTokenDataFromSystemAccount_error e c accounts tokenKey options _ hd
  | ok r =>
    obtain ⟨od, acc⟩ := r
    rw [hd] at h
    cases od <;> simp at h

/-- The destination-side read only fails with a marshaler error. -/
theorem GetDCTNFTTokenOnDestination_error (e : dctDataStorage) (c : Core)
    (accounts : AccountsDB) (accnt : UserAccount) (dctTokenKey : Bytes) (nonce : Nat)
    (err : Error)
    (h : e.GetDCTNFTTokenOnDestination c accounts accnt dctTokenKey nonce = .error err) :
    ∃ code, err = .ErrMarshalizer code := by
  unfold dctDataStorage.GetDCTNFTTokenOnDestination
    dctDataStorage.getDCTNFTTokenOnDestinationWithAccountsAdapterOptions at h
  by_cases hlen : (accnt.RetrieveValue (computeDCTNFTTokenKey dctTokenKey nonce)).length = 0
  · simp [hlen] at h
  · cases hu : e.marshaller.Unmarshal { Value := 0, Type_ := Fungible }
        (accnt.RetrieveValue (computeDCTNFTTokenKey dctTokenKey nonce)) with
    | error code =>
      simp [hlen, hu] at h
      exact ⟨code, h.symm⟩
    | ok d =>
      by_cases hg : (!e.enableEpochsHandler.IsSaveToSystemAccountFlagEnabled
          || decide (nonce = 0)) = true
      · simp [hlen, hu, hg] at h
      · cases hm : e.getDCTMetaDataFromSystemAccount c accounts
            (computeDCTNFTTokenKey dctTokenKey nonce) defaultQueryOptions with
        | error err1 =>
          simp only [hlen, hu, hg, hm, if_false] at h
          injection h with h
          subst h
          exact getDCTMetaDataFromSystemAccount_error e c accounts _ _ _ hm
        | ok md =>
          cases md <;> simp [hlen, hu, hg, hm] at h

/-- C7: the sender-side read fails with `ErrNewNFTDataOnSenderAddress` exactly
when the destination-side read on the same arguments reports `isNew = true`,
which is exactly when no bytes are stored under the user key; otherwise it
returns the same record, or the same error.  For an absent key the
destination-side read returns the zero-value fungible record with
`isNew = true` and no error. -/
theorem GetDCTNFTTokenOnSender_new_iff (e : dctDataStorage) (c : Core) (accounts : AccountsDB)
    (accnt : UserAccount) (dctTokenKey : Bytes) (nonce : Nat) :
    (e.GetDCTNFTTokenOnSender c accounts accnt dctTokenKey nonce
        = .error .ErrNewNFTDataOnSenderAddress ↔
      ∃ d, e.GetDCTNFTTokenOnDestination c accounts accnt dctTokenKey nonce = .ok (d, true)) ∧
    ((∃ d, e.GetDCTNFTTokenOnDestination c accounts accnt dctTokenKey nonce = .ok (d, true)) ↔
      accnt.RetrieveValue (computeDCTNFTTokenKey dctTokenKey nonce) = []) ∧
    (∀ d, e.GetDCTNFTTokenOnDestination c accounts accnt dctTokenKey nonce = .ok (d, false) →
      e.GetDCTNFTTokenOnSender c accounts accnt dctTokenKey nonce = .ok d) ∧
    (∀ err, e.GetDCTNFTTokenOnDestination c accounts accnt dctTokenKey nonce = .error err →
      e.GetDCTNFTTokenOnSender c accounts accnt dctTokenKey nonce = .error err) ∧
    (accnt.RetrieveValue (computeDCTNFTTokenKey dctTokenKey nonce) = [] →
      e.GetDCTNFTTokenOnDestination c accounts accnt dctTokenKey nonce
        = .ok ({ Value := 0, Type_ := Fungible }, true)) := by
  refine ⟨?_, ?_, ?_, ?_, ?_⟩
  · constructor
    · intro h
      unfold dctDataStorage.GetDCTNFTTokenOnSender at h
      cases hd : e.GetDCTNFTTokenOnDestination c accounts accnt dctTokenKey nonce with
      | error err =>
        rw [hd] at h
        have herr : err = .ErrNewNFTDataOnSenderAddress := by injection h
        subst herr
        obtain ⟨code, hcode⟩ :=
          GetDCTNFTTokenOnDestination_error e c accounts accnt dctTokenKey nonce _ hd
        cases hcode
      | ok r =>
        obtain ⟨d, isNew⟩ := r
        rw [hd] at h
        cases isNew with
        | true => exact ⟨d, rfl⟩
        | false => simp at h
    · rintro ⟨d, hd⟩
      simp [dctDataStorage.GetDCTNFTTokenOnSender, hd]
  · constructor
    · rintro ⟨d, hd⟩
      exact ((GetDCTNFTTokenOnDestination_isNew e c accounts accnt dctTokenKey nonce d).1 hd).1
    · intro h
      exact ⟨_, (GetDCTNFTTokenOnDestination_isNew e c accounts accnt dctTokenKey nonce _).2
        ⟨h, rfl⟩⟩
  · intro d hd
    simp [dctDataStorage.GetDCTNFTTokenOnSender, hd]
  · intro err hd
    simp [dctDataStorage.GetDCTNFTTokenOnSender, hd]
  · intro h
    exact (GetDCTNFTTokenOnDestination_isNew e c accounts accnt dctTokenKey nonce _).2 ⟨h, rfl⟩


/-- C1: with the system-account-metadata and always-propagate gates on, the
fix-old-token-liquidity gate off and `nonce > 0`, when the system account holds
at the nonce key a record `rec` with a non-empty reserved marker:
if `rec.Value + delta < 0` the call returns `ErrInvalidLiquidityForDCT` and the
account store is unchanged; if `rec.Value + delta = 0` it returns no error and
the key is removed from the system account; otherwise it stores under the key
the marshaled record `rec` with value `rec.Value + delta`, all other fields
unchanged (a marshaler failure is returned with the store unchanged).  The
stored accumulator is therefore never negative. -/
theorem AddToLiquiditySystemAcc_reserved (e : dctDataStorage) (c : Core)
    (accounts : AccountsDB) (dctTokenKey : Bytes) (nonce : Nat) (delta : Int) (rec : DCToken)
    (hsave : e.enableEpochsHandler.IsSaveToSystemAccountFlagEnabled = true)
    (hsend : e.enableEpochsHandler.IsSendAlwaysFlagEnabled = true)
    (hfix : e.enableEpochsHandler.IsFixOldTokenLiquidityEnabled = false)
    (hnonce : 0 < nonce)
    (hbytes : (accounts.LoadAccount c.SystemAccountAddress).RetrieveValue
      (computeDCTNFTTokenKey dctTokenKey nonce) ≠ [])
    (hrec : e.marshaller.Unmarshal {}
      ((accounts.LoadAccount c.SystemAccountAddress).RetrieveValue
        (computeDCTNFTTokenKey dctTokenKey nonce)) = .ok rec)
    (hres : rec.Reserved ≠ []) :
    e.AddToLiquiditySystemAcc c accounts dctTokenKey nonce delta =
      if rec.Value + delta < 0 then (some .ErrInvalidLiquidityForDCT, accounts)
      else if rec.Value + delta = 0 then
        (none, accounts.SaveAccount
          ((accounts.LoadAccount c.SystemAccountAddress).SaveKeyValue
            (computeDCTNFTTokenKey dctTokenKey nonce) []))
      else
        match e.marshaller.Marshal { rec with Value := rec.Value + delta } with
        | .ok b =>
          (none, accounts.SaveAccount
            ((accounts.LoadAccount c.SystemAccountAddress).SaveKeyValue
              (computeDCTNFTTokenKey dctTokenKey nonce) b))
        | .error code => (some (.ErrMarshalizer code), accounts) := by
  have hn : nonce ≠ 0 := Nat.pos_iff_ne_zero.1 hnonce
  have hlen : ((accounts.LoadAccount c.SystemAccountAddress).RetrieveValue
      (computeDCTNFTTokenKey dctTokenKey nonce)).length ≠ 0 :=
    fun h => hbytes (List.length_eq_zero.1 h)
  have hrl : rec.Reserved.length ≠ 0 := fun h => hres (List.length_eq_zero.1 h)
  have hget : e.getDCTDigitalTokenDataFromSystemAccount c accounts
      (computeDCTNFTTokenKey dctTokenKey nonce) defaultQueryOptions
      = .ok (some rec, accounts.LoadAccount c.SystemAccountAddress) := by
    simp [dctDataStorage.getDCTDigitalTokenDataFromSystemAccount,
      dctDataStorage.getSystemAccount, dctDataStorage.loadSystemAccount, defaultQueryOptions,
      hlen, hrec]
  unfold dctDataStorage.AddToLiquiditySystemAcc
  simp only [hsave, hsend, hfix, hn, hget, hrl, Bool.not_true, Bool.false_or, decide_False,
    Bool.false_and, if_false, Bool.false_eq_true]
  by_cases hneg : rec.Value + delta < 0
  · simp only [hneg, if_true]
  · simp only [hneg, if_false]
    by_cases hz : rec.Value + delta = 0
    · simp only [hz, if_true]
    · simp only [hz, if_false, dctDataStorage.marshalAndSaveData]
      cases e.marshaller.Marshal { rec with Value := rec.Value + delta } <;> rfl

/-- Witness for C1: a reserved accumulator of 10 decreased by 10 is removed. -/
theorem AddToLiquiditySystemAcc_reserved_witness :
    ((sampleAccounts [100, 5, 7] (encodeDCToken { Value := 10, Reserved := [1] })).LoadAccount
        sampleCore.SystemAccountAddress).RetrieveValue (computeDCTNFTTokenKey [100, 5] 7)
      = encodeDCToken { Value := 10, Reserved := [1] } ∧
    ((sampleStorage liquidityGates).AddToLiquiditySystemAcc sampleCore
      (sampleAccounts [100, 5, 7] (encodeDCToken { Value := 10, Reserved := [1] }))
      [100, 5] 7 (-10)).1 = none :=
  ⟨rfl, by
    rw [AddToLiquiditySystemAcc_reserved
      (sampleStorage liquidityGates) sampleCore
      (sampleAccounts [100, 5, 7] (encodeDCToken { Value := 10, Reserved := [1] }))
      [100, 5] 7 (-10) { Value := 10, Reserved := [1] } rfl rfl rfl (by decide) (by decide) rfl
      (by decide)]
    rfl⟩


/-- C8: when the frozen/paused checks pass, the value of the record is not
positive and the metadata write to the system account (performed only with the
system-account-metadata gate on) does not fail, `SaveDCTNFTToken` returns no
error and no serialized bytes and removes the user-side key of
`(dctTokenKey, nonce)`; a following `GetDCTNFTTokenOnDestination` on the
returned account returns the zero-value fungible record with `isNew = true`. -/
theorem SaveDCTNFTToken_nonpositive (e : dctDataStorage) (c : Core) (accounts : AccountsDB)
    (senderAddress : Bytes) (acnt : UserAccount) (dctTokenKey : Bytes) (nonce : Nat)
    (dctData : DCToken) (mustUpdateAllFields isReturnWithError : Bool)
    (hchk : e.checkFrozenPauseProperties c acnt dctTokenKey nonce dctData isReturnWithError
      = none)
    (hv : dctData.Value ≤ 0)
    (hms : e.enableEpochsHandler.IsSaveToSystemAccountFlagEnabled = true →
      (e.saveDCTMetaDataToSystemAccount c accounts (some acnt)
        (e.shardCoordinator.ComputeId senderAddress) (computeDCTNFTTokenKey dctTokenKey nonce)
        nonce dctData mustUpdateAllFields).1 = none) :
    (e.SaveDCTNFTToken c accounts senderAddress acnt dctTokenKey nonce dctData
        mustUpdateAllFields isReturnWithError).1 = .ok [] ∧
    (e.SaveDCTNFTToken c accounts senderAddress acnt dctTokenKey nonce dctData
        mustUpdateAllFields isReturnWithError).2.1
      = acnt.SaveKeyValue (computeDCTNFTTokenKey dctTokenKey nonce) [] ∧
    (e.SaveDCTNFTToken c accounts senderAddress acnt dctTokenKey nonce dctData
        mustUpdateAllFields isReturnWithError).2.1.RetrieveValue
      (computeDCTNFTTokenKey dctTokenKey nonce) = [] ∧
    e.GetDCTNFTTokenOnDestination c
        (e.SaveDCTNFTToken c accounts senderAddress acnt dctTokenKey nonce dctData
          mustUpdateAllFields isReturnWithError).2.2
        (e.SaveDCTNFTToken c accounts senderAddress acnt dctTokenKey nonce dctData
          mustUpdateAllFields isReturnWithError).2.1 dctTokenKey nonce
      = .ok ({ Value := 0, Type_ := Fungible }, true) := by
  have hs : ∃ accounts1,
      e.SaveDCTNFTToken c accounts senderAddress acnt dctTokenKey nonce dctData
        mustUpdateAllFields isReturnWithError
      = (.ok [], acnt.SaveKeyValue (computeDCTNFTTokenKey dctTokenKey nonce) [], accounts1) := by
    unfold dctDataStorage.SaveDCTNFTToken
    simp only [hchk]
    by_cases hg : e.enableEpochsHandler.IsSaveToSystemAccountFlagEnabled = true
    · have h1 := hms hg
      generalize hr : e.saveDCTMetaDataToSystemAccount c accounts (some acnt)
        (e.shardCoordinator.ComputeId senderAddress) (computeDCTNFTTokenKey dctTokenKey nonce)
        nonce dctData mustUpdateAllFields = r at h1
      obtain ⟨r1, r2⟩ := r
      simp only at h1
      subst h1
      simp only [hg, if_true, hr, hv]
      exact ⟨r2, rfl⟩
    · simp only [hg, hv, if_true]
      exact ⟨accounts, rfl⟩
  obtain ⟨accounts1, hs⟩ := hs
  rw [hs]
  refine ⟨rfl, rfl, retrieve_save_same _ _ _, ?_⟩
  exact (GetDCTNFTTokenOnDestination_isNew e c accounts1 _ dctTokenKey nonce _).2
    ⟨retrieve_save_same _ _ _, rfl⟩


/-- Witness for C8: saving a record of value zero over a stored quantity of ten
removes the user-side key. -/
theorem SaveDCTNFTToken_nonpositive_witness :
    (sampleStorage liquidityGates).checkFrozenPauseProperties sampleCore
        (sampleAccount [1, 7] [100, 5, 7] (encodeDCToken (sampleNFT 10))) [100, 5] 7
        (sampleNFT 0) false = none ∧
    ((sampleStorage liquidityGates).SaveDCTNFTToken sampleCore (sampleAccounts [] [])
        [1, 7] (sampleAccount [1, 7] [100, 5, 7] (encodeDCToken (sampleNFT 10))) [100, 5] 7
        (sampleNFT 0) false false).1 = .ok [] :=
  ⟨rfl,
    (SaveDCTNFTToken_nonpositive (sampleStorage liquidityGates) sampleCore (sampleAccounts [] [])
      [1, 7] (sampleAccount [1, 7] [100, 5, 7] (encodeDCToken (sampleNFT 10))) [100, 5] 7
      (sampleNFT 0) false false rfl (by decide) (fun _ => rfl)).1⟩


/-- With the always-save-metadata gate off, a canonical-record write that does
not update all fields leaves the account store unchanged when the system
account already holds bytes at the nonce key. -/
theorem saveDCTMetaDataToSystemAccount_existing (e : dctDataStorage) (c : Core)
    (accounts : AccountsDB) (userAcc : Option UserAccount) (senderShardID : Nat)
    (dctNFTTokenKey : Bytes) (nonce : Nat) (dctData : DCToken)
    (halways : e.enableEpochsHandler.IsAlwaysSaveTokenMetaDataEnabled = false)
    (hsys : (accounts.LoadAccount c.SystemAccountAddress).RetrieveValue dctNFTTokenKey ≠ []) :
    e.saveDCTMetaDataToSystemAccount c accounts userAcc senderShardID dctNFTTokenKey nonce
      dctData false = (none, accounts) := by
  have hlen : 0 < ((accounts.LoadAccount c.SystemAccountAddress).RetrieveValue
      dctNFTTokenKey).length := List.length_pos.2 hsys
  unfold dctDataStorage.saveDCTMetaDataToSystemAccount
  by_cases hn : nonce = 0
  · simp [hn]
  · by_cases hmd : dctData.TokenMetaData.isNone = true
    · simp [hn, hmd]
    · simp [hn, hmd, dctDataStorage.saveMetadataIfRequired, halways,
        dctDataStorage.getSystemAccount, dctDataStorage.loadSystemAccount, defaultQueryOptions,
        hlen]

/-- C6 (amended): with the system-account-metadata gate on and the
always-save-metadata gate off, `SaveDCTNFTToken` with
`mustUpdateAllFields = false` for `nonce > 0`, when the system account already
holds bytes at the nonce key, leaves the account store (hence that
system-account record) unchanged, whatever metadata the saved record carries.
When moreover the saved value is positive, the call succeeds, the marshaler
round-trips the stored user-side projection and the system-account bytes
decode to `sysRec`, a following `GetDCTNFTTokenOnDestination` returns the saved
type, value and properties together with the metadata of `sysRec`. -/
theorem SaveDCTNFTToken_keeps_system_record (e : dctDataStorage) (c : Core)
    (accounts : AccountsDB) (senderAddress : Bytes) (acnt : UserAccount) (dctTokenKey : Bytes)
    (nonce : Nat) (dctData : DCToken) (isReturnWithError : Bool)
    (hsave : e.enableEpochsHandler.IsSaveToSystemAccountFlagEnabled = true)
    (halways : e.enableEpochsHandler.IsAlwaysSaveTokenMetaDataEnabled = false)
    (hnonce : 0 < nonce)
    (hsys : (accounts.LoadAccount c.SystemAccountAddress).RetrieveValue
      (computeDCTNFTTokenKey dctTokenKey nonce) ≠ []) :
    (e.SaveDCTNFTToken c accounts senderAddress acnt dctTokenKey nonce dctData false
        isReturnWithError).2.2 = accounts ∧
    (∀ (sysRec : DCToken) (b : Bytes),
      0 < dctData.Value →
      (e.SaveDCTNFTToken c accounts senderAddress acnt dctTokenKey nonce dctData false
        isReturnWithError).1 = .ok b →
      b ≠ [] →
      e.marshaller.Unmarshal { Value := 0, Type_ := Fungible } b
        = .ok { Type_ := dctData.Type_, Value := dctData.Value,
                Properties := dctData.Properties } →
      e.marshaller.Unmarshal {}
        ((accounts.LoadAccount c.SystemAccountAddress).RetrieveValue
          (computeDCTNFTTokenKey dctTokenKey nonce)) = .ok sysRec →
      e.GetDCTNFTTokenOnDestination c
          (e.SaveDCTNFTToken c accounts senderAddress acnt dctTokenKey nonce dctData false
            isReturnWithError).2.2
          (e.SaveDCTNFTToken c accounts senderAddress acnt dctTokenKey nonce dctData false
            isReturnWithError).2.1 dctTokenKey nonce
        = .ok ({ Type_ := dctData.Type_, Value := dctData.Value,
                 Properties := dctData.Properties,
                 TokenMetaData := sysRec.TokenMetaData }, false)) := by
  have hmeta := saveDCTMetaDataToSystemAccount_existing e c accounts (some acnt)
    (e.shardCoordinator.ComputeId senderAddress) (computeDCTNFTTokenKey dctTokenKey nonce) nonce
    dctData halways hsys
  have hn : nonce ≠ 0 := Nat.pos_iff_ne_zero.1 hnonce
  have hslen : ((accounts.LoadAccount c.SystemAccountAddress).RetrieveValue
      (computeDCTNFTTokenKey dctTokenKey nonce)).length ≠ 0 :=
    fun h => hsys (List.length_eq_zero.1 h)
  constructor
  · unfold dctDataStorage.SaveDCTNFTToken
    cases e.checkFrozenPauseProperties c acnt dctTokenKey nonce dctData isReturnWithError with
    | some err => rfl
    | none =>
      simp only [hsave, if_true, hmeta, Bool.not_true, Bool.false_eq_true, if_false]
      by_cases hv : dctData.Value ≤ 0
      · simp only [hv, if_true]
      · simp only [hv, if_false]
        cases e.marshaller.Marshal
          { Type_ := dctData.Type_, Value := dctData.Value, Properties := dctData.Properties }
          <;> rfl
  · intro sysRec b hpos hok hb hun hsysrec
    have hv : ¬ dctData.Value ≤ 0 := not_le.2 hpos
    have hs : e.SaveDCTNFTToken c accounts senderAddress acnt dctTokenKey nonce dctData false
        isReturnWithError
        = (.ok b, acnt.SaveKeyValue (computeDCTNFTTokenKey dctTokenKey nonce) b, accounts) := by
      revert hok
      unfold dctDataStorage.SaveDCTNFTToken
      cases e.checkFrozenPauseProperties c acnt dctTokenKey nonce dctData isReturnWithError with
      | some err => intro hok; cases hok
      | none =>
        simp only [hsave, if_true, hmeta, Bool.not_true, Bool.false_eq_true, if_false, hv]
        cases e.marshaller.Marshal
          { Type_ := dctData.Type_, Value := dctData.Value, Properties := dctData.Properties }
          with
        | error code => intro hok; cases hok
        | ok b1 =>
          intro hok
          simp only at hok
          injection hok with hok
          subst hok
          rfl
    rw [hs]
    have hblen : b.length ≠ 0 := fun h => hb (List.length_eq_zero.1 h)
    simp only [dctDataStorage.GetDCTNFTTokenOnDestination,
      dctDataStorage.getDCTNFTTokenOnDestinationWithAccountsAdapterOptions,
      retrieve_save_same, hblen, if_false, hun, hsave, hn, Bool.not_true, decide_False,
      Bool.or_self, Bool.false_eq_true, dctDataStorage.getDCTMetaDataFromSystemAccount,
      dctDataStorage.getDCTDigitalTokenDataFromSystemAccount, dctDataStorage.getSystemAccount,
      dctDataStorage.loadSystemAccount, defaultQueryOptions, hslen, hsysrec]
    cases hmd : sysRec.TokenMetaData <;> simp [hmd]


/-- Witness for C6: the system account keeps the stored name while a record of
value 100 carrying another name is saved; the read-back has value 100 and the
stored name. -/
theorem SaveDCTNFTToken_keeps_system_record_witness :
    ((sampleAccounts [100, 5, 7] (encodeDCToken (sampleNFT 0))).LoadAccount
        sampleCore.SystemAccountAddress).RetrieveValue (computeDCTNFTTokenKey [100, 5] 7) ≠ [] ∧
    (sampleStorage liquidityGates).GetDCTNFTTokenOnDestination sampleCore
        ((sampleStorage liquidityGates).SaveDCTNFTToken sampleCore
          (sampleAccounts [100, 5, 7] (encodeDCToken (sampleNFT 0))) [1, 7]
          (sampleAccount [1, 7] [] []) [100, 5] 7
          { Value := 100, TokenMetaData := some { Name := [110] } } false false).2.2
        ((sampleStorage liquidityGates).SaveDCTNFTToken sampleCore
          (sampleAccounts [100, 5, 7] (encodeDCToken (sampleNFT 0))) [1, 7]
          (sampleAccount [1, 7] [] []) [100, 5] 7
          { Value := 100, TokenMetaData := some { Name := [110] } } false false).2.1
        [100, 5] 7
      = .ok ({ Value := 100, TokenMetaData := some { Nonce := 7, Name := [116] } }, false) :=
  ⟨by decide,
    (SaveDCTNFTToken_keeps_system_record (sampleStorage liquidityGates) sampleCore
      (sampleAccounts [100, 5, 7] (encodeDCToken (sampleNFT 0))) [1, 7]
      (sampleAccount [1, 7] [] []) [100, 5] 7
      { Value := 100, TokenMetaData := some { Name := [110] } } false rfl rfl (by decide)
      (by decide)).2 (sampleNFT 0) (encodeDCToken { Value := 100 }) (by decide) rfl (by decide)
      rfl rfl⟩


/-- A successful `addToDCTBalance` on a stored record `d` leaves a record of
value `d.Value + delta` under the key, when the marshaler round-trips it. -/
theorem addToDCTBalance_success (c : Core) (userAcnt : UserAccount) (key : Bytes)
    (delta : Int) (marshaller : Marshalizer) (gs : DCTGlobalSettingsHandler)
    (isReturnWithError : Bool) (d : DCToken)
    (hget : getDCTDataFromKey userAcnt key marshaller = .ok d)
    (hnone : (addToDCTBalance c userAcnt key delta marshaller gs isReturnWithError).1 = none)
    (hrt : ∃ b, marshaller.Marshal { d with Value := d.Value + delta } = .ok b ∧ b ≠ [] ∧
        marshaller.Unmarshal { Value := 0, Type_ := Fungible } b
          = .ok { d with Value := d.Value + delta }) :
    ∃ d1, getDCTDataFromKey
        (addToDCTBalance c userAcnt key delta marshaller gs isReturnWithError).2 key marshaller
        = .ok d1 ∧ d1.Value = d.Value + delta := by
  unfold addToDCTBalance at hnone ⊢
  simp only [hget] at hnone ⊢
  by_cases hty : d.Type_ ≠ Fungible
  · simp [hty] at hnone
  · simp only [hty, if_false] at hnone ⊢
    cases hchk : checkFrozeAndPause c userAcnt.Address key d gs isReturnWithError with
    | some err => simp [hchk] at hnone
    | none =>
      simp only [hchk] at hnone ⊢
      by_cases hneg : d.Value + delta < 0
      · simp [hneg] at hnone
      · simp only [hneg, if_false] at hnone ⊢
        exact (getDCTDataFromKey_saveDCTData userAcnt _ key marshaller hrt).2

/-- A `saveDCTData` that returns an error leaves the account unchanged. -/
theorem saveDCTData_error_unchanged (userAcnt : UserAccount) (dctData : DCToken) (key : Bytes)
    (marshaller : Marshalizer) (err : Error)
    (herr : (saveDCTData userAcnt dctData key marshaller).1 = some err) :
    (saveDCTData userAcnt dctData key marshaller).2 = userAcnt := by
  by_cases hc : (decide (dctData.Value = 0) && arePropertiesEmpty dctData.Properties) = true
  · simp [saveDCTData, hc] at herr
  · cases hm : marshaller.Marshal dctData with
    | error code => simp [saveDCTData, hc, hm]
    | ok b => simp [saveDCTData, hc, hm] at herr

/-- An `addToDCTBalance` that returns an error leaves the account unchanged. -/
theorem addToDCTBalance_error_unchanged (c : Core) (userAcnt : UserAccount) (key : Bytes)
    (delta : Int) (marshaller : Marshalizer) (gs : DCTGlobalSettingsHandler)
    (isReturnWithError : Bool) (err : Error)
    (herr : (addToDCTBalance c userAcnt key delta marshaller gs isReturnWithError).1 = some err) :
    (addToDCTBalance c userAcnt key delta marshaller gs isReturnWithError).2 = userAcnt := by
  unfold addToDCTBalance at herr ⊢
  cases hget : getDCTDataFromKey userAcnt key marshaller with
  | error e1 => rfl
  | ok d =>
    simp only [hget] at herr ⊢
    by_cases hty : d.Type_ ≠ Fungible
    · simp [hty]
    · simp only [hty, if_false] at herr ⊢
      cases hchk : checkFrozeAndPause c userAcnt.Address key d gs isReturnWithError with
      | some e1 => rfl
      | none =>
        simp only [hchk] at herr ⊢
        by_cases hneg : d.Value + delta < 0
        · simp [hneg]
        · simp only [hneg, if_false] at herr ⊢
          exact saveDCTData_error_unchanged userAcnt _ key marshaller err herr


/-- A successful fungible transfer with both accounts present has a positive
value, debited the sender with it and credited the destination with it. -/
theorem dctTransfer_success_legs (e : dctTransfer) (c : Core) (snd dst : UserAccount)
    (vmInput : ContractCallInput) (out : VMOutput) (snd1 dst1 : Option UserAccount)
    (hres : e.ProcessBuiltinFunction c (some snd) (some dst) (some vmInput)
      = (.ok out, snd1, dst1)) :
    (0 : Int) < bigIntSetBytes (argAt vmInput.Arguments 1) ∧
    (addToDCTBalance c snd (e.keyPrefix ++ argAt vmInput.Arguments 0)
        (-(bigIntSetBytes (argAt vmInput.Arguments 1) : Int)) e.marshaller
        e.globalSettingsHandler vmInput.ReturnCallAfterError).1 = none ∧
    snd1 = some (addToDCTBalance c snd (e.keyPrefix ++ argAt vmInput.Arguments 0)
        (-(bigIntSetBytes (argAt vmInput.Arguments 1) : Int)) e.marshaller
        e.globalSettingsHandler vmInput.ReturnCallAfterError).2 ∧
    (addToDCTBalance c dst (e.keyPrefix ++ argAt vmInput.Arguments 0)
        (bigIntSetBytes (argAt vmInput.Arguments 1) : Int) e.marshaller
        e.globalSettingsHandler vmInput.ReturnCallAfterError).1 = none ∧
    dst1 = some (addToDCTBalance c dst (e.keyPrefix ++ argAt vmInput.Arguments 0)
        (bigIntSetBytes (argAt vmInput.Arguments 1) : Int) e.marshaller
        e.globalSettingsHandler vmInput.ReturnCallAfterError).2 := by
  unfold dctTransfer.ProcessBuiltinFunction at hres
  split at hres
  · cases hres
  · cases hres
  · rename_i h1 h2
    cases h2
    simp only at hres
    split at hres
    · cases hres
    · split at hres
      · cases hres
      · rename_i hv
        split at hres
        · cases hres
        · split at hres
          · cases hres
          · rename_i acntSndNew hdeb
            have hd : (addToDCTBalance c snd (e.keyPrefix ++ argAt vmInput.Arguments 0)
                (-(bigIntSetBytes (argAt vmInput.Arguments 1) : Int)) e.marshaller
                e.globalSettingsHandler vmInput.ReturnCallAfterError).1 = none ∧
                acntSndNew = some (addToDCTBalance c snd
                  (e.keyPrefix ++ argAt vmInput.Arguments 0)
                  (-(bigIntSetBytes (argAt vmInput.Arguments 1) : Int)) e.marshaller
                  e.globalSettingsHandler vmInput.ReturnCallAfterError).2 := by
              unfold dctTransfer.debitSender at hdeb
              simp only at hdeb
              split at hdeb
              · cases hdeb
              · injection hdeb with h3 h4
                exact ⟨h3, h4.symm⟩
            refine ⟨not_le.1 hv, hd.1, ?_⟩
            split at hres
            · cases hres
            · split at hres
              · cases hres
              · rename_i dstNew hdst
                have h5 : snd1 = acntSndNew ∧ dst1 = some dstNew := by
                  split at hres
                  · injection hres with _ h6
                    injection h6 with h7 h8
                    exact ⟨h7.symm, h8.symm⟩
                  · injection hres with _ h6
                    injection h6 with h7 h8
                    exact ⟨h7.symm, h8.symm⟩
                rw [h5.1, h5.2, hd.2, hdst]
                exact ⟨rfl, rfl, rfl⟩


/-- C4: when the fungible transfer succeeds with a present sender and a present
destination account (two different accounts), the value `v` of the call is
positive, the balance read back from the sender is the sender's stored balance
minus `v`, the balance read back from the destination is the destination's
stored balance plus `v`, and the sum of the two balances is unchanged.  The
marshaler is assumed to round-trip the two updated records. -/
theorem dctTransfer_same_shard_conserves (e : dctTransfer) (c : Core) (snd dst : UserAccount)
    (vmInput : ContractCallInput) (out : VMOutput) (snd1 dst1 : Option UserAccount)
    (ds dd : DCToken)
    (_hdistinct : snd.Address ≠ dst.Address)
    (hres : e.ProcessBuiltinFunction c (some snd) (some dst) (some vmInput)
      = (.ok out, snd1, dst1))
    (hs : getDCTDataFromKey snd (e.keyPrefix ++ argAt vmInput.Arguments 0) e.marshaller
      = .ok ds)
    (hd : getDCTDataFromKey dst (e.keyPrefix ++ argAt vmInput.Arguments 0) e.marshaller
      = .ok dd)
    (hrs : ∃ b, e.marshaller.Marshal
        { ds with Value := ds.Value + -(bigIntSetBytes (argAt vmInput.Arguments 1) : Int) }
          = .ok b ∧ b ≠ [] ∧
        e.marshaller.Unmarshal { Value := 0, Type_ := Fungible } b
          = .ok { ds with Value := ds.Value + -(bigIntSetBytes (argAt vmInput.Arguments 1) : Int) })
    (hrd : ∃ b, e.marshaller.Marshal
        { dd with Value := dd.Value + (bigIntSetBytes (argAt vmInput.Arguments 1) : Int) }
          = .ok b ∧ b ≠ [] ∧
        e.marshaller.Unmarshal { Value := 0, Type_ := Fungible } b
          = .ok { dd with Value := dd.Value + (bigIntSetBytes (argAt vmInput.Arguments 1) : Int) }) :
    (0 : Int) < bigIntSetBytes (argAt vmInput.Arguments 1) ∧
    ∃ s1 d1 ds1 dd1, snd1 = some s1 ∧ dst1 = some d1 ∧
      getDCTDataFromKey s1 (e.keyPrefix ++ argAt vmInput.Arguments 0) e.marshaller = .ok ds1 ∧
      getDCTDataFromKey d1 (e.keyPrefix ++ argAt vmInput.Arguments 0) e.marshaller = .ok dd1 ∧
      ds1.Value = ds.Value - (bigIntSetBytes (argAt vmInput.Arguments 1) : Int) ∧
      dd1.Value = dd.Value + (bigIntSetBytes (argAt vmInput.Arguments 1) : Int) ∧
      ds1.Value + dd1.Value = ds.Value + dd.Value := by
  obtain ⟨hpos, hsn, hs1, hdn, hd1⟩ := dctTransfer_success_legs e c snd dst vmInput out snd1 dst1 hres
  obtain ⟨ds1, hgs, hvs⟩ := addToDCTBalance_success c snd _ _ e.marshaller
    e.globalSettingsHandler vmInput.ReturnCallAfterError ds hs hsn hrs
  obtain ⟨dd1, hgd, hvd⟩ := addToDCTBalance_success c dst _ _ e.marshaller
    e.globalSettingsHandler vmInput.ReturnCallAfterError dd hd hdn hrd
  refine ⟨hpos, _, _, ds1, dd1, hs1, hd1, hgs, hgd, ?_, hvd, ?_⟩
  · rw [hvs]; ring
  · rw [hvs, hvd]; ring

/-- Witness for C4: 10 units move from a balance of 100 to an empty account. -/
theorem dctTransfer_same_shard_conserves_witness :
    (sampleTransfer.ProcessBuiltinFunction sampleCore
        (some (sampleAccount [0, 1] [100, 5] (encodeDCToken { Value := 100 })))
        (some (sampleAccount [0, 2] [] [])) (some sampleTransferInput)).1.toBool = true ∧
    ∃ s1 d1 ds1 dd1,
      (sampleTransfer.ProcessBuiltinFunction sampleCore
        (some (sampleAccount [0, 1] [100, 5] (encodeDCToken { Value := 100 })))
        (some (sampleAccount [0, 2] [] [])) (some sampleTransferInput)).2.1 = some s1 ∧
      (sampleTransfer.ProcessBuiltinFunction sampleCore
        (some (sampleAccount [0, 1] [100, 5] (encodeDCToken { Value := 100 })))
        (some (sampleAccount [0, 2] [] [])) (some sampleTransferInput)).2.2 = some d1 ∧
      getDCTDataFromKey s1 [100, 5] listMarshalizer = .ok ds1 ∧
      getDCTDataFromKey d1 [100, 5] listMarshalizer = .ok dd1 ∧
      ds1.Value = 100 - 10 ∧ dd1.Value = 0 + 10 ∧ ds1.Value + dd1.Value = 100 + 0 :=
  ⟨rfl,
    (dctTransfer_same_shard_conserves sampleTransfer sampleCore
      (sampleAccount [0, 1] [100, 5] (encodeDCToken { Value := 100 }))
      (sampleAccount [0, 2] [] []) sampleTransferInput _ _ _ { Value := 100 } { Value := 0 }
      (by decide) rfl rfl rfl
      ⟨encodeDCToken { Value := 90 }, rfl, by decide, rfl⟩
      ⟨encodeDCToken { Value := 10 }, rfl, by decide, rfl⟩).2⟩


/-- C5 (counterexample): a transfer of 10 from a sender holding 100 to a
destination whose record is frozen returns `ErrDCTIsFrozenForAccount`, yet the
sender account returned with the error stores 90 under the token key: the
frozen check on the destination comes after the sender debit. -/
theorem dctTransfer_error_after_debit :
    (sampleTransfer.ProcessBuiltinFunction sampleCore
        (some (sampleAccount [0, 1] [100, 5] (encodeDCToken { Value := 100 })))
        (some (sampleAccount [0, 2] [100, 5]
          (encodeDCToken { Value := 100, Properties := [1, 0] })))
        (some sampleTransferInput)).1 = .error .ErrDCTIsFrozenForAccount ∧
    ((sampleTransfer.ProcessBuiltinFunction sampleCore
        (some (sampleAccount [0, 1] [100, 5] (encodeDCToken { Value := 100 })))
        (some (sampleAccount [0, 2] [100, 5]
          (encodeDCToken { Value := 100, Properties := [1, 0] })))
        (some sampleTransferInput)).2.1.map (fun a => a.RetrieveValue [100, 5]))
      = some (encodeDCToken { Value := 90 }) ∧
    (sampleAccount [0, 1] [100, 5] (encodeDCToken { Value := 100 })).RetrieveValue [100, 5]
      = encodeDCToken { Value := 100 } ∧
    encodeDCToken { Value := 90 } ≠ encodeDCToken { Value := 100 } :=
  ⟨rfl, rfl, rfl, by decide⟩

/-- C5 (amended): when the fungible transfer returns an error, the destination
account is the same as before the call; the sender account is the same as
before the call, unless both accounts are present, the sender debit succeeded,
and the error is that of the payable check or of the destination credit, which
follow the debit: then the sender account is the debited one. -/
theorem dctTransfer_error_state (e : dctTransfer) (c : Core)
    (acntSnd acntDst : Option UserAccount) (vmInputPtr : Option ContractCallInput)
    (err : Error) (snd1 dst1 : Option UserAccount)
    (hres : e.ProcessBuiltinFunction c acntSnd acntDst vmInputPtr = (.error err, snd1, dst1)) :
    dst1 = acntDst ∧
    (snd1 = acntSnd ∨
      ∃ vmInput s d, vmInputPtr = some vmInput ∧ acntSnd = some s ∧ acntDst = some d ∧
        (addToDCTBalance c s (e.keyPrefix ++ argAt vmInput.Arguments 0)
          (-(bigIntSetBytes (argAt vmInput.Arguments 1) : Int)) e.marshaller
          e.globalSettingsHandler vmInput.ReturnCallAfterError).1 = none ∧
        snd1 = some (addToDCTBalance c s (e.keyPrefix ++ argAt vmInput.Arguments 0)
          (-(bigIntSetBytes (argAt vmInput.Arguments 1) : Int)) e.marshaller
          e.globalSettingsHandler vmInput.ReturnCallAfterError).2 ∧
        (e.payableHandler.CheckPayable vmInput vmInput.RecipientAddr MinLenArgumentsDCTTransfer
            = some err ∨
          (addToDCTBalance c d (e.keyPrefix ++ argAt vmInput.Arguments 0)
            (bigIntSetBytes (argAt vmInput.Arguments 1) : Int) e.marshaller
            e.globalSettingsHandler vmInput.ReturnCallAfterError).1 = some err)) := by
  unfold dctTransfer.ProcessBuiltinFunction at hres
  split at hres
  · injection hres with _ h; injection h with h1 h2
    exact ⟨h2.symm, Or.inl h1.symm⟩
  · injection hres with _ h; injection h with h1 h2
    exact ⟨h2.symm, Or.inl h1.symm⟩
  · rename_i vmInput hbasic
    simp only at hres
    split at hres
    · injection hres with _ h; injection h with h1 h2
      exact ⟨h2.symm, Or.inl h1.symm⟩
    · split at hres
      · injection hres with _ h; injection h with h1 h2
        exact ⟨h2.symm, Or.inl h1.symm⟩
      · split at hres
        · injection hres with _ h; injection h with h1 h2
          exact ⟨h2.symm, Or.inl h1.symm⟩
        · split at hres
          · -- the error of the sender leg
            rename_i err1 acntSndNew hdeb
            injection hres with _ h; injection h with h1 h2
            refine ⟨h2.symm, Or.inl ?_⟩
            rw [← h1]
            unfold dctTransfer.debitSender at hdeb
            cases acntSnd with
            | none => simp at hdeb
            | some s =>
              simp only at hdeb
              split at hdeb
              · injection hdeb with _ h4; exact h4.symm
              · injection hdeb with h3 h4
                rw [← h4, addToDCTBalance_error_unchanged c s _ _ _ _ _ err1 h3]
          · rename_i acntSndNew hdeb
            -- what the sender leg left behind
            have hsnd : acntSndNew = acntSnd ∨
                ∃ s, acntSnd = some s ∧
                  (addToDCTBalance c s (e.keyPrefix ++ argAt vmInput.Arguments 0)
                    (-(bigIntSetBytes (argAt vmInput.Arguments 1) : Int)) e.marshaller
                    e.globalSettingsHandler vmInput.ReturnCallAfterError).1 = none ∧
                  acntSndNew = some (addToDCTBalance c s
                    (e.keyPrefix ++ argAt vmInput.Arguments 0)
                    (-(bigIntSetBytes (argAt vmInput.Arguments 1) : Int)) e.marshaller
                    e.globalSettingsHandler vmInput.ReturnCallAfterError).2 := by
              unfold dctTransfer.debitSender at hdeb
              cases acntSnd with
              | none =>
                simp only at hdeb
                injection hdeb with _ h4
                exact Or.inl h4.symm
              | some s =>
                simp only at hdeb
                split at hdeb
                · cases hdeb
                · injection hdeb with h3 h4
                  exact Or.inr ⟨s, rfl, h3, h4.symm⟩
            cases acntDst with
            | none => simp only at hres; cases hres
            | some dst =>
              simp only at hres
              split at hres
              · -- the error of the payable check
                rename_i err1 hpay
                injection hres with h0 h; injection h with h1 h2
                injection h0 with h0
                subst h0
                refine ⟨h2.symm, ?_⟩
                rw [← h1]
                rcases hsnd with hsame | ⟨s, hs, hnone, hnew⟩
                · exact Or.inl hsame
                · exact Or.inr ⟨vmInput, s, dst, rfl, hs, rfl, hnone, hnew, Or.inl hpay⟩
              · rename_i hpay
                split at hres
                · -- the error of the destination credit
                  rename_i err1 dstNew hdst
                  injection hres with h0 h; injection h with h1 h2
                  injection h0 with h0
                  subst h0
                  have herr : (addToDCTBalance c dst (e.keyPrefix ++ argAt vmInput.Arguments 0)
                      (bigIntSetBytes (argAt vmInput.Arguments 1) : Int) e.marshaller
                      e.globalSettingsHandler vmInput.ReturnCallAfterError).1 = some err1 := by
                    rw [hdst]
                  have hun := addToDCTBalance_error_unchanged c dst _ _ _ _ _ err1 herr
                  rw [hdst] at hun
                  simp only at hun
                  refine ⟨?_, ?_⟩
                  · rw [← h2, hun]
                  · rw [← h1]
                    rcases hsnd with hsame | ⟨s, hs, hnone, hnew⟩
                    · exact Or.inl hsame
                    · exact Or.inr ⟨vmInput, s, dst, rfl, hs, rfl, hnone, hnew, Or.inr herr⟩
                · split at hres <;> cases hres


/-- Witness for the amended C5: in the frozen-destination call the destination
account returned with the error is the one passed in. -/
theorem dctTransfer_error_state_witness :
    (sampleTransfer.ProcessBuiltinFunction sampleCore
        (some (sampleAccount [0, 1] [100, 5] (encodeDCToken { Value := 100 })))
        (some (sampleAccount [0, 2] [100, 5]
          (encodeDCToken { Value := 100, Properties := [1, 0] })))
        (some sampleTransferInput)).1 = .error .ErrDCTIsFrozenForAccount ∧
    (sampleTransfer.ProcessBuiltinFunction sampleCore
        (some (sampleAccount [0, 1] [100, 5] (encodeDCToken { Value := 100 })))
        (some (sampleAccount [0, 2] [100, 5]
          (encodeDCToken { Value := 100, Properties := [1, 0] })))
        (some sampleTransferInput)).2.2
      = some (sampleAccount [0, 2] [100, 5]
          (encodeDCToken { Value := 100, Properties := [1, 0] })) :=
  ⟨rfl,
    (dctTransfer_error_state sampleTransfer sampleCore
      (some (sampleAccount [0, 1] [100, 5] (encodeDCToken { Value := 100 })))
      (some (sampleAccount [0, 2] [100, 5]
        (encodeDCToken { Value := 100, Properties := [1, 0] })))
      (some sampleTransferInput) .ErrDCTIsFrozenForAccount _ _ rfl).1⟩


/-- The arguments of the payload built on the sender shard keep the first three
arguments of the call and carry the record bytes fourth. -/
theorem payload_args (args : List Bytes) (p : Bytes) (rest : List Bytes)
    (hlen : 4 ≤ args.length) :
    argAt (args.take 3 ++ [p] ++ rest) 0 = argAt args 0 ∧
    argAt (args.take 3 ++ [p] ++ rest) 1 = argAt args 1 ∧
    argAt (args.take 3 ++ [p] ++ rest) 2 = argAt args 2 ∧
    argAt (args.take 3 ++ [p] ++ rest) 3 = p ∧
    4 ≤ (args.take 3 ++ [p] ++ rest).length := by
  match args, hlen with
  | a0 :: a1 :: a2 :: a3 :: tl, _ => simp [argAt]

/-- The payload emitted towards another shard: one output transfer whose
arguments are the first three call arguments, then the sentinel or the
marshaled record, then the remaining call arguments; the account store is the
one left by the dedup update. -/
theorem createNFTOutputTransfers_cross (e : dctNFTTransfer) (c : Core) (accounts : AccountsDB)
    (vmInput : ContractCallInput) (vmOutput : VMOutput) (dctTransferData : DCToken)
    (dstAddress tickerID : Bytes) (nonce : Nat) (out : VMOutput) (accounts1 : AccountsDB)
    (hcross : e.shardCoordinator.SelfId ≠ e.shardCoordinator.ComputeId dstAddress)
    (hres : e.createNFTOutputTransfers c accounts vmInput vmOutput dctTransferData dstAddress
      tickerID nonce = (.ok out, accounts1)) :
    accounts1 = (e.dctStorageHandler.WasAlreadySentToDestinationShardAndUpdateState c accounts
      tickerID nonce dstAddress).2 ∧
    ∃ p, (p = zeroByteArray ∨ e.marshaller.Marshal dctTransferData = .ok p) ∧
      out.OutputAccounts.map (fun oa => oa.2.OutputTransfers.map (fun t => t.DataArguments))
        = [[vmInput.Arguments.take 3 ++ [p] ++
            (if vmInput.Arguments.length > MinLenArgumentsDCTNFTTransfer then
              vmInput.Arguments.drop 4 else [])]] := by
  unfold dctNFTTransfer.createNFTOutputTransfers at hres
  simp only at hres
  split at hres
  · cases hres
  · rename_i wasAlreadySent accW hW
    have haccW : accW = (e.dctStorageHandler.WasAlreadySentToDestinationShardAndUpdateState c
        accounts tickerID nonce dstAddress).2 := by rw [hW]
    split at hres
    · cases hres
    · rename_i vmOutput1 callArgs hwith
      simp only [hcross, ne_eq, not_false_eq_true, if_true] at hres
      injection hres with h1 h2
      injection h1 with h1
      refine ⟨by rw [← h2, haccW], ?_⟩
      split at hwith
      · split at hwith
        · cases hwith
        · rename_i p hp
          split at hwith
          · cases hwith
          · injection hwith with hwith
            injection hwith with _ hargs
            refine ⟨p, Or.inr hp, ?_⟩
            rw [← h1, ← hargs]
            simp only [addNFTTransferToVMOutput, List.map_cons, List.map_nil]
            split <;> simp
      · injection hwith with hwith
        injection hwith with _ hargs
        refine ⟨zeroByteArray, Or.inl rfl, ?_⟩
        rw [← h1, ← hargs]
        simp only [addNFTTransferToVMOutput, List.map_cons, List.map_nil]
        split <;> simp

/-- On the sender shard, a destination in another shard makes the move of the
quantity the liquidity decrease alone. -/
theorem moveOnSenderShard_cross (e : dctNFTTransfer) (c : Core) (accounts : AccountsDB)
    (vmInput : ContractCallInput) (dstAddress : Bytes) (dctData : DCToken)
    (dctTokenKey : Bytes) (nonce : Nat) (quantityToTransfer : Int)
    (hcross : e.shardCoordinator.SelfId ≠ e.shardCoordinator.ComputeId dstAddress) :
    e.moveOnSenderShard c accounts vmInput dstAddress dctData dctTokenKey nonce
        quantityToTransfer =
      ((e.dctStorageHandler.AddToLiquiditySystemAcc c accounts dctTokenKey nonce
          (-quantityToTransfer)).1, dctData, none,
        (e.dctStorageHandler.AddToLiquiditySystemAcc c accounts dctTokenKey nonce
          (-quantityToTransfer)).2) := by
  simp [dctNFTTransfer.moveOnSenderShard, hcross]

/-- What a successful cross-shard call on the sender shard did: it read the
sender's record, saved it with the quantity subtracted, decreased the
liquidity by the quantity, updated the dedup state and emitted one payload
whose fourth argument is the sentinel or the marshaled record of that
quantity. -/
theorem processNFTTransferOnSenderShard_cross (e : dctNFTTransfer) (c : Core)
    (accounts : AccountsDB) (snd : UserAccount) (vmInput : ContractCallInput)
    (out : VMOutput) (snd1 : Option UserAccount) (accounts1 : AccountsDB)
    (hcross : e.shardCoordinator.SelfId ≠ e.shardCoordinator.ComputeId (argAt vmInput.Arguments 3))
    (hres : e.processNFTTransferOnSenderShard c accounts (some snd) vmInput
      = (.ok out, snd1, accounts1)) :
    argAt vmInput.Arguments 3 ≠ vmInput.CallerAddr ∧
    bigIntUint64 (bigIntSetBytes (argAt vmInput.Arguments 1)) ≠ 0 ∧
    ∃ (dS : DCToken) (b : Bytes) (sndMid : UserAccount) (accMid accLiq : AccountsDB) (p : Bytes),
      e.dctStorageHandler.GetDCTNFTTokenOnSender c accounts snd
          (e.keyPrefix ++ argAt vmInput.Arguments 0)
          (bigIntUint64 (bigIntSetBytes (argAt vmInput.Arguments 1))) = .ok dS ∧
      e.dctStorageHandler.SaveDCTNFTToken c accounts snd.Address snd
          (e.keyPrefix ++ argAt vmInput.Arguments 0)
          (bigIntUint64 (bigIntSetBytes (argAt vmInput.Arguments 1)))
          { dS with Value := dS.Value - (bigIntSetBytes (argAt vmInput.Arguments 2) : Int) }
          false vmInput.ReturnCallAfterError = (.ok b, sndMid, accMid) ∧
      e.dctStorageHandler.AddToLiquiditySystemAcc c accMid
          (e.keyPrefix ++ argAt vmInput.Arguments 0)
          (bigIntUint64 (bigIntSetBytes (argAt vmInput.Arguments 1)))
          (-(bigIntSetBytes (argAt vmInput.Arguments 2) : Int)) = (none, accLiq) ∧
      accounts1 = (e.dctStorageHandler.WasAlreadySentToDestinationShardAndUpdateState c accLiq
          (argAt vmInput.Arguments 0)
          (bigIntUint64 (bigIntSetBytes (argAt vmInput.Arguments 1)))
          (argAt vmInput.Arguments 3)).2 ∧
      (p = zeroByteArray ∨
        e.marshaller.Marshal { dS with Value := (bigIntSetBytes (argAt vmInput.Arguments 2) : Int) }
          = .ok p) ∧
      out.OutputAccounts.map (fun oa => oa.2.OutputTransfers.map (fun t => t.DataArguments))
        = [[vmInput.Arguments.take 3 ++ [p] ++
            (if vmInput.Arguments.length > MinLenArgumentsDCTNFTTransfer then
              vmInput.Arguments.drop 4 else [])]] := by
  unfold dctNFTTransfer.processNFTTransferOnSenderShard at hres
  simp only at hres
  split at hres
  · cases hres
  · split at hres
    · cases hres
    · rename_i hnotself
      split at hres
      · cases hres
      · split at hres
        · cases hres
        · split at hres
          · cases hres
          · rename_i dS hget
            split at hres
            · cases hres
            · rename_i hnz
              split at hres
              · cases hres
              · split at hres
                · cases hres
                · split at hres
                  · cases hres
                  · rename_i b sndMid accMid hsave
                    rw [moveOnSenderShard_cross e c accMid vmInput _ _ _ _ _ hcross] at hres
                    cases hliq : e.dctStorageHandler.AddToLiquiditySystemAcc c accMid
                      (e.keyPrefix ++ argAt vmInput.Arguments 0)
                      (bigIntUint64 (bigIntSetBytes (argAt vmInput.Arguments 1)))
                      (-(bigIntSetBytes (argAt vmInput.Arguments 2) : Int)) with
                    | mk lerr accLiq =>
                      rw [hliq] at hres
                      cases lerr with
                      | some err => cases hres
                      | none =>
                        simp only at hres
                        split at hres
                        · cases hres
                        · split at hres
                          · cases hres
                          · rename_i vmOutput accOut hcreate
                            injection hres with h1 h2
                            injection h1 with h1
                            injection h2 with _ h3
                            obtain ⟨hacc, p, hp, hargs⟩ := createNFTOutputTransfers_cross e c accLiq
                              vmInput _ _ _ _ _ vmOutput accOut hcross hcreate
                            refine ⟨hnotself, hnz, dS, b, sndMid, accMid, accLiq, p, hget, hsave, hliq, ?_,
                              hp, ?_⟩
                            · rw [← h3, hacc]
                            · rw [← h1]
                              exact hargs


/-- What a successful call on the destination shard did, for a sender in
another shard: it decoded the carried record, read the destination's current
record, saved the sum and increased the liquidity by the carried value. -/
theorem ProcessBuiltinFunction_destination (e : dctNFTTransfer) (c : Core)
    (accounts : AccountsDB) (dst : UserAccount) (vmInput : ContractCallInput) (out : VMOutput)
    (snd1 dst1 : Option UserAccount) (accounts1 : AccountsDB)
    (hne : vmInput.CallerAddr ≠ vmInput.RecipientAddr)
    (hnotsame : e.shardCoordinator.SameShard vmInput.CallerAddr vmInput.RecipientAddr = false)
    (hres : e.ProcessBuiltinFunction c accounts none (some dst) (some vmInput)
      = (.ok out, snd1, dst1, accounts1)) :
    ∃ (rec cur : DCToken) (isNew : Bool),
      e.transferDataOnDestination vmInput (bigIntSetBytes (argAt vmInput.Arguments 2))
        = .ok rec ∧
      e.dctStorageHandler.GetDCTNFTTokenOnDestination c accounts dst
          (e.keyPrefix ++ argAt vmInput.Arguments 0)
          (bigIntUint64 (bigIntSetBytes (argAt vmInput.Arguments 1))) = .ok (cur, isNew) ∧
      e.dctStorageHandler.AddToLiquiditySystemAcc c
          (e.dctStorageHandler.SaveDCTNFTToken c accounts vmInput.CallerAddr dst
            (e.keyPrefix ++ argAt vmInput.Arguments 0)
            (bigIntUint64 (bigIntSetBytes (argAt vmInput.Arguments 1)))
            { rec with Value := rec.Value + cur.Value } false vmInput.ReturnCallAfterError).2.2
          (e.keyPrefix ++ argAt vmInput.Arguments 0)
          (bigIntUint64 (bigIntSetBytes (argAt vmInput.Arguments 1))) rec.Value
        = (none, accounts1) := by
  unfold dctNFTTransfer.ProcessBuiltinFunction at hres
  cases hb : checkBasicDCTArguments (some vmInput) with
  | some err => rw [hb] at hres; cases hres
  | none =>
    rw [hb] at hres
    simp only [hne, if_false, Option.isSome_none, Bool.false_eq_true] at hres
    split at hres
    · cases hres
    · split at hres
      · cases hres
      · rename_i rec hrec
        split at hres
        · cases hres
        · split at hres
          · cases hres
          · rename_i recNew dstNew accNew hadd
            injection hres with _ h2
            injection h2 with _ h3
            injection h3 with _ h4
            subst h4
            unfold dctNFTTransfer.addNFTToDestination at hadd
            split at hadd
            · cases hadd
            · rename_i cur isNew hcur
              split at hadd
              · cases hadd
              · simp only at hadd
                split at hadd
                · cases hadd
                · rename_i b dstMid accMid hsave
                  simp only [hnotsame, Bool.not_false, if_true] at hadd
                  injection hadd with h5 h6
                  injection h6 with _ h7
                  injection h7 with _ h8
                  refine ⟨rec, cur, isNew, hrec, hcur, ?_⟩
                  rw [hsave]
                  exact Prod.ext h5 h8


/-- A successful self-addressed call is the sender-shard function on at least
four arguments. -/
theorem ProcessBuiltinFunction_sender (e : dctNFTTransfer) (c : Core) (accounts : AccountsDB)
    (acntSnd acntDst : Option UserAccount) (vmInput : ContractCallInput) (out : VMOutput)
    (snd1 dst1 : Option UserAccount) (accounts1 : AccountsDB)
    (hself : vmInput.CallerAddr = vmInput.RecipientAddr)
    (hres : e.ProcessBuiltinFunction c accounts acntSnd acntDst (some vmInput)
      = (.ok out, snd1, dst1, accounts1)) :
    4 ≤ vmInput.Arguments.length ∧
    e.processNFTTransferOnSenderShard c accounts acntSnd vmInput = (.ok out, snd1, accounts1) := by
  unfold dctNFTTransfer.ProcessBuiltinFunction at hres
  cases hb : checkBasicDCTArguments (some vmInput) with
  | some err => rw [hb] at hres; cases hres
  | none =>
    rw [hb] at hres
    simp only [hself, if_true] at hres
    split at hres
    · cases hres
    · rename_i hlen
      refine ⟨not_lt.1 hlen, ?_⟩
      injection hres with h1 h2
      injection h2 with h2 h3
      injection h3 with _ h4
      exact Prod.ext h1 (Prod.ext h2 h4)

/-- C6 (counterexample): with the gates of the claim and a system account that
holds a record with metadata at the nonce key, saving a record of value zero
succeeds and leaves the system-account bytes in place, but the following
`GetDCTNFTTokenOnDestination` returns the zero-value fungible record with
`isNew = true` and no metadata, not the stored metadata. -/
theorem SaveDCTNFTToken_zero_value_read_back :
    ((sampleAccounts [100, 5, 7] (encodeDCToken (sampleNFT 0))).LoadAccount
        sampleCore.SystemAccountAddress).RetrieveValue (computeDCTNFTTokenKey [100, 5] 7)
      = encodeDCToken (sampleNFT 0) ∧
    decodeDCToken (encodeDCToken (sampleNFT 0)) = some (sampleNFT 0) ∧
    (sampleNFT 0).TokenMetaData = some { Nonce := 7, Name := [116] } ∧
    ((sampleStorage liquidityGates).SaveDCTNFTToken sampleCore
        (sampleAccounts [100, 5, 7] (encodeDCToken (sampleNFT 0))) [1, 7]
        (sampleAccount [1, 7] [100, 5, 7] (encodeDCToken { Value := 10, Type_ := 1 }))
        [100, 5] 7 (sampleNFT 0) false false).1 = .ok [] ∧
    (sampleStorage liquidityGates).GetDCTNFTTokenOnDestination sampleCore
        ((sampleStorage liquidityGates).SaveDCTNFTToken sampleCore
          (sampleAccounts [100, 5, 7] (encodeDCToken (sampleNFT 0))) [1, 7]
          (sampleAccount [1, 7] [100, 5, 7] (encodeDCToken { Value := 10, Type_ := 1 }))
          [100, 5] 7 (sampleNFT 0) false false).2.2
        ((sampleStorage liquidityGates).SaveDCTNFTToken sampleCore
          (sampleAccounts [100, 5, 7] (encodeDCToken (sampleNFT 0))) [1, 7]
          (sampleAccount [1, 7] [100, 5, 7] (encodeDCToken { Value := 10, Type_ := 1 }))
          [100, 5] 7 (sampleNFT 0) false false).2.1
        [100, 5] 7
      = .ok ({ Value := 0, Type_ := Fungible, TokenMetaData := none }, true) :=
  ⟨rfl, rfl, rfl, rfl, rfl⟩


/-- C11: the global metadata decoded from `b` is the all-false struct when the
length of `b` is not 2, and otherwise has `Paused`, `LimitedTransfer` and
`BurnRoleForAll` equal to bits 0, 1 and 2 of `b[0]`; the user metadata decoded
from `b` has `Frozen = false` when the length is not 2 and `Frozen` equal to
bit 0 of `b[0]` otherwise.  Both decoders are total functions into the
metadata structs: they have no error result. -/
theorem metadata_decode_bits (b : Bytes) :
    DCTGlobalMetadataFromBytes b
      = (if b.length = 2 then
          { Paused := (byteAt b 0).testBit 0
            LimitedTransfer := (byteAt b 0).testBit 1
            BurnRoleForAll := (byteAt b 0).testBit 2 }
        else { Paused := false, LimitedTransfer := false, BurnRoleForAll := false }) ∧
    DCTUserMetadataFromBytes b
      = (if b.length = 2 then { Frozen := (byteAt b 0).testBit 0 } else { Frozen := false }) := by
  have h0 : ∀ n : Nat, decide (n &&& 1 ≠ 0) = n.testBit 0 := by
    intro n
    rw [Nat.and_one_is_mod, Nat.testBit_zero]
    rcases Nat.mod_two_eq_zero_or_one n with h | h <;> simp [h]
  have h1 : ∀ n : Nat, decide (n &&& 2 ≠ 0) = n.testBit 1 := by
    intro n
    have h := Nat.and_two_pow n 1
    simp at h
    rw [h]
    cases n.testBit 1 <;> simp
  have h2 : ∀ n : Nat, decide (n &&& 4 ≠ 0) = n.testBit 2 := by
    intro n
    have h := Nat.and_two_pow n 2
    simp at h
    rw [h]
    cases n.testBit 2 <;> simp
  by_cases hlen : b.length = 2
  · simp only [DCTGlobalMetadataFromBytes, DCTUserMetadataFromBytes, lengthOfDCTMetadata, hlen,
      ne_eq, not_true_eq_false, if_false, if_true, MetadataPaused, MetadataLimitedTransfer,
      DCT.BurnRoleForAll, MetadataFrozen]
    rw [h0, h1, h2]
    exact ⟨rfl, rfl⟩
  · simp [DCTGlobalMetadataFromBytes, DCTUserMetadataFromBytes, lengthOfDCTMetadata, hlen]

/-- The start nonce of an address ending in a byte: the product without
wrap-around. -/
theorem computeStartNonce_concat (pre : Bytes) (b : Nat) (hb : b < 256) :
    computeStartNonce (pre ++ [b]) = .ok (MaxUint64 / 256 * b) := by
  have hlt : MaxUint64 / 256 * b < 18446744073709551616 := by
    have : MaxUint64 / 256 = 72057594037927935 := by decide
    rw [this]
    omega
  simp [computeStartNonce, Nat.mod_eq_of_lt hlt]

/-- C19: for every non-empty address whose last byte is `b < 256`,
`computeStartNonce` returns `floor((2^64 - 1) / 256) * b`, the 64-bit product
not wrapping around; the value is strictly increasing in the last byte, the
range of length `floor((2^64 - 1) / 256)` starting at it ends within the uint64
range, and the ranges of two different last bytes have no element in common. -/
theorem computeStartNonce_ranges (a1 a2 : Bytes) (h1 : a1 ≠ []) (h2 : a2 ≠ [])
    (hb1 : a1.getLast h1 < 256) (hb2 : a2.getLast h2 < 256) :
    computeStartNonce a1 = .ok ((2 ^ 64 - 1) / 256 * a1.getLast h1) ∧
    computeStartNonce a2 = .ok ((2 ^ 64 - 1) / 256 * a2.getLast h2) ∧
    (a1.getLast h1 < a2.getLast h2 →
      (2 ^ 64 - 1) / 256 * a1.getLast h1 < (2 ^ 64 - 1) / 256 * a2.getLast h2) ∧
    (2 ^ 64 - 1) / 256 * a1.getLast h1 + (2 ^ 64 - 1) / 256 ≤ 2 ^ 64 ∧
    (a1.getLast h1 ≠ a2.getLast h2 →
      ∀ x : Nat,
        ¬ (((2 ^ 64 - 1) / 256 * a1.getLast h1 ≤ x ∧
            x < (2 ^ 64 - 1) / 256 * a1.getLast h1 + (2 ^ 64 - 1) / 256) ∧
          ((2 ^ 64 - 1) / 256 * a2.getLast h2 ≤ x ∧
            x < (2 ^ 64 - 1) / 256 * a2.getLast h2 + (2 ^ 64 - 1) / 256))) := by
  have hF : (2 ^ 64 - 1) / 256 = 72057594037927935 := by norm_num
  have e1 : a1 = a1.dropLast ++ [a1.getLast h1] := (List.dropLast_append_getLast h1).symm
  have e2 : a2 = a2.dropLast ++ [a2.getLast h2] := (List.dropLast_append_getLast h2).symm
  have c1 := computeStartNonce_concat a1.dropLast (a1.getLast h1) hb1
  have c2 := computeStartNonce_concat a2.dropLast (a2.getLast h2) hb2
  rw [← e1] at c1
  rw [← e2] at c2
  have hM : MaxUint64 / 256 = 72057594037927935 := by decide
  rw [hM] at c1 c2
  rw [hF]
  refine ⟨c1, c2, ?_, ?_, ?_⟩
  · intro h; omega
  · omega
  · intro hne x hx
    rcases Nat.lt_or_gt_of_ne hne with h | h <;> omega

/-- Witness for C19: the addresses ending in the bytes 1 and 2. -/
theorem computeStartNonce_ranges_witness :
    computeStartNonce [9, 1] = .ok ((2 ^ 64 - 1) / 256 * 1) ∧
    computeStartNonce [9, 2] = .ok ((2 ^ 64 - 1) / 256 * 2) :=
  ⟨(computeStartNonce_ranges [9, 1] [9, 2] (by decide) (by decide) (by decide) (by decide)).1,
    (computeStartNonce_ranges [9, 1] [9, 2] (by decide) (by decide) (by decide) (by decide)).2.1⟩

/-- C20 (counterexample): the addresses `[9, 0]` and `[9, 2]` differ only in
their last byte, and their start nonces differ by twice
`floor(MaxUint64 / 256)`, not by `floor(MaxUint64 / 256)`. -/
theorem computeStartNonce_difference_not_unit :
    computeStartNonce [9, 0] = .ok 0 ∧
    computeStartNonce [9, 2] = .ok (2 * (MaxUint64 / 256)) ∧
    2 * (MaxUint64 / 256) - 0 ≠ MaxUint64 / 256 := by
  exact ⟨rfl, rfl, by decide⟩

/-- C20 (amended): for two addresses that differ only in their last byte, the
start nonces differ by exactly `floor(MaxUint64 / 256)` times the difference of
the two last bytes; they are different, and they differ by exactly
`floor(MaxUint64 / 256)` when the last bytes are consecutive. -/
theorem computeStartNonce_difference (pre : Bytes) (b1 b2 : Nat) (hb1 : b1 < 256)
    (hb2 : b2 < 256) (hne : b1 ≠ b2) :
    ∃ s1 s2 : Nat, computeStartNonce (pre ++ [b1]) = .ok s1 ∧
      computeStartNonce (pre ++ [b2]) = .ok s2 ∧
      (s2 : Int) - (s1 : Int) = ((MaxUint64 / 256 : Nat) : Int) * ((b2 : Int) - (b1 : Int)) ∧
      s1 ≠ s2 ∧
      (b2 = b1 + 1 → s2 = s1 + MaxUint64 / 256) := by
  refine ⟨_, _, computeStartNonce_concat pre b1 hb1, computeStartNonce_concat pre b2 hb2, ?_, ?_,
    ?_⟩
  · push_cast; ring
  · have hM : MaxUint64 / 256 = 72057594037927935 := by decide
    rw [hM]
    omega
  · intro h; subst h; ring

/-- Witness for the amended C20: the last bytes 0 and 2. -/
theorem computeStartNonce_difference_witness :
    ∃ s1 s2 : Nat, computeStartNonce ([9] ++ [0]) = .ok s1 ∧
      computeStartNonce ([9] ++ [2]) = .ok s2 ∧
      (s2 : Int) - (s1 : Int) = ((MaxUint64 / 256 : Nat) : Int) * (((2 : Nat) : Int) - ((0 : Nat) : Int)) ∧
      s1 ≠ s2 ∧
      (2 = 0 + 1 → s2 = s1 + MaxUint64 / 256) :=
  computeStartNonce_difference [9] 0 2 (by decide) (by decide) (by decide)


/-- C16: `AddToLiquiditySystemAcc` returns no error and leaves the account
store unchanged when the system-account-metadata gate is off, or the
always-propagate gate is off, or `nonce = 0`; with both gates on and
`nonce > 0` it fails with `ErrNilDCTData`, the store unchanged, when the system
account holds no bytes at the nonce key, and it returns no error, the store
unchanged, when the canonical record decoded from the key has an empty
reserved marker. -/
theorem AddToLiquiditySystemAcc_noop (e : dctDataStorage) (c : Core) (accounts : AccountsDB)
    (dctTokenKey : Bytes) (nonce : Nat) (delta : Int) :
    ((e.enableEpochsHandler.IsSaveToSystemAccountFlagEnabled = false ∨
        e.enableEpochsHandler.IsSendAlwaysFlagEnabled = false ∨ nonce = 0) →
      e.AddToLiquiditySystemAcc c accounts dctTokenKey nonce delta = (none, accounts)) ∧
    (e.enableEpochsHandler.IsSaveToSystemAccountFlagEnabled = true →
      e.enableEpochsHandler.IsSendAlwaysFlagEnabled = true → 0 < nonce →
      (accounts.LoadAccount c.SystemAccountAddress).RetrieveValue
        (computeDCTNFTTokenKey dctTokenKey nonce) = [] →
      e.AddToLiquiditySystemAcc c accounts dctTokenKey nonce delta
        = (some .ErrNilDCTData, accounts)) ∧
    (∀ rec : DCToken,
      e.enableEpochsHandler.IsSaveToSystemAccountFlagEnabled = true →
      e.enableEpochsHandler.IsSendAlwaysFlagEnabled = true → 0 < nonce →
      (accounts.LoadAccount c.SystemAccountAddress).RetrieveValue
        (computeDCTNFTTokenKey dctTokenKey nonce) ≠ [] →
      e.marshaller.Unmarshal {}
        ((accounts.LoadAccount c.SystemAccountAddress).RetrieveValue
          (computeDCTNFTTokenKey dctTokenKey nonce)) = .ok rec →
      rec.Reserved = [] →
      e.AddToLiquiditySystemAcc c accounts dctTokenKey nonce delta = (none, accounts)) := by
  refine ⟨?_, ?_, ?_⟩
  · intro h
    unfold dctDataStorage.AddToLiquiditySystemAcc
    rcases h with h | h | h <;> simp [h]
  · intro hsave hsend hn hnil
    have hn0 : nonce ≠ 0 := Nat.pos_iff_ne_zero.1 hn
    simp [dctDataStorage.AddToLiquiditySystemAcc, hsave, hsend, hn0,
      dctDataStorage.getDCTDigitalTokenDataFromSystemAccount, dctDataStorage.getSystemAccount,
      dctDataStorage.loadSystemAccount, defaultQueryOptions, hnil]
  · intro rec hsave hsend hn hbytes hrec hres
    have hn0 : nonce ≠ 0 := Nat.pos_iff_ne_zero.1 hn
    simp [dctDataStorage.AddToLiquiditySystemAcc, hsave, hsend, hn0,
      dctDataStorage.getDCTDigitalTokenDataFromSystemAccount, dctDataStorage.getSystemAccount,
      dctDataStorage.loadSystemAccount, defaultQueryOptions, hbytes, hrec, hres]

/-- C12 (counterexample): with the system-account-metadata gate off the dedup
check returns `false`, not `true`, also for `nonce = 0`. -/
theorem WasAlreadySent_gate_off_false :
    ((sampleStorage {}).WasAlreadySentToDestinationShardAndUpdateState sampleCore
        (sampleAccounts [] []) [5] 0 [1, 2]).1.toOption = some false ∧
    ((sampleStorage {}).WasAlreadySentToDestinationShardAndUpdateState sampleCore
        (sampleAccounts [] []) [5] 7 [0, 2]).1.toOption = some false :=
  ⟨rfl, rfl⟩

/-- C12 (amended): the dedup check returns `false` with the account store
unchanged when the system-account-metadata gate is off.  With that gate on it
returns `true` with the account store unchanged when `nonce = 0`, or when the
destination address belongs to the local shard, or when the always-propagate
gate is off and the destination belongs to the coordinator shard. -/
theorem WasAlreadySent_short_circuits (e : dctDataStorage) (c : Core) (accounts : AccountsDB)
    (tickerID : Bytes) (nonce : Nat) (dstAddress : Bytes) :
    (e.enableEpochsHandler.IsSaveToSystemAccountFlagEnabled = false →
      e.WasAlreadySentToDestinationShardAndUpdateState c accounts tickerID nonce dstAddress
        = (.ok false, accounts)) ∧
    (e.enableEpochsHandler.IsSaveToSystemAccountFlagEnabled = true →
      (nonce = 0 ∨ e.shardCoordinator.ComputeId dstAddress = e.shardCoordinator.SelfId ∨
        (e.enableEpochsHandler.IsSendAlwaysFlagEnabled = false ∧
          e.shardCoordinator.ComputeId dstAddress = c.MetachainShardId)) →
      e.WasAlreadySentToDestinationShardAndUpdateState c accounts tickerID nonce dstAddress
        = (.ok true, accounts)) := by
  constructor
  · intro h
    simp [dctDataStorage.WasAlreadySentToDestinationShardAndUpdateState, h]
  · intro hsave h
    unfold dctDataStorage.WasAlreadySentToDestinationShardAndUpdateState
    simp only [hsave, Bool.not_true, Bool.false_eq_true, if_false]
    by_cases hn : nonce = 0
    · simp [hn]
    · simp only [hn, if_false]
      by_cases hself : e.shardCoordinator.ComputeId dstAddress = e.shardCoordinator.SelfId
      · simp [hself]
      · simp only [hself, if_false]
        rcases h with h | h | ⟨h1, h2⟩
        · exact absurd h hn
        · exact absurd h hself
        · simp [h1, h2]


/-- Witness for C16: with both gates off nothing is written. -/
theorem AddToLiquiditySystemAcc_noop_witness :
    (sampleStorage {}).AddToLiquiditySystemAcc sampleCore (sampleAccounts [] []) [100, 5] 7 3
      = (none, sampleAccounts [] []) :=
  (AddToLiquiditySystemAcc_noop (sampleStorage {}) sampleCore (sampleAccounts [] []) [100, 5] 7
    3).1 (Or.inl rfl)

/-- Witness for the amended C12: in legacy mode a destination on the local
shard is reported as already sent. -/
theorem WasAlreadySent_short_circuits_witness :
    (sampleStorage legacyGates).WasAlreadySentToDestinationShardAndUpdateState sampleCore
        (sampleAccounts [] []) [5] 7 [0, 2] = (.ok true, sampleAccounts [] []) :=
  (WasAlreadySent_short_circuits (sampleStorage legacyGates) sampleCore (sampleAccounts [] [])
    [5] 7 [0, 2]).2 rfl (Or.inr (Or.inl rfl))

/-- Reading a slot of the grown bitset is reading the slot of the bitset. -/
theorem growProperties_getD (properties : Bytes) (n i : Nat) :
    (growProperties properties n).getD i 0 = properties.getD i 0 := by
  unfold growProperties
  split
  · by_cases hi : i < properties.length
    · simp [List.getD_eq_getElem?_getD, List.getElem?_append_left hi]
    · have hi2 : properties.length ≤ i := not_lt.1 hi
      simp only [List.getD_eq_getElem?_getD, List.getElem?_append_right hi2]
      rw [List.getElem?_eq_none hi2]
      by_cases h3 : i - properties.length < n - properties.length
      · simp [List.getElem?_replicate, h3]
      · simp [List.getElem?_replicate, h3]
  · rfl

theorem growProperties_length (properties : Bytes) (n : Nat) :
    (growProperties properties n).length = max properties.length n := by
  unfold growProperties
  split
  · rename_i h
    simp only [List.length_append, List.length_replicate]
    omega
  · rename_i h
    omega


/-- The dedup check in legacy mode on a present canonical record, as an
equation. -/
theorem WasAlreadySent_legacy_eq (e : dctDataStorage) (c : Core) (accounts : AccountsDB)
    (tickerID : Bytes) (nonce : Nat) (dstAddress : Bytes) (rec : DCToken)
    (hsave : e.enableEpochsHandler.IsSaveToSystemAccountFlagEnabled = true)
    (hsend : e.enableEpochsHandler.IsSendAlwaysFlagEnabled = false)
    (hnonce : 0 < nonce)
    (hself : e.shardCoordinator.ComputeId dstAddress ≠ e.shardCoordinator.SelfId)
    (hmeta : e.shardCoordinator.ComputeId dstAddress ≠ c.MetachainShardId)
    (hd : e.shardCoordinator.ComputeId dstAddress < e.shardCoordinator.NumberOfShards)
    (hbytes : (accounts.LoadAccount c.SystemAccountAddress).RetrieveValue
      (computeDCTNFTTokenKey (e.keyPrefix ++ tickerID) nonce) ≠ [])
    (hrec : e.marshaller.Unmarshal {}
      ((accounts.LoadAccount c.SystemAccountAddress).RetrieveValue
        (computeDCTNFTTokenKey (e.keyPrefix ++ tickerID) nonce)) = .ok rec) :
    e.WasAlreadySentToDestinationShardAndUpdateState c accounts tickerID nonce dstAddress =
      if rec.Properties.getD (e.shardCoordinator.ComputeId dstAddress) 0 > 0 then
        (.ok true, accounts)
      else
        match e.marshaller.Marshal
          { rec with
            Properties :=
              (growProperties rec.Properties e.shardCoordinator.NumberOfShards).set
                (e.shardCoordinator.ComputeId dstAddress) existsOnShard } with
        | .ok b =>
          (.ok false, accounts.SaveAccount
            ((accounts.LoadAccount c.SystemAccountAddress).SaveKeyValue
              (computeDCTNFTTokenKey (e.keyPrefix ++ tickerID) nonce) b))
        | .error code => (.error (.ErrMarshalizer code), accounts) := by
  have hn : nonce ≠ 0 := Nat.pos_iff_ne_zero.1 hnonce
  have hlen : ((accounts.LoadAccount c.SystemAccountAddress).RetrieveValue
      (computeDCTNFTTokenKey (e.keyPrefix ++ tickerID) nonce)).length ≠ 0 :=
    fun h => hbytes (List.length_eq_zero.1 h)
  have hget : e.getDCTDigitalTokenDataFromSystemAccount c accounts
      (computeDCTNFTTokenKey (e.keyPrefix ++ tickerID) nonce) defaultQueryOptions
      = .ok (some rec, accounts.LoadAccount c.SystemAccountAddress) := by
    simp [dctDataStorage.getDCTDigitalTokenDataFromSystemAccount,
      dctDataStorage.getSystemAccount, dctDataStorage.loadSystemAccount, defaultQueryOptions,
      hlen, hrec]
  have hdl : e.shardCoordinator.ComputeId dstAddress
      < (growProperties rec.Properties e.shardCoordinator.NumberOfShards).length := by
    rw [growProperties_length]
    exact lt_of_lt_of_le hd (le_max_right _ _)
  unfold dctDataStorage.WasAlreadySentToDestinationShardAndUpdateState
  simp only [hsave, hsend, hn, hself, hmeta, hget, hdl, Bool.not_true, Bool.false_eq_true,
    if_false, if_true, growProperties_getD]
  by_cases hset : rec.Properties.getD (e.shardCoordinator.ComputeId dstAddress) 0 > 0
  · simp only [hset, if_true]
  · simp only [hset, if_false, dctDataStorage.marshalAndSaveData]
    cases e.marshaller.Marshal
      { rec with
        Properties :=
          (growProperties rec.Properties e.shardCoordinator.NumberOfShards).set
            (e.shardCoordinator.ComputeId dstAddress) existsOnShard } <;> rfl


/-- The bytes read from a key of an account right after the account was saved
with that key set. -/
theorem load_save_retrieve (accounts : AccountsDB) (address key value : Bytes) :
    ((accounts.SaveAccount ((accounts.LoadAccount address).SaveKeyValue key value)).LoadAccount
      address).RetrieveValue key = value := by
  simp [AccountsDB.SaveAccount, AccountsDB.LoadAccount, UserAccount.SaveKeyValue,
    UserAccount.RetrieveValue]

/-- C13: in legacy mode (system-account-metadata gate on, always-propagate gate
off), for `nonce > 0`, a destination shard `d` that is neither the local shard
nor the coordinator shard and is smaller than the number of shards, and a
canonical record `rec` decoded from the system account: the dedup check
returns `true` with the store unchanged when slot `d` of the properties of
`rec` is non-zero; otherwise it returns `false` and stores the record `rec`
with slot `d` of the properties, grown to the number of shards, set (a
marshaler failure is returned with the store unchanged).  The new properties
have slot `d` set, the length of the grown bitset and every other slot as in
`rec`.  When the first call returns a result, it is whether slot `d` was
non-zero, and a second call with the same arguments on the resulting store
returns `true` and leaves that store unchanged; the marshaler is assumed to
round-trip the updated record through non-empty bytes. -/
theorem WasAlreadySent_legacy (e : dctDataStorage) (c : Core) (accounts : AccountsDB)
    (tickerID : Bytes) (nonce : Nat) (dstAddress : Bytes) (rec : DCToken)
    (hsave : e.enableEpochsHandler.IsSaveToSystemAccountFlagEnabled = true)
    (hsend : e.enableEpochsHandler.IsSendAlwaysFlagEnabled = false)
    (hnonce : 0 < nonce)
    (hself : e.shardCoordinator.ComputeId dstAddress ≠ e.shardCoordinator.SelfId)
    (hmeta : e.shardCoordinator.ComputeId dstAddress ≠ c.MetachainShardId)
    (hd : e.shardCoordinator.ComputeId dstAddress < e.shardCoordinator.NumberOfShards)
    (hbytes : (accounts.LoadAccount c.SystemAccountAddress).RetrieveValue
      (computeDCTNFTTokenKey (e.keyPrefix ++ tickerID) nonce) ≠ [])
    (hrec : e.marshaller.Unmarshal {}
      ((accounts.LoadAccount c.SystemAccountAddress).RetrieveValue
        (computeDCTNFTTokenKey (e.keyPrefix ++ tickerID) nonce)) = .ok rec)
    (hrt : ∀ b,
      e.marshaller.Marshal
        { rec with
          Properties :=
            (growProperties rec.Properties e.shardCoordinator.NumberOfShards).set
              (e.shardCoordinator.ComputeId dstAddress) existsOnShard } = .ok b →
      b ≠ [] ∧
      e.marshaller.Unmarshal {} b
        = .ok { rec with
                Properties :=
                  (growProperties rec.Properties e.shardCoordinator.NumberOfShards).set
                    (e.shardCoordinator.ComputeId dstAddress) existsOnShard }) :
    (e.WasAlreadySentToDestinationShardAndUpdateState c accounts tickerID nonce dstAddress =
      if rec.Properties.getD (e.shardCoordinator.ComputeId dstAddress) 0 > 0 then
        (.ok true, accounts)
      else
        match e.marshaller.Marshal
          { rec with
            Properties :=
              (growProperties rec.Properties e.shardCoordinator.NumberOfShards).set
                (e.shardCoordinator.ComputeId dstAddress) existsOnShard } with
        | .ok b =>
          (.ok false, accounts.SaveAccount
            ((accounts.LoadAccount c.SystemAccountAddress).SaveKeyValue
              (computeDCTNFTTokenKey (e.keyPrefix ++ tickerID) nonce) b))
        | .error code => (.error (.ErrMarshalizer code), accounts)) ∧
    ((growProperties rec.Properties e.shardCoordinator.NumberOfShards).set
        (e.shardCoordinator.ComputeId dstAddress) existsOnShard).getD
      (e.shardCoordinator.ComputeId dstAddress) 0 = existsOnShard ∧
    ((growProperties rec.Properties e.shardCoordinator.NumberOfShards).set
        (e.shardCoordinator.ComputeId dstAddress) existsOnShard).length
      = max rec.Properties.length e.shardCoordinator.NumberOfShards ∧
    (∀ i, i ≠ e.shardCoordinator.ComputeId dstAddress →
      ((growProperties rec.Properties e.shardCoordinator.NumberOfShards).set
          (e.shardCoordinator.ComputeId dstAddress) existsOnShard).getD i 0
        = rec.Properties.getD i 0) ∧
    (∀ (was : Bool) (accounts1 : AccountsDB),
      e.WasAlreadySentToDestinationShardAndUpdateState c accounts tickerID nonce dstAddress
        = (.ok was, accounts1) →
      was = decide (rec.Properties.getD (e.shardCoordinator.ComputeId dstAddress) 0 > 0) ∧
      e.WasAlreadySentToDestinationShardAndUpdateState c accounts1 tickerID nonce dstAddress
        = (.ok true, accounts1)) := by
  have heq := WasAlreadySent_legacy_eq e c accounts tickerID nonce dstAddress rec hsave hsend
    hnonce hself hmeta hd hbytes hrec
  have hdl : e.shardCoordinator.ComputeId dstAddress
      < (growProperties rec.Properties e.shardCoordinator.NumberOfShards).length := by
    rw [growProperties_length]
    exact lt_of_lt_of_le hd (le_max_right _ _)
  have hslot : ((growProperties rec.Properties e.shardCoordinator.NumberOfShards).set
        (e.shardCoordinator.ComputeId dstAddress) existsOnShard).getD
      (e.shardCoordinator.ComputeId dstAddress) 0 = existsOnShard := by
    simp [List.getD_eq_getElem?_getD, List.getElem?_set, hdl]
  refine ⟨heq, hslot, ?_, ?_, ?_⟩
  · rw [List.length_set, growProperties_length]
  · intro i hi
    rw [← growProperties_getD rec.Properties e.shardCoordinator.NumberOfShards i]
    simp [List.getD_eq_getElem?_getD, List.getElem?_set, Ne.symm hi]
  · intro was accounts1 hfirst
    rw [heq] at hfirst
    by_cases hset : rec.Properties.getD (e.shardCoordinator.ComputeId dstAddress) 0 > 0
    · simp only [hset, if_true] at hfirst
      injection hfirst with h1 h2
      injection h1 with h1
      subst h1
      subst h2
      refine ⟨(decide_eq_true hset).symm, ?_⟩
      rw [heq]
      simp only [hset, if_true]
    · simp only [hset, if_false] at hfirst
      cases hm : e.marshaller.Marshal
        { rec with
          Properties :=
            (growProperties rec.Properties e.shardCoordinator.NumberOfShards).set
              (e.shardCoordinator.ComputeId dstAddress) existsOnShard } with
      | error code => rw [hm] at hfirst; cases hfirst
      | ok b =>
        rw [hm] at hfirst
        simp only at hfirst
        injection hfirst with h1 h2
        injection h1 with h1
        subst h1
        subst h2
        obtain ⟨hb, hun⟩ := hrt b hm
        refine ⟨(decide_eq_false hset).symm, ?_⟩
        have hbytes2 := load_save_retrieve accounts c.SystemAccountAddress
          (computeDCTNFTTokenKey (e.keyPrefix ++ tickerID) nonce) b
        have heq2 := WasAlreadySent_legacy_eq e c _ tickerID nonce dstAddress _ hsave hsend
          hnonce hself hmeta hd (by rw [hbytes2]; exact hb) (by rw [hbytes2]; exact hun)
        rw [heq2]
        have hpos : (0 : Nat) < existsOnShard := by decide
        simp only [hslot, gt_iff_lt, hpos, if_true]


/-- Witness for C13: on the three-shard sample storage in legacy mode, a record
never sent to shard 1 is marked there by the first call, which returns `false`;
the second call returns `true`. -/
theorem WasAlreadySent_legacy_witness :
    (sampleStorage legacyGates).WasAlreadySentToDestinationShardAndUpdateState sampleCore
        (sampleAccounts (computeDCTNFTTokenKey [100, 84] 7) (encodeDCToken (sampleNFT 10)))
        [84] 7 [1]
      = (.ok false,
          (sampleAccounts (computeDCTNFTTokenKey [100, 84] 7)
            (encodeDCToken (sampleNFT 10))).SaveAccount
            (((sampleAccounts (computeDCTNFTTokenKey [100, 84] 7)
              (encodeDCToken (sampleNFT 10))).LoadAccount [254]).SaveKeyValue
              (computeDCTNFTTokenKey [100, 84] 7)
              (encodeDCToken { sampleNFT 10 with Properties := [0, 1, 0] }))) ∧
    (sampleStorage legacyGates).WasAlreadySentToDestinationShardAndUpdateState sampleCore
        ((sampleAccounts (computeDCTNFTTokenKey [100, 84] 7)
            (encodeDCToken (sampleNFT 10))).SaveAccount
            (((sampleAccounts (computeDCTNFTTokenKey [100, 84] 7)
              (encodeDCToken (sampleNFT 10))).LoadAccount [254]).SaveKeyValue
              (computeDCTNFTTokenKey [100, 84] 7)
              (encodeDCToken { sampleNFT 10 with Properties := [0, 1, 0] })))
        [84] 7 [1]
      = (.ok true,
          (sampleAccounts (computeDCTNFTTokenKey [100, 84] 7)
            (encodeDCToken (sampleNFT 10))).SaveAccount
            (((sampleAccounts (computeDCTNFTTokenKey [100, 84] 7)
              (encodeDCToken (sampleNFT 10))).LoadAccount [254]).SaveKeyValue
              (computeDCTNFTTokenKey [100, 84] 7)
              (encodeDCToken { sampleNFT 10 with Properties := [0, 1, 0] }))) :=
  have h := WasAlreadySent_legacy (sampleStorage legacyGates) sampleCore
    (sampleAccounts (computeDCTNFTTokenKey [100, 84] 7) (encodeDCToken (sampleNFT 10)))
    [84] 7 [1] (sampleNFT 10) rfl rfl (by decide) (by decide) (by decide) (by decide)
    (by decide) rfl
    (fun b hb => by
      have hb2 : encodeDCToken { sampleNFT 10 with Properties := [0, 1, 0] } = b :=
        Except.ok.inj hb
      subst hb2
      exact ⟨by decide, rfl⟩)
  ⟨h.1.trans rfl, (h.2.2.2.2 false _ (h.1.trans rfl)).2⟩


/-- The search of `doesRoleExist` succeeds exactly for the roles of the list. -/
theorem doesRoleExistFrom_snd (i : Nat) (l : List Bytes) (role : Bytes) :
    (doesRoleExistFrom i l role).2 = true ↔ role ∈ l := by
  induction l generalizing i with
  | nil => simp [doesRoleExistFrom]
  | cons x rest ih =>
    unfold doesRoleExistFrom
    by_cases hx : x = role
    · simp [hx]
    · simp only [hx, if_false, ih, List.mem_cons]
      constructor
      · intro h; exact Or.inr h
      · intro h
        rcases h with h | h
        · exact absurd h.symm hx
        · exact h

/-- C17: `CheckAllowedToExecute` returns `ErrNilUserAccount` when the account is
absent; for a present account it returns `ErrActionNotAllowed` when nothing is
stored under the role key of the token, and when the stored bytes decode to a
role list it returns nil if and only if the list contains an entry equal to the
action, and `ErrActionNotAllowed` when it does not. -/
theorem CheckAllowedToExecute_iff (e : dctRoles) (c : Core) (tokenID action : Bytes) :
    e.CheckAllowedToExecute c none tokenID action = some .ErrNilUserAccount ∧
    (∀ account : UserAccount,
      account.RetrieveValue (roleKeyPrefix c ++ tokenID) = [] →
      e.CheckAllowedToExecute c (some account) tokenID action = some .ErrActionNotAllowed) ∧
    (∀ (account : UserAccount) (roles : DCTRoles),
      account.RetrieveValue (roleKeyPrefix c ++ tokenID) ≠ [] →
      e.marshaller.UnmarshalRoles { Roles := [] }
        (account.RetrieveValue (roleKeyPrefix c ++ tokenID)) = .ok roles →
      (e.CheckAllowedToExecute c (some account) tokenID action = none ↔
        action ∈ roles.Roles) ∧
      (action ∉ roles.Roles →
        e.CheckAllowedToExecute c (some account) tokenID action
          = some .ErrActionNotAllowed)) := by
  refine ⟨rfl, ?_, ?_⟩
  · intro account hempty
    simp [dctRoles.CheckAllowedToExecute, getDCTRolesForAcnt, hempty]
  · intro account roles hne hdec
    have hlen : ¬ (account.RetrieveValue (roleKeyPrefix c ++ tokenID)).length = 0 := by
      intro h
      exact hne (List.length_eq_zero.mp h)
    have hres : e.CheckAllowedToExecute c (some account) tokenID action
        = if !(doesRoleExist roles action).2 then some .ErrActionNotAllowed else none := by
      simp [dctRoles.CheckAllowedToExecute, getDCTRolesForAcnt, hlen, hdec]
    rw [hres]
    by_cases hmem : action ∈ roles.Roles
    · have hex : (doesRoleExist roles action).2 = true :=
        (doesRoleExistFrom_snd 0 roles.Roles action).mpr hmem
      simp [hex, hmem]
    · have hex : (doesRoleExist roles action).2 = false := by
        cases hb : (doesRoleExist roles action).2
        · rfl
        · exact absurd ((doesRoleExistFrom_snd 0 roles.Roles action).mp hb) hmem
      simp [hex, hmem]


/-- Witness for C17: an account storing the roles `[9]` and `[8]` for the token is
allowed the action `[9]`, and is refused the action `[3]` with `ErrActionNotAllowed`. -/
theorem CheckAllowedToExecute_iff_witness :
    (sampleRolesRegistry true).CheckAllowedToExecute sampleCore
        (some (sampleRoleAccount [[9], [8]])) [84] [9] = none ∧
    (sampleRolesRegistry true).CheckAllowedToExecute sampleCore
        (some (sampleRoleAccount [[9], [8]])) [84] [3] = some .ErrActionNotAllowed :=
  ⟨((CheckAllowedToExecute_iff (sampleRolesRegistry true) sampleCore [84] [9]).2.2
      (sampleRoleAccount [[9], [8]]) { Roles := [[9], [8]] } (by decide) rfl).1.mpr
      (by decide),
   ((CheckAllowedToExecute_iff (sampleRolesRegistry true) sampleCore [84] [3]).2.2
      (sampleRoleAccount [[9], [8]]) { Roles := [[9], [8]] } (by decide) rfl).2
      (by decide)⟩


/-- Erasing at the index of the first occurrence is erasing the first occurrence. -/
theorem eraseIdx_indexOf (l : List Bytes) (a : Bytes) :
    l.eraseIdx (l.indexOf a) = l.erase a := by
  induction l with
  | nil => rfl
  | cons x rest ih =>
    rw [List.indexOf_cons, List.erase_cons]
    by_cases hx : x = a
    · simp [hx]
    · have hb : (x == a) = false := by simpa using hx
      simp only [hb, cond_false, List.eraseIdx_cons_succ, ih]
      simp

/-- The index found by the search of `doesRoleExist` for a role of the list. -/
theorem doesRoleExistFrom_fst (i : Nat) (l : List Bytes) (role : Bytes) (h : role ∈ l) :
    (doesRoleExistFrom i l role).1 = ((i + l.indexOf role : Nat) : Int) := by
  induction l generalizing i with
  | nil => cases h
  | cons x rest ih =>
    unfold doesRoleExistFrom
    rw [List.indexOf_cons]
    by_cases hx : x = role
    · simp [hx]
    · have hb : (x == role) = false := by simpa using hx
      have hmem : role ∈ rest := by
        rcases List.mem_cons.mp h with h1 | h1
        · exact absurd h1.symm hx
        · exact h1
      simp only [hx, if_false, hb, cond_false, ih (i + 1) hmem]
      congr 1
      omega

/-- The roles left by `deleteRoles`: for each role to delete in turn, its first
occurrence is erased. -/
theorem deleteRoles_eq_foldl (roles : DCTRoles) (rs : List Bytes) :
    deleteRoles roles rs = { Roles := rs.foldl List.erase roles.Roles } := by
  induction rs generalizing roles with
  | nil => rfl
  | cons r rest ih =>
    unfold deleteRoles
    by_cases hmem : r ∈ roles.Roles
    · have hex : (doesRoleExist roles r).2 = true :=
        (doesRoleExistFrom_snd 0 roles.Roles r).mpr hmem
      have hidx : (doesRoleExist roles r).1.toNat = roles.Roles.indexOf r := by
        unfold doesRoleExist
        rw [doesRoleExistFrom_fst 0 roles.Roles r hmem]
        simp
      simp only [hex, Bool.not_true, Bool.false_eq_true, if_false, hidx, eraseIdx_indexOf, ih,
        List.foldl_cons]
    · have hex : (doesRoleExist roles r).2 = false := by
        cases hb : (doesRoleExist roles r).2
        · rfl
        · exact absurd ((doesRoleExistFrom_snd 0 roles.Roles r).mp hb) hmem
      simp only [hex, Bool.not_false, if_true, ih, List.foldl_cons,
        List.erase_of_not_mem hmem]

/-- Occurrences left after erasing, for each element of a list in turn, its first
occurrence. -/
theorem foldl_erase_count (rs l : List Bytes) (x : Bytes) :
    (rs.foldl List.erase l).count x = l.count x - rs.count x := by
  induction rs generalizing l with
  | nil => simp
  | cons r rest ih =>
    rw [List.foldl_cons, ih, List.count_erase, List.count_cons]
    by_cases hr : r = x
    · simp [hr]; omega
    · have hb : (r == x) = false := by simpa using hr
      simp [hb]

/-- Erasing first occurrences of elements rejected by a filter does not change
the filtered list. -/
theorem foldl_erase_filter (p : Bytes → Bool) (rs l : List Bytes)
    (h : ∀ r ∈ rs, p r = false) :
    (rs.foldl List.erase l).filter p = l.filter p := by
  induction rs generalizing l with
  | nil => rfl
  | cons r rest ih =>
    rw [List.foldl_cons, ih _ (fun x hx => h x (List.mem_cons_of_mem _ hx)),
      ← List.erase_filter]
    apply List.erase_of_not_mem
    intro hmem
    have := (List.mem_filter.mp hmem).2
    rw [h r (List.mem_cons_self _ _)] at this
    cases this

/-- Erasing first occurrences leaves a sublist. -/
theorem foldl_erase_sublist (rs l : List Bytes) : (rs.foldl List.erase l).Sublist l := by
  induction rs generalizing l with
  | nil => exact List.Sublist.refl l
  | cons r rest ih =>
    rw [List.foldl_cons]
    exact (ih _).trans (List.erase_sublist r l)


/-- A successful set-roles / unset-roles call: the caller is the system
contract, the nonce seeding succeeded, and the new role list was marshaled and
saved under the role key of the token on the account left by the seeding. -/
theorem roles_ProcessBuiltinFunction_ok (e : dctRoles) (c : Core) (dst : UserAccount)
    (vmInput : ContractCallInput) (roles : DCTRoles) (isNew : Bool) (out : VMOutput)
    (dst1 : Option UserAccount)
    (hget : getDCTRolesForAcnt e.marshaller dst (roleKeyPrefix c ++ argAt vmInput.Arguments 0)
      = .ok (roles, isNew))
    (hres : e.ProcessBuiltinFunction c (some dst) (some vmInput) = (.ok out, dst1)) :
    vmInput.CallerAddr = c.DCTSCAddress ∧
    ∃ (seeded : UserAccount) (b : Bytes),
      seedStartNonce c dst vmInput (vmInput.Arguments.drop 1) = (none, seeded) ∧
      e.marshaller.MarshalRoles
        (if e.set then { Roles := roles.Roles ++ vmInput.Arguments.drop 1 }
         else deleteRoles roles (vmInput.Arguments.drop 1)) = .ok b ∧
      dst1 = some (seeded.SaveKeyValue (roleKeyPrefix c ++ argAt vmInput.Arguments 0) b) := by
  unfold dctRoles.ProcessBuiltinFunction at hres
  cases hb : checkBasicDCTArguments (some vmInput) with
  | some err => rw [hb] at hres; cases hres
  | none =>
    rw [hb] at hres
    simp only at hres
    by_cases hcaller : vmInput.CallerAddr = c.DCTSCAddress
    · simp only [hcaller, ne_eq, not_true_eq_false, if_false, hget] at hres
      refine ⟨hcaller, ?_⟩
      cases hseed : seedStartNonce c dst vmInput (vmInput.Arguments.drop 1) with
      | mk serr seeded =>
        rw [hseed] at hres
        cases serr with
        | some err => cases hres
        | none =>
          simp only [saveRolesToAccount] at hres
          cases hm : e.marshaller.MarshalRoles
            (if e.set then { Roles := roles.Roles ++ vmInput.Arguments.drop 1 }
             else deleteRoles roles (vmInput.Arguments.drop 1)) with
          | error code => rw [hm] at hres; cases hres
          | ok b =>
            rw [hm] at hres
            simp only at hres
            injection hres with h1 h2
            exact ⟨seeded, b, rfl, rfl, h2.symm⟩
    · simp only [ne_eq, hcaller, not_false_eq_true, if_true] at hres
      cases hres


/-- The permission check on an account storing nothing under the role key. -/
theorem CheckAllowedToExecute_empty (e : dctRoles) (c : Core) (account : UserAccount)
    (tokenID action : Bytes)
    (hempty : account.RetrieveValue (roleKeyPrefix c ++ tokenID) = []) :
    e.CheckAllowedToExecute c (some account) tokenID action = some .ErrActionNotAllowed := by
  simp [dctRoles.CheckAllowedToExecute, getDCTRolesForAcnt, hempty]

/-- The permission check on an account whose stored role list decodes. -/
theorem CheckAllowedToExecute_decoded (e : dctRoles) (c : Core) (account : UserAccount)
    (tokenID action : Bytes) (roles : DCTRoles)
    (hne : account.RetrieveValue (roleKeyPrefix c ++ tokenID) ≠ [])
    (hdec : e.marshaller.UnmarshalRoles { Roles := [] }
      (account.RetrieveValue (roleKeyPrefix c ++ tokenID)) = .ok roles) :
    e.CheckAllowedToExecute c (some account) tokenID action
      = if action ∈ roles.Roles then none else some .ErrActionNotAllowed := by
  have hlen : ¬ (account.RetrieveValue (roleKeyPrefix c ++ tokenID)).length = 0 := by
    intro h
    exact hne (List.length_eq_zero.mp h)
  have hres : e.CheckAllowedToExecute c (some account) tokenID action
      = if !(doesRoleExist roles action).2 then some .ErrActionNotAllowed else none := by
    simp [dctRoles.CheckAllowedToExecute, getDCTRolesForAcnt, hlen, hdec]
  rw [hres]
  by_cases hmem : action ∈ roles.Roles
  · have hex : (doesRoleExist roles action).2 = true :=
      (doesRoleExistFrom_snd 0 roles.Roles action).mpr hmem
    simp [hex, hmem]
  · have hex : (doesRoleExist roles action).2 = false := by
      cases hb : (doesRoleExist roles action).2
      · rfl
      · exact absurd ((doesRoleExistFrom_snd 0 roles.Roles action).mp hb) hmem
    simp [hex, hmem]

/-- C18 (counterexample): the account stores the role `[9]` twice for the token;
a successful unset-roles call with the role `[9]` leaves one entry `[9]` in
the stored list, and the permission check for `[9]` still returns nil. -/
theorem unset_roles_keeps_duplicate :
    ((sampleRolesRegistry false).ProcessBuiltinFunction sampleCore
        (some (sampleRoleAccount [[9], [9]])) (some (sampleRolesInput [[9]]))).1.toOption.isSome
      = true ∧
    (((sampleRolesRegistry false).ProcessBuiltinFunction sampleCore
        (some (sampleRoleAccount [[9], [9]])) (some (sampleRolesInput [[9]]))).2.map
      fun acc => acc.RetrieveValue (roleKeyPrefix sampleCore ++ [84]))
      = some (encodeDCTRoles { Roles := [[9]] }) ∧
    (sampleRolesRegistry false).CheckAllowedToExecute sampleCore
      ((sampleRolesRegistry false).ProcessBuiltinFunction sampleCore
        (some (sampleRoleAccount [[9], [9]])) (some (sampleRolesInput [[9]]))).2
      [84] [9] = none :=
  ⟨rfl, rfl, rfl⟩

/-- C18 (amended): after a successful unset-roles call with roles `R` on an
account whose stored role list for the token is `roles`, the stored bytes are
the marshaled list obtained by erasing, for each role of `R` in turn, its first
occurrence: every entry `x` occurs as often as before minus its occurrences in
`R`, the entries not in `R` are kept in their original relative order (the new
list is a sublist of the old one), and a role of `R` that is not present has no
effect.  The permission check for a role of `R` then fails with
`ErrActionNotAllowed` when the role occurred in the stored list at most as often
as in `R`, and still returns nil when it occurred more often and the stored
bytes are non-empty; the marshaler is assumed to round-trip the new list. -/
theorem unset_roles_erases_first_occurrences (e : dctRoles) (c : Core) (dst : UserAccount)
    (vmInput : ContractCallInput) (roles : DCTRoles) (isNew : Bool) (out : VMOutput)
    (dst1 : UserAccount)
    (hset : e.set = false)
    (hget : getDCTRolesForAcnt e.marshaller dst (roleKeyPrefix c ++ argAt vmInput.Arguments 0)
      = .ok (roles, isNew))
    (hres : e.ProcessBuiltinFunction c (some dst) (some vmInput) = (.ok out, some dst1))
    (hrt : ∀ b,
      e.marshaller.MarshalRoles
        { Roles := (vmInput.Arguments.drop 1).foldl List.erase roles.Roles } = .ok b →
      b ≠ [] →
      e.marshaller.UnmarshalRoles { Roles := [] } b
        = .ok { Roles := (vmInput.Arguments.drop 1).foldl List.erase roles.Roles }) :
    e.marshaller.MarshalRoles
        { Roles := (vmInput.Arguments.drop 1).foldl List.erase roles.Roles }
      = .ok (dst1.RetrieveValue (roleKeyPrefix c ++ argAt vmInput.Arguments 0)) ∧
    (∀ x, ((vmInput.Arguments.drop 1).foldl List.erase roles.Roles).count x
      = roles.Roles.count x - (vmInput.Arguments.drop 1).count x) ∧
    ((vmInput.Arguments.drop 1).foldl List.erase roles.Roles).filter
        (fun x => decide (x ∉ vmInput.Arguments.drop 1))
      = roles.Roles.filter (fun x => decide (x ∉ vmInput.Arguments.drop 1)) ∧
    ((vmInput.Arguments.drop 1).foldl List.erase roles.Roles).Sublist roles.Roles ∧
    (∀ r, r ∉ roles.Roles → List.erase roles.Roles r = roles.Roles) ∧
    (∀ r, r ∈ vmInput.Arguments.drop 1 →
      roles.Roles.count r ≤ (vmInput.Arguments.drop 1).count r →
      e.CheckAllowedToExecute c (some dst1) (argAt vmInput.Arguments 0) r
        = some .ErrActionNotAllowed) ∧
    (∀ r, (vmInput.Arguments.drop 1).count r < roles.Roles.count r →
      dst1.RetrieveValue (roleKeyPrefix c ++ argAt vmInput.Arguments 0) ≠ [] →
      e.CheckAllowedToExecute c (some dst1) (argAt vmInput.Arguments 0) r = none) := by
  obtain ⟨_, seeded, b, _, hm, hdst⟩ :=
    roles_ProcessBuiltinFunction_ok e c dst vmInput roles isNew out (some dst1) hget hres
  simp only [hset, Bool.false_eq_true, if_false, deleteRoles_eq_foldl] at hm
  injection hdst with hdst
  have hb : dst1.RetrieveValue (roleKeyPrefix c ++ argAt vmInput.Arguments 0) = b := by
    rw [hdst]
    exact retrieve_save_same seeded _ b
  have hcount := foldl_erase_count (vmInput.Arguments.drop 1) roles.Roles
  refine ⟨by rw [hb]; exact hm, hcount, ?_, foldl_erase_sublist _ _, ?_, ?_, ?_⟩
  · apply foldl_erase_filter
    intro r hr
    exact decide_eq_false (not_not_intro hr)
  · intro r hr
    exact List.erase_of_not_mem hr
  · intro r _ hle
    by_cases hempty : dst1.RetrieveValue (roleKeyPrefix c ++ argAt vmInput.Arguments 0) = []
    · exact CheckAllowedToExecute_empty e c dst1 _ r hempty
    · have hdec := hrt b hm (by rw [← hb]; exact hempty)
      rw [← hb] at hdec
      rw [CheckAllowedToExecute_decoded e c dst1 _ r _ hempty hdec]
      have hnot : r ∉ (vmInput.Arguments.drop 1).foldl List.erase roles.Roles := by
        rw [← List.count_eq_zero, hcount]
        omega
      simp only [hnot, if_false]
  · intro r hlt hne
    have hdec := hrt b hm (by rw [← hb]; exact hne)
    rw [← hb] at hdec
    rw [CheckAllowedToExecute_decoded e c dst1 _ r _ hne hdec]
    have hin : r ∈ (vmInput.Arguments.drop 1).foldl List.erase roles.Roles := by
      rw [← List.count_pos_iff, hcount]
      omega
    simp only [hin, if_true]


/-- Witness for C18 (amended): the account stores `[9]`, `[8]`, `[9]`; unsetting
`[9]` and the absent `[3]` stores `[8]`, `[9]`, after which `[3]` is refused and
`[9]`, stored once more than it was unset, is still allowed. -/
theorem unset_roles_erases_first_occurrences_witness :
    listMarshalizer.MarshalRoles { Roles := [[8], [9]] }
      = .ok (((sampleRoleAccount [[9], [8], [9]]).SaveKeyValue
          (roleKeyPrefix sampleCore ++ [84])
          (encodeDCTRoles { Roles := [[8], [9]] })).RetrieveValue
          (roleKeyPrefix sampleCore ++ [84])) ∧
    (sampleRolesRegistry false).CheckAllowedToExecute sampleCore
      (some ((sampleRoleAccount [[9], [8], [9]]).SaveKeyValue
        (roleKeyPrefix sampleCore ++ [84]) (encodeDCTRoles { Roles := [[8], [9]] })))
      [84] [3] = some .ErrActionNotAllowed ∧
    (sampleRolesRegistry false).CheckAllowedToExecute sampleCore
      (some ((sampleRoleAccount [[9], [8], [9]]).SaveKeyValue
        (roleKeyPrefix sampleCore ++ [84]) (encodeDCTRoles { Roles := [[8], [9]] })))
      [84] [9] = none :=
  have h := unset_roles_erases_first_occurrences (sampleRolesRegistry false) sampleCore
    (sampleRoleAccount [[9], [8], [9]]) (sampleRolesInput [[9], [3]])
    { Roles := [[9], [8], [9]] } false
    (addDCTEntryInVMOutput { ReturnCode := Ok } [6] [84] 0 0 [[7], [9], [3]])
    ((sampleRoleAccount [[9], [8], [9]]).SaveKeyValue (roleKeyPrefix sampleCore ++ [84])
      (encodeDCTRoles { Roles := [[8], [9]] }))
    rfl rfl rfl
    (fun b hb _ => by
      have hb2 : encodeDCTRoles { Roles := [[8], [9]] } = b := Except.ok.inj hb
      subst hb2
      rfl)
  ⟨h.1, h.2.2.2.2.2.1 [3] (by decide) (by decide), h.2.2.2.2.2.2 [9] (by decide) (by decide)⟩


/-- The payload emitted towards another shard, by the report of the dedup
check: the fourth argument is the marshaled record when the check reports
not-already-sent or the value of the record is one, and the sentinel otherwise. -/
theorem createNFTOutputTransfers_payload (e : dctNFTTransfer) (c : Core) (accounts : AccountsDB)
    (vmInput : ContractCallInput) (vmOutput : VMOutput) (dctTransferData : DCToken)
    (dstAddress tickerID : Bytes) (nonce : Nat) (out : VMOutput) (accounts1 : AccountsDB)
    (hcross : e.shardCoordinator.SelfId ≠ e.shardCoordinator.ComputeId dstAddress)
    (hres : e.createNFTOutputTransfers c accounts vmInput vmOutput dctTransferData dstAddress
      tickerID nonce = (.ok out, accounts1)) :
    ∃ (was : Bool) (p : Bytes),
      e.dctStorageHandler.WasAlreadySentToDestinationShardAndUpdateState c accounts tickerID
        nonce dstAddress = (.ok was, accounts1) ∧
      (was = false ∨ dctTransferData.Value = 1 → e.marshaller.Marshal dctTransferData = .ok p) ∧
      (was = true → dctTransferData.Value ≠ 1 → p = zeroByteArray) ∧
      out.OutputAccounts.map (fun oa => oa.2.OutputTransfers.map
          (fun t => (t.DataFunction, t.DataArguments)))
        = [[(c.BuiltInFunctionDCTNFTTransfer, vmInput.Arguments.take 3 ++ [p] ++
            (if vmInput.Arguments.length > MinLenArgumentsDCTNFTTransfer then
              vmInput.Arguments.drop 4 else []))]] := by
  unfold dctNFTTransfer.createNFTOutputTransfers at hres
  simp only at hres
  split at hres
  · cases hres
  · rename_i wasAlreadySent accW hW
    split at hres
    · cases hres
    · rename_i vmOutput1 callArgs hwith
      simp only [hcross, ne_eq, not_false_eq_true, if_true] at hres
      injection hres with h1 h2
      injection h1 with h1
      subst h2
      by_cases hcond : (!wasAlreadySent || decide (dctTransferData.Value = oneValue)) = true
      · rw [if_pos hcond] at hwith
        split at hwith
        · cases hwith
        · rename_i p hp
          split at hwith
          · cases hwith
          · injection hwith with hwith
            injection hwith with _ hargs
            refine ⟨wasAlreadySent, p, hW, fun _ => hp, ?_, ?_⟩
            · intro hw hv
              rw [hw] at hcond
              simp [oneValue, hv] at hcond
            · rw [← h1, ← hargs]
              simp only [addNFTTransferToVMOutput, List.map_cons, List.map_nil]
              split <;> simp
      · rw [if_neg hcond] at hwith
        injection hwith with hwith
        injection hwith with _ hargs
        refine ⟨wasAlreadySent, zeroByteArray, hW, ?_, fun _ _ => rfl, ?_⟩
        · intro h
          exfalso
          apply hcond
          rcases h with h | h
          · simp [h]
          · simp [oneValue, h]
        · rw [← h1, ← hargs]
          simp only [addNFTTransferToVMOutput, List.map_cons, List.map_nil]
          split <;> simp


/-- C15 (counterexample): in legacy mode, on the destination shard of a
cross-shard transaction, the repair returns an error for a single NFT transfer
whose token payload `[4]` does not unmarshal, and `ErrInvalidArguments` for a
multi-transfer declaring zero transfers and for one declaring two transfers
with four arguments present. -/
theorem SaveNFTMetaDataToSystemAccount_returns_errors :
    decodeDCToken [4] = none ∧
    ((sampleStorage legacyGates).SaveNFTMetaDataToSystemAccount sampleCore (sampleAccounts [] [])
        (some (sampleRepairTx [2, 1, 2, 3, 4]))).1 = some (.ErrMarshalizer 1) ∧
    ((sampleStorage legacyGates).SaveNFTMetaDataToSystemAccount sampleCore (sampleAccounts [] [])
        (some (sampleRepairTx [4, 0, 84, 1, 1]))).1 = some .ErrInvalidArguments ∧
    ((sampleStorage legacyGates).SaveNFTMetaDataToSystemAccount sampleCore (sampleAccounts [] [])
        (some (sampleRepairTx [4, 2, 84, 1, 1]))).1 = some .ErrInvalidArguments :=
  ⟨rfl, rfl, rfl, rfl⟩


/-- C15 (amended): the repair returns nil, with the store unchanged, when the
system-account-metadata gate is off, when the always-propagate gate is on, when
the transaction is not a cross-shard transaction at its destination shard, when
the call data does not parse, when fewer than four arguments are present, when
the function is neither the single nor the multi NFT transfer, and for a single
NFT transfer carrying the one-byte sentinel.  In legacy mode on the destination
shard it does return an error, with the store unchanged: `ErrNilTransactionHandler`
for an absent transaction, the marshaler error for a single NFT transfer whose
token payload does not unmarshal, and `ErrInvalidArguments` for a multi-transfer
whose declared number of transfers is zero or needs more arguments than are
present. -/
theorem SaveNFTMetaDataToSystemAccount_cases (e : dctDataStorage) (c : Core)
    (accounts : AccountsDB) :
    (e.enableEpochsHandler.IsSaveToSystemAccountFlagEnabled = false →
      ∀ tx, e.SaveNFTMetaDataToSystemAccount c accounts tx = (none, accounts)) ∧
    (e.enableEpochsHandler.IsSendAlwaysFlagEnabled = true →
      ∀ tx, e.SaveNFTMetaDataToSystemAccount c accounts tx = (none, accounts)) ∧
    (e.enableEpochsHandler.IsSaveToSystemAccountFlagEnabled = true →
      e.enableEpochsHandler.IsSendAlwaysFlagEnabled = false →
      e.SaveNFTMetaDataToSystemAccount c accounts none
        = (some .ErrNilTransactionHandler, accounts) ∧
      ∀ tx : TransactionHandler,
        (¬ (e.shardCoordinator.ComputeId tx.SndAddr ≠ e.shardCoordinator.ComputeId tx.RcvAddr ∧
            e.shardCoordinator.SelfId = e.shardCoordinator.ComputeId tx.RcvAddr) →
          e.SaveNFTMetaDataToSystemAccount c accounts (some tx) = (none, accounts)) ∧
        (e.shardCoordinator.ComputeId tx.SndAddr ≠ e.shardCoordinator.ComputeId tx.RcvAddr →
          e.shardCoordinator.SelfId = e.shardCoordinator.ComputeId tx.RcvAddr →
          (∀ err, e.txDataParser.ParseData tx.Data = .error err →
            e.SaveNFTMetaDataToSystemAccount c accounts (some tx) = (none, accounts)) ∧
          (∀ function arguments, e.txDataParser.ParseData tx.Data = .ok (function, arguments) →
            (arguments.length < 4 →
              e.SaveNFTMetaDataToSystemAccount c accounts (some tx) = (none, accounts)) ∧
            (function ≠ c.BuiltInFunctionDCTNFTTransfer →
              function ≠ c.BuiltInFunctionMultiDCTNFTTransfer →
              e.SaveNFTMetaDataToSystemAccount c accounts (some tx) = (none, accounts)) ∧
            (4 ≤ arguments.length → function = c.BuiltInFunctionDCTNFTTransfer →
              argAt arguments 3 = zeroByteArray →
              e.SaveNFTMetaDataToSystemAccount c accounts (some tx) = (none, accounts)) ∧
            (4 ≤ arguments.length → function = c.BuiltInFunctionDCTNFTTransfer →
              argAt arguments 3 ≠ zeroByteArray →
              ∀ code, e.marshaller.Unmarshal {} (argAt arguments 3) = .error code →
              e.SaveNFTMetaDataToSystemAccount c accounts (some tx)
                = (some (.ErrMarshalizer code), accounts)) ∧
            (4 ≤ arguments.length → function ≠ c.BuiltInFunctionDCTNFTTransfer →
              function = c.BuiltInFunctionMultiDCTNFTTransfer →
              (bigIntUint64 (bigIntSetBytes (argAt arguments 0)) = 0 ∨
                arguments.length
                  < (bigIntUint64 (bigIntSetBytes (argAt arguments 0)) * argumentsPerTransfer
                      + 1) % 2 ^ 64) →
              e.SaveNFTMetaDataToSystemAccount c accounts (some tx)
                = (some .ErrInvalidArguments, accounts))))) := by
  refine ⟨?_, ?_, ?_⟩
  · intro hsave tx
    simp [dctDataStorage.SaveNFTMetaDataToSystemAccount, hsave]
  · intro hsend tx
    simp [dctDataStorage.SaveNFTMetaDataToSystemAccount, hsend]
  · intro hsave hsend
    refine ⟨by simp [dctDataStorage.SaveNFTMetaDataToSystemAccount, hsave, hsend], ?_⟩
    intro tx
    refine ⟨?_, ?_⟩
    · intro hnot
      have hflag : (e.shardCoordinator.ComputeId tx.SndAddr
            != e.shardCoordinator.ComputeId tx.RcvAddr &&
          e.shardCoordinator.SelfId == e.shardCoordinator.ComputeId tx.RcvAddr) = false := by
        cases hb : (e.shardCoordinator.ComputeId tx.SndAddr
            != e.shardCoordinator.ComputeId tx.RcvAddr &&
          e.shardCoordinator.SelfId == e.shardCoordinator.ComputeId tx.RcvAddr)
        · rfl
        · exfalso
          apply hnot
          simpa using hb
      simp [dctDataStorage.SaveNFTMetaDataToSystemAccount, hsave, hsend, hflag]
    · intro hne hselfdst
      have hflag : (e.shardCoordinator.ComputeId tx.SndAddr
            != e.shardCoordinator.ComputeId tx.RcvAddr &&
          e.shardCoordinator.SelfId == e.shardCoordinator.ComputeId tx.RcvAddr) = true := by
        simp [hne, hselfdst]
      refine ⟨?_, ?_⟩
      · intro err hparse
        simp [dctDataStorage.SaveNFTMetaDataToSystemAccount, hsave, hsend, hflag, hparse]
      · intro function arguments hparse
        refine ⟨?_, ?_, ?_, ?_, ?_⟩
        · intro hlen
          simp [dctDataStorage.SaveNFTMetaDataToSystemAccount, hsave, hsend, hflag, hparse, hlen]
        · intro h1 h2
          simp [dctDataStorage.SaveNFTMetaDataToSystemAccount, hsave, hsend, hflag, hparse, h1, h2]
        · intro hlen hf hz
          have hlen2 : ¬ arguments.length < 4 := by omega
          simp [dctDataStorage.SaveNFTMetaDataToSystemAccount, hsave, hsend, hflag, hparse,
            hlen2, hf, dctDataStorage.addMetaDataToSystemAccountFromNFTTransfer, hz]
        · intro hlen hf hnz code hcode
          have hlen2 : ¬ arguments.length < 4 := by omega
          simp [dctDataStorage.SaveNFTMetaDataToSystemAccount, hsave, hsend, hflag, hparse,
            hlen2, hf, dctDataStorage.addMetaDataToSystemAccountFromNFTTransfer, hnz, hcode]
        · intro hlen hf1 hf2 hbad
          have hlen2 : ¬ arguments.length < 4 := by omega
          have hf3 : ¬ c.BuiltInFunctionMultiDCTNFTTransfer = c.BuiltInFunctionDCTNFTTransfer := by
            rw [← hf2]
            exact hf1
          simp only [dctDataStorage.SaveNFTMetaDataToSystemAccount, hsave, hsend, hflag, hparse,
            hlen2, hf2, hf3, if_false, if_true, Bool.not_true, Bool.false_eq_true,
            dctDataStorage.addMetaDataToSystemAccountFromMultiTransfer]
          rcases hbad with hzero | hshort
          · simp [hzero]
          · by_cases hzero : bigIntUint64 (bigIntSetBytes (argAt arguments 0)) = 0
            · simp [hzero]
            · simp only [hzero, if_false, hshort, if_true]


/-- Witness for C15 (amended): in legacy mode on the destination shard, call
data that does not parse is swallowed, and a single NFT transfer whose payload
`[4]` does not unmarshal returns the marshaler error. -/
theorem SaveNFTMetaDataToSystemAccount_cases_witness :
    (sampleStorage legacyGates).SaveNFTMetaDataToSystemAccount sampleCore (sampleAccounts [] [])
        (some (sampleRepairTx [])) = (none, sampleAccounts [] []) ∧
    (sampleStorage legacyGates).SaveNFTMetaDataToSystemAccount sampleCore (sampleAccounts [] [])
        (some (sampleRepairTx [2, 1, 2, 3, 4]))
      = (some (.ErrMarshalizer 1), sampleAccounts [] []) :=
  ⟨((((SaveNFTMetaDataToSystemAccount_cases (sampleStorage legacyGates) sampleCore
        (sampleAccounts [] [])).2.2 rfl rfl).2 (sampleRepairTx [])).2 (by decide) rfl).1
      (.ErrExternal 1) rfl,
   (((((SaveNFTMetaDataToSystemAccount_cases (sampleStorage legacyGates) sampleCore
        (sampleAccounts [] [])).2.2 rfl rfl).2 (sampleRepairTx [2, 1, 2, 3, 4])).2
        (by decide) rfl).2 [2] [[1], [2], [3], [4]] rfl).2.2.2.1 (by decide) rfl (by decide)
      1 rfl⟩


/-- The slice `b[lo:hi]` within range. -/
theorem sliceBytes_ok (b : Bytes) (lo hi : Nat) (h1 : lo ≤ hi) (h2 : hi ≤ b.length) :
    sliceBytes b lo hi = .ok ((b.take hi).drop lo) := by
  simp [sliceBytes, h1, h2]

/-- What `ValidateToken` computes on an identifier whose length is within the
bounds: the three checks on the ticker, the dash and the random characters. -/
theorem ValidateToken_eq (tokenID : Bytes) (hmin : 10 ≤ tokenID.length)
    (hmax : tokenID.length ≤ 17) :
    ValidateToken tokenID
      = .ok (isTickerValid (tokenID.take (tokenID.length - 7)) &&
          decide (tokenID.getD (tokenID.length - 7) 0 = 45) &&
          randomCharsAreValid (tokenID.drop (tokenID.length - 6))) := by
  unfold ValidateToken
  have hlen : ¬ (tokenID.length < 10 ∨ 17 < tokenID.length) := by omega
  have hs1 := sliceBytes_ok tokenID 0 (tokenID.length - 6 - 1) (Nat.zero_le _) (by omega)
  have hs2 := sliceBytes_ok tokenID (tokenID.length - 6) tokenID.length (by omega) (le_refl _)
  have hidx : tokenID.length - 6 - 1 < tokenID.length := by omega
  have h7 : tokenID.length - 6 - 1 = tokenID.length - 7 := by omega
  simp only [identifierMinLength, identifierMaxLength, tickerMinLength, tickerMaxLength,
    additionalRandomCharsLength, Bool.or_eq_true, decide_eq_true_eq, hlen, if_false, hs1, hs2,
    List.drop_zero, List.take_length, List.getElem?_eq_getElem hidx]
  have hget : tokenID.getD (tokenID.length - 7) 0 = tokenID[tokenID.length - 6 - 1] := by
    rw [List.getD_eq_getElem?_getD, ← h7, List.getElem?_eq_getElem hidx]
    rfl
  have htake : tokenID.take (tokenID.length - 6 - 1) = tokenID.take (tokenID.length - 7) := by
    rw [h7]
  rw [hget, htake]
  by_cases ht : isTickerValid (tokenID.take (tokenID.length - 7)) = true
  · by_cases hd : tokenID[tokenID.length - 6 - 1] = 45
    · by_cases hr : randomCharsAreValid (tokenID.drop (tokenID.length - 6)) = true
      · simp [ht, hd, hr]
      · simp [ht, hd, hr]
    · simp [ht, hd]
  · simp [ht]


/-- The ticker check in words: 3 to 10 bytes, each an uppercase letter or a digit. -/
theorem isTickerValid_iff (tickerName : Bytes) :
    isTickerValid tickerName = true ↔
      3 ≤ tickerName.length ∧ tickerName.length ≤ 10 ∧
      ∀ ch ∈ tickerName, (65 ≤ ch ∧ ch ≤ 90) ∨ (48 ≤ ch ∧ ch ≤ 57) := by
  unfold isTickerValid
  by_cases hlen : tickerName.length < 3 ∨ 10 < tickerName.length
  · simp only [tickerMinLength, tickerMaxLength, Bool.or_eq_true, decide_eq_true_eq, hlen,
      if_true, Bool.false_eq_true, false_iff]
    intro h
    omega
  · simp only [tickerMinLength, tickerMaxLength, Bool.or_eq_true, decide_eq_true_eq, hlen,
      if_false, List.all_eq_true, Bool.and_eq_true, ge_iff_le]
    constructor
    · intro h
      exact ⟨by omega, by omega, h⟩
    · intro h
      exact h.2.2

/-- The random-characters check in words: 6 bytes, each a digit or a letter `a`-`f`. -/
theorem randomCharsAreValid_iff (chars : Bytes) :
    randomCharsAreValid chars = true ↔
      chars.length = 6 ∧ ∀ ch ∈ chars, (48 ≤ ch ∧ ch ≤ 57) ∨ (97 ≤ ch ∧ ch ≤ 102) := by
  unfold randomCharsAreValid
  by_cases hlen : chars.length = 6
  · simp only [additionalRandomCharsLength, ne_eq, hlen, not_true_eq_false, if_false,
      List.all_eq_true, Bool.or_eq_true, Bool.and_eq_true, decide_eq_true_eq, ge_iff_le,
      true_and]
    constructor
    · intro h ch hch
      exact (h ch hch).symm
    · intro h ch hch
      exact (h ch hch).symm
  · simp [additionalRandomCharsLength, hlen]

/-- C29: `ValidateToken` returns true if and only if the identifier is
`ticker ++ "-" ++ suffix` with a ticker of 3 to 10 bytes, each an uppercase
letter `A`-`Z` or a digit, and a suffix of exactly 6 bytes, each a digit or a
lowercase letter `a`-`f`; for every byte string it returns true or false (no
slice or index expression is out of range), and it returns false for every
string shorter than 10 or longer than 17 bytes. -/
theorem ValidateToken_iff (tokenID : Bytes) :
    (ValidateToken tokenID = .ok true ↔
      ∃ ticker suffix : Bytes, tokenID = ticker ++ [45] ++ suffix ∧
        3 ≤ ticker.length ∧ ticker.length ≤ 10 ∧
        (∀ ch ∈ ticker, (65 ≤ ch ∧ ch ≤ 90) ∨ (48 ≤ ch ∧ ch ≤ 57)) ∧
        suffix.length = 6 ∧
        (∀ ch ∈ suffix, (48 ≤ ch ∧ ch ≤ 57) ∨ (97 ≤ ch ∧ ch ≤ 102))) ∧
    (ValidateToken tokenID = .ok true ∨ ValidateToken tokenID = .ok false) ∧
    (tokenID.length < 10 ∨ 17 < tokenID.length → ValidateToken tokenID = .ok false) := by
  have hout : tokenID.length < 10 ∨ 17 < tokenID.length → ValidateToken tokenID = .ok false := by
    intro h
    simp [ValidateToken, identifierMinLength, identifierMaxLength, tickerMinLength,
      tickerMaxLength, additionalRandomCharsLength, h]
  by_cases hlen : tokenID.length < 10 ∨ 17 < tokenID.length
  · refine ⟨?_, Or.inr (hout hlen), hout⟩
    rw [hout hlen]
    constructor
    · intro h
      cases h
    · rintro ⟨ticker, suffix, hid, h1, h2, _, h3, _⟩
      exfalso
      rw [hid] at hlen
      simp only [List.length_append, List.length_singleton] at hlen
      omega
  · have hmin : 10 ≤ tokenID.length := by omega
    have hmax : tokenID.length ≤ 17 := by omega
    have heq := ValidateToken_eq tokenID hmin hmax
    refine ⟨?_, ?_, hout⟩
    · rw [heq]
      constructor
      · intro h
        injection h with h
        simp only [Bool.and_eq_true, decide_eq_true_eq] at h
        obtain ⟨⟨ht, hd⟩, hr⟩ := h
        rw [isTickerValid_iff] at ht
        rw [randomCharsAreValid_iff] at hr
        refine ⟨tokenID.take (tokenID.length - 7), tokenID.drop (tokenID.length - 6), ?_,
          ht.1, ht.2.1, ht.2.2, hr.1, hr.2⟩
        have hidx : tokenID.length - 7 < tokenID.length := by omega
        have hsplit : tokenID.drop (tokenID.length - 7)
            = tokenID[tokenID.length - 7] :: tokenID.drop (tokenID.length - 7 + 1) :=
          List.drop_eq_getElem_cons hidx
        have hget : tokenID[tokenID.length - 7] = 45 := by
          rw [List.getD_eq_getElem?_getD, List.getElem?_eq_getElem hidx] at hd
          exact hd
        have h76 : tokenID.length - 7 + 1 = tokenID.length - 6 := by omega
        rw [hget, h76] at hsplit
        calc tokenID
            = tokenID.take (tokenID.length - 7) ++ tokenID.drop (tokenID.length - 7) :=
              (List.take_append_drop _ _).symm
          _ = tokenID.take (tokenID.length - 7) ++ [45] ++ tokenID.drop (tokenID.length - 6) := by
              rw [hsplit]
              simp
      · rintro ⟨ticker, suffix, hid, h1, h2, h3, h4, h5⟩
        have hl : tokenID.length = ticker.length + 7 := by
          rw [hid]
          simp only [List.length_append, List.length_singleton]
          omega
        have h7 : tokenID.length - 7 = ticker.length := by omega
        have h6 : tokenID.length - 6 = ticker.length + 1 := by omega
        have htake : tokenID.take (tokenID.length - 7) = ticker := by
          rw [h7, hid]
          simp
        have hdrop : tokenID.drop (tokenID.length - 6) = suffix := by
          rw [h6, hid]
          simp
        have hd : tokenID.getD (tokenID.length - 7) 0 = 45 := by
          rw [h7, hid, List.getD_eq_getElem?_getD, List.append_assoc,
            List.getElem?_append_right (le_refl _)]
          simp
        rw [htake, hdrop, hd, (isTickerValid_iff ticker).mpr ⟨h1, h2, h3⟩,
          (randomCharsAreValid_iff suffix).mpr ⟨h4, h5⟩]
        rfl
    · rw [heq]
      cases (isTickerValid (tokenID.take (tokenID.length - 7)) &&
          decide (tokenID.getD (tokenID.length - 7) 0 = 45) &&
          randomCharsAreValid (tokenID.drop (tokenID.length - 6)))
      · exact Or.inr rfl
      · exact Or.inl rfl


/-- Witness for C29: the identifier `ALC-6258d2` is accepted, and the 9-byte
string `AL-6258d2` is rejected. -/
theorem ValidateToken_iff_witness :
    ValidateToken [65, 76, 67, 45, 54, 50, 53, 56, 100, 50] = .ok true ∧
    ValidateToken [65, 76, 45, 54, 50, 53, 56, 100, 50] = .ok false :=
  ⟨(ValidateToken_iff [65, 76, 67, 45, 54, 50, 53, 56, 100, 50]).1.mpr
      ⟨[65, 76, 67], [54, 50, 53, 56, 100, 50], rfl, by decide, by decide, by decide, rfl,
        by decide⟩,
    (ValidateToken_iff [65, 76, 45, 54, 50, 53, 56, 100, 50]).2.2 (Or.inl (by decide))⟩


/-- Reading the digits produced by `bigIntBytesAux` in front of `acc`. -/
theorem bigIntBytesAux_foldl (fuel n : Nat) (acc : Bytes) (h : n ≤ fuel) :
    (bigIntBytesAux fuel n acc).foldl (fun a x => a * 256 + x) 0
      = acc.foldl (fun a x => a * 256 + x) n := by
  induction fuel generalizing n acc with
  | zero =>
    have hn : n = 0 := by omega
    subst hn
    rfl
  | succ fuel ih =>
    unfold bigIntBytesAux
    by_cases hn : n = 0
    · subst hn
      simp
    · simp only [hn, if_false]
      have hdiv : n / 256 ≤ fuel := by
        have : n / 256 < n := Nat.div_lt_self (Nat.pos_of_ne_zero hn) (by decide)
        omega
      rw [ih (n / 256) _ hdiv, List.foldl_cons, Nat.div_add_mod']

/-- Reading the minimal big-endian bytes of a number gives the number back. -/
theorem bigIntSetBytes_bigIntBytes (n : Nat) : bigIntSetBytes (bigIntBytes n) = n := by
  unfold bigIntSetBytes bigIntBytes
  rw [bigIntBytesAux_foldl n n [] (le_refl n)]
  rfl

/-- The digits produced by `bigIntBytesAux` in front of a non-empty list are not empty. -/
theorem bigIntBytesAux_ne_nil (fuel n : Nat) (acc : Bytes) (h : acc ≠ []) :
    bigIntBytesAux fuel n acc ≠ [] := by
  induction fuel generalizing n acc with
  | zero => exact h
  | succ fuel ih =>
    unfold bigIntBytesAux
    by_cases hn : n = 0
    · simp [hn, h]
    · simp only [hn, if_false]
      exact ih _ _ (List.cons_ne_nil _ _)

/-- The minimal big-endian bytes of a positive number are not empty. -/
theorem bigIntBytes_ne_nil (n : Nat) (h : 0 < n) : bigIntBytes n ≠ [] := by
  unfold bigIntBytes
  cases n with
  | zero => omega
  | succ m =>
    unfold bigIntBytesAux
    simp only [Nat.succ_ne_zero, if_false]
    exact bigIntBytesAux_ne_nil _ _ _ (List.cons_ne_nil _ _)

/-- Splitting a byte string that does not contain the separator gives the
string itself as the only piece. -/
theorem bytesSplit_not_mem (sep : Nat) (b : Bytes) (h : sep ∉ b) : bytesSplit sep b = [b] := by
  induction b with
  | nil => rfl
  | cons x rest ih =>
    have hx : x ≠ sep := fun e => h (e ▸ List.mem_cons_self _ _)
    have hrest : sep ∉ rest := fun e => h (List.mem_cons_of_mem _ e)
    simp [bytesSplit, hx, ih hrest]

/-- Splitting at the first separator: the bytes before it are the first piece. -/
theorem bytesSplit_append (sep : Nat) (a b : Bytes) (h : sep ∉ a) :
    bytesSplit sep (a ++ sep :: b) = a :: bytesSplit sep b := by
  induction a with
  | nil => simp [bytesSplit]
  | cons x rest ih =>
    have hx : x ≠ sep := fun e => h (e ▸ List.mem_cons_self _ _)
    have hrest : sep ∉ rest := fun e => h (List.mem_cons_of_mem _ e)
    simp [bytesSplit, hx, ih hrest]

/-- Where the extraction gives the identifier and the nonce back: for an
identifier `ticker-suffix` whose ticker and six-byte suffix contain no dash and
a nonce below `2 ^ 64` whose minimal big-endian bytes contain no byte 45 (the
dash), the argument `identifier ++ bytes(nonce)` is split into the identifier
and the nonce. -/
theorem extractTokenIdentifierAndNonceDCTWipe_no_dash (ticker suffix : Bytes) (n : Nat)
    (hticker : 45 ∉ ticker) (hsuffix : 45 ∉ suffix) (hlen : suffix.length = 6)
    (hn : n < 2 ^ 64) (hbytes : 45 ∉ bigIntBytes n) :
    extractTokenIdentifierAndNonceDCTWipe (ticker ++ [45] ++ suffix ++ bigIntBytes n)
      = (ticker ++ [45] ++ suffix, n) := by
  have hsplit : bytesSplit 45 (ticker ++ [45] ++ suffix ++ bigIntBytes n)
      = [ticker, suffix ++ bigIntBytes n] := by
    have h1 : ticker ++ [45] ++ suffix ++ bigIntBytes n
        = ticker ++ 45 :: (suffix ++ bigIntBytes n) := by simp
    rw [h1, bytesSplit_append 45 ticker _ hticker, bytesSplit_not_mem 45 _ (by
      intro h
      rcases List.mem_append.mp h with h | h
      · exact hsuffix h
      · exact hbytes h)]
  unfold extractTokenIdentifierAndNonceDCTWipe dctIdentifierSeparator dctRandomSequenceLength
  simp only [hsplit, argAt, List.length_cons, List.length_nil, List.getD_cons_succ,
    List.getD_cons_zero, List.length_append, hlen]
  by_cases h0 : n = 0
  · subst h0
    simp [bigIntBytes, bigIntBytesAux]
  · have hne : bigIntBytes n ≠ [] := bigIntBytes_ne_nil n (Nat.pos_of_ne_zero h0)
    have hpos : 0 < (bigIntBytes n).length := List.length_pos.mpr hne
    have hnot : ¬ 6 + (bigIntBytes n).length ≤ 6 := by omega
    have htake : (suffix ++ bigIntBytes n).take 6 = suffix := by
      rw [← hlen]
      simp
    have hdrop : (suffix ++ bigIntBytes n).drop 6 = bigIntBytes n := by
      rw [← hlen]
      simp
    simp only [Nat.lt_irrefl, if_false, hnot, htake, hdrop, bigIntSetBytes_bigIntBytes,
      bigIntUint64, Nat.mod_eq_of_lt hn, Nat.reduceLT, Nat.reduceAdd]


/-- C30 (failing input): for the accepted identifier `ALC-6258d2` and the nonce
45, whose minimal big-endian encoding is the single byte 45 (the dash), the
extraction applied to `identifier ++ bytes(nonce)` returns the whole argument
and the nonce 0, not the identifier and 45; for the nonce 301 (bytes 1, 45) it
returns the identifier and the nonce 1.  The identifier alone gives the
identifier and the nonce 0. -/
theorem extractTokenIdentifierAndNonceDCTWipe_dash_in_nonce :
    ValidateToken [65, 76, 67, 45, 54, 50, 53, 56, 100, 50] = .ok true ∧
    bigIntBytes 45 = [45] ∧
    extractTokenIdentifierAndNonceDCTWipe ([65, 76, 67, 45, 54, 50, 53, 56, 100, 50] ++ bigIntBytes 45)
      = ([65, 76, 67, 45, 54, 50, 53, 56, 100, 50, 45], 0) ∧
    bigIntBytes 301 = [1, 45] ∧
    extractTokenIdentifierAndNonceDCTWipe ([65, 76, 67, 45, 54, 50, 53, 56, 100, 50] ++ bigIntBytes 301)
      = ([65, 76, 67, 45, 54, 50, 53, 56, 100, 50], 1) ∧
    extractTokenIdentifierAndNonceDCTWipe [65, 76, 67, 45, 54, 50, 53, 56, 100, 50]
      = ([65, 76, 67, 45, 54, 50, 53, 56, 100, 50], 0) :=
  ⟨rfl, rfl, rfl, rfl, rfl, rfl⟩


/-- Decoding the encoding of global metadata gives the metadata back. -/
theorem DCTGlobalMetadataFromBytes_ToBytes (g : DCTGlobalMetadata) :
    DCTGlobalMetadataFromBytes g.ToBytes = g := by
  obtain ⟨p, l, b⟩ := g
  cases p <;> cases l <;> cases b <;> rfl

/-- The global metadata read back from a store in which the system account was
saved with the encoding of `m` under the key. -/
theorem getGlobalMetadata_after_save (e : dctGlobalSettings) (c : Core) (accounts : AccountsDB)
    (key : Bytes) (m : DCTGlobalMetadata) :
    e.getGlobalMetadata c
      (accounts.SaveAccount
        ((accounts.LoadAccount c.SystemAccountAddress).SaveKeyValue key m.ToBytes)) key = m := by
  unfold dctGlobalSettings.getGlobalMetadata dctGlobalSettings.getSystemAccount
  simp only [load_save_retrieve, DCTGlobalMetadataFromBytes_ToBytes]

/-- C21: `toggleSetting` returns no error.  For a function of the
limited-transfer family, of the pause family or of the burn-role-for-all family
(the families taken in the order of the `switch`), it stores under the token
key of the system account the 2-byte encoding in which the flag of that family
is the component's `set` value and the two other flags are the values decoded
from the bytes stored before; afterwards `IsPaused`, `IsLimitedTransfer` and
`IsBurnForAll` return exactly those three values. -/
theorem toggleSetting_flags (e : dctGlobalSettings) (c : Core) (accounts : AccountsDB)
    (key : Bytes) :
    ∃ accounts1 : AccountsDB,
      e.toggleSetting c accounts key = (none, accounts1) ∧
      ((accounts1.LoadAccount c.SystemAccountAddress).RetrieveValue key).length = 2 ∧
      (accounts1.LoadAccount c.SystemAccountAddress).RetrieveValue key
        = DCTGlobalMetadata.ToBytes
            { Paused := e.IsPaused c accounts1 key
              LimitedTransfer := e.IsLimitedTransfer c accounts1 key
              BurnRoleForAll := e.IsBurnForAll c accounts1 key } ∧
      ((e.function = c.BuiltInFunctionDCTSetLimitedTransfer ∨
          e.function = c.BuiltInFunctionDCTUnSetLimitedTransfer) →
        e.IsLimitedTransfer c accounts1 key = e.set ∧
        e.IsPaused c accounts1 key = e.IsPaused c accounts key ∧
        e.IsBurnForAll c accounts1 key = e.IsBurnForAll c accounts key) ∧
      (¬ (e.function = c.BuiltInFunctionDCTSetLimitedTransfer ∨
          e.function = c.BuiltInFunctionDCTUnSetLimitedTransfer) →
        (e.function = c.BuiltInFunctionDCTPause ∨ e.function = c.BuiltInFunctionDCTUnPause) →
        e.IsPaused c accounts1 key = e.set ∧
        e.IsLimitedTransfer c accounts1 key = e.IsLimitedTransfer c accounts key ∧
        e.IsBurnForAll c accounts1 key = e.IsBurnForAll c accounts key) ∧
      (¬ (e.function = c.BuiltInFunctionDCTSetLimitedTransfer ∨
          e.function = c.BuiltInFunctionDCTUnSetLimitedTransfer) →
        ¬ (e.function = c.BuiltInFunctionDCTPause ∨ e.function = c.BuiltInFunctionDCTUnPause) →
        (e.function = BuiltInFunctionDCTUnSetBurnRoleForAll ∨
          e.function = BuiltInFunctionDCTSetBurnRoleForAll) →
        e.IsBurnForAll c accounts1 key = e.set ∧
        e.IsPaused c accounts1 key = e.IsPaused c accounts key ∧
        e.IsLimitedTransfer c accounts1 key = e.IsLimitedTransfer c accounts key) := by
  have key_eq : ∀ m : DCTGlobalMetadata,
      (e.IsPaused c (accounts.SaveAccount
          ((accounts.LoadAccount c.SystemAccountAddress).SaveKeyValue key m.ToBytes)) key
        = m.Paused) ∧
      (e.IsLimitedTransfer c (accounts.SaveAccount
          ((accounts.LoadAccount c.SystemAccountAddress).SaveKeyValue key m.ToBytes)) key
        = m.LimitedTransfer) ∧
      (e.IsBurnForAll c (accounts.SaveAccount
          ((accounts.LoadAccount c.SystemAccountAddress).SaveKeyValue key m.ToBytes)) key
        = m.BurnRoleForAll) := by
    intro m
    simp only [dctGlobalSettings.IsPaused, dctGlobalSettings.IsLimitedTransfer,
      dctGlobalSettings.IsBurnForAll, getGlobalMetadata_after_save]
    refine ⟨?_, ?_, ?_⟩ <;> trivial
  unfold dctGlobalSettings.toggleSetting
  simp only [dctGlobalSettings.getSystemAccount]
  refine ⟨_, rfl, ?_, ?_, ?_, ?_, ?_⟩
  · rw [load_save_retrieve]
    rfl
  · rw [load_save_retrieve, (key_eq _).1, (key_eq _).2.1, (key_eq _).2.2]
  · intro h1
    rw [(key_eq _).1, (key_eq _).2.1, (key_eq _).2.2]
    simp only [h1, if_true]
    refine ⟨?_, ?_, ?_⟩ <;> trivial
  · intro h1 h2
    rw [(key_eq _).1, (key_eq _).2.1, (key_eq _).2.2]
    simp only [h1, h2, if_true, if_false]
    refine ⟨?_, ?_, ?_⟩ <;> trivial
  · intro h1 h2 h3
    rw [(key_eq _).1, (key_eq _).2.1, (key_eq _).2.2]
    simp only [h1, h2, h3, if_true, if_false]
    refine ⟨?_, ?_, ?_⟩ <;> trivial

/-- Witness for C21: pausing a token whose stored flags are limited-transfer and
burn-role-for-all (the byte 6): afterwards the token is paused and still
limited and burnable by all. -/
theorem toggleSetting_flags_witness :
    ∃ accounts1 : AccountsDB,
      (sampleGlobalSettings true [10]).toggleSetting sampleCore
        (sampleAccounts [100, 84] [6, 0]) [100, 84] = (none, accounts1) ∧
      (sampleGlobalSettings true [10]).IsPaused sampleCore accounts1 [100, 84] = true ∧
      (sampleGlobalSettings true [10]).IsLimitedTransfer sampleCore accounts1 [100, 84] = true ∧
      (sampleGlobalSettings true [10]).IsBurnForAll sampleCore accounts1 [100, 84] = true :=
  let ⟨accounts1, h1, _, _, _, h5, _⟩ := toggleSetting_flags (sampleGlobalSettings true [10])
    sampleCore (sampleAccounts [100, 84] [6, 0]) [100, 84]
  ⟨accounts1, h1, (h5 (by decide) (Or.inl rfl)).1,
    (h5 (by decide) (Or.inl rfl)).2.1.trans rfl, (h5 (by decide) (Or.inl rfl)).2.2.trans rfl⟩


/-- The add loop keeps a duplicate-free list duplicate-free. -/
theorem addNewAddressesLoop_nodup (addresses : DCTRoles) (args : List Bytes)
    (h : addresses.Roles.Nodup) : (addNewAddressesLoop addresses args).Roles.Nodup := by
  induction args generalizing addresses with
  | nil => exact h
  | cons a rest ih =>
    unfold addNewAddressesLoop
    by_cases hmem : a ∈ addresses.Roles
    · have hany : (addresses.Roles.any fun address => decide (a = address)) = true := by
        rw [List.any_eq_true]
        exact ⟨a, hmem, by simp⟩
      simp only [hany, Bool.not_true, Bool.false_eq_true, if_false]
      exact ih addresses h
    · have hany : (addresses.Roles.any fun address => decide (a = address)) = false := by
        rw [List.any_eq_false]
        intro x hx
        have hne : a ≠ x := fun e => hmem (e ▸ hx)
        simp [hne]
      simp only [hany, Bool.not_false, if_true]
      apply ih
      rw [List.nodup_append]
      refine ⟨h, List.nodup_singleton a, ?_⟩
      intro x hx hx2
      rw [List.mem_singleton] at hx2
      exact hmem (hx2 ▸ hx)

/-- The add loop appends at most one entry per argument. -/
theorem addNewAddressesLoop_length (addresses : DCTRoles) (args : List Bytes) :
    (addNewAddressesLoop addresses args).Roles.length ≤ addresses.Roles.length + args.length := by
  induction args generalizing addresses with
  | nil => exact Nat.le_refl _
  | cons a rest ih =>
    unfold addNewAddressesLoop
    simp only
    split
    · have := ih { Roles := addresses.Roles ++ [a] }
      simp only [List.length_append, List.length_singleton, List.length_cons, List.length_nil] at this ⊢
      omega
    · have := ih addresses
      simp only [List.length_cons]
      omega

/-- The list left by the add loop holds exactly the old addresses and the arguments. -/
theorem addNewAddressesLoop_mem (addresses : DCTRoles) (args : List Bytes) (x : Bytes) :
    x ∈ (addNewAddressesLoop addresses args).Roles ↔ x ∈ addresses.Roles ∨ x ∈ args := by
  induction args generalizing addresses with
  | nil => simp [addNewAddressesLoop]
  | cons a rest ih =>
    unfold addNewAddressesLoop
    by_cases hmem : a ∈ addresses.Roles
    · have hany : (addresses.Roles.any fun address => decide (a = address)) = true := by
        rw [List.any_eq_true]
        exact ⟨a, hmem, by simp⟩
      simp only [hany, Bool.not_true, Bool.false_eq_true, if_false, ih, List.mem_cons]
      constructor
      · rintro (h | h)
        · exact Or.inl h
        · exact Or.inr (Or.inr h)
      · rintro (h | h | h)
        · exact Or.inl h
        · exact Or.inl (h ▸ hmem)
        · exact Or.inr h
    · have hany : (addresses.Roles.any fun address => decide (a = address)) = false := by
        rw [List.any_eq_false]
        intro y hy
        have hne : a ≠ y := fun e => hmem (e ▸ hy)
        simp [hne]
      simp only [hany, Bool.not_false, if_true, ih, List.mem_append, List.mem_singleton,
        List.mem_cons]
      tauto


/-- C22: starting from a stored transfer-role address list `roles` that has no
duplicates and at most `maxNumAddresses` entries (list and argument lengths
fitting 32 bits), every successful add-address or delete-address call stores
the marshaled bytes of a list that has no duplicates and at most
`maxNumAddresses` entries: the list built by the add loop, which skips every
address already present (also one repeated in the arguments), or the list left
by `deleteRoles`.  An add whose resulting list has more than `maxNumAddresses`
entries fails with `ErrTooManyTransferAddresses` and leaves the store unchanged. -/
theorem transfer_addresses_invariant (e : dctTransferAddress) (c : Core)
    (accounts : AccountsDB) (vmInput : ContractCallInput) (roles : DCTRoles) (isNew : Bool)
    (hget : getDCTRolesForAcnt e.marshaller (accounts.LoadAccount c.SystemAccountAddress)
      (transferAddressesKeyPrefix c ++ argAt vmInput.Arguments 0) = .ok (roles, isNew))
    (hnodup : roles.Roles.Nodup) (hmax : roles.Roles.length ≤ e.maxNumAddresses)
    (hsize : roles.Roles.length + vmInput.Arguments.length < 2 ^ 32) :
    (∀ (out : VMOutput) (accounts1 : AccountsDB),
      e.ProcessBuiltinFunction c accounts (some vmInput) = (.ok out, accounts1) →
      ∃ stored : DCTRoles,
        stored = (if e.set then addNewAddressesLoop roles (vmInput.Arguments.drop 1)
          else deleteRoles roles (vmInput.Arguments.drop 1)) ∧
        stored.Roles.Nodup ∧ stored.Roles.length ≤ e.maxNumAddresses ∧
        e.marshaller.MarshalRoles stored
          = .ok ((accounts1.LoadAccount c.SystemAccountAddress).RetrieveValue
              (transferAddressesKeyPrefix c ++ argAt vmInput.Arguments 0))) ∧
    (e.set = true →
      e.maxNumAddresses < (addNewAddressesLoop roles (vmInput.Arguments.drop 1)).Roles.length →
      checkBasicDCTArguments (some vmInput) = none →
      vmInput.CallerAddr = c.DCTSCAddress →
      c.IsSystemAccountAddress vmInput.RecipientAddr = true →
      e.ProcessBuiltinFunction c accounts (some vmInput)
        = (.error .ErrTooManyTransferAddresses, accounts)) := by
  have hlen : (addNewAddressesLoop roles (vmInput.Arguments.drop 1)).Roles.length % 2 ^ 32
      = (addNewAddressesLoop roles (vmInput.Arguments.drop 1)).Roles.length := by
    apply Nat.mod_eq_of_lt
    have h1 := addNewAddressesLoop_length roles (vmInput.Arguments.drop 1)
    have h2 : (vmInput.Arguments.drop 1).length ≤ vmInput.Arguments.length := by
      rw [List.length_drop]
      omega
    omega
  constructor
  · intro out accounts1 hres
    unfold dctTransferAddress.ProcessBuiltinFunction at hres
    cases hb : checkBasicDCTArguments (some vmInput) with
    | some err => rw [hb] at hres; cases hres
    | none =>
      rw [hb] at hres
      simp only at hres
      by_cases hcaller : vmInput.CallerAddr = c.DCTSCAddress
      · by_cases hsys : c.IsSystemAccountAddress vmInput.RecipientAddr = true
        · simp only [hcaller, ne_eq, not_true_eq_false, if_false, hsys, Bool.not_true,
            Bool.false_eq_true, hget] at hres
          by_cases hset : e.set = true
          · simp only [hset, if_true, dctTransferAddress.addNewAddresses, hlen] at hres
            by_cases hover : e.maxNumAddresses
                < (addNewAddressesLoop roles (vmInput.Arguments.drop 1)).Roles.length
            · simp only [gt_iff_lt, hover, if_true] at hres
              cases hres
            · simp only [gt_iff_lt, hover, if_false, saveRolesToAccount] at hres
              cases hm : e.marshaller.MarshalRoles
                (addNewAddressesLoop roles (vmInput.Arguments.drop 1)) with
              | error code => rw [hm] at hres; cases hres
              | ok b =>
                rw [hm] at hres
                simp only at hres
                injection hres with _ h2
                subst h2
                refine ⟨addNewAddressesLoop roles (vmInput.Arguments.drop 1),
                  by simp only [hset, if_true], addNewAddressesLoop_nodup _ _ hnodup,
                  by omega, ?_⟩
                rw [hm, load_save_retrieve]
          · simp only [hset, Bool.false_eq_true, if_false, saveRolesToAccount] at hres
            cases hm : e.marshaller.MarshalRoles
              (deleteRoles roles (vmInput.Arguments.drop 1)) with
            | error code => rw [hm] at hres; cases hres
            | ok b =>
              rw [hm] at hres
              simp only at hres
              injection hres with _ h2
              subst h2
              have hsub : (deleteRoles roles (vmInput.Arguments.drop 1)).Roles.Sublist
                  roles.Roles := by
                rw [deleteRoles_eq_foldl]
                exact foldl_erase_sublist _ _
              refine ⟨deleteRoles roles (vmInput.Arguments.drop 1),
                by simp only [hset, Bool.false_eq_true, if_false],
                hnodup.sublist hsub, le_trans hsub.length_le hmax, ?_⟩
              rw [hm, load_save_retrieve]
        · simp only [hcaller, ne_eq, not_true_eq_false, if_false, hsys, Bool.not_false,
            if_true] at hres
          cases hres
      · simp only [ne_eq, hcaller, not_false_eq_true, if_true] at hres
        cases hres
  · intro hset hover hb hcaller hsys
    unfold dctTransferAddress.ProcessBuiltinFunction
    rw [hb]
    simp only [hcaller, ne_eq, not_true_eq_false, if_false, hsys, Bool.not_true,
      Bool.false_eq_true, hget, hset, if_true, dctTransferAddress.addNewAddresses, hlen,
      gt_iff_lt, hover]


/-- Witness for C22: with at most two addresses per token and the address `[1]`
stored, adding `[2]` twice stores a duplicate-free list of two entries, and
adding `[2]` and `[3]` fails with `ErrTooManyTransferAddresses`, the store
unchanged. -/
theorem transfer_addresses_invariant_witness :
    (∃ stored : DCTRoles,
      stored = addNewAddressesLoop { Roles := [[1]] } [[2], [2]] ∧
      stored.Roles.Nodup ∧ stored.Roles.length ≤ 2 ∧
      listMarshalizer.MarshalRoles stored
        = .ok ((((sampleTransferAddress true).ProcessBuiltinFunction sampleCore
              (sampleAddressStore [[1]]) (some (sampleAddressInput [[2], [2]]))).2.LoadAccount
            [254]).RetrieveValue (transferAddressesKeyPrefix sampleCore ++ [84]))) ∧
    (sampleTransferAddress true).ProcessBuiltinFunction sampleCore (sampleAddressStore [[1]])
        (some (sampleAddressInput [[2], [3]]))
      = (.error .ErrTooManyTransferAddresses, sampleAddressStore [[1]]) :=
  ⟨(transfer_addresses_invariant (sampleTransferAddress true) sampleCore
      (sampleAddressStore [[1]]) (sampleAddressInput [[2], [2]]) { Roles := [[1]] } false
      rfl (by decide) (by decide) (by decide)).1
      (((sampleTransferAddress true).ProcessBuiltinFunction sampleCore
        (sampleAddressStore [[1]]) (some (sampleAddressInput [[2], [2]]))).1.toOption.getD {})
      _ rfl,
    (transfer_addresses_invariant (sampleTransferAddress true) sampleCore
      (sampleAddressStore [[1]]) (sampleAddressInput [[2], [3]]) { Roles := [[1]] } false
      rfl (by decide) (by decide) (by decide)).2 rfl (by decide) rfl rfl rfl⟩


/-- What a passed argument check of a local action says. -/
theorem checkInputArgumentsForLocalAction_none (acntSnd : Option UserAccount)
    (vmInput : ContractCallInput) (funcGasCost : Nat)
    (h : checkInputArgumentsForLocalAction acntSnd (some vmInput) funcGasCost = none) :
    vmInput.CallerAddr = vmInput.RecipientAddr ∧ acntSnd.isSome = true ∧
    0 < bigIntSetBytes (argAt vmInput.Arguments 1) ∧ funcGasCost ≤ vmInput.GasProvided := by
  unfold checkInputArgumentsForLocalAction at h
  cases hb : checkBasicDCTArguments (some vmInput) with
  | some err => rw [hb] at h; cases h
  | none =>
    rw [hb] at h
    simp only at h
    by_cases h1 : vmInput.CallerAddr = vmInput.RecipientAddr
    · simp only [h1, ne_eq, not_true_eq_false, if_false] at h
      cases hs : acntSnd with
      | none => simp [hs] at h
      | some snd =>
        simp only [hs, Option.isNone_some, Bool.false_eq_true, if_false] at h
        by_cases h2 : ((bigIntSetBytes (argAt vmInput.Arguments 1) : Nat) : Int) ≤ 0
        · simp [h2] at h
        · simp only [h2, if_false] at h
          by_cases h3 : vmInput.GasProvided < funcGasCost
          · simp [h3] at h
          · exact ⟨h1, rfl, by omega, by omega⟩
    · simp [h1] at h

/-- C23: a successful local mint of the value `v` (the second argument) of the
token `X` (the first argument) on an account whose stored record for `X` is
`d`: the account passed the local-mint role check, `v` is positive, the record
is fungible and the gas provided covers the function cost; the stored balance
of `X` read back afterwards is `d.Value + v`, the output's gas remaining is the
gas provided minus the function cost, and the output carries exactly one log
entry, with the identifier of the local mint function, the caller as address
and the topics `X`, the minimal big-endian bytes of the nonce 0 (no bytes) and
the minimal big-endian bytes of `v`.  The marshaler is assumed to round-trip
the updated record through non-empty bytes. -/
theorem local_mint_success (e : dctLocalMint) (c : Core) (snd : UserAccount)
    (vmInput : ContractCallInput) (out : VMOutput) (snd1 : Option UserAccount) (d : DCToken)
    (hres : e.ProcessBuiltinFunction c (some snd) (some vmInput) = (.ok out, snd1))
    (hget : getDCTDataFromKey snd (e.keyPrefix ++ argAt vmInput.Arguments 0) e.marshaller
      = .ok d)
    (hrt : ∃ b, e.marshaller.Marshal
        { d with Value := d.Value + (bigIntSetBytes (argAt vmInput.Arguments 1) : Int) } = .ok b ∧
      b ≠ [] ∧
      e.marshaller.Unmarshal { Value := 0, Type_ := Fungible } b
        = .ok { d with Value := d.Value + (bigIntSetBytes (argAt vmInput.Arguments 1) : Int) }) :
    e.rolesHandler.CheckAllowedToExecute (some snd) (argAt vmInput.Arguments 0)
      c.DCTRoleLocalMint = none ∧
    0 < bigIntSetBytes (argAt vmInput.Arguments 1) ∧
    e.funcGasCost ≤ vmInput.GasProvided ∧
    (∃ (snd2 : UserAccount) (d1 : DCToken), snd1 = some snd2 ∧
      getDCTDataFromKey snd2 (e.keyPrefix ++ argAt vmInput.Arguments 0) e.marshaller = .ok d1 ∧
      d1.Value = d.Value + (bigIntSetBytes (argAt vmInput.Arguments 1) : Int)) ∧
    out.GasRemaining = vmInput.GasProvided - e.funcGasCost ∧
    out.ReturnCode = Ok ∧
    out.Logs =
      [{ Identifier := c.BuiltInFunctionDCTLocalMint
         Address := vmInput.CallerAddr
         Topics := [argAt vmInput.Arguments 0, bigIntBytes 0,
           bigIntBytes (bigIntSetBytes (argAt vmInput.Arguments 1))] }] ∧
    bigIntBytes 0 = [] := by
  unfold dctLocalMint.ProcessBuiltinFunction at hres
  cases hchk : checkInputArgumentsForLocalAction (some snd) (some vmInput) e.funcGasCost with
  | some err => rw [hchk] at hres; cases hres
  | none =>
    rw [hchk] at hres
    simp only at hres
    obtain ⟨_, _, hpos, hgas⟩ := checkInputArgumentsForLocalAction_none _ _ _ hchk
    cases hrole : e.rolesHandler.CheckAllowedToExecute (some snd) (argAt vmInput.Arguments 0)
        c.DCTRoleLocalMint with
    | some err => rw [hrole] at hres; cases hres
    | none =>
      rw [hrole] at hres
      simp only at hres
      by_cases hlen : (argAt vmInput.Arguments 1).length > c.MaxLenForDCTIssueMint
      · simp only [hlen, if_true] at hres
        cases hres
      · simp only [hlen, if_false] at hres
        cases hadd : addToDCTBalance c snd (e.keyPrefix ++ argAt vmInput.Arguments 0)
            (bigIntSetBytes (argAt vmInput.Arguments 1) : Int) e.marshaller
            e.globalSettingsHandler vmInput.ReturnCallAfterError with
        | mk aerr snd2 =>
          rw [hadd] at hres
          cases aerr with
          | some err => cases hres
          | none =>
            simp only at hres
            injection hres with h1 h2
            injection h1 with h1
            have hnone : (addToDCTBalance c snd (e.keyPrefix ++ argAt vmInput.Arguments 0)
                (bigIntSetBytes (argAt vmInput.Arguments 1) : Int) e.marshaller
                e.globalSettingsHandler vmInput.ReturnCallAfterError).1 = none := by
              rw [hadd]
            obtain ⟨d1, hd1, hv⟩ := addToDCTBalance_success c snd _ _ e.marshaller
              e.globalSettingsHandler vmInput.ReturnCallAfterError d hget hnone hrt
            rw [hadd] at hd1
            refine ⟨rfl, hpos, hgas, ⟨snd2, d1, h2.symm, hd1, hv⟩, ?_, ?_, ?_, rfl⟩
            · rw [← h1]; rfl
            · rw [← h1]; rfl
            · rw [← h1]
              simp [addDCTEntryInVMOutput, newEntryForDCT, argAt]


/-- Witness for C23 (scenario A): minting 100 of token `[88]` with gas 50 and
cost 10 on an account without a record gives the balance 100, gas remaining 40
and one log entry with the topics `[88]`, no bytes, `[100]`. -/
theorem local_mint_success_witness :
    (∃ (snd2 : UserAccount) (d1 : DCToken),
      (sampleLocalMint.ProcessBuiltinFunction sampleCore (some (sampleAccount [0, 1] [] []))
        (some sampleMintInput)).2 = some snd2 ∧
      getDCTDataFromKey snd2 [100, 88] listMarshalizer = .ok d1 ∧ d1.Value = 0 + 100) ∧
    ((sampleLocalMint.ProcessBuiltinFunction sampleCore (some (sampleAccount [0, 1] [] []))
        (some sampleMintInput)).1.toOption.getD {}).GasRemaining = 50 - 10 ∧
    ((sampleLocalMint.ProcessBuiltinFunction sampleCore (some (sampleAccount [0, 1] [] []))
        (some sampleMintInput)).1.toOption.getD {}).Logs
      = [{ Identifier := [14], Address := [0, 1], Topics := [[88], [], [100]] }] :=
  have h := local_mint_success sampleLocalMint sampleCore (sampleAccount [0, 1] [] [])
    sampleMintInput
    ((sampleLocalMint.ProcessBuiltinFunction sampleCore (some (sampleAccount [0, 1] [] []))
      (some sampleMintInput)).1.toOption.getD {})
    (sampleLocalMint.ProcessBuiltinFunction sampleCore (some (sampleAccount [0, 1] [] []))
      (some sampleMintInput)).2
    { Value := 0, Type_ := Fungible } rfl rfl
    ⟨encodeDCToken { Value := 100, Type_ := Fungible }, rfl, by decide, rfl⟩
  ⟨h.2.2.2.1, h.2.2.2.2.1, h.2.2.2.2.2.2.1.trans rfl⟩


/-- What a passed argument check of the NFT functions says. -/
theorem checkDCTNFTCreateBurnAddInput_none (account : Option UserAccount)
    (vmInput : ContractCallInput) (funcGasCost : Nat)
    (h : checkDCTNFTCreateBurnAddInput account (some vmInput) funcGasCost = none) :
    vmInput.CallerAddr = vmInput.RecipientAddr ∧ account.isSome = true ∧
    funcGasCost ≤ vmInput.GasProvided := by
  unfold checkDCTNFTCreateBurnAddInput at h
  cases hb : checkBasicDCTArguments (some vmInput) with
  | some err => rw [hb] at h; cases h
  | none =>
    rw [hb] at h
    simp only at h
    by_cases h1 : vmInput.CallerAddr = vmInput.RecipientAddr
    · simp only [h1, ne_eq, not_true_eq_false, if_false] at h
      cases hs : account with
      | none => simp [hs] at h
      | some snd =>
        simp only [hs, Option.isNone_some, Bool.false_eq_true, if_false] at h
        by_cases h3 : vmInput.GasProvided < funcGasCost
        · simp [h3] at h
        · exact ⟨h1, rfl, by omega⟩
    · simp [h1] at h

/-- C24: an NFT burn of the quantity `q` (third argument) by an account that
passes the argument check and is allowed to burn, whose sender-side record for
the token and a nonce above zero is `dS`.  If `q` exceeds the quantity of `dS`
the call fails with `ErrInvalidNFTQuantity` and the account and the store are
unchanged.  Otherwise the record is saved with the quantity of `dS` minus `q`,
then the liquidity is adjusted by exactly `-q`, and when both steps return no
error the call succeeds with gas remaining equal to the gas provided minus the
function cost (which the gas provided covers) and one log entry of the burn. -/
theorem nft_burn_quantity (e : dctNFTBurn) (c : Core) (accounts : AccountsDB)
    (snd : UserAccount) (vmInput : ContractCallInput) (dS : DCToken)
    (hchk : checkDCTNFTCreateBurnAddInput (some snd) (some vmInput) e.funcGasCost = none)
    (hlen : 3 ≤ vmInput.Arguments.length)
    (hallowed : e.isAllowedToBurn c (some snd) (argAt vmInput.Arguments 0) = none)
    (hnonce : 0 < bigIntUint64 (bigIntSetBytes (argAt vmInput.Arguments 1)))
    (hget : e.dctStorageHandler.GetDCTNFTTokenOnSender c accounts snd
      (e.keyPrefix ++ argAt vmInput.Arguments 0)
      (bigIntUint64 (bigIntSetBytes (argAt vmInput.Arguments 1))) = .ok dS) :
    e.funcGasCost ≤ vmInput.GasProvided ∧
    (dS.Value < (bigIntSetBytes (argAt vmInput.Arguments 2) : Int) →
      e.ProcessBuiltinFunction c accounts (some snd) (some vmInput)
        = (.error .ErrInvalidNFTQuantity, some snd, accounts)) ∧
    ((bigIntSetBytes (argAt vmInput.Arguments 2) : Int) ≤ dS.Value →
      e.ProcessBuiltinFunction c accounts (some snd) (some vmInput)
        = match e.dctStorageHandler.SaveDCTNFTToken c accounts snd.Address snd
            (e.keyPrefix ++ argAt vmInput.Arguments 0)
            (bigIntUint64 (bigIntSetBytes (argAt vmInput.Arguments 1)))
            { dS with Value := dS.Value - (bigIntSetBytes (argAt vmInput.Arguments 2) : Int) }
            false vmInput.ReturnCallAfterError with
          | (.error err, snd1, accounts1) => (.error err, some snd1, accounts1)
          | (.ok _, snd1, accounts1) =>
            match e.dctStorageHandler.AddToLiquiditySystemAcc c accounts1
                (e.keyPrefix ++ argAt vmInput.Arguments 0)
                (bigIntUint64 (bigIntSetBytes (argAt vmInput.Arguments 1)))
                (-(bigIntSetBytes (argAt vmInput.Arguments 2) : Int)) with
            | (some err, accounts2) => (.error err, some snd1, accounts2)
            | (none, accounts2) =>
              (.ok { ReturnCode := Ok
                     GasRemaining := vmInput.GasProvided - e.funcGasCost
                     Logs :=
                       [{ Identifier := c.BuiltInFunctionDCTNFTBurn
                          Address := vmInput.CallerAddr
                          Topics := [argAt vmInput.Arguments 0,
                            bigIntBytes (bigIntUint64 (bigIntSetBytes (argAt vmInput.Arguments 1))),
                            bigIntBytes (bigIntSetBytes (argAt vmInput.Arguments 2))] }] },
                some snd1, accounts2)) := by
  have hn0 : ¬ bigIntUint64 (bigIntSetBytes (argAt vmInput.Arguments 1)) = 0 := by omega
  have hlen3 : ¬ vmInput.Arguments.length < 3 := by omega
  refine ⟨(checkDCTNFTCreateBurnAddInput_none _ _ _ hchk).2.2, ?_, ?_⟩
  · intro hlt
    unfold dctNFTBurn.ProcessBuiltinFunction
    rw [hchk]
    simp only [hlen3, if_false, hallowed, hget, hn0, hlt, if_true]
  · intro hle
    have hnlt : ¬ dS.Value < (bigIntSetBytes (argAt vmInput.Arguments 2) : Int) := by omega
    unfold dctNFTBurn.ProcessBuiltinFunction
    rw [hchk]
    simp only [hlen3, if_false, hallowed, hget, hn0, hnlt]
    cases hsave : e.dctStorageHandler.SaveDCTNFTToken c accounts snd.Address snd
        (e.keyPrefix ++ argAt vmInput.Arguments 0)
        (bigIntUint64 (bigIntSetBytes (argAt vmInput.Arguments 1)))
        { dS with Value := dS.Value - (bigIntSetBytes (argAt vmInput.Arguments 2) : Int) }
        false vmInput.ReturnCallAfterError with
    | mk res rest =>
      obtain ⟨snd1, accounts1⟩ := rest
      cases res with
      | error err => rfl
      | ok b =>
        simp only
        cases hliq : e.dctStorageHandler.AddToLiquiditySystemAcc c accounts1
            (e.keyPrefix ++ argAt vmInput.Arguments 0)
            (bigIntUint64 (bigIntSetBytes (argAt vmInput.Arguments 1)))
            (-(bigIntSetBytes (argAt vmInput.Arguments 2) : Int)) with
        | mk lerr accounts2 =>
          cases lerr with
          | some err => rfl
          | none =>
            simp [addDCTEntryInVMOutput, newEntryForDCT, argAt]


/-- Witness for C24 (scenario B): the account holds 5 of the token and the system
account a liquidity of 10.  Burning 6 fails with `ErrInvalidNFTQuantity`, nothing
written; burning 3 succeeds with gas remaining 40, leaves the quantity 2 on the
account and the liquidity 7 on the system account. -/
theorem nft_burn_quantity_witness :
    sampleNFTBurn.ProcessBuiltinFunction sampleCore
        (sampleAccounts [100, 5, 7] (encodeDCToken { sampleNFT 10 with Reserved := [1] }))
        (some (sampleAccount [0, 1] [100, 5, 7] (encodeDCToken { Value := 5, Type_ := 1 })))
        (some (sampleBurnInput 6))
      = (.error .ErrInvalidNFTQuantity,
          some (sampleAccount [0, 1] [100, 5, 7] (encodeDCToken { Value := 5, Type_ := 1 })),
          sampleAccounts [100, 5, 7] (encodeDCToken { sampleNFT 10 with Reserved := [1] })) ∧
    sampleNFTBurn.funcGasCost ≤ (sampleBurnInput 3).GasProvided ∧
    (sampleNFTBurn.ProcessBuiltinFunction sampleCore
        (sampleAccounts [100, 5, 7] (encodeDCToken { sampleNFT 10 with Reserved := [1] }))
        (some (sampleAccount [0, 1] [100, 5, 7] (encodeDCToken { Value := 5, Type_ := 1 })))
        (some (sampleBurnInput 3))).1.toOption.map (fun out => out.GasRemaining) = some 40 ∧
    (sampleNFTBurn.ProcessBuiltinFunction sampleCore
        (sampleAccounts [100, 5, 7] (encodeDCToken { sampleNFT 10 with Reserved := [1] }))
        (some (sampleAccount [0, 1] [100, 5, 7] (encodeDCToken { Value := 5, Type_ := 1 })))
        (some (sampleBurnInput 3))).2.1.map (fun acc => acc.RetrieveValue [100, 5, 7])
      = some (encodeDCToken { Value := 2, Type_ := 1 }) ∧
    ((sampleNFTBurn.ProcessBuiltinFunction sampleCore
        (sampleAccounts [100, 5, 7] (encodeDCToken { sampleNFT 10 with Reserved := [1] }))
        (some (sampleAccount [0, 1] [100, 5, 7] (encodeDCToken { Value := 5, Type_ := 1 })))
        (some (sampleBurnInput 3))).2.2.LoadAccount [254]).RetrieveValue [100, 5, 7]
      = encodeDCToken { sampleNFT 7 with Reserved := [1] } :=
  ⟨(nft_burn_quantity sampleNFTBurn sampleCore
      (sampleAccounts [100, 5, 7] (encodeDCToken { sampleNFT 10 with Reserved := [1] }))
      (sampleAccount [0, 1] [100, 5, 7] (encodeDCToken { Value := 5, Type_ := 1 }))
      (sampleBurnInput 6) (sampleNFT 5) rfl (by decide) rfl (by decide) rfl).2.1 (by decide),
    (nft_burn_quantity sampleNFTBurn sampleCore
      (sampleAccounts [100, 5, 7] (encodeDCToken { sampleNFT 10 with Reserved := [1] }))
      (sampleAccount [0, 1] [100, 5, 7] (encodeDCToken { Value := 5, Type_ := 1 }))
      (sampleBurnInput 3) (sampleNFT 5) rfl (by decide) rfl (by decide) rfl).1,
    rfl, rfl, rfl⟩


/-- Decoding the encoding of user metadata gives the metadata back. -/
theorem DCTUserMetadataFromBytes_ToBytes (u : DCTUserMetadata) :
    DCTUserMetadataFromBytes u.ToBytes = u := by
  obtain ⟨f⟩ := u
  cases f <;> rfl

/-- The encoded user metadata is all-zero exactly when the frozen flag is clear. -/
theorem arePropertiesEmpty_ToBytes (f : Bool) :
    arePropertiesEmpty (DCTUserMetadata.ToBytes { Frozen := f }) = !f := by
  cases f <;> rfl

/-- The record read back after `toggleFreeze`-style saving of a record whose
properties encode the frozen flag `f`: the flag is `f` and the value is the
saved value, whether the key was removed (zero value, flag clear) or written. -/
theorem getDCTDataFromKey_saveDCTData_frozen (userAcnt : UserAccount) (d : DCToken) (f : Bool)
    (key : Bytes) (marshaller : Marshalizer)
    (hrt : ∃ b, marshaller.Marshal { d with Properties := DCTUserMetadata.ToBytes { Frozen := f } }
        = .ok b ∧ b ≠ [] ∧
      marshaller.Unmarshal { Value := 0, Type_ := Fungible } b
        = .ok { d with Properties := DCTUserMetadata.ToBytes { Frozen := f } }) :
    ∃ acnt1, saveDCTData userAcnt
        { d with Properties := DCTUserMetadata.ToBytes { Frozen := f } } key marshaller
        = (none, acnt1) ∧
      acnt1.Address = userAcnt.Address ∧
      (∃ d1, getDCTDataFromKey acnt1 key marshaller = .ok d1 ∧
        (DCTUserMetadataFromBytes d1.Properties).Frozen = f ∧ d1.Value = d.Value) ∧
      (f = true → acnt1.RetrieveValue key ≠ [] ∧
        marshaller.Marshal { d with Properties := DCTUserMetadata.ToBytes { Frozen := f } }
          = .ok (acnt1.RetrieveValue key)) := by
  obtain ⟨b, hm, hb, hun⟩ := hrt
  by_cases hc : d.Value = 0 ∧ f = false
  · obtain ⟨hv, hf⟩ := hc
    subst hf
    refine ⟨userAcnt.SaveKeyValue key [], ?_, rfl, ?_, ?_⟩
    · simp [saveDCTData, hv, arePropertiesEmpty_ToBytes]
    · refine ⟨{ Value := 0, Type_ := Fungible }, ?_, rfl, hv.symm⟩
      simp [getDCTDataFromKey]
    · intro h
      cases h
  · have hcond : (decide (d.Value = 0) &&
        arePropertiesEmpty (DCTUserMetadata.ToBytes { Frozen := f })) = false := by
      rw [arePropertiesEmpty_ToBytes]
      cases f
      · have hv : ¬ d.Value = 0 := fun h => hc ⟨h, rfl⟩
        simp [hv]
      · simp
    refine ⟨userAcnt.SaveKeyValue key b, ?_, rfl, ?_, ?_⟩
    · simp only [saveDCTData, hcond, Bool.false_eq_true, if_false, hm]
    · refine ⟨{ d with Properties := DCTUserMetadata.ToBytes { Frozen := f } }, ?_, ?_, rfl⟩
      · have hlen : ¬ b.length = 0 := fun h => hb (List.length_eq_zero.mp h)
        simp only [getDCTDataFromKey, retrieve_save_same, hlen, if_false, hun, liftMarshal]
      · simp only [DCTUserMetadataFromBytes_ToBytes]
    · intro _
      rw [retrieve_save_same]
      exact ⟨hb, hm⟩


/-- C25: freeze and unfreeze, called by the system contract address with one
argument and no value on an account whose record for the token is `d` (the
zero-value fungible record when nothing is stored): the call succeeds, leaves
the account store unchanged, and the record read back from the account has the
frozen flag equal to the requested value and the value of `d`.  A freeze
stores non-empty bytes, the marshaled record with the frozen properties, also
when there was no prior record, in which case the value is 0.  The output
carries exactly one log entry, whose value topic is the minimal big-endian
bytes of the value of `d`.  The marshaler is assumed to round-trip the updated
record through non-empty bytes. -/
theorem toggle_freeze (e : dctFreezeWipe) (c : Core) (accounts : AccountsDB)
    (dst : UserAccount) (vmInput : ContractCallInput) (d : DCToken)
    (hwipe : e.wipe = false) (hvalue : vmInput.CallValue = some 0)
    (hargs : vmInput.Arguments.length = 1) (hcaller : vmInput.CallerAddr = c.DCTSCAddress)
    (hget : getDCTDataFromKey dst (e.keyPrefix ++ argAt vmInput.Arguments 0) e.marshaller
      = .ok d)
    (hrt : ∃ b,
      e.marshaller.Marshal { d with Properties := DCTUserMetadata.ToBytes { Frozen := e.freeze } }
        = .ok b ∧ b ≠ [] ∧
      e.marshaller.Unmarshal { Value := 0, Type_ := Fungible } b
        = .ok { d with Properties := DCTUserMetadata.ToBytes { Frozen := e.freeze } }) :
    ∃ (out : VMOutput) (dst1 : UserAccount),
      e.ProcessBuiltinFunction c accounts (some dst) (some vmInput)
        = (.ok out, some dst1, accounts) ∧
      (∃ d1, getDCTDataFromKey dst1 (e.keyPrefix ++ argAt vmInput.Arguments 0) e.marshaller
          = .ok d1 ∧
        (DCTUserMetadataFromBytes d1.Properties).Frozen = e.freeze ∧ d1.Value = d.Value) ∧
      (e.freeze = true →
        dst1.RetrieveValue (e.keyPrefix ++ argAt vmInput.Arguments 0) ≠ [] ∧
        e.marshaller.Marshal
            { d with Properties := DCTUserMetadata.ToBytes { Frozen := e.freeze } }
          = .ok (dst1.RetrieveValue (e.keyPrefix ++ argAt vmInput.Arguments 0))) ∧
      (dst.RetrieveValue (e.keyPrefix ++ argAt vmInput.Arguments 0) = [] → d.Value = 0) ∧
      out.Logs =
        [{ Identifier := vmInput.Function
           Address := vmInput.CallerAddr
           Topics :=
             [(extractTokenIdentifierAndNonceDCTWipe (argAt vmInput.Arguments 0)).1,
              bigIntBytes (extractTokenIdentifierAndNonceDCTWipe (argAt vmInput.Arguments 0)).2,
              bigIntBytes d.Value.natAbs, dst.Address] }] := by
  obtain ⟨acnt1, hsave, haddr, hread, hstored⟩ := getDCTDataFromKey_saveDCTData_frozen dst d
    e.freeze (e.keyPrefix ++ argAt vmInput.Arguments 0) e.marshaller hrt
  have htoggle : e.toggleFreeze dst (e.keyPrefix ++ argAt vmInput.Arguments 0)
      = (.ok d.Value, acnt1) := by
    simp only [dctFreezeWipe.toggleFreeze, hget, hsave, ZeroValueIfNil]
  refine ⟨addDCTEntryInVMOutput { ReturnCode := Ok } vmInput.Function
    (extractTokenIdentifierAndNonceDCTWipe (argAt vmInput.Arguments 0)).1
    (extractTokenIdentifierAndNonceDCTWipe (argAt vmInput.Arguments 0)).2 d.Value
    [vmInput.CallerAddr, acnt1.Address], acnt1, ?_, hread, hstored, ?_, ?_⟩
  · simp only [dctFreezeWipe.ProcessBuiltinFunction, hvalue, ne_eq, not_true_eq_false, if_false,
      hargs, hcaller, hwipe, Bool.false_eq_true, htoggle]
  · intro hempty
    have hd : d = { Value := 0, Type_ := Fungible } := by
      simp only [getDCTDataFromKey, hempty, List.length_nil, if_true] at hget
      injection hget with hget
      exact hget.symm
    rw [hd]
  · simp [addDCTEntryInVMOutput, newEntryForDCT, argAt, haddr]


/-- Witness for C25 (scenario C): freezing the token `[75]` on an account with
no prior record succeeds and stores a frozen record of value 0; the log entry
reports the value 0 (no bytes). -/
theorem toggle_freeze_witness :
    ∃ (out : VMOutput) (dst1 : UserAccount),
      (sampleFreezeWipe {} false true).ProcessBuiltinFunction sampleCore (sampleAccounts [] [])
          (some (sampleAccount [0, 1] [] [])) (some (sampleFreezeInput [75]))
        = (.ok out, some dst1, sampleAccounts [] []) ∧
      (∃ d1, getDCTDataFromKey dst1 [100, 75] listMarshalizer = .ok d1 ∧
        (DCTUserMetadataFromBytes d1.Properties).Frozen = true ∧ d1.Value = 0) ∧
      out.Logs = [{ Identifier := [8], Address := [255], Topics := [[75], [], [], [0, 1]] }] :=
  let ⟨out, dst1, h1, h2, _, _, h5⟩ := toggle_freeze (sampleFreezeWipe {} false true) sampleCore
    (sampleAccounts [] []) (sampleAccount [0, 1] [] []) (sampleFreezeInput [75])
    { Value := 0, Type_ := Fungible } rfl rfl rfl rfl rfl
    ⟨encodeDCToken { Value := 0, Type_ := Fungible, Properties := [1, 0] }, rfl, by decide, rfl⟩
  ⟨out, dst1, h1, h2, h5.trans rfl⟩


/-- C26: a wipe, called by the system contract address with one argument and no
value on an account whose record for the token is `d`.  When the frozen flag of
`d` is not set the call fails with `ErrCannotWipeAccountNotFrozen`, the account
and the store unchanged.  When it is set the key is removed from the account;
with the wipe-liquidity-decrease gate off the store is not touched, with the
gate on the liquidity of the extracted identifier and nonce is adjusted by
minus the value of `d`; when that adjustment returns no error the call
succeeds with exactly one log entry, whose value topic is the minimal
big-endian bytes of the wiped value. -/
theorem wipe_frozen_record (e : dctFreezeWipe) (c : Core) (accounts : AccountsDB)
    (dst : UserAccount) (vmInput : ContractCallInput) (d : DCToken)
    (hwipe : e.wipe = true) (hvalue : vmInput.CallValue = some 0)
    (hargs : vmInput.Arguments.length = 1) (hcaller : vmInput.CallerAddr = c.DCTSCAddress)
    (hget : getDCTDataFromKey dst (e.keyPrefix ++ argAt vmInput.Arguments 0) e.marshaller
      = .ok d) :
    ((DCTUserMetadataFromBytes d.Properties).Frozen = false →
      e.ProcessBuiltinFunction c accounts (some dst) (some vmInput)
        = (.error .ErrCannotWipeAccountNotFrozen, some dst, accounts)) ∧
    ((DCTUserMetadataFromBytes d.Properties).Frozen = true →
      ((dst.SaveKeyValue (e.keyPrefix ++ argAt vmInput.Arguments 0) []).RetrieveValue
          (e.keyPrefix ++ argAt vmInput.Arguments 0) = []) ∧
      (e.enableEpochsHandler.IsWipeSingleNFTLiquidityDecreaseEnabled = false →
        e.ProcessBuiltinFunction c accounts (some dst) (some vmInput)
          = (.ok { ReturnCode := Ok
                   Logs :=
                     [{ Identifier := vmInput.Function
                        Address := vmInput.CallerAddr
                        Topics :=
                          [(extractTokenIdentifierAndNonceDCTWipe (argAt vmInput.Arguments 0)).1,
                           bigIntBytes
                             (extractTokenIdentifierAndNonceDCTWipe (argAt vmInput.Arguments 0)).2,
                           bigIntBytes d.Value.natAbs, dst.Address] }] },
              some (dst.SaveKeyValue (e.keyPrefix ++ argAt vmInput.Arguments 0) []),
              accounts)) ∧
      (e.enableEpochsHandler.IsWipeSingleNFTLiquidityDecreaseEnabled = true →
        e.ProcessBuiltinFunction c accounts (some dst) (some vmInput)
          = match e.dctStorageHandler.AddToLiquiditySystemAcc c accounts
              (e.keyPrefix ++ (extractTokenIdentifierAndNonceDCTWipe (argAt vmInput.Arguments 0)).1)
              (extractTokenIdentifierAndNonceDCTWipe (argAt vmInput.Arguments 0)).2
              (-d.Value) with
            | (some err, accounts1) =>
              (.error err, some (dst.SaveKeyValue (e.keyPrefix ++ argAt vmInput.Arguments 0) []),
                accounts1)
            | (none, accounts1) =>
              (.ok { ReturnCode := Ok
                     Logs :=
                       [{ Identifier := vmInput.Function
                          Address := vmInput.CallerAddr
                          Topics :=
                            [(extractTokenIdentifierAndNonceDCTWipe (argAt vmInput.Arguments 0)).1,
                             bigIntBytes
                               (extractTokenIdentifierAndNonceDCTWipe (argAt vmInput.Arguments 0)).2,
                             bigIntBytes d.Value.natAbs, dst.Address] }] },
                some (dst.SaveKeyValue (e.keyPrefix ++ argAt vmInput.Arguments 0) []),
                accounts1))) := by
  refine ⟨?_, ?_⟩
  · intro hfrozen
    simp only [dctFreezeWipe.ProcessBuiltinFunction, hvalue, ne_eq, not_true_eq_false, if_false,
      hargs, hcaller, hwipe, if_true, dctFreezeWipe.wipeIfApplicable, hget, hfrozen,
      Bool.not_false]
  · intro hfrozen
    refine ⟨retrieve_save_same _ _ _, ?_, ?_⟩
    · intro hgate
      simp only [dctFreezeWipe.ProcessBuiltinFunction, hvalue, ne_eq, not_true_eq_false, if_false,
        hargs, hcaller, hwipe, if_true, dctFreezeWipe.wipeIfApplicable, hget, hfrozen,
        Bool.not_true, Bool.false_eq_true, dctFreezeWipe.removeLiquidity, hgate, Bool.not_false,
        ZeroValueIfNil]
      simp [addDCTEntryInVMOutput, newEntryForDCT, argAt]
    · intro hgate
      simp only [dctFreezeWipe.ProcessBuiltinFunction, hvalue, ne_eq, not_true_eq_false, if_false,
        hargs, hcaller, hwipe, if_true, dctFreezeWipe.wipeIfApplicable, hget, hfrozen,
        Bool.not_true, Bool.false_eq_true, dctFreezeWipe.removeLiquidity, hgate]
      cases hliq : e.dctStorageHandler.AddToLiquiditySystemAcc c accounts
          (e.keyPrefix ++ (extractTokenIdentifierAndNonceDCTWipe (argAt vmInput.Arguments 0)).1)
          (extractTokenIdentifierAndNonceDCTWipe (argAt vmInput.Arguments 0)).2
          (-d.Value) with
      | mk lerr accounts1 =>
        cases lerr with
        | some err => rfl
        | none =>
          simp [ZeroValueIfNil, addDCTEntryInVMOutput, newEntryForDCT, argAt]


/-- Witness for C26: wiping a record of value 10 that is not frozen fails with
`ErrCannotWipeAccountNotFrozen`; wiping a frozen record of value 42 with the
gate off removes the key and logs the value 42; with the gate on, wiping a
frozen record of value 3 of the NFT `ALC-6258d2`, nonce 7, lowers the liquidity
of that identifier and nonce from 10 to 7. -/
theorem wipe_frozen_record_witness :
    (sampleFreezeWipe {} true false).ProcessBuiltinFunction sampleCore (sampleAccounts [] [])
        (some (sampleAccount [0, 1] [100, 75] (encodeDCToken { Value := 10 })))
        (some (sampleFreezeInput [75]))
      = (.error .ErrCannotWipeAccountNotFrozen,
          some (sampleAccount [0, 1] [100, 75] (encodeDCToken { Value := 10 })),
          sampleAccounts [] []) ∧
    (sampleFreezeWipe {} true false).ProcessBuiltinFunction sampleCore (sampleAccounts [] [])
        (some (sampleAccount [0, 1] [100, 75]
          (encodeDCToken { Value := 42, Properties := [1, 0] })))
        (some (sampleFreezeInput [75]))
      = (.ok { ReturnCode := Ok
               Logs := [{ Identifier := [8], Address := [255],
                          Topics := [[75], [], [42], [0, 1]] }] },
          some ((sampleAccount [0, 1] [100, 75]
            (encodeDCToken { Value := 42, Properties := [1, 0] })).SaveKeyValue [100, 75] []),
          sampleAccounts [] []) ∧
    (((sampleFreezeWipe
          { IsSaveToSystemAccountFlagEnabled := true, IsSendAlwaysFlagEnabled := true,
            IsWipeSingleNFTLiquidityDecreaseEnabled := true } true false).ProcessBuiltinFunction
        sampleCore
        (sampleAccounts [100, 65, 76, 67, 45, 54, 50, 53, 56, 100, 50, 7]
          (encodeDCToken { sampleNFT 10 with Reserved := [1] }))
        (some (sampleAccount [0, 1] [100, 65, 76, 67, 45, 54, 50, 53, 56, 100, 50, 7]
          (encodeDCToken { Value := 3, Type_ := 1, Properties := [1, 0] })))
        (some (sampleFreezeInput [65, 76, 67, 45, 54, 50, 53, 56, 100, 50, 7]))).2.2.LoadAccount
        [254]).RetrieveValue [100, 65, 76, 67, 45, 54, 50, 53, 56, 100, 50, 7]
      = encodeDCToken { sampleNFT 7 with Reserved := [1] } :=
  ⟨(wipe_frozen_record (sampleFreezeWipe {} true false) sampleCore (sampleAccounts [] [])
      (sampleAccount [0, 1] [100, 75] (encodeDCToken { Value := 10 }))
      (sampleFreezeInput [75]) { Value := 10 } rfl rfl rfl rfl rfl).1 rfl,
    ((wipe_frozen_record (sampleFreezeWipe {} true false) sampleCore (sampleAccounts [] [])
      (sampleAccount [0, 1] [100, 75] (encodeDCToken { Value := 42, Properties := [1, 0] }))
      (sampleFreezeInput [75]) { Value := 42, Properties := [1, 0] } rfl rfl rfl rfl rfl).2
      rfl).2.1 rfl,
    rfl⟩


/-- The minimal big-endian bytes of zero are no bytes. -/
theorem bigIntBytes_zero : bigIntBytes 0 = [] := rfl

/-- The nonce counter read back right after it was saved. -/
theorem getLatestNonce_saveLatestNonce (c : Core) (acnt : UserAccount) (tokenID : Bytes)
    (nonce : Nat) (h : nonce < 2 ^ 64) :
    getLatestNonce c (saveLatestNonce c acnt tokenID nonce).2 tokenID = .ok nonce := by
  unfold getLatestNonce saveLatestNonce
  simp only [retrieve_save_same]
  by_cases h0 : nonce = 0
  · subst h0
    simp [bigIntBytes_zero]
  · have hne : bigIntBytes nonce ≠ [] := bigIntBytes_ne_nil nonce (Nat.pos_of_ne_zero h0)
    have hlen : ¬ (bigIntBytes nonce).length = 0 := fun e => hne (List.length_eq_zero.mp e)
    simp only [hlen, if_false, bigIntSetBytes_bigIntBytes, bigIntUint64, Nat.mod_eq_of_lt h]

/-- The nonce counter read from an account is a 64-bit value. -/
theorem getLatestNonce_lt (c : Core) (acnt : UserAccount) (tokenID : Bytes) (nonce : Nat)
    (h : getLatestNonce c acnt tokenID = .ok nonce) : nonce < 2 ^ 64 := by
  unfold getLatestNonce at h
  simp only at h
  split at h
  · injection h with h
    omega
  · injection h with h
    rw [← h]
    exact Nat.mod_lt _ (by decide)

/-- The nonce counter does not depend on the bytes stored under another key. -/
theorem getLatestNonce_save_other (c : Core) (acnt : UserAccount) (tokenID key value : Bytes)
    (h : getNonceKey c tokenID ≠ key) :
    getLatestNonce c (acnt.SaveKeyValue key value) tokenID = getLatestNonce c acnt tokenID := by
  unfold getLatestNonce
  rw [retrieve_save_other _ _ _ _ h]

/-- The role list does not depend on the bytes stored under another key. -/
theorem getDCTRolesForAcnt_save_other (marshaller : Marshalizer) (acnt : UserAccount)
    (key k value : Bytes) (h : key ≠ k) :
    getDCTRolesForAcnt marshaller (acnt.SaveKeyValue k value) key
      = getDCTRolesForAcnt marshaller acnt key := by
  unfold getDCTRolesForAcnt
  rw [retrieve_save_other _ _ _ _ h]

/-- The role list read back right after it was saved, when the marshaler
round-trips it through non-empty bytes. -/
theorem getDCTRolesForAcnt_save_same (marshaller : Marshalizer) (acnt : UserAccount)
    (key b : Bytes) (roles : DCTRoles) (hb : b ≠ [])
    (hun : marshaller.UnmarshalRoles { Roles := [] } b = .ok roles) :
    getDCTRolesForAcnt marshaller (acnt.SaveKeyValue key b) key = .ok (roles, false) := by
  have hlen : ¬ b.length = 0 := fun e => hb (List.length_eq_zero.mp e)
  simp only [getDCTRolesForAcnt, retrieve_save_same, hlen, if_false, hun]

/-- Saving under a key the bytes it already holds leaves the account as it is. -/
theorem save_same_value (acnt : UserAccount) (key : Bytes) :
    acnt.SaveKeyValue key (acnt.RetrieveValue key) = acnt := by
  unfold UserAccount.SaveKeyValue UserAccount.RetrieveValue
  rw [Function.update_eq_self]


/-- The membership test of `addCreateRoleToAccount`. -/
theorem any_eq_role (roles : List Bytes) (role : Bytes) :
    (roles.any fun r => decide (r = role)) = true ↔ role ∈ roles := by
  rw [List.any_eq_true]
  constructor
  · rintro ⟨x, hx, hdec⟩
    have : x = role := by simpa using hdec
    exact this ▸ hx
  · intro h
    exact ⟨role, h, by simp⟩

/-- The next-owner call: a successful call leaves the store untouched, sets the
nonce counter to the nonce argument and leaves a role list that contains the
create role, added once when it was absent; processing the same call again on
the resulting account gives the same result and the same account. -/
theorem next_owner_call (e : dctNFTCreateRoleTransfer) (c : Core) (accounts : AccountsDB)
    (dst : UserAccount) (vmInput : ContractCallInput) (roles : DCTRoles) (isNew : Bool)
    (out : VMOutput) (dst1 : UserAccount) (accounts1 : AccountsDB)
    (hres : e.ProcessBuiltinFunction c accounts none (some dst) (some vmInput)
      = (.ok out, some dst1, accounts1))
    (hcaller : vmInput.CallerAddr ≠ c.DCTSCAddress)
    (hkeys : roleKeyPrefix c ++ argAt vmInput.Arguments 0
      ≠ getNonceKey c (argAt vmInput.Arguments 0))
    (hget : getDCTRolesForAcnt e.marshaller dst (roleKeyPrefix c ++ argAt vmInput.Arguments 0)
      = .ok (roles, isNew))
    (hrt : ∀ b, e.marshaller.MarshalRoles { Roles := roles.Roles ++ [c.DCTRoleNFTCreate] }
        = .ok b →
      b ≠ [] ∧ e.marshaller.UnmarshalRoles { Roles := [] } b
        = .ok { Roles := roles.Roles ++ [c.DCTRoleNFTCreate] }) :
    accounts1 = accounts ∧
    getLatestNonce c dst1 (argAt vmInput.Arguments 0)
      = .ok (bigIntUint64 (bigIntSetBytes (argAt vmInput.Arguments 1))) ∧
    (∃ (roles1 : DCTRoles) (isNew1 : Bool),
      getDCTRolesForAcnt e.marshaller dst1 (roleKeyPrefix c ++ argAt vmInput.Arguments 0)
        = .ok (roles1, isNew1) ∧
      roles1.Roles.count c.DCTRoleNFTCreate = max 1 (roles.Roles.count c.DCTRoleNFTCreate)) ∧
    e.ProcessBuiltinFunction c accounts1 none (some dst1) (some vmInput)
      = (.ok out, some dst1, accounts1) := by
  have hnonce : bigIntUint64 (bigIntSetBytes (argAt vmInput.Arguments 1)) < 2 ^ 64 :=
    Nat.mod_lt _ (by decide)
  unfold dctNFTCreateRoleTransfer.ProcessBuiltinFunction at hres ⊢
  cases hb : checkBasicDCTArguments (some vmInput) with
  | some err => rw [hb] at hres; cases hres
  | none =>
    rw [hb] at hres
    simp only [Option.isSome_none, Bool.false_eq_true, if_false, hcaller,
      dctNFTCreateRoleTransfer.executeTransferNFTCreateChangeAtNextOwner] at hres ⊢
    by_cases hlen : vmInput.Arguments.length = 2
    · simp only [hlen, ne_eq, not_true_eq_false, if_false, saveLatestNonce,
        dctNFTCreateRoleTransfer.addCreateRoleToAccount,
        getDCTRolesForAcnt_save_other _ _ _ _ _ hkeys, hget] at hres ⊢
      by_cases hmem : c.DCTRoleNFTCreate ∈ roles.Roles
      · have hany := (any_eq_role roles.Roles c.DCTRoleNFTCreate).mpr hmem
        simp only [hany, if_true] at hres
        injection hres with h1 h2
        injection h2 with h2 h3
        injection h2 with h2
        subst h2
        subst h3
        have hsame : (dst.SaveKeyValue (getNonceKey c (argAt vmInput.Arguments 0))
              (bigIntBytes (bigIntUint64 (bigIntSetBytes (argAt vmInput.Arguments 1))))).SaveKeyValue
            (getNonceKey c (argAt vmInput.Arguments 0))
            (bigIntBytes (bigIntUint64 (bigIntSetBytes (argAt vmInput.Arguments 1))))
            = dst.SaveKeyValue (getNonceKey c (argAt vmInput.Arguments 0))
              (bigIntBytes (bigIntUint64 (bigIntSetBytes (argAt vmInput.Arguments 1)))) := by
          have := save_same_value (dst.SaveKeyValue (getNonceKey c (argAt vmInput.Arguments 0))
            (bigIntBytes (bigIntUint64 (bigIntSetBytes (argAt vmInput.Arguments 1)))))
            (getNonceKey c (argAt vmInput.Arguments 0))
          rw [retrieve_save_same] at this
          exact this
        refine ⟨rfl, ?_, ⟨roles, isNew, ?_, ?_⟩, ?_⟩
        · exact getLatestNonce_saveLatestNonce c dst _ _ hnonce
        · rw [getDCTRolesForAcnt_save_other _ _ _ _ _ hkeys, hget]
        · have hpos : 0 < roles.Roles.count c.DCTRoleNFTCreate := List.count_pos_iff.mpr hmem
          omega
        · simp only [hsame, getDCTRolesForAcnt_save_other _ _ _ _ _ hkeys, hget, hany, if_true]
          rw [← h1]
      · have hany : (roles.Roles.any fun r => decide (r = c.DCTRoleNFTCreate)) = false := by
          cases hx : (roles.Roles.any fun r => decide (r = c.DCTRoleNFTCreate))
          · rfl
          · exact absurd ((any_eq_role _ _).mp hx) hmem
        simp only [hany, Bool.false_eq_true, if_false, saveRolesToAccount] at hres
        cases hm : e.marshaller.MarshalRoles { Roles := roles.Roles ++ [c.DCTRoleNFTCreate] } with
        | error code => rw [hm] at hres; cases hres
        | ok b =>
          rw [hm] at hres
          simp only at hres
          injection hres with h1 h2
          injection h2 with h2 h3
          injection h2 with h2
          subst h2
          subst h3
          obtain ⟨hbne, hun⟩ := hrt b hm
          have hread := getDCTRolesForAcnt_save_same e.marshaller
            (dst.SaveKeyValue (getNonceKey c (argAt vmInput.Arguments 0))
              (bigIntBytes (bigIntUint64 (bigIntSetBytes (argAt vmInput.Arguments 1)))))
            (roleKeyPrefix c ++ argAt vmInput.Arguments 0) b _ hbne hun
          have hsame : ((dst.SaveKeyValue (getNonceKey c (argAt vmInput.Arguments 0))
                (bigIntBytes (bigIntUint64 (bigIntSetBytes (argAt vmInput.Arguments 1))))).SaveKeyValue
              (roleKeyPrefix c ++ argAt vmInput.Arguments 0) b).SaveKeyValue
              (getNonceKey c (argAt vmInput.Arguments 0))
              (bigIntBytes (bigIntUint64 (bigIntSetBytes (argAt vmInput.Arguments 1))))
            = (dst.SaveKeyValue (getNonceKey c (argAt vmInput.Arguments 0))
                (bigIntBytes (bigIntUint64 (bigIntSetBytes (argAt vmInput.Arguments 1))))).SaveKeyValue
              (roleKeyPrefix c ++ argAt vmInput.Arguments 0) b := by
            have := save_same_value ((dst.SaveKeyValue (getNonceKey c (argAt vmInput.Arguments 0))
              (bigIntBytes (bigIntUint64 (bigIntSetBytes (argAt vmInput.Arguments 1))))).SaveKeyValue
              (roleKeyPrefix c ++ argAt vmInput.Arguments 0) b)
              (getNonceKey c (argAt vmInput.Arguments 0))
            rw [retrieve_save_other _ _ _ _ (Ne.symm hkeys), retrieve_save_same] at this
            exact this
          have hany2 : (([] : List Bytes) ++ (roles.Roles ++ [c.DCTRoleNFTCreate])).any
              (fun r => decide (r = c.DCTRoleNFTCreate)) = true := by
            rw [any_eq_role]
            simp
          refine ⟨rfl, ?_, ⟨_, false, hread, ?_⟩, ?_⟩
          · rw [getLatestNonce_save_other c _ _ _ _ (Ne.symm hkeys)]
            exact getLatestNonce_saveLatestNonce c dst _ _ hnonce
          · have hzero : roles.Roles.count c.DCTRoleNFTCreate = 0 := List.count_eq_zero.mpr hmem
            simp [List.count_append, hzero]
          · simp only [List.nil_append] at hany2
            simp only [hsame, hread, hany2, if_true]
            rw [← h1]
    · simp only [ne_eq, hlen, not_false_eq_true, if_true] at hres
      cases hres


/-- Loading an account right after it was saved gives the account back. -/
theorem load_save_account (accounts : AccountsDB) (a : UserAccount) :
    (accounts.SaveAccount a).LoadAccount a.Address = a := by
  unfold AccountsDB.SaveAccount AccountsDB.LoadAccount
  simp

/-- Loading at the address of an account right after it was saved. -/
theorem load_save_account_at (accounts : AccountsDB) (a : UserAccount) (address : Bytes)
    (h : a.Address = address) : (accounts.SaveAccount a).LoadAccount address = a := by
  subst h
  exact load_save_account accounts a

/-- Saving an account does not change what is loaded at another address. -/
theorem load_save_account_other (accounts : AccountsDB) (a : UserAccount) (address : Bytes)
    (h : address ≠ a.Address) :
    (accounts.SaveAccount a).LoadAccount address = accounts.LoadAccount address := by
  unfold AccountsDB.SaveAccount AccountsDB.LoadAccount
  simp [Function.update_noteq h]

/-- Deleting the single create role erases its first occurrence. -/
theorem deleteRoles_single (roles : DCTRoles) (role : Bytes) :
    deleteRoles roles [role] = { Roles := roles.Roles.erase role } := by
  rw [deleteRoles_eq_foldl]
  rfl

/-- The change at the current owner when the new owner is in the local shard:
what a successful call did to the two accounts. -/
theorem current_owner_same_shard (e : dctNFTCreateRoleTransfer) (c : Core)
    (accounts : AccountsDB) (owner : UserAccount) (vmInput : ContractCallInput)
    (rolesA rolesB : DCTRoles) (isNewA isNewB : Bool) (out : VMOutput) (owner1 : UserAccount)
    (accounts1 : AccountsDB)
    (hres : e.ProcessBuiltinFunction c accounts none (some owner) (some vmInput)
      = (.ok out, some owner1, accounts1))
    (hcaller : vmInput.CallerAddr = c.DCTSCAddress)
    (hlocal : e.shardCoordinator.ComputeId (argAt vmInput.Arguments 1)
      = e.shardCoordinator.SelfId)
    (hdistinct : owner.Address ≠ argAt vmInput.Arguments 1)
    (hkeys : roleKeyPrefix c ++ argAt vmInput.Arguments 0
      ≠ getNonceKey c (argAt vmInput.Arguments 0))
    (hgetA : getDCTRolesForAcnt e.marshaller owner
      (roleKeyPrefix c ++ argAt vmInput.Arguments 0) = .ok (rolesA, isNewA))
    (hgetB : getDCTRolesForAcnt e.marshaller (accounts.LoadAccount (argAt vmInput.Arguments 1))
      (roleKeyPrefix c ++ argAt vmInput.Arguments 0) = .ok (rolesB, isNewB))
    (hrtB : ∀ b, e.marshaller.MarshalRoles { Roles := rolesB.Roles ++ [c.DCTRoleNFTCreate] }
        = .ok b →
      b ≠ [] ∧ e.marshaller.UnmarshalRoles { Roles := [] } b
        = .ok { Roles := rolesB.Roles ++ [c.DCTRoleNFTCreate] }) :
    getLatestNonce c owner1 (argAt vmInput.Arguments 0) = .ok 0 ∧
    e.marshaller.MarshalRoles { Roles := rolesA.Roles.erase c.DCTRoleNFTCreate }
      = .ok (owner1.RetrieveValue (roleKeyPrefix c ++ argAt vmInput.Arguments 0)) ∧
    getLatestNonce c (accounts1.LoadAccount (argAt vmInput.Arguments 1))
        (argAt vmInput.Arguments 0)
      = getLatestNonce c owner (argAt vmInput.Arguments 0) ∧
    (∃ (rolesB1 : DCTRoles) (isNewB1 : Bool),
      getDCTRolesForAcnt e.marshaller (accounts1.LoadAccount (argAt vmInput.Arguments 1))
          (roleKeyPrefix c ++ argAt vmInput.Arguments 0) = .ok (rolesB1, isNewB1) ∧
      rolesB1.Roles.count c.DCTRoleNFTCreate
        = max 1 (rolesB.Roles.count c.DCTRoleNFTCreate)) ∧
    accounts1.LoadAccount owner.Address = accounts.LoadAccount owner.Address := by
  unfold dctNFTCreateRoleTransfer.ProcessBuiltinFunction at hres
  cases hb : checkBasicDCTArguments (some vmInput) with
  | some err => rw [hb] at hres; cases hres
  | none =>
    rw [hb] at hres
    simp only [Option.isSome_none, Bool.false_eq_true, if_false, hcaller, if_true,
      dctNFTCreateRoleTransfer.executeTransferNFTCreateChangeAtCurrentOwner] at hres
    by_cases hlen : vmInput.Arguments.length = 2
    · by_cases hlen2 : (argAt vmInput.Arguments 1).length = c.DCTSCAddress.length
      · simp only [hlen, hlen2, ne_eq, not_true_eq_false, if_false] at hres
        cases hn : getLatestNonce c owner (argAt vmInput.Arguments 0) with
        | error err =>
          exfalso
          unfold getLatestNonce at hn
          simp only at hn
          split at hn <;> cases hn
        | ok nonce =>
          have hnlt := getLatestNonce_lt c owner _ nonce hn
          rw [hn] at hres
          simp only [saveLatestNonce, dctNFTCreateRoleTransfer.deleteCreateRoleFromAccount,
            getDCTRolesForAcnt_save_other _ _ _ _ _ hkeys, hgetA, deleteRoles_single,
            saveRolesToAccount] at hres
          cases hmA : e.marshaller.MarshalRoles
              { Roles := rolesA.Roles.erase c.DCTRoleNFTCreate } with
          | error code => rw [hmA] at hres; cases hres
          | ok bA =>
            rw [hmA] at hres
            simp only [hlocal, if_true, dctNFTCreateRoleTransfer.addCreateRoleToAccount,
              getDCTRolesForAcnt_save_other _ _ _ _ _ hkeys, hgetB] at hres
            have hA1 : getLatestNonce c
                ((owner.SaveKeyValue (getNonceKey c (argAt vmInput.Arguments 0))
                  (bigIntBytes 0)).SaveKeyValue
                  (roleKeyPrefix c ++ argAt vmInput.Arguments 0) bA)
                (argAt vmInput.Arguments 0) = .ok 0 := by
              rw [getLatestNonce_save_other c _ _ _ _ (Ne.symm hkeys)]
              exact getLatestNonce_saveLatestNonce c owner _ 0 (by decide)
            by_cases hmem : c.DCTRoleNFTCreate ∈ rolesB.Roles
            · have hany := (any_eq_role rolesB.Roles c.DCTRoleNFTCreate).mpr hmem
              simp only [hany, if_true] at hres
              injection hres with _ h2
              injection h2 with h2 h3
              injection h2 with h2
              subst h2
              subst h3
              have haddr : ((accounts.LoadAccount (argAt vmInput.Arguments 1)).SaveKeyValue
                  (getNonceKey c (argAt vmInput.Arguments 0)) (bigIntBytes nonce)).Address
                  = argAt vmInput.Arguments 1 := rfl
              refine ⟨hA1, ?_, ?_, ⟨rolesB, isNewB, ?_, ?_⟩, ?_⟩
              · rw [retrieve_save_same]
              · rw [load_save_account_at _ _ _ haddr]
                exact getLatestNonce_saveLatestNonce c _ _ nonce hnlt
              · rw [load_save_account_at _ _ _ haddr, getDCTRolesForAcnt_save_other _ _ _ _ _ hkeys,
                  hgetB]
              · have hpos : 0 < rolesB.Roles.count c.DCTRoleNFTCreate :=
                  List.count_pos_iff.mpr hmem
                omega
              · exact load_save_account_other _ _ _ (by rw [haddr]; exact hdistinct)
            · have hany : (rolesB.Roles.any fun r => decide (r = c.DCTRoleNFTCreate))
                  = false := by
                cases hx : (rolesB.Roles.any fun r => decide (r = c.DCTRoleNFTCreate))
                · rfl
                · exact absurd ((any_eq_role _ _).mp hx) hmem
              simp only [hany, Bool.false_eq_true, if_false, saveRolesToAccount] at hres
              cases hmB : e.marshaller.MarshalRoles
                  { Roles := rolesB.Roles ++ [c.DCTRoleNFTCreate] } with
              | error code => rw [hmB] at hres; cases hres
              | ok bB =>
                rw [hmB] at hres
                simp only at hres
                injection hres with _ h2
                injection h2 with h2 h3
                injection h2 with h2
                subst h2
                subst h3
                obtain ⟨hbne, hun⟩ := hrtB bB hmB
                have haddr : (((accounts.LoadAccount (argAt vmInput.Arguments 1)).SaveKeyValue
                    (getNonceKey c (argAt vmInput.Arguments 0)) (bigIntBytes nonce)).SaveKeyValue
                    (roleKeyPrefix c ++ argAt vmInput.Arguments 0) bB).Address
                    = argAt vmInput.Arguments 1 := rfl
                refine ⟨hA1, ?_, ?_,
                  ⟨{ Roles := rolesB.Roles ++ [c.DCTRoleNFTCreate] }, false, ?_, ?_⟩, ?_⟩
                · rw [retrieve_save_same]
                · rw [load_save_account_at _ _ _ haddr,
                    getLatestNonce_save_other c _ _ _ _ (Ne.symm hkeys)]
                  exact getLatestNonce_saveLatestNonce c _ _ nonce hnlt
                · rw [load_save_account_at _ _ _ haddr]
                  exact getDCTRolesForAcnt_save_same e.marshaller _ _ bB _ hbne hun
                · have hzero : rolesB.Roles.count c.DCTRoleNFTCreate = 0 :=
                    List.count_eq_zero.mpr hmem
                  simp [List.count_append, hzero]
                · exact load_save_account_other _ _ _ (by rw [haddr]; exact hdistinct)
      · simp only [hlen, hlen2, ne_eq, not_true_eq_false, if_false, not_false_eq_true,
          if_true] at hres
        cases hres
    · simp only [ne_eq, hlen, not_false_eq_true, if_true] at hres
      cases hres


/-- C28 (counterexample): the current owner stores the NFT-create role twice for
the token; after a successful same-shard create-role transfer called by the
system contract, the owner's stored role list still contains the NFT-create
role. -/
theorem create_role_transfer_keeps_duplicate :
    (sampleCreateRoleTransfer.ProcessBuiltinFunction sampleCore (sampleAccounts [] []) none
        (some (sampleOwner [[18], [18]])) (some sampleRoleTransferInput)).1.toOption.isSome
      = true ∧
    (sampleCreateRoleTransfer.ProcessBuiltinFunction sampleCore (sampleAccounts [] []) none
        (some (sampleOwner [[18], [18]])) (some sampleRoleTransferInput)).2.1.map
        (fun acc => acc.RetrieveValue (roleKeyPrefix sampleCore ++ [84]))
      = some (encodeDCTRoles { Roles := [[18]] }) ∧
    sampleCore.DCTRoleNFTCreate ∈ [[18]] :=
  ⟨rfl, rfl, by decide⟩

/-- C28 (amended): a same-shard create-role transfer for a token, called by the
system contract on the current owner with a new owner of the local shard at
another address (role key and nonce key of the token distinct, the marshaler
round-tripping the new owner's list).  After a successful call the owner's
nonce counter is 0 and the owner's stored role list is the former list with the
first occurrence of the NFT-create role erased: the other roles are kept in
order, and the list no longer contains the role when it contained it at most
once.  The new owner's nonce counter equals the owner's former counter, and the
new owner's role list contains the NFT-create role once more than before when
it was absent and as often as before otherwise, so exactly once if it contained
it at most once.  The owner's entry in the account store is not touched.
Processing a successful next-owner call again on the resulting account gives
the same output and the same account. -/
theorem create_role_transfer :
    (∀ (e : dctNFTCreateRoleTransfer) (c : Core) (accounts : AccountsDB) (owner : UserAccount)
      (vmInput : ContractCallInput) (rolesA rolesB : DCTRoles) (isNewA isNewB : Bool)
      (out : VMOutput) (owner1 : UserAccount) (accounts1 : AccountsDB),
      e.ProcessBuiltinFunction c accounts none (some owner) (some vmInput)
        = (.ok out, some owner1, accounts1) →
      vmInput.CallerAddr = c.DCTSCAddress →
      e.shardCoordinator.ComputeId (argAt vmInput.Arguments 1) = e.shardCoordinator.SelfId →
      owner.Address ≠ argAt vmInput.Arguments 1 →
      roleKeyPrefix c ++ argAt vmInput.Arguments 0 ≠ getNonceKey c (argAt vmInput.Arguments 0) →
      getDCTRolesForAcnt e.marshaller owner (roleKeyPrefix c ++ argAt vmInput.Arguments 0)
        = .ok (rolesA, isNewA) →
      getDCTRolesForAcnt e.marshaller (accounts.LoadAccount (argAt vmInput.Arguments 1))
        (roleKeyPrefix c ++ argAt vmInput.Arguments 0) = .ok (rolesB, isNewB) →
      (∀ b, e.marshaller.MarshalRoles { Roles := rolesB.Roles ++ [c.DCTRoleNFTCreate] }
          = .ok b →
        b ≠ [] ∧ e.marshaller.UnmarshalRoles { Roles := [] } b
          = .ok { Roles := rolesB.Roles ++ [c.DCTRoleNFTCreate] }) →
      getLatestNonce c owner1 (argAt vmInput.Arguments 0) = .ok 0 ∧
      e.marshaller.MarshalRoles { Roles := rolesA.Roles.erase c.DCTRoleNFTCreate }
        = .ok (owner1.RetrieveValue (roleKeyPrefix c ++ argAt vmInput.Arguments 0)) ∧
      (rolesA.Roles.count c.DCTRoleNFTCreate ≤ 1 →
        c.DCTRoleNFTCreate ∉ rolesA.Roles.erase c.DCTRoleNFTCreate) ∧
      (rolesA.Roles.erase c.DCTRoleNFTCreate).filter (fun r => decide (r ≠ c.DCTRoleNFTCreate))
        = rolesA.Roles.filter (fun r => decide (r ≠ c.DCTRoleNFTCreate)) ∧
      getLatestNonce c (accounts1.LoadAccount (argAt vmInput.Arguments 1))
          (argAt vmInput.Arguments 0)
        = getLatestNonce c owner (argAt vmInput.Arguments 0) ∧
      (∃ (rolesB1 : DCTRoles) (isNewB1 : Bool),
        getDCTRolesForAcnt e.marshaller (accounts1.LoadAccount (argAt vmInput.Arguments 1))
            (roleKeyPrefix c ++ argAt vmInput.Arguments 0) = .ok (rolesB1, isNewB1) ∧
        rolesB1.Roles.count c.DCTRoleNFTCreate
          = max 1 (rolesB.Roles.count c.DCTRoleNFTCreate)) ∧
      accounts1.LoadAccount owner.Address = accounts.LoadAccount owner.Address) ∧
    (∀ (e : dctNFTCreateRoleTransfer) (c : Core) (accounts : AccountsDB) (dst : UserAccount)
      (vmInput : ContractCallInput) (roles : DCTRoles) (isNew : Bool) (out : VMOutput)
      (dst1 : UserAccount) (accounts1 : AccountsDB),
      e.ProcessBuiltinFunction c accounts none (some dst) (some vmInput)
        = (.ok out, some dst1, accounts1) →
      vmInput.CallerAddr ≠ c.DCTSCAddress →
      roleKeyPrefix c ++ argAt vmInput.Arguments 0 ≠ getNonceKey c (argAt vmInput.Arguments 0) →
      getDCTRolesForAcnt e.marshaller dst (roleKeyPrefix c ++ argAt vmInput.Arguments 0)
        = .ok (roles, isNew) →
      (∀ b, e.marshaller.MarshalRoles { Roles := roles.Roles ++ [c.DCTRoleNFTCreate] }
          = .ok b →
        b ≠ [] ∧ e.marshaller.UnmarshalRoles { Roles := [] } b
          = .ok { Roles := roles.Roles ++ [c.DCTRoleNFTCreate] }) →
      accounts1 = accounts ∧
      e.ProcessBuiltinFunction c accounts1 none (some dst1) (some vmInput)
        = (.ok out, some dst1, accounts1)) := by
  constructor
  · intro e c accounts owner vmInput rolesA rolesB isNewA isNewB out owner1 accounts1 hres
      hcaller hlocal hdistinct hkeys hgetA hgetB hrtB
    obtain ⟨h1, h2, h3, h4, h5⟩ := current_owner_same_shard e c accounts owner vmInput rolesA
      rolesB isNewA isNewB out owner1 accounts1 hres hcaller hlocal hdistinct hkeys hgetA hgetB
      hrtB
    refine ⟨h1, h2, ?_, ?_, h3, h4, h5⟩
    · intro hcount
      rw [← List.count_eq_zero, List.count_erase_self]
      omega
    · exact foldl_erase_filter (fun r => decide (r ≠ c.DCTRoleNFTCreate))
        [c.DCTRoleNFTCreate] rolesA.Roles (by
          intro r hr
          rw [List.mem_singleton] at hr
          simp [hr])
  · intro e c accounts dst vmInput roles isNew out dst1 accounts1 hres hcaller hkeys hget hrt
    obtain ⟨h1, _, _, h4⟩ := next_owner_call e c accounts dst vmInput roles isNew out dst1
      accounts1 hres hcaller hkeys hget hrt
    exact ⟨h1, h4⟩


/-- Witness for C28 (amended): the owner `[0, 1]` holds the NFT-create role and
another role for token `[84]` and the nonce counter 9; after the transfer to the
account `[0]` of the same shard the owner's counter is 0 and the new owner's
counter is 9. -/
theorem create_role_transfer_witness :
    getLatestNonce sampleCore
        ((sampleCreateRoleTransfer.ProcessBuiltinFunction sampleCore (sampleAccounts [] []) none
          (some (sampleOwner [[18], [3]])) (some sampleRoleTransferInput)).2.1.getD
          (sampleOwner [[18], [3]])) [84] = .ok 0 ∧
    getLatestNonce sampleCore
        ((sampleCreateRoleTransfer.ProcessBuiltinFunction sampleCore (sampleAccounts [] []) none
          (some (sampleOwner [[18], [3]])) (some sampleRoleTransferInput)).2.2.LoadAccount [0])
        [84] = .ok 9 :=
  have h := create_role_transfer.1 sampleCreateRoleTransfer sampleCore (sampleAccounts [] [])
    (sampleOwner [[18], [3]]) sampleRoleTransferInput { Roles := [[18], [3]] } { Roles := [] }
    false true
    ((sampleCreateRoleTransfer.ProcessBuiltinFunction sampleCore (sampleAccounts [] []) none
      (some (sampleOwner [[18], [3]])) (some sampleRoleTransferInput)).1.toOption.getD {})
    ((sampleCreateRoleTransfer.ProcessBuiltinFunction sampleCore (sampleAccounts [] []) none
      (some (sampleOwner [[18], [3]])) (some sampleRoleTransferInput)).2.1.getD
      (sampleOwner [[18], [3]]))
    (sampleCreateRoleTransfer.ProcessBuiltinFunction sampleCore (sampleAccounts [] []) none
      (some (sampleOwner [[18], [3]])) (some sampleRoleTransferInput)).2.2
    rfl rfl rfl (by decide) (by decide) rfl rfl
    (fun b hb => by
      have hb2 : encodeDCTRoles { Roles := [[18]] } = b := Except.ok.inj hb
      subst hb2
      exact ⟨by decide, rfl⟩)
  ⟨h.1, h.2.2.2.2.1.trans rfl⟩


/-- C27 (failing input): two legs at a per-transfer cost of `2 ^ 63` with 5
units of gas provided.  Over the natural numbers the product is `2 ^ 64`, more
than the gas provided, yet the call does not fail with ErrNotEnoughGas: the
64-bit product is 0, both legs are debited from the sender and the call
succeeds with all 5 units of gas remaining. -/
theorem multi_transfer_gas_product_wraps :
    (sampleMultiInput 5).GasProvided < 2 * (sampleMultiTransfer (2 ^ 63)).funcGasCost ∧
    (((sampleMultiTransfer (2 ^ 63)).processDCTNFTMultiTransferOnSenderShard sampleCore
      (sampleAccounts [] []) (some sampleMultiSender) (sampleMultiInput 5)).1.toOption.map
        fun out => (out.ReturnCode, out.GasRemaining, out.Logs.length)) = some (Ok, 5, 2) ∧
    (((sampleMultiTransfer (2 ^ 63)).processDCTNFTMultiTransferOnSenderShard sampleCore
      (sampleAccounts [] []) (some sampleMultiSender) (sampleMultiInput 5)).2.1.map
        fun snd => (snd.RetrieveValue [100, 5], snd.RetrieveValue [100, 6])) =
      some (encodeDCToken { Value := 7, Type_ := Fungible },
        encodeDCToken { Value := 6, Type_ := Fungible }) := by
  refine ⟨by decide, ?_, ?_⟩ <;> rfl


/-- The leg loop of the sender shard leaves the gas of the output untouched. -/
theorem senderLegs_gas (e : dctNFTMultiTransfer) (c : Core) (vmInput : ContractCallInput)
    (dstAddress : Bytes) (remaining : Nat) :
    ∀ (i : Nat) (s s1 : senderLoopState),
      e.senderLegs c vmInput dstAddress remaining i s = (none, s1) →
      s1.vmOutput.GasRemaining = s.vmOutput.GasRemaining := by
  induction remaining with
  | zero =>
    intro i s s1 h
    simp only [dctNFTMultiTransfer.senderLegs, Prod.mk.injEq, true_and] at h
    rw [← h]
  | succ n ih =>
    intro i s s1 h
    simp only [dctNFTMultiTransfer.senderLegs] at h
    split at h
    · split at h
      · simp at h
      · rw [ih _ _ _ h]
        simp [addDCTEntryInVMOutput]
    · simp at h

/-- The payload loop never adds gas to the output. -/
theorem outputTransferArgs_gas (e : dctNFTMultiTransfer) (c : Core) (listDCTData : List DCToken)
    (dstAddress : Bytes) (legs : List DCTTransfer) :
    ∀ (i : Nat) (accounts accounts1 : AccountsDB) (vmOutput out : VMOutput)
      (args args1 : List Bytes),
      e.outputTransferArgs c listDCTData dstAddress legs i accounts vmOutput args =
        (.ok (out, args1), accounts1) →
      out.GasRemaining ≤ vmOutput.GasRemaining := by
  induction legs with
  | nil =>
    intro i accounts accounts1 vmOutput out args args1 h
    simp only [dctNFTMultiTransfer.outputTransferArgs, Prod.mk.injEq, Except.ok.injEq] at h
    rw [← h.1.1]
  | cons leg rest ih =>
    intro i accounts accounts1 vmOutput out args args1 h
    simp only [dctNFTMultiTransfer.outputTransferArgs] at h
    split at h
    · split at h
      · simp at h
      · split at h
        · split at h
          · simp at h
          · split at h
            · simp at h
            · split at h
              · simp at h
              · exact le_trans (ih _ _ _ _ _ _ _ h) (Nat.sub_le _ _)
        · exact ih _ _ _ _ _ _ _ h
    · exact ih _ _ _ _ _ _ _ h

/-- Building the outgoing payload never adds gas to the output. -/
theorem createDCTNFTOutputTransfers_gas (e : dctNFTMultiTransfer) (c : Core)
    (accounts accounts1 : AccountsDB) (vmInput : ContractCallInput) (vmOutput out : VMOutput)
    (listDCTData : List DCToken) (listDCTTransfers : List DCTTransfer) (dstAddress : Bytes)
    (h : e.createDCTNFTOutputTransfers c accounts vmInput vmOutput listDCTData listDCTTransfers
      dstAddress = (.ok out, accounts1)) :
    out.GasRemaining ≤ vmOutput.GasRemaining := by
  simp only [dctNFTMultiTransfer.createDCTNFTOutputTransfers] at h
  split at h
  · simp at h
  · rename_i v args accounts2 hloop
    have hv := outputTransferArgs_gas e c listDCTData dstAddress listDCTTransfers _ _ _ _ _ _ _
      hloop
    split at h
    · simp only [Prod.mk.injEq, Except.ok.injEq] at h
      rw [← h.1]
      simp only [addNFTTransferToVMOutput]
      split
      · simp
      · exact hv
    · split at h
      · split at h
        · simp at h
        · simp only [Prod.mk.injEq, Except.ok.injEq] at h
          rw [← h.1]
          simp [addOutputTransferToVMOutput]
      · simp only [Prod.mk.injEq, Except.ok.injEq] at h
        rw [← h.1]
        exact hv

/-- Where the product of the number of legs and the per-transfer cost fits in
64 bits, the sender-shard multi-transfer behaves as the gas rule says: a call
that passes the checks before the gas check and provides less gas than the
product over the natural numbers fails with ErrNotEnoughGas and leaves the
sender handle and the account store as they were, and a call that succeeds
provided at least the product and returns at most the difference. -/
theorem multi_transfer_gas_in_range (e : dctNFTMultiTransfer) (c : Core)
    (accounts : AccountsDB) (acntSnd : Option UserAccount) (vmInput : ContractCallInput)
    (dstAddress countBytes : Bytes) (N : Nat)
    (h0 : vmInput.Arguments[0]? = some dstAddress)
    (h1 : vmInput.Arguments[1]? = some countBytes)
    (hN : N = bigIntUint64 (bigIntSetBytes countBytes))
    (hprod : N * e.funcGasCost < 2 ^ 64) :
    (dstAddress.length = vmInput.CallerAddr.length → dstAddress ≠ vmInput.CallerAddr →
      (e.shardCoordinator.ComputeId dstAddress == c.MetachainShardId
        && !e.enableEpochsHandler.IsTransferToMetaFlagEnabled) = false →
      0 < N → N * 3 + 2 ≤ vmInput.Arguments.length →
      vmInput.GasProvided < N * e.funcGasCost →
      e.processDCTNFTMultiTransferOnSenderShard c accounts acntSnd vmInput =
        (.error .ErrNotEnoughGas, acntSnd, accounts)) ∧
    (∀ (out : VMOutput) (snd : Option UserAccount) (accounts1 : AccountsDB),
      e.processDCTNFTMultiTransferOnSenderShard c accounts acntSnd vmInput =
        (.ok out, snd, accounts1) →
      N * e.funcGasCost ≤ vmInput.GasProvided ∧
        out.GasRemaining ≤ vmInput.GasProvided - N * e.funcGasCost) := by
  have hcost : (bigIntUint64 (bigIntSetBytes countBytes) * e.funcGasCost) % 2 ^ 64 =
      N * e.funcGasCost := by
    rw [← hN]
    exact Nat.mod_eq_of_lt hprod
  have hN64 : N < 2 ^ 64 := by
    rw [hN]
    exact Nat.mod_lt _ (by norm_num)
  constructor
  · intro hlen hne hmeta hpos hargs hgas
    have hmin : (N * argumentsPerTransfer + 2) % 2 ^ 64 ≤ vmInput.Arguments.length :=
      le_trans (Nat.mod_le _ _) (by simpa [argumentsPerTransfer] using hargs)
    simp only [dctNFTMultiTransfer.processDCTNFTMultiTransferOnSenderShard, h0, h1]
    rw [if_neg (not_not_intro hlen), if_neg hne]
    simp only [hmeta, Bool.false_eq_true, if_false]
    rw [if_neg (by rw [← hN]; omega), if_neg (by rw [← hN]; omega), hcost, if_pos hgas]
  · intro out snd accounts1 h
    simp only [dctNFTMultiTransfer.processDCTNFTMultiTransferOnSenderShard, h0, h1] at h
    split at h
    · simp at h
    · split at h
      · simp at h
      · split at h
        · simp at h
        · split at h
          · simp at h
          · split at h
            · simp at h
            · rw [hcost] at h
              split at h
              · simp at h
              · rename_i hgas
                refine ⟨Nat.le_of_not_lt hgas, ?_⟩
                split at h
                · simp at h
                · split at h
                  · simp at h
                  · split at h
                    · simp at h
                    · rename_i s hlegs
                      have hs := senderLegs_gas e c vmInput dstAddress _ _ _ _ hlegs
                      split at h
                      · simp at h
                      · rename_i out1 accounts2 hcreate
                        have hout := createDCTNFTOutputTransfers_gas e c _ _ _ _ _ _ _ _ hcreate
                        simp only [Prod.mk.injEq, Except.ok.injEq] at h
                        rw [← h.1]
                        rw [hs] at hout
                        exact hout


/-- Reading a record from a key fails only with a marshaler error. -/
theorem getDCTDataFromKey_error (userAcnt : UserAccount) (key : Bytes) (m : Marshalizer)
    (err : Error) (h : getDCTDataFromKey userAcnt key m = .error err) :
    ∃ code, err = .ErrMarshalizer code := by
  simp only [getDCTDataFromKey] at h
  split at h
  · simp at h
  · cases hu : m.Unmarshal { Value := 0, Type_ := Fungible } (userAcnt.RetrieveValue key) with
    | error code =>
      rw [hu] at h
      simp only [liftMarshal, Except.error.injEq] at h
      exact ⟨code, h.symm⟩
    | ok d =>
      rw [hu] at h
      simp [liftMarshal] at h

/-- With the suppress flag set the balance update is never rejected for a
frozen record or a paused token. -/
theorem addToDCTBalance_suppressed (c : Core) (userAcnt : UserAccount) (key : Bytes)
    (value : Int) (m : Marshalizer) (g : DCTGlobalSettingsHandler) :
    (addToDCTBalance c userAcnt key value m g true).1 ≠ some .ErrDCTIsFrozenForAccount ∧
    (addToDCTBalance c userAcnt key value m g true).1 ≠ some .ErrDCTTokenIsPaused := by
  simp only [addToDCTBalance]
  cases hget : getDCTDataFromKey userAcnt key m with
  | error err =>
    obtain ⟨code, hcode⟩ := getDCTDataFromKey_error userAcnt key m err hget
    simp [hcode]
  | ok d =>
    simp only [checkFrozeAndPause, if_true]
    split
    · simp
    · split
      · simp
      · simp only [saveDCTData]
        split
        · simp
        · split <;> simp

/-- Where an error of the fungible transfer comes from: an argument or gas
check, the limited-transfer check, the sender debit, the payable hook or the
destination credit. -/
theorem dctTransfer_error_origin (e : dctTransfer) (c : Core)
    (acntSnd acntDst : Option UserAccount) (vmInput : ContractCallInput) (err : Error)
    (hres : (e.ProcessBuiltinFunction c acntSnd acntDst (some vmInput)).1 = .error err) :
    err = .ErrNilValue ∨ err = .ErrBuiltInFunctionCalledWithValue ∨
    err = .ErrInvalidArguments ∨ err = .ErrInvalidRcvAddr ∨ err = .ErrNegativeValue ∨
    err = .ErrNotEnoughGas ∨
    checkIfTransferCanHappenWithLimitedTransfer c
      (if e.enableEpochsHandler.IsCheckCorrectTokenIDForTransferRoleFlagEnabled then
        argAt vmInput.Arguments 0 else e.keyPrefix ++ argAt vmInput.Arguments 0)
      (e.keyPrefix ++ argAt vmInput.Arguments 0) vmInput.CallerAddr vmInput.RecipientAddr
      e.globalSettingsHandler e.rolesHandler acntSnd acntDst vmInput.ReturnCallAfterError
        = some err ∨
    (∃ acnt value, (addToDCTBalance c acnt (e.keyPrefix ++ argAt vmInput.Arguments 0) value
      e.marshaller e.globalSettingsHandler vmInput.ReturnCallAfterError).1 = some err) ∨
    e.payableHandler.CheckPayable vmInput vmInput.RecipientAddr MinLenArgumentsDCTTransfer
      = some err := by
  unfold dctTransfer.ProcessBuiltinFunction at hres
  split at hres
  · rename_i err1 _ hbasic
    simp only [Except.error.injEq] at hres
    subst hres
    simp only [checkBasicDCTArguments] at hbasic
    split at hbasic
    · simp only [Option.some.injEq] at hbasic
      exact Or.inl hbasic.symm
    · split at hbasic
      · simp only [Option.some.injEq] at hbasic
        exact Or.inr (Or.inl hbasic.symm)
      · split at hbasic
        · simp only [Option.some.injEq] at hbasic
          exact Or.inr (Or.inr (Or.inl hbasic.symm))
        · simp at hbasic
  · rename_i h
    simp at h
  · rename_i vmInput1 hbasic heq
    simp only [Option.some.injEq] at heq
    subst heq
    simp only at hres
    split at hres
    · simp only [Except.error.injEq] at hres
      exact Or.inr (Or.inr (Or.inr (Or.inl hres.symm)))
    · split at hres
      · simp only [Except.error.injEq] at hres
        exact Or.inr (Or.inr (Or.inr (Or.inr (Or.inl hres.symm))))
      · split at hres
        · rename_i err1 hlim
          simp only [Except.error.injEq] at hres
          subst hres
          exact Or.inr (Or.inr (Or.inr (Or.inr (Or.inr (Or.inr (Or.inl hlim))))))
        · split at hres
          · rename_i err1 acntSndNew hdeb
            simp only [Except.error.injEq] at hres
            subst hres
            unfold dctTransfer.debitSender at hdeb
            cases acntSnd with
            | none => simp at hdeb
            | some s =>
              simp only at hdeb
              split at hdeb
              · simp only [Prod.mk.injEq, Option.some.injEq] at hdeb
                exact Or.inr (Or.inr (Or.inr (Or.inr (Or.inr (Or.inl hdeb.1.symm)))))
              · simp only [Prod.mk.injEq] at hdeb
                exact Or.inr (Or.inr (Or.inr (Or.inr (Or.inr (Or.inr (Or.inr
                  (Or.inl ⟨s, _, hdeb.1⟩)))))))
          · cases acntDst with
            | none => simp at hres
            | some dst =>
              simp only at hres
              split at hres
              · rename_i err1 hpay
                simp only [Except.error.injEq] at hres
                subst hres
                exact Or.inr (Or.inr (Or.inr (Or.inr (Or.inr (Or.inr (Or.inr (Or.inr hpay)))))))
              · split at hres
                · rename_i err1 dstNew hdst
                  simp only [Except.error.injEq] at hres
                  subst hres
                  refine Or.inr (Or.inr (Or.inr (Or.inr (Or.inr (Or.inr (Or.inr
                    (Or.inl ⟨dst, (bigIntSetBytes (argAt vmInput.Arguments 1) : Int), ?_⟩)))))))
                  rw [hdst]
                · split at hres <;> simp at hres

/-- C32: `checkFrozeAndPause` returns nil whenever the suppress flag is set or
the given address is the DCT system smart-contract address; otherwise it
returns ErrDCTIsFrozenForAccount when the record's user metadata has the
frozen flag set, else ErrDCTTokenIsPaused when the global settings report the
key as paused, else nil.  Hence a fungible transfer with ReturnCallAfterError
set, whose payable hook does not itself answer with one of these two errors,
never returns ErrDCTIsFrozenForAccount or ErrDCTTokenIsPaused. -/
theorem checkFrozeAndPause_cases (c : Core) (senderAddr key : Bytes) (dctData : DCToken)
    (g : DCTGlobalSettingsHandler) (isReturnWithError : Bool) :
    ((isReturnWithError = true ∨ senderAddr = c.DCTSCAddress) →
      checkFrozeAndPause c senderAddr key dctData g isReturnWithError = none) ∧
    (isReturnWithError = false → senderAddr ≠ c.DCTSCAddress →
      checkFrozeAndPause c senderAddr key dctData g isReturnWithError =
        if (DCTUserMetadataFromBytes dctData.Properties).Frozen then
          some .ErrDCTIsFrozenForAccount
        else if g.IsPaused key then some .ErrDCTTokenIsPaused
        else none) ∧
    (∀ (e : dctTransfer) (acntSnd acntDst : Option UserAccount) (vmInput : ContractCallInput),
      vmInput.ReturnCallAfterError = true →
      e.payableHandler.CheckPayable vmInput vmInput.RecipientAddr MinLenArgumentsDCTTransfer
        ≠ some .ErrDCTIsFrozenForAccount →
      e.payableHandler.CheckPayable vmInput vmInput.RecipientAddr MinLenArgumentsDCTTransfer
        ≠ some .ErrDCTTokenIsPaused →
      (e.ProcessBuiltinFunction c acntSnd acntDst (some vmInput)).1
          ≠ .error .ErrDCTIsFrozenForAccount ∧
      (e.ProcessBuiltinFunction c acntSnd acntDst (some vmInput)).1
          ≠ .error .ErrDCTTokenIsPaused) := by
  refine ⟨?_, ?_, ?_⟩
  · rintro (h | h)
    · simp [checkFrozeAndPause, h]
    · simp [checkFrozeAndPause, h]
  · intro h hne
    simp [checkFrozeAndPause, h, hne]
  · intro e acntSnd acntDst vmInput hflag hpay1 hpay2
    have hlim : ∀ tokenID, checkIfTransferCanHappenWithLimitedTransfer c tokenID
        (e.keyPrefix ++ argAt vmInput.Arguments 0) vmInput.CallerAddr vmInput.RecipientAddr
        e.globalSettingsHandler e.rolesHandler acntSnd acntDst vmInput.ReturnCallAfterError
          = none := by
      intro tokenID
      simp [checkIfTransferCanHappenWithLimitedTransfer, hflag]
    constructor
    · intro hres
      rcases dctTransfer_error_origin e c acntSnd acntDst vmInput _ hres with
        h | h | h | h | h | h | h | h | h
      · cases h
      · cases h
      · cases h
      · cases h
      · cases h
      · cases h
      · rw [hlim] at h
        cases h
      · obtain ⟨acnt, value, h⟩ := h
        rw [hflag] at h
        exact (addToDCTBalance_suppressed c acnt _ value _ _).1 h
      · exact hpay1 h
    · intro hres
      rcases dctTransfer_error_origin e c acntSnd acntDst vmInput _ hres with
        h | h | h | h | h | h | h | h | h
      · cases h
      · cases h
      · cases h
      · cases h
      · cases h
      · cases h
      · rw [hlim] at h
        cases h
      · obtain ⟨acnt, value, h⟩ := h
        rw [hflag] at h
        exact (addToDCTBalance_suppressed c acnt _ value _ _).2 h
      · exact hpay2 h


/-- Witness for C32: a frozen record of the account `[0, 1]` passes the check
with the suppress flag set and is rejected without it. -/
theorem checkFrozeAndPause_cases_witness :
    checkFrozeAndPause sampleCore [0, 1] [100, 5]
      { Properties := DCTUserMetadata.ToBytes { Frozen := true } } sampleSettings true = none ∧
    checkFrozeAndPause sampleCore [0, 1] [100, 5]
      { Properties := DCTUserMetadata.ToBytes { Frozen := true } } sampleSettings false
        = some .ErrDCTIsFrozenForAccount :=
  ⟨(checkFrozeAndPause_cases sampleCore [0, 1] [100, 5]
      { Properties := DCTUserMetadata.ToBytes { Frozen := true } } sampleSettings true).1
      (Or.inl rfl),
   (checkFrozeAndPause_cases sampleCore [0, 1] [100, 5]
      { Properties := DCTUserMetadata.ToBytes { Frozen := true } } sampleSettings false).2.1
      rfl (by decide)⟩


/-- The liquidity update on a stored canonical record with a non-empty reserved
marker, both gates on and nonce > 0, as a function of the fix gate. -/
theorem AddToLiquiditySystemAcc_on_record (e : dctDataStorage) (c : Core)
    (accounts : AccountsDB) (dctTokenKey : Bytes) (nonce : Nat) (delta : Int) (rec : DCToken)
    (hsave : e.enableEpochsHandler.IsSaveToSystemAccountFlagEnabled = true)
    (hsend : e.enableEpochsHandler.IsSendAlwaysFlagEnabled = true)
    (hnonce : 0 < nonce)
    (hbytes : (accounts.LoadAccount c.SystemAccountAddress).RetrieveValue
      (computeDCTNFTTokenKey dctTokenKey nonce) ≠ [])
    (hrec : e.marshaller.Unmarshal {}
      ((accounts.LoadAccount c.SystemAccountAddress).RetrieveValue
        (computeDCTNFTTokenKey dctTokenKey nonce)) = .ok rec)
    (hres : rec.Reserved ≠ []) :
    e.AddToLiquiditySystemAcc c accounts dctTokenKey nonce delta =
      if e.enableEpochsHandler.IsFixOldTokenLiquidityEnabled = true ∧ rec.Value = 0 ∧ delta < 0
      then
        match e.marshaller.Marshal { rec with Reserved := [] } with
        | .ok b =>
          (none, accounts.SaveAccount
            ((accounts.LoadAccount c.SystemAccountAddress).SaveKeyValue
              (computeDCTNFTTokenKey dctTokenKey nonce) b))
        | .error code => (some (.ErrMarshalizer code), accounts)
      else if rec.Value + delta < 0 then (some .ErrInvalidLiquidityForDCT, accounts)
      else if rec.Value + delta = 0 then
        (none, accounts.SaveAccount
          ((accounts.LoadAccount c.SystemAccountAddress).SaveKeyValue
            (computeDCTNFTTokenKey dctTokenKey nonce) []))
      else
        match e.marshaller.Marshal { rec with Value := rec.Value + delta } with
        | .ok b =>
          (none, accounts.SaveAccount
            ((accounts.LoadAccount c.SystemAccountAddress).SaveKeyValue
              (computeDCTNFTTokenKey dctTokenKey nonce) b))
        | .error code => (some (.ErrMarshalizer code), accounts) := by
  have hn : nonce ≠ 0 := Nat.pos_iff_ne_zero.1 hnonce
  have hlen : ((accounts.LoadAccount c.SystemAccountAddress).RetrieveValue
      (computeDCTNFTTokenKey dctTokenKey nonce)).length ≠ 0 :=
    fun h => hbytes (List.length_eq_zero.1 h)
  have hrl : rec.Reserved.length ≠ 0 := fun h => hres (List.length_eq_zero.1 h)
  have hget : e.getDCTDigitalTokenDataFromSystemAccount c accounts
      (computeDCTNFTTokenKey dctTokenKey nonce) defaultQueryOptions
      = .ok (some rec, accounts.LoadAccount c.SystemAccountAddress) := by
    simp [dctDataStorage.getDCTDigitalTokenDataFromSystemAccount,
      dctDataStorage.getSystemAccount, dctDataStorage.loadSystemAccount, defaultQueryOptions,
      hlen, hrec]
  unfold dctDataStorage.AddToLiquiditySystemAcc
  simp only [hsave, hsend, hn, hget, hrl, Bool.not_true, Bool.false_or, decide_False,
    if_false, Bool.false_eq_true]
  by_cases hc : e.enableEpochsHandler.IsFixOldTokenLiquidityEnabled = true ∧ rec.Value = 0 ∧
      delta < 0
  · have hcond : (e.enableEpochsHandler.IsFixOldTokenLiquidityEnabled
        && (decide (rec.Value = 0) && decide (delta < 0))) = true := by
      simp [hc.1, hc.2.1, hc.2.2]
    rw [if_pos hcond, if_pos hc]
    simp only [dctDataStorage.marshalAndSaveData]
    cases e.marshaller.Marshal { rec with Reserved := [] } <;> rfl
  · have hcond : ¬ (e.enableEpochsHandler.IsFixOldTokenLiquidityEnabled
        && (decide (rec.Value = 0) && decide (delta < 0))) = true := by
      intro h
      simp only [Bool.and_eq_true, decide_eq_true_eq] at h
      exact hc h
    rw [if_neg hcond, if_neg hc]
    by_cases hneg : rec.Value + delta < 0
    · simp only [hneg, if_true]
    · simp only [hneg, if_false]
      by_cases hz : rec.Value + delta = 0
      · simp only [hz, if_true]
      · simp only [hz, if_false, dctDataStorage.marshalAndSaveData]
        cases e.marshaller.Marshal { rec with Value := rec.Value + delta } <;> rfl

/-- C35: with the system-account and always-propagate gates on, nonce > 0 and
the fix-old-token-liquidity gate on, for a canonical record with a non-empty
reserved marker.  If the record's value is exactly 0 and the delta is negative,
the call never returns ErrInvalidLiquidityForDCT: it marshals the record with
the reserved marker cleared and the value still 0 and, the marshaler
succeeding, stores these bytes and returns nil.  For every other value and
delta the result is the one of the same engine with the fix gate off. -/
theorem AddToLiquiditySystemAcc_fix_gate (e : dctDataStorage) (c : Core)
    (accounts : AccountsDB) (dctTokenKey : Bytes) (nonce : Nat) (delta : Int) (rec : DCToken)
    (hsave : e.enableEpochsHandler.IsSaveToSystemAccountFlagEnabled = true)
    (hsend : e.enableEpochsHandler.IsSendAlwaysFlagEnabled = true)
    (hfix : e.enableEpochsHandler.IsFixOldTokenLiquidityEnabled = true)
    (hnonce : 0 < nonce)
    (hbytes : (accounts.LoadAccount c.SystemAccountAddress).RetrieveValue
      (computeDCTNFTTokenKey dctTokenKey nonce) ≠ [])
    (hrec : e.marshaller.Unmarshal {}
      ((accounts.LoadAccount c.SystemAccountAddress).RetrieveValue
        (computeDCTNFTTokenKey dctTokenKey nonce)) = .ok rec)
    (hres : rec.Reserved ≠ []) :
    (rec.Value = 0 → delta < 0 →
      (e.AddToLiquiditySystemAcc c accounts dctTokenKey nonce delta).1
          ≠ some .ErrInvalidLiquidityForDCT ∧
      ({ rec with Reserved := [] } : DCToken).Value = 0 ∧
      ({ rec with Reserved := [] } : DCToken).Reserved = [] ∧
      e.AddToLiquiditySystemAcc c accounts dctTokenKey nonce delta =
        match e.marshaller.Marshal { rec with Reserved := [] } with
        | .ok b =>
          (none, accounts.SaveAccount
            ((accounts.LoadAccount c.SystemAccountAddress).SaveKeyValue
              (computeDCTNFTTokenKey dctTokenKey nonce) b))
        | .error code => (some (.ErrMarshalizer code), accounts)) ∧
    (¬ (rec.Value = 0 ∧ delta < 0) →
      e.AddToLiquiditySystemAcc c accounts dctTokenKey nonce delta =
        dctDataStorage.AddToLiquiditySystemAcc
          { e with
            enableEpochsHandler :=
              { e.enableEpochsHandler with IsFixOldTokenLiquidityEnabled := false } }
          c accounts dctTokenKey nonce delta) := by
  constructor
  · intro hzero hneg
    have heq := AddToLiquiditySystemAcc_on_record e c accounts dctTokenKey nonce delta rec hsave
      hsend hnonce hbytes hrec hres
    rw [if_pos ⟨hfix, hzero, hneg⟩] at heq
    refine ⟨?_, hzero, rfl, heq⟩
    rw [heq]
    cases e.marshaller.Marshal { rec with Reserved := [] } <;> simp
  · intro hother
    have h1 := AddToLiquiditySystemAcc_on_record e c accounts dctTokenKey nonce delta rec hsave
      hsend hnonce hbytes hrec hres
    have h2 := AddToLiquiditySystemAcc_on_record
      { e with
        enableEpochsHandler :=
          { e.enableEpochsHandler with IsFixOldTokenLiquidityEnabled := false } }
      c accounts dctTokenKey nonce delta rec hsave hsend hnonce hbytes hrec hres
    rw [if_neg (fun h => hother h.2)] at h1
    rw [if_neg (fun h => hother h.2)] at h2
    rw [h1, h2]

/-- Witness for C35: a reserved accumulator of 0 decreased by 3 under the fix
gate keeps the value 0 and loses the reserved marker. -/
theorem AddToLiquiditySystemAcc_fix_gate_witness :
    ((sampleStorage fixGates).AddToLiquiditySystemAcc sampleCore
      (sampleAccounts [100, 5, 7] (encodeDCToken { Value := 0, Reserved := [1] }))
      [100, 5] 7 (-3)).1 ≠ some .ErrInvalidLiquidityForDCT ∧
    (((sampleStorage fixGates).AddToLiquiditySystemAcc sampleCore
      (sampleAccounts [100, 5, 7] (encodeDCToken { Value := 0, Reserved := [1] }))
      [100, 5] 7 (-3)).2.LoadAccount sampleCore.SystemAccountAddress).RetrieveValue [100, 5, 7]
        = encodeDCToken { Value := 0, Reserved := [] } ∧
    ((sampleStorage liquidityGates).AddToLiquiditySystemAcc sampleCore
      (sampleAccounts [100, 5, 7] (encodeDCToken { Value := 0, Reserved := [1] }))
      [100, 5] 7 (-3)).1 = some .ErrInvalidLiquidityForDCT :=
  ⟨((AddToLiquiditySystemAcc_fix_gate (sampleStorage fixGates) sampleCore
      (sampleAccounts [100, 5, 7] (encodeDCToken { Value := 0, Reserved := [1] }))
      [100, 5] 7 (-3) { Value := 0, Reserved := [1] } rfl rfl rfl (by decide) (by decide) rfl
      (by decide)).1 rfl (by decide)).1, rfl, rfl⟩


/-- The canonical-record write for an existing record, `mustUpdateAllFields`
not set, with the always-save-metadata and always-propagate gates on and a
saved record that carries metadata: a record with reserved marker is left
alone, a record without it gets the saved metadata. -/
theorem saveDCTMetaDataToSystemAccount_overwrite (e : dctDataStorage) (c : Core)
    (accounts : AccountsDB) (userAcc : Option UserAccount) (senderShardID : Nat)
    (dctNFTTokenKey : Bytes) (nonce : Nat) (dctData rec : DCToken)
    (halways : e.enableEpochsHandler.IsAlwaysSaveTokenMetaDataEnabled = true)
    (hsend : e.enableEpochsHandler.IsSendAlwaysFlagEnabled = true)
    (hnonce : 0 < nonce) (hmeta : dctData.TokenMetaData.isSome = true)
    (hbytes : (accounts.LoadAccount c.SystemAccountAddress).RetrieveValue dctNFTTokenKey ≠ [])
    (hrec : e.marshaller.Unmarshal {}
      ((accounts.LoadAccount c.SystemAccountAddress).RetrieveValue dctNFTTokenKey) = .ok rec) :
    e.saveDCTMetaDataToSystemAccount c accounts userAcc senderShardID dctNFTTokenKey nonce
      dctData false =
      if rec.Reserved = [] then
        match e.marshaller.Marshal { rec with TokenMetaData := dctData.TokenMetaData } with
        | .ok b =>
          (none, accounts.SaveAccount
            ((accounts.LoadAccount c.SystemAccountAddress).SaveKeyValue dctNFTTokenKey b))
        | .error code => (some (.ErrMarshalizer code), accounts)
      else (none, accounts) := by
  have hn : nonce ≠ 0 := Nat.pos_iff_ne_zero.1 hnonce
  have hlen : 0 < ((accounts.LoadAccount c.SystemAccountAddress).RetrieveValue
      dctNFTTokenKey).length := List.length_pos.2 hbytes
  have hlen0 : ((accounts.LoadAccount c.SystemAccountAddress).RetrieveValue
      dctNFTTokenKey).length ≠ 0 := Nat.pos_iff_ne_zero.1 hlen
  have hnone : dctData.TokenMetaData.isNone = false := by
    cases hm : dctData.TokenMetaData with
    | none => rw [hm] at hmeta; cases hmeta
    | some m => rfl
  unfold dctDataStorage.saveDCTMetaDataToSystemAccount
  simp only [hn, hnone, if_false, Bool.false_eq_true, dctDataStorage.saveMetadataIfRequired,
    halways, hsend, Bool.not_true, dctDataStorage.getSystemAccount,
    dctDataStorage.loadSystemAccount, defaultQueryOptions, hlen0, hrec]
  by_cases hr : rec.Reserved = []
  · have hr0 : ¬ rec.Reserved.length > 0 := by rw [hr]; simp
    rw [if_neg hr0, if_pos hr]
    simp only [dctDataStorage.marshalAndSaveData]
    cases e.marshaller.Marshal { rec with TokenMetaData := dctData.TokenMetaData } with
    | error code => rfl
    | ok b => simp [hlen]
  · have hr0 : rec.Reserved.length > 0 := List.length_pos.2 hr
    rw [if_pos hr0, if_neg hr]
    simp [hlen]

/-- The canonical-record write for an existing record, `mustUpdateAllFields`
not set, leaves the account store as it was when one of the two gates is off or
the saved record carries no metadata. -/
theorem saveDCTMetaDataToSystemAccount_skipped (e : dctDataStorage) (c : Core)
    (accounts : AccountsDB) (userAcc : Option UserAccount) (senderShardID : Nat)
    (dctNFTTokenKey : Bytes) (nonce : Nat) (dctData : DCToken)
    (hbytes : (accounts.LoadAccount c.SystemAccountAddress).RetrieveValue dctNFTTokenKey ≠ [])
    (hoff : e.enableEpochsHandler.IsAlwaysSaveTokenMetaDataEnabled = false ∨
      e.enableEpochsHandler.IsSendAlwaysFlagEnabled = false ∨ dctData.TokenMetaData = none) :
    e.saveDCTMetaDataToSystemAccount c accounts userAcc senderShardID dctNFTTokenKey nonce
      dctData false = (none, accounts) := by
  have hlen : 0 < ((accounts.LoadAccount c.SystemAccountAddress).RetrieveValue
      dctNFTTokenKey).length := List.length_pos.2 hbytes
  unfold dctDataStorage.saveDCTMetaDataToSystemAccount
  by_cases hn : nonce = 0
  · simp [hn]
  · by_cases hmd : dctData.TokenMetaData.isNone = true
    · simp [hn, hmd]
    · rcases hoff with h | h | h
      · simp [hn, hmd, dctDataStorage.saveMetadataIfRequired, h,
          dctDataStorage.getSystemAccount, dctDataStorage.loadSystemAccount,
          defaultQueryOptions, hlen]
      · simp [hn, hmd, dctDataStorage.saveMetadataIfRequired, h,
          dctDataStorage.getSystemAccount, dctDataStorage.loadSystemAccount,
          defaultQueryOptions, hlen]
      · rw [h] at hmd
        simp at hmd

/-- The account store returned by `SaveDCTNFTToken` is the one left by the
canonical-record write, or the given one when that write is not reached. -/
theorem SaveDCTNFTToken_store (e : dctDataStorage) (c : Core) (accounts : AccountsDB)
    (senderAddress : Bytes) (acnt : UserAccount) (dctTokenKey : Bytes) (nonce : Nat)
    (dctData : DCToken) (mustUpdateAllFields isReturnWithError : Bool) :
    (e.SaveDCTNFTToken c accounts senderAddress acnt dctTokenKey nonce dctData
        mustUpdateAllFields isReturnWithError).2.2 =
      if e.checkFrozenPauseProperties c acnt dctTokenKey nonce dctData isReturnWithError = none
          ∧ e.enableEpochsHandler.IsSaveToSystemAccountFlagEnabled = true then
        (e.saveDCTMetaDataToSystemAccount c accounts (some acnt)
          (e.shardCoordinator.ComputeId senderAddress) (computeDCTNFTTokenKey dctTokenKey nonce)
          nonce dctData mustUpdateAllFields).2
      else accounts := by
  unfold dctDataStorage.SaveDCTNFTToken
  cases hchk : e.checkFrozenPauseProperties c acnt dctTokenKey nonce dctData
      isReturnWithError with
  | some err => simp
  | none =>
    by_cases hsys : e.enableEpochsHandler.IsSaveToSystemAccountFlagEnabled = true
    · simp only [hsys, if_true, true_and]
      cases hm : e.saveDCTMetaDataToSystemAccount c accounts (some acnt)
        (e.shardCoordinator.ComputeId senderAddress) (computeDCTNFTTokenKey dctTokenKey nonce)
        nonce dctData mustUpdateAllFields with
      | mk r accounts1 =>
        cases r with
        | some err => rfl
        | none =>
          simp only [Bool.not_true, Bool.false_eq_true, if_false]
          split
          · rfl
          · split <;> rfl
    · simp only [hsys, if_false, and_false, Bool.false_eq_true]
      split
      · rfl
      · simp only [Bool.not_false, if_true]
        split <;> rfl

/-- C33 (counterexample): with the system-account, always-propagate and
always-save-metadata gates on, the system account holds at the nonce key a
record without reserved marker that carries metadata.  Saving a record that
carries no metadata succeeds and leaves the stored record as it was: its
metadata is not replaced by the (absent) metadata of the saved record.  With
the system-account gate off and the two other gates on, saving a record that
carries other metadata succeeds and leaves the stored record as it was.  A
saved record with the frozen flag is refused and nothing is stored. -/
theorem SaveDCTNFTToken_metadata_not_replaced :
    (((sampleStorage alwaysSaveGates).SaveDCTNFTToken sampleCore
        (sampleAccounts [100, 5, 7] (encodeDCToken sampleOldRecord)) [0, 1]
        (sampleAccount [0, 1] [] []) [100, 5] 7 { Value := 3, Type_ := NonFungible } false
        false).1.toOption.isSome = true ∧
      (((sampleStorage alwaysSaveGates).SaveDCTNFTToken sampleCore
        (sampleAccounts [100, 5, 7] (encodeDCToken sampleOldRecord)) [0, 1]
        (sampleAccount [0, 1] [] []) [100, 5] 7 { Value := 3, Type_ := NonFungible } false
        false).2.2.LoadAccount sampleCore.SystemAccountAddress).RetrieveValue [100, 5, 7]
        = encodeDCToken sampleOldRecord ∧
      encodeDCToken sampleOldRecord
        ≠ encodeDCToken { sampleOldRecord with TokenMetaData := none }) ∧
    (((sampleStorage
          { IsSendAlwaysFlagEnabled := true, IsAlwaysSaveTokenMetaDataEnabled := true
            }).SaveDCTNFTToken sampleCore
        (sampleAccounts [100, 5, 7] (encodeDCToken sampleOldRecord)) [0, 1]
        (sampleAccount [0, 1] [] []) [100, 5] 7 sampleRenamed false false).1.toOption.isSome
        = true ∧
      (((sampleStorage
          { IsSendAlwaysFlagEnabled := true, IsAlwaysSaveTokenMetaDataEnabled := true
            }).SaveDCTNFTToken sampleCore
        (sampleAccounts [100, 5, 7] (encodeDCToken sampleOldRecord)) [0, 1]
        (sampleAccount [0, 1] [] []) [100, 5] 7 sampleRenamed false
        false).2.2.LoadAccount sampleCore.SystemAccountAddress).RetrieveValue [100, 5, 7]
        = encodeDCToken sampleOldRecord ∧
      encodeDCToken sampleOldRecord
        ≠ encodeDCToken { sampleOldRecord with TokenMetaData := sampleRenamed.TokenMetaData }) ∧
    (((sampleStorage alwaysSaveGates).SaveDCTNFTToken sampleCore
        (sampleAccounts [100, 5, 7] (encodeDCToken sampleOldRecord)) [0, 1]
        (sampleAccount [0, 1] [] []) [100, 5] 7
        { sampleRenamed with Properties := DCTUserMetadata.ToBytes { Frozen := true } } false
        false).1 = .error .ErrDCTIsFrozenForAccount ∧
      (((sampleStorage alwaysSaveGates).SaveDCTNFTToken sampleCore
        (sampleAccounts [100, 5, 7] (encodeDCToken sampleOldRecord)) [0, 1]
        (sampleAccount [0, 1] [] []) [100, 5] 7
        { sampleRenamed with Properties := DCTUserMetadata.ToBytes { Frozen := true } } false
        false).2.2.LoadAccount sampleCore.SystemAccountAddress).RetrieveValue [100, 5, 7]
        = encodeDCToken sampleOldRecord) :=
  ⟨⟨rfl, rfl, by decide⟩, ⟨rfl, rfl, by decide⟩, ⟨rfl, rfl⟩⟩

/-- C33 (amended): `SaveDCTNFTToken` with `mustUpdateAllFields = false` for
`nonce > 0`, when the system account holds a record at the nonce key.  With the
system-account, always-save-metadata and always-propagate gates on, for a saved
record that carries metadata and passes the frozen and paused checks: if the
stored record's reserved marker is empty, the record stored afterwards is the
previous one with only its metadata replaced by the saved record's metadata
(value, type, properties and reserved marker as before).  If the reserved
marker is non-empty, or one of the three gates is off, or the saved record
carries no metadata, or a check refuses the save, the account store (hence the
stored system-account record) is unchanged. -/
theorem SaveDCTNFTToken_overwrites_metadata_only (e : dctDataStorage) (c : Core)
    (accounts : AccountsDB) (senderAddress : Bytes) (acnt : UserAccount) (dctTokenKey : Bytes)
    (nonce : Nat) (dctData rec : DCToken) (isReturnWithError : Bool)
    (hnonce : 0 < nonce)
    (hbytes : (accounts.LoadAccount c.SystemAccountAddress).RetrieveValue
      (computeDCTNFTTokenKey dctTokenKey nonce) ≠ [])
    (hrec : e.marshaller.Unmarshal {}
      ((accounts.LoadAccount c.SystemAccountAddress).RetrieveValue
        (computeDCTNFTTokenKey dctTokenKey nonce)) = .ok rec) :
    (e.enableEpochsHandler.IsSaveToSystemAccountFlagEnabled = true →
      e.enableEpochsHandler.IsAlwaysSaveTokenMetaDataEnabled = true →
      e.enableEpochsHandler.IsSendAlwaysFlagEnabled = true →
      dctData.TokenMetaData.isSome = true →
      e.checkFrozenPauseProperties c acnt dctTokenKey nonce dctData isReturnWithError = none →
      rec.Reserved = [] →
      ∀ b, e.marshaller.Marshal { rec with TokenMetaData := dctData.TokenMetaData } = .ok b →
        ((e.SaveDCTNFTToken c accounts senderAddress acnt dctTokenKey nonce dctData false
            isReturnWithError).2.2.LoadAccount c.SystemAccountAddress).RetrieveValue
          (computeDCTNFTTokenKey dctTokenKey nonce) = b ∧
        ({ rec with TokenMetaData := dctData.TokenMetaData } : DCToken).Value = rec.Value ∧
        ({ rec with TokenMetaData := dctData.TokenMetaData } : DCToken).Type_ = rec.Type_ ∧
        ({ rec with TokenMetaData := dctData.TokenMetaData } : DCToken).Properties
          = rec.Properties ∧
        ({ rec with TokenMetaData := dctData.TokenMetaData } : DCToken).Reserved
          = rec.Reserved) ∧
    ((rec.Reserved ≠ [] ∨
        e.enableEpochsHandler.IsSaveToSystemAccountFlagEnabled = false ∨
        e.enableEpochsHandler.IsAlwaysSaveTokenMetaDataEnabled = false ∨
        e.enableEpochsHandler.IsSendAlwaysFlagEnabled = false ∨
        dctData.TokenMetaData = none ∨
        e.checkFrozenPauseProperties c acnt dctTokenKey nonce dctData isReturnWithError
          ≠ none) →
      (e.SaveDCTNFTToken c accounts senderAddress acnt dctTokenKey nonce dctData false
        isReturnWithError).2.2 = accounts) := by
  constructor
  · intro hsys halways hsend hmeta hchk hres b hb
    rw [SaveDCTNFTToken_store, if_pos ⟨hchk, hsys⟩,
      saveDCTMetaDataToSystemAccount_overwrite e c accounts (some acnt) _ _ nonce dctData rec
        halways hsend hnonce hmeta hbytes hrec, if_pos hres, hb]
    exact ⟨load_save_retrieve accounts _ _ _, rfl, rfl, rfl, rfl⟩
  · intro hcase
    rw [SaveDCTNFTToken_store]
    by_cases hcond : e.checkFrozenPauseProperties c acnt dctTokenKey nonce dctData
        isReturnWithError = none ∧ e.enableEpochsHandler.IsSaveToSystemAccountFlagEnabled = true
    · rw [if_pos hcond]
      by_cases hskip : e.enableEpochsHandler.IsAlwaysSaveTokenMetaDataEnabled = false ∨
          e.enableEpochsHandler.IsSendAlwaysFlagEnabled = false ∨ dctData.TokenMetaData = none
      · rw [saveDCTMetaDataToSystemAccount_skipped e c accounts (some acnt) _ _ nonce dctData
          hbytes hskip]
      · have halways : e.enableEpochsHandler.IsAlwaysSaveTokenMetaDataEnabled = true := by
          cases h : e.enableEpochsHandler.IsAlwaysSaveTokenMetaDataEnabled with
          | true => rfl
          | false => exact absurd (Or.inl h) hskip
        have hsend : e.enableEpochsHandler.IsSendAlwaysFlagEnabled = true := by
          cases h : e.enableEpochsHandler.IsSendAlwaysFlagEnabled with
          | true => rfl
          | false => exact absurd (Or.inr (Or.inl h)) hskip
        have hmeta : dctData.TokenMetaData.isSome = true := by
          cases h : dctData.TokenMetaData with
          | none => exact absurd (Or.inr (Or.inr h)) hskip
          | some m => rfl
        have hres : rec.Reserved ≠ [] := by
          rcases hcase with h | h | h | h | h | h
          · exact h
          · rw [hcond.2] at h; cases h
          · rw [halways] at h; cases h
          · rw [hsend] at h; cases h
          · rw [h] at hmeta; cases hmeta
          · exact absurd hcond.1 h
        rw [saveDCTMetaDataToSystemAccount_overwrite e c accounts (some acnt) _ _ nonce dctData
          rec halways hsend hnonce hmeta hbytes hrec, if_neg hres]
    · rw [if_neg hcond]

/-- Witness for the amended C33: the stored record without reserved marker gets
the name of the saved record and keeps its value, type and properties. -/
theorem SaveDCTNFTToken_overwrites_metadata_only_witness :
    (((sampleStorage alwaysSaveGates).SaveDCTNFTToken sampleCore
        (sampleAccounts [100, 5, 7] (encodeDCToken sampleOldRecord)) [0, 1]
        (sampleAccount [0, 1] [] []) [100, 5] 7 sampleRenamed false
        false).2.2.LoadAccount sampleCore.SystemAccountAddress).RetrieveValue
        (computeDCTNFTTokenKey [100, 5] 7)
      = encodeDCToken { sampleOldRecord with TokenMetaData := sampleRenamed.TokenMetaData } :=
  ((SaveDCTNFTToken_overwrites_metadata_only (sampleStorage alwaysSaveGates) sampleCore
      (sampleAccounts [100, 5, 7] (encodeDCToken sampleOldRecord)) [0, 1]
      (sampleAccount [0, 1] [] []) [100, 5] 7 sampleRenamed sampleOldRecord false
      (by decide) (by decide) rfl).1 rfl rfl rfl rfl rfl rfl
      (encodeDCToken { sampleOldRecord with TokenMetaData := sampleRenamed.TokenMetaData })
      rfl).1


/-- The canonical-record write when the system account holds nothing at the
nonce key and the always-propagate gate is on: the new record has value 0, the
saved type and metadata, no properties and the reserved marker `[1]`, which
`setReservedToNilForOldToken` may clear. -/
theorem saveDCTMetaDataToSystemAccount_absent (e : dctDataStorage) (c : Core)
    (accounts : AccountsDB) (userAcc : Option UserAccount) (senderShardID : Nat)
    (dctNFTTokenKey : Bytes) (nonce : Nat) (dctData : DCToken) (mustUpdateAllFields : Bool)
    (hsend : e.enableEpochsHandler.IsSendAlwaysFlagEnabled = true)
    (hnonce : 0 < nonce) (hmeta : dctData.TokenMetaData.isSome = true)
    (hbytes : (accounts.LoadAccount c.SystemAccountAddress).RetrieveValue dctNFTTokenKey = []) :
    e.saveDCTMetaDataToSystemAccount c accounts userAcc senderShardID dctNFTTokenKey nonce
      dctData mustUpdateAllFields =
      match e.setReservedToNilForOldToken
          { Type_ := dctData.Type_, Value := 0, TokenMetaData := dctData.TokenMetaData,
            Properties := [], Reserved := [1] } userAcc dctNFTTokenKey with
      | .error err => (some err, accounts)
      | .ok created =>
        match e.marshaller.Marshal created with
        | .ok b =>
          (none, accounts.SaveAccount
            ((accounts.LoadAccount c.SystemAccountAddress).SaveKeyValue dctNFTTokenKey b))
        | .error code => (some (.ErrMarshalizer code), accounts) := by
  have hn : nonce ≠ 0 := Nat.pos_iff_ne_zero.1 hnonce
  have hnone : dctData.TokenMetaData.isNone = false := by
    cases hm : dctData.TokenMetaData with
    | none => rw [hm] at hmeta; cases hmeta
    | some m => rfl
  unfold dctDataStorage.saveDCTMetaDataToSystemAccount
  simp only [hn, hnone, if_false, Bool.false_eq_true, dctDataStorage.saveMetadataIfRequired,
    hsend, Bool.not_true, dctDataStorage.getSystemAccount, dctDataStorage.loadSystemAccount,
    defaultQueryOptions, hbytes, List.length_nil, if_true, ite_self, gt_iff_lt, lt_self_iff_false,
    decide_False, Bool.and_false, decide_True, Bool.and_self]
  cases e.setReservedToNilForOldToken
      { Type_ := dctData.Type_, Value := 0, TokenMetaData := dctData.TokenMetaData,
        Properties := [], Reserved := [1] } userAcc dctNFTTokenKey with
  | error err => rfl
  | ok created =>
    simp only [dctDataStorage.marshalAndSaveData]
    cases e.marshaller.Marshal created <;> rfl

/-- C34: `SaveDCTNFTToken` with the system-account and always-propagate gates
on, for `nonce > 0` and a saved record that carries metadata and passes the
frozen and paused checks, when the system account holds nothing at the nonce
key.  It stores there the marshaling of a record with value 0, the saved type
and metadata, no properties and the reserved marker `[1]` whenever the
fix-old-token-liquidity gate is off, or the user account holds nothing at that
key, or the user account's record there carries no embedded metadata; with the
fix gate on and a user record carrying embedded metadata the stored record is
the same with an empty reserved marker. -/
theorem SaveDCTNFTToken_creates_canonical_record (e : dctDataStorage) (c : Core)
    (accounts : AccountsDB) (senderAddress : Bytes) (acnt : UserAccount) (dctTokenKey : Bytes)
    (nonce : Nat) (dctData : DCToken) (mustUpdateAllFields isReturnWithError : Bool)
    (hsys : e.enableEpochsHandler.IsSaveToSystemAccountFlagEnabled = true)
    (hsend : e.enableEpochsHandler.IsSendAlwaysFlagEnabled = true)
    (hnonce : 0 < nonce) (hmeta : dctData.TokenMetaData.isSome = true)
    (hchk : e.checkFrozenPauseProperties c acnt dctTokenKey nonce dctData isReturnWithError
      = none)
    (hbytes : (accounts.LoadAccount c.SystemAccountAddress).RetrieveValue
      (computeDCTNFTTokenKey dctTokenKey nonce) = []) :
    ((e.enableEpochsHandler.IsFixOldTokenLiquidityEnabled = false ∨
        acnt.RetrieveValue (computeDCTNFTTokenKey dctTokenKey nonce) = [] ∨
        ∃ onUser, e.marshaller.Unmarshal {}
            (acnt.RetrieveValue (computeDCTNFTTokenKey dctTokenKey nonce)) = .ok onUser ∧
          onUser.TokenMetaData = none) →
      ∀ b, e.marshaller.Marshal
          { Type_ := dctData.Type_, Value := 0, TokenMetaData := dctData.TokenMetaData,
            Properties := [], Reserved := [1] } = .ok b →
        ((e.SaveDCTNFTToken c accounts senderAddress acnt dctTokenKey nonce dctData
            mustUpdateAllFields isReturnWithError).2.2.LoadAccount
          c.SystemAccountAddress).RetrieveValue (computeDCTNFTTokenKey dctTokenKey nonce) = b) ∧
    (e.enableEpochsHandler.IsFixOldTokenLiquidityEnabled = true →
      acnt.RetrieveValue (computeDCTNFTTokenKey dctTokenKey nonce) ≠ [] →
      (∃ onUser, e.marshaller.Unmarshal {}
          (acnt.RetrieveValue (computeDCTNFTTokenKey dctTokenKey nonce)) = .ok onUser ∧
        onUser.TokenMetaData.isSome = true) →
      ∀ b, e.marshaller.Marshal
          { Type_ := dctData.Type_, Value := 0, TokenMetaData := dctData.TokenMetaData,
            Properties := [], Reserved := [] } = .ok b →
        ((e.SaveDCTNFTToken c accounts senderAddress acnt dctTokenKey nonce dctData
            mustUpdateAllFields isReturnWithError).2.2.LoadAccount
          c.SystemAccountAddress).RetrieveValue (computeDCTNFTTokenKey dctTokenKey nonce)
            = b) := by
  have hstore := SaveDCTNFTToken_store e c accounts senderAddress acnt dctTokenKey nonce dctData
    mustUpdateAllFields isReturnWithError
  rw [if_pos ⟨hchk, hsys⟩,
    saveDCTMetaDataToSystemAccount_absent e c accounts (some acnt) _ _ nonce dctData
      mustUpdateAllFields hsend hnonce hmeta hbytes] at hstore
  constructor
  · intro hcase b hb
    have hkeep : e.setReservedToNilForOldToken
        { Type_ := dctData.Type_, Value := 0, TokenMetaData := dctData.TokenMetaData,
          Properties := [], Reserved := [1] } (some acnt)
        (computeDCTNFTTokenKey dctTokenKey nonce)
        = .ok { Type_ := dctData.Type_, Value := 0, TokenMetaData := dctData.TokenMetaData,
                Properties := [], Reserved := [1] } := by
      unfold dctDataStorage.setReservedToNilForOldToken
      by_cases hfix : e.enableEpochsHandler.IsFixOldTokenLiquidityEnabled = true
      · simp only [hfix, Bool.not_true, Bool.false_eq_true, if_false]
        by_cases hu : acnt.RetrieveValue (computeDCTNFTTokenKey dctTokenKey nonce) = []
        · simp [hu]
        · rcases hcase with h | h | ⟨onUser, hdec, hnometa⟩
          · rw [hfix] at h; cases h
          · exact absurd h hu
          · have hl : ¬ (acnt.RetrieveValue (computeDCTNFTTokenKey dctTokenKey nonce)).length
                = 0 := fun h => hu (List.length_eq_zero.1 h)
            simp [hl, hdec, hnometa]
      · simp [hfix]
    rw [hkeep] at hstore
    simp only [hb] at hstore
    rw [hstore]
    exact load_save_retrieve accounts _ _ _
  · intro hfix hu hdec b hb
    obtain ⟨onUser, hdec, hsome⟩ := hdec
    have hclear : e.setReservedToNilForOldToken
        { Type_ := dctData.Type_, Value := 0, TokenMetaData := dctData.TokenMetaData,
          Properties := [], Reserved := [1] } (some acnt)
        (computeDCTNFTTokenKey dctTokenKey nonce)
        = .ok { Type_ := dctData.Type_, Value := 0, TokenMetaData := dctData.TokenMetaData,
                Properties := [], Reserved := [] } := by
      unfold dctDataStorage.setReservedToNilForOldToken
      have hl : ¬ (acnt.RetrieveValue (computeDCTNFTTokenKey dctTokenKey nonce)).length
          = 0 := fun h => hu (List.length_eq_zero.1 h)
      simp [hfix, hl, hdec, hsome]
    rw [hclear] at hstore
    simp only [hb] at hstore
    rw [hstore]
    exact load_save_retrieve accounts _ _ _

/-- Witness for C34: saving the renamed record while the system account holds
nothing at the nonce key creates the reserved zero-value record. -/
theorem SaveDCTNFTToken_creates_canonical_record_witness :
    (((sampleStorage liquidityGates).SaveDCTNFTToken sampleCore (sampleAccounts [] []) [0, 1]
        (sampleAccount [0, 1] [] []) [100, 5] 7 sampleRenamed false
        false).2.2.LoadAccount sampleCore.SystemAccountAddress).RetrieveValue
        (computeDCTNFTTokenKey [100, 5] 7)
      = encodeDCToken
          { Type_ := NonFungible, Value := 0, TokenMetaData := sampleRenamed.TokenMetaData,
            Properties := [], Reserved := [1] } :=
  (SaveDCTNFTToken_creates_canonical_record (sampleStorage liquidityGates) sampleCore
      (sampleAccounts [] []) [0, 1] (sampleAccount [0, 1] [] []) [100, 5] 7 sampleRenamed false
      false rfl rfl (by decide) rfl rfl rfl).1 (Or.inl rfl)
      (encodeDCToken
        { Type_ := NonFungible, Value := 0, TokenMetaData := sampleRenamed.TokenMetaData,
          Properties := [], Reserved := [1] }) rfl


/-- C36 (counterexample): the token is under limited transfer and the roles
registry refuses the sender.  The sender-shard call for 3 of the sender's 5
units to another shard returns the error of the limited-transfer role check,
yet the sender's stored record holds 2 units and the liquidity of the canonical
record on the system account went from 10 to 7. -/
theorem processNFTTransferOnSenderShard_error_after_save :
    (sampleLimitedNFTTransfer.processNFTTransferOnSenderShard sampleCore sampleNFTStore
      (some sampleNFTSender) sampleNFTInput).1 = .error .ErrActionNotAllowed ∧
    sampleNFTSender.RetrieveValue [100, 5, 7] = encodeDCToken { Value := 5, Type_ := 1 } ∧
    (sampleLimitedNFTTransfer.processNFTTransferOnSenderShard sampleCore sampleNFTStore
      (some sampleNFTSender) sampleNFTInput).2.1.map (fun a => a.RetrieveValue [100, 5, 7])
      = some (encodeDCToken { Value := 2, Type_ := 1 }) ∧
    (sampleNFTStore.LoadAccount sampleCore.SystemAccountAddress).RetrieveValue [100, 5, 7]
      = encodeDCToken { sampleNFT 10 with Reserved := [1] } ∧
    ((sampleLimitedNFTTransfer.processNFTTransferOnSenderShard sampleCore sampleNFTStore
      (some sampleNFTSender) sampleNFTInput).2.2.LoadAccount
        sampleCore.SystemAccountAddress).RetrieveValue [100, 5, 7]
      = encodeDCToken { sampleNFT 7 with Reserved := [1] } :=
  ⟨rfl, rfl, rfl, rfl, rfl⟩

/-- C36 (amended): an error of the sender-shard single NFT transfer either
arises before the sender's record is saved (destination, gas, sender lookup and
quantity checks), and then the sender handle and the account store are the ones
passed in, or it arises once the save of the sender's record with the reduced
quantity has been reached.  In the second case the sender handle returned is
the one left by that save, and the error is the one of the save itself, of the
move of the quantity (destination credit or liquidity decrease), of the
limited-transfer role check, or of the building of the outgoing payload, each
returned with the account store as left by the steps before it. -/
theorem processNFTTransferOnSenderShard_error_state (e : dctNFTTransfer) (c : Core)
    (accounts : AccountsDB) (acntSnd : Option UserAccount) (vmInput : ContractCallInput)
    (err : Error) (snd1 : Option UserAccount) (accounts1 : AccountsDB)
    (hres : e.processNFTTransferOnSenderShard c accounts acntSnd vmInput
      = (.error err, snd1, accounts1)) :
    (snd1 = acntSnd ∧ accounts1 = accounts) ∨
    ∃ (snd : UserAccount) (dS : DCToken) (saved : Except Error Bytes) (sndMid : UserAccount)
        (accMid : AccountsDB),
      acntSnd = some snd ∧
      e.dctStorageHandler.GetDCTNFTTokenOnSender c accounts snd
          (e.keyPrefix ++ argAt vmInput.Arguments 0)
          (bigIntUint64 (bigIntSetBytes (argAt vmInput.Arguments 1))) = .ok dS ∧
      e.dctStorageHandler.SaveDCTNFTToken c accounts snd.Address snd
          (e.keyPrefix ++ argAt vmInput.Arguments 0)
          (bigIntUint64 (bigIntSetBytes (argAt vmInput.Arguments 1)))
          { dS with Value := dS.Value - (bigIntSetBytes (argAt vmInput.Arguments 2) : Int) }
          false vmInput.ReturnCallAfterError = (saved, sndMid, accMid) ∧
      snd1 = some sndMid ∧
      ((saved = .error err ∧ accounts1 = accMid) ∨
        ∃ (moved : Option Error) (d : DCToken) (ua : Option UserAccount) (accM : AccountsDB),
          (∃ b, saved = .ok b) ∧
          e.moveOnSenderShard c accMid vmInput (argAt vmInput.Arguments 3)
              { dS with Value := (bigIntSetBytes (argAt vmInput.Arguments 2) : Int) }
              (e.keyPrefix ++ argAt vmInput.Arguments 0)
              (bigIntUint64 (bigIntSetBytes (argAt vmInput.Arguments 1)))
              (bigIntSetBytes (argAt vmInput.Arguments 2) : Int) = (moved, d, ua, accM) ∧
          ((moved = some err ∧ accounts1 = accM) ∨
            (moved = none ∧ accounts1 = accM ∧
              checkIfTransferCanHappenWithLimitedTransfer c
                (if e.enableEpochsHandler.IsCheckCorrectTokenIDForTransferRoleFlagEnabled
                  then argAt vmInput.Arguments 0 else e.keyPrefix ++ argAt vmInput.Arguments 0)
                (e.keyPrefix ++ argAt vmInput.Arguments 0) sndMid.Address
                (argAt vmInput.Arguments 3) e.globalSettingsHandler e.rolesHandler
                (some sndMid) ua vmInput.ReturnCallAfterError = some err) ∨
            (moved = none ∧
              e.createNFTOutputTransfers c accM vmInput
                { ReturnCode := Ok, GasRemaining := vmInput.GasProvided - e.funcGasCost } d
                (argAt vmInput.Arguments 3) (argAt vmInput.Arguments 0)
                (bigIntUint64 (bigIntSetBytes (argAt vmInput.Arguments 1)))
                = (.error err, accounts1)))) := by
  unfold dctNFTTransfer.processNFTTransferOnSenderShard at hres
  simp only at hres
  split at hres
  · simp only [Prod.mk.injEq] at hres
    exact Or.inl ⟨hres.2.1.symm, hres.2.2.symm⟩
  · split at hres
    · simp only [Prod.mk.injEq] at hres
      exact Or.inl ⟨hres.2.1.symm, hres.2.2.symm⟩
    · split at hres
      · simp only [Prod.mk.injEq] at hres
        exact Or.inl ⟨hres.2.1.symm, hres.2.2.symm⟩
      · split at hres
        · simp only [Prod.mk.injEq] at hres
          exact Or.inl ⟨hres.2.1.symm, hres.2.2.symm⟩
        · split at hres
          · simp only [Prod.mk.injEq] at hres
            exact Or.inl ⟨hres.2.1.symm, hres.2.2.symm⟩
          · rename_i snd
            split at hres
            · simp only [Prod.mk.injEq] at hres
              exact Or.inl ⟨hres.2.1.symm, hres.2.2.symm⟩
            · rename_i dS hget
              split at hres
              · simp only [Prod.mk.injEq] at hres
                exact Or.inl ⟨hres.2.1.symm, hres.2.2.symm⟩
              · split at hres
                · simp only [Prod.mk.injEq] at hres
                  exact Or.inl ⟨hres.2.1.symm, hres.2.2.symm⟩
                · split at hres
                  · simp only [Prod.mk.injEq] at hres
                    exact Or.inl ⟨hres.2.1.symm, hres.2.2.symm⟩
                  · split at hres
                    · rename_i err1 sndMid accMid hsave
                      simp only [Prod.mk.injEq, Except.error.injEq] at hres
                      refine Or.inr ⟨snd, dS, .error err1, sndMid, accMid, rfl, hget, hsave,
                        hres.2.1.symm, Or.inl ⟨by rw [hres.1], hres.2.2.symm⟩⟩
                    · rename_i b sndMid accMid hsave
                      split at hres
                      · rename_i err1 d ua accM hmove
                        simp only [Prod.mk.injEq, Except.error.injEq] at hres
                        refine Or.inr ⟨snd, dS, .ok b, sndMid, accMid, rfl, hget, hsave,
                          hres.2.1.symm, Or.inr ⟨some err1, d, ua, accM, ⟨b, rfl⟩, hmove,
                            Or.inl ⟨by rw [hres.1], hres.2.2.symm⟩⟩⟩
                      · rename_i d ua accM hmove
                        split at hres
                        · rename_i err1 hlim
                          simp only [Prod.mk.injEq, Except.error.injEq] at hres
                          refine Or.inr ⟨snd, dS, .ok b, sndMid, accMid, rfl, hget, hsave,
                            hres.2.1.symm, Or.inr ⟨none, d, ua, accM, ⟨b, rfl⟩, hmove,
                              Or.inr (Or.inl ⟨rfl, hres.2.2.symm, ?_⟩)⟩⟩
                          rw [← hres.1]
                          exact hlim
                        · split at hres
                          · rename_i err1 accOut hcreate
                            simp only [Prod.mk.injEq, Except.error.injEq] at hres
                            refine Or.inr ⟨snd, dS, .ok b, sndMid, accMid, rfl, hget, hsave,
                              hres.2.1.symm, Or.inr ⟨none, d, ua, accM, ⟨b, rfl⟩, hmove,
                                Or.inr (Or.inr ⟨rfl, ?_⟩)⟩⟩
                            rw [hcreate, hres.1, hres.2.2]
                          · simp at hres


/-- Witness for the amended C36: in the refused limited transfer the error is
returned together with a sender handle, the one left by the save. -/
theorem processNFTTransferOnSenderShard_error_state_witness :
    (sampleLimitedNFTTransfer.processNFTTransferOnSenderShard sampleCore sampleNFTStore
      (some sampleNFTSender) sampleNFTInput).1 = .error .ErrActionNotAllowed ∧
    ∃ a, (sampleLimitedNFTTransfer.processNFTTransferOnSenderShard sampleCore sampleNFTStore
      (some sampleNFTSender) sampleNFTInput).2.1 = some a :=
  ⟨rfl,
    (processNFTTransferOnSenderShard_error_state sampleLimitedNFTTransfer sampleCore
      sampleNFTStore (some sampleNFTSender) sampleNFTInput .ErrActionNotAllowed
      (sampleLimitedNFTTransfer.processNFTTransferOnSenderShard sampleCore sampleNFTStore
        (some sampleNFTSender) sampleNFTInput).2.1
      (sampleLimitedNFTTransfer.processNFTTransferOnSenderShard sampleCore sampleNFTStore
        (some sampleNFTSender) sampleNFTInput).2.2 rfl).elim
      (fun h => ⟨sampleNFTSender, h.1⟩)
      (fun ⟨_, _, _, sndMid, _, _, _, _, h, _⟩ => ⟨sndMid, h⟩)⟩


/-- The seeding loop leaves the account as it is when the multi-shard create
role is not among the role arguments. -/
theorem seedStartNonce_absent (c : Core) (acntDst : UserAccount) (vmInput : ContractCallInput)
    (roles : List Bytes) (h : c.DCTRoleNFTCreateMultiShard ∉ roles) :
    seedStartNonce c acntDst vmInput roles = (none, acntDst) := by
  induction roles with
  | nil => rfl
  | cons arg rest ih =>
    have harg : arg ≠ c.DCTRoleNFTCreateMultiShard := fun heq => h (by simp [heq])
    have hrest : c.DCTRoleNFTCreateMultiShard ∉ rest := fun hm => h (List.mem_cons_of_mem _ hm)
    simp only [seedStartNonce, harg, ne_eq, not_false_eq_true, if_true]
    exact ih hrest

/-- A successful set-roles or unset-roles call whose role arguments do not
contain the multi-shard create role leaves the nonce counter of the token as
it was. -/
theorem roles_call_keeps_nonce (e : dctRoles) (c : Core) (dst dst1 : UserAccount)
    (vmInput : ContractCallInput) (out : VMOutput)
    (hres : e.ProcessBuiltinFunction c (some dst) (some vmInput) = (.ok out, some dst1))
    (hrole : c.DCTRoleNFTCreateMultiShard ∉ vmInput.Arguments.drop 1)
    (hkey : getNonceKey c (argAt vmInput.Arguments 0)
      ≠ roleKeyPrefix c ++ argAt vmInput.Arguments 0) :
    dst1.RetrieveValue (getNonceKey c (argAt vmInput.Arguments 0))
      = dst.RetrieveValue (getNonceKey c (argAt vmInput.Arguments 0)) := by
  unfold dctRoles.ProcessBuiltinFunction at hres
  split at hres
  · simp at hres
  · simp at hres
  · rename_i vmInput1 hbasic heq
    simp only [Option.some.injEq] at heq
    subst heq
    simp only at hres
    split at hres
    · simp at hres
    · split at hres
      · simp at hres
      · rw [seedStartNonce_absent c dst vmInput _ hrole] at hres
        simp only at hres
        split at hres
        · simp at hres
        · rename_i dst2 hsave
          simp only [Prod.mk.injEq, Option.some.injEq] at hres
          rw [← hres.2]
          simp only [saveRolesToAccount] at hsave
          split at hsave
          · simp at hsave
          · simp only [Prod.mk.injEq, true_and] at hsave
            rw [← hsave]
            exact retrieve_save_other _ _ _ _ hkey

/-- C38 (failing input): the account `[0, 1]` holds the plain and the
multi-shard create role of token `[84]` and the nonce counter 9.  The
unset-roles call for the multi-shard create role succeeds and overwrites the
nonce counter with the start nonce of the recipient address,
`floor(MaxUint64 / 256) * 1`, although no role is being added. -/
theorem unset_roles_writes_nonce_counter :
    (sampleRolesRegistry false).set = false ∧
    getLatestNonce sampleCore (sampleOwner [[18], [5]]) [84] = .ok 9 ∧
    ((sampleRolesRegistry false).ProcessBuiltinFunction sampleCore
      (some (sampleOwner [[18], [5]])) (some sampleUnsetMultiShardInput)).1.toOption.isSome
      = true ∧
    ((sampleRolesRegistry false).ProcessBuiltinFunction sampleCore
      (some (sampleOwner [[18], [5]])) (some sampleUnsetMultiShardInput)).2.map
        (fun a => (getLatestNonce sampleCore a [84],
          a.RetrieveValue (roleKeyPrefix sampleCore ++ [84])))
      = some (.ok 72057594037927935, encodeDCTRoles { Roles := [[18]] }) ∧
    computeStartNonce [0, 1] = .ok 72057594037927935 :=
  ⟨rfl, rfl, rfl, rfl, rfl⟩


/-- C31 (failing input): the first argument declares `N = 6148914691236517205`
transfers (eight bytes `0x55`) and has not the receiver's length, so the start
index is 1 and `3 * N + 1 = 2 ^ 64` arguments would be needed; four are
present.  The parser does not fail with ErrNotEnoughArguments: the 64-bit sum
wraps to 0, the count check passes, and the allocation of `N` transfers is a
run-time panic. -/
theorem parseMultiDCTNFTTransfer_count_wraps :
    bigIntSetBytes thirdOfUint64 = 6148914691236517205 ∧
    3 * bigIntSetBytes thirdOfUint64 + 1 = 2 ^ 64 ∧
    [thirdOfUint64, [5], [0], [3]].length < 3 * bigIntSetBytes thirdOfUint64 + 1 ∧
    (ArgsPerTransfer * bigIntUint64 (bigIntSetBytes thirdOfUint64) + 1) % 2 ^ 64 = 0 ∧
    sampleTransferParser.ParseDCTTransfers sampleCore [0, 1] [1, 2]
      sampleCore.BuiltInFunctionMultiDCTNFTTransfer [thirdOfUint64, [5], [0], [3]]
      = .error .GoPanic :=
  ⟨rfl, rfl, by decide, rfl, rfl⟩


/-- Reading an argument whose index is within the list. -/
theorem getElem?_argAt (args : List Bytes) (i : Nat) (h : i < args.length) :
    args[i]? = some (argAt args i) := by
  simp [argAt, List.getD_eq_getElem?_getD, List.getElem?_eq_getElem h]

/-- One transfer read at a start index whose three arguments are present: the
marshaler may refuse a carried record, otherwise the transfer has the name and
the nonce of its arguments and the type that goes with the nonce. -/
theorem createNewDCTTransfer_in_range (e : dctTransferParser) (c : Core) (idx : Nat)
    (args : List Bytes) (isTxAtSender : Bool) (h : idx + 2 < args.length)
    (hsize : args.length < 2 ^ 64) :
    (∃ code, e.createNewDCTTransfer c idx args isTxAtSender = .error (.ErrMarshalizer code)) ∨
    ∃ t, e.createNewDCTTransfer c idx args isTxAtSender = .ok t ∧
      t.DCTTokenName = argAt args idx ∧
      t.DCTTokenNonce = bigIntUint64 (bigIntSetBytes (argAt args (idx + 1))) ∧
      t.DCTTokenType = (if t.DCTTokenNonce > 0 then NonFungible else Fungible) := by
  have h2 : (idx + 2) % 2 ^ 64 = idx + 2 := Nat.mod_eq_of_lt (by omega)
  have h1 : (idx + 1) % 2 ^ 64 = idx + 1 := Nat.mod_eq_of_lt (by omega)
  unfold dctTransferParser.createNewDCTTransfer
  rw [h2, h1, getElem?_argAt args (idx + 2) h, getElem?_argAt args idx (by omega),
    getElem?_argAt args (idx + 1) (by omega)]
  simp only
  by_cases hn : bigIntUint64 (bigIntSetBytes (argAt args (idx + 1))) > 0
  · rw [if_pos hn]
    split
    · split
      · rename_i code _
        exact Or.inl ⟨code, rfl⟩
      · exact Or.inr ⟨_, rfl, rfl, rfl, by simp [hn]⟩
    · exact Or.inr ⟨_, rfl, rfl, rfl, by simp [hn]⟩
  · rw [if_neg hn]
    exact Or.inr ⟨_, rfl, rfl, rfl, by simp [hn]⟩

/-- The loop over the declared transfers, all of whose arguments are present:
the marshaler may refuse a carried record, otherwise the loop appends one
transfer per leg, in argument order. -/
theorem parseTransfers_in_range (e : dctTransferParser) (c : Core) (args : List Bytes)
    (startIndex : Nat) (isTxAtSender : Bool) (hsize : args.length < 2 ^ 64)
    (remaining : Nat) :
    ∀ (i : Nat) (acc : List DCTTransfer),
      startIndex + (i + remaining) * 3 ≤ args.length →
      (∃ code, e.parseTransfers c args startIndex isTxAtSender remaining i acc
        = .error (.ErrMarshalizer code)) ∨
      ∃ added : List DCTTransfer,
        e.parseTransfers c args startIndex isTxAtSender remaining i acc = .ok (acc ++ added) ∧
        added.length = remaining ∧
        ∀ k, k < remaining → ∃ t, added[k]? = some t ∧
          t.DCTTokenName = argAt args (startIndex + (i + k) * 3) ∧
          t.DCTTokenNonce
            = bigIntUint64 (bigIntSetBytes (argAt args (startIndex + (i + k) * 3 + 1))) ∧
          t.DCTTokenType = (if t.DCTTokenNonce > 0 then NonFungible else Fungible) := by
  induction remaining with
  | zero =>
    intro i acc _
    exact Or.inr ⟨[], by simp [dctTransferParser.parseTransfers], rfl, by intro k hk; omega⟩
  | succ r ih =>
    intro i acc hlen
    have hidx : (startIndex + i * ArgsPerTransfer) % 2 ^ 64 = startIndex + i * 3 := by
      unfold ArgsPerTransfer
      exact Nat.mod_eq_of_lt (by omega)
    simp only [dctTransferParser.parseTransfers, hidx]
    rcases createNewDCTTransfer_in_range e c (startIndex + i * 3) args isTxAtSender
        (by omega) hsize with ⟨code, hc⟩ | ⟨t, ht, hname, hnonce, htype⟩
    · rw [hc]
      exact Or.inl ⟨code, rfl⟩
    · rw [ht]
      simp only
      rcases ih (i + 1) (acc ++ [t]) (by omega) with ⟨code, hc⟩ | ⟨added, hok, hl, hall⟩
      · exact Or.inl ⟨code, hc⟩
      · refine Or.inr ⟨t :: added, ?_, by simp [hl], ?_⟩
        · rw [hok]
          simp
        · intro k hk
          cases k with
          | zero => exact ⟨t, by simp, by simpa using hname, by simpa using hnonce, htype⟩
          | succ k =>
            obtain ⟨t1, h1, h2, h3, h4⟩ := hall k (by omega)
            refine ⟨t1, by simpa using h1, ?_, ?_, h4⟩
            · rw [h2]
              congr 2
              omega
            · rw [h3]
              congr 4
              omega

/-- Where the number of arguments needed fits in 64 bits, the multi-transfer
parser behaves as described: with `N` the declared number of transfers and `s`
the start index, fewer than `3 * N + s` arguments give ErrNotEnoughArguments;
otherwise the marshaler may refuse a carried record, or the result holds
exactly `N` transfers in argument order, the call function `args[3N+s]` when
present and the arguments after it as call arguments. -/
theorem parseMultiDCTNFTTransfer_in_range (e : dctTransferParser) (c : Core)
    (rcvAddr : Bytes) (args : List Bytes) (arg0 arg1 : Bytes) (N s : Nat)
    (hlen : 4 ≤ args.length) (hmax : args.length ≤ maxSliceLen)
    (h0 : args[0]? = some arg0) (h1 : args[1]? = some arg1)
    (hs : s = if arg0.length = rcvAddr.length ∧ ¬ bigIntSetBytes arg0 < 2 ^ 64 then 2 else 1)
    (hN : N = bigIntUint64 (if arg0.length = rcvAddr.length ∧ ¬ bigIntSetBytes arg0 < 2 ^ 64
      then bigIntSetBytes arg1 else bigIntSetBytes arg0))
    (hfit : 3 * N + s < 2 ^ 64) :
    (args.length < 3 * N + s →
      e.parseMultiDCTNFTTransfer c rcvAddr args = .error .ErrNotEnoughArguments) ∧
    (3 * N + s ≤ args.length →
      (∃ code, e.parseMultiDCTNFTTransfer c rcvAddr args = .error (.ErrMarshalizer code)) ∨
      ∃ p, e.parseMultiDCTNFTTransfer c rcvAddr args = .ok p ∧
        p.RcvAddr = (if s = 2 then arg0 else rcvAddr) ∧
        p.DCTTransfers.length = N ∧
        (∀ k, k < N → ∃ t, p.DCTTransfers[k]? = some t ∧
          t.DCTTokenName = argAt args (s + k * 3) ∧
          t.DCTTokenNonce = bigIntUint64 (bigIntSetBytes (argAt args (s + k * 3 + 1))) ∧
          t.DCTTokenType = (if t.DCTTokenNonce > 0 then NonFungible else Fungible)) ∧
        p.CallFunction = (if args.length > 3 * N + s then argAt args (3 * N + s) else []) ∧
        p.CallArgs = args.drop (3 * N + s + 1)) := by
  have hmin : ¬ args.length < MinArgsForMultiDCTNFTTransfer := by
    unfold MinArgsForMultiDCTNFTTransfer
    omega
  have hsize : args.length < 2 ^ 64 := by
    unfold maxSliceLen at hmax
    omega
  by_cases haddr : arg0.length = rcvAddr.length ∧ ¬ bigIntSetBytes arg0 < 2 ^ 64
  · have hflag : (decide (arg0.length = rcvAddr.length)
        && !decide (bigIntSetBytes arg0 < 2 ^ 64)) = true := by
      rw [decide_eq_true haddr.1, decide_eq_false haddr.2]
      rfl
    rw [if_pos haddr] at hs hN
    subst hs
    have hml : (ArgsPerTransfer * N + 2) % 2 ^ 64 = 3 * N + 2 := by
      unfold ArgsPerTransfer
      exact Nat.mod_eq_of_lt hfit
    constructor
    · intro hfew
      unfold dctTransferParser.parseMultiDCTNFTTransfer
      simp only [hmin, if_false, h0, h1, hflag, if_true, ← hN, hml, hfew]
    · intro henough
      have hnot : ¬ args.length < 3 * N + 2 := by omega
      have hslice : ¬ N > maxSliceLen := by omega
      have hml1 : (3 * N + 2 + 1) % 2 ^ 64 = 3 * N + 2 + 1 := Nat.mod_eq_of_lt (by omega)
      unfold dctTransferParser.parseMultiDCTNFTTransfer
      simp only [hmin, if_false, h0, h1, hflag, if_true, ← hN, hml, hnot, hslice, hml1]
      rcases parseTransfers_in_range e c args 2 true hsize N 0 [] (by omega) with
        ⟨code, hc⟩ | ⟨added, hok, hl, hall⟩
      · rw [hc]
        exact Or.inl ⟨code, rfl⟩
      · rw [hok]
        refine Or.inr ⟨_, rfl, rfl, by simpa using hl, ?_, rfl, ?_⟩
        · intro k hk
          obtain ⟨t, h1, h2, h3, h4⟩ := hall k hk
          exact ⟨t, by simpa using h1, by simpa using h2, by simpa using h3, h4⟩
        · simp only
          split
          · rfl
          · rw [List.drop_eq_nil_of_le (by omega)]
  · have hflag : (decide (arg0.length = rcvAddr.length)
        && !decide (bigIntSetBytes arg0 < 2 ^ 64)) = false := by
      by_cases hl : arg0.length = rcvAddr.length
      · have hb : bigIntSetBytes arg0 < 2 ^ 64 := by
          by_contra hb
          exact haddr ⟨hl, hb⟩
        rw [decide_eq_true hl, decide_eq_true hb]
        rfl
      · rw [decide_eq_false hl]
        rfl
    rw [if_neg haddr] at hs hN
    subst hs
    have hml : (ArgsPerTransfer * N + 1) % 2 ^ 64 = 3 * N + 1 := by
      unfold ArgsPerTransfer
      exact Nat.mod_eq_of_lt hfit
    constructor
    · intro hfew
      unfold dctTransferParser.parseMultiDCTNFTTransfer
      simp only [hmin, if_false, h0, h1, hflag, Bool.false_eq_true, ← hN, hml, hfew, if_true]
    · intro henough
      have hnot : ¬ args.length < 3 * N + 1 := by omega
      have hslice : ¬ N > maxSliceLen := by omega
      have hml1 : (3 * N + 1 + 1) % 2 ^ 64 = 3 * N + 1 + 1 := Nat.mod_eq_of_lt (by omega)
      unfold dctTransferParser.parseMultiDCTNFTTransfer
      simp only [hmin, if_false, h0, h1, hflag, Bool.false_eq_true, ← hN, hml, hnot, hslice,
        hml1]
      rcases parseTransfers_in_range e c args 1 false hsize N 0 [] (by omega) with
        ⟨code, hc⟩ | ⟨added, hok, hl, hall⟩
      · rw [hc]
        exact Or.inl ⟨code, rfl⟩
      · rw [hok]
        refine Or.inr ⟨_, rfl, rfl, by simpa using hl, ?_, rfl, ?_⟩
        · intro k hk
          obtain ⟨t, h1, h2, h3, h4⟩ := hall k hk
          exact ⟨t, by simpa using h1, by simpa using h2, by simpa using h3, h4⟩
        · simp only
          split
          · rfl
          · rw [List.drop_eq_nil_of_le (by omega)]


/-- Where the number of arguments needed fits in 64 bits, an argument list that
passes the 64-bit count check satisfies the inequality over the natural
numbers, holds at least three arguments per leg, and contains every index
`start + 3 * i + 2` of a leg `i < N`. -/
theorem count_check_in_range (N len start : Nat)
    (hfit : N * argumentsPerTransfer + start < 2 ^ 64)
    (hpass : ¬ len < (N * argumentsPerTransfer + start) % 2 ^ 64) :
    N * 3 + start ≤ len ∧ N ≤ len / 3 ∧ ∀ i, i < N → start + 3 * i + 2 < len := by
  unfold argumentsPerTransfer at hfit hpass
  rw [Nat.mod_eq_of_lt hfit] at hpass
  refine ⟨by omega, ?_, ?_⟩
  · rw [Nat.le_div_iff_mul_le (by norm_num)]
    omega
  · intro i hi
    omega

/-- C39 (failing input): on the sender shard four arguments declare
`N = 6148914691236517206` legs; `N * 3 + 2` wraps to 4 in 64 bits, so the count
check passes although `N * 3 + 2` exceeds the four arguments and `N` exceeds
`4 / 3`; the call then panics in the allocation of `N` entries instead of
returning ErrInvalidArguments.  On the destination shard four arguments
declare `N = 6148914691236517205` legs; `N * 3 + 1` wraps to 0, the count check
passes, and the call panics in the same way. -/
theorem multi_transfer_count_check_wraps :
    (bigIntUint64 (bigIntSetBytes (argAt sampleWrappedSenderInput.Arguments 1))
        = 6148914691236517206 ∧
      ¬ sampleWrappedSenderInput.Arguments.length
        < (6148914691236517206 * argumentsPerTransfer + 2) % 2 ^ 64 ∧
      sampleWrappedSenderInput.Arguments.length < 6148914691236517206 * 3 + 2 ∧
      ¬ 6148914691236517206 ≤ sampleWrappedSenderInput.Arguments.length / 3 ∧
      ((sampleMultiTransfer 3).ProcessBuiltinFunction sampleCore (sampleAccounts [] [])
        (some sampleMultiSender) none (some sampleWrappedSenderInput)).1 = .error .GoPanic) ∧
    (bigIntUint64 (bigIntSetBytes (argAt sampleWrappedDestinationInput.Arguments 0))
        = 6148914691236517205 ∧
      ¬ sampleWrappedDestinationInput.Arguments.length
        < (6148914691236517205 * argumentsPerTransfer + 1) % 2 ^ 64 ∧
      sampleWrappedDestinationInput.Arguments.length < 6148914691236517205 * 3 + 1 ∧
      ¬ 6148914691236517205 ≤ sampleWrappedDestinationInput.Arguments.length / 3 ∧
      ((sampleMultiTransfer 3).ProcessBuiltinFunction sampleCore (sampleAccounts [] []) none
        (some (sampleAccount [0, 1] [] [])) (some sampleWrappedDestinationInput)).1
        = .error .GoPanic) :=
  ⟨⟨rfl, by decide, by decide, by decide, rfl⟩, ⟨rfl, by decide, by decide, by decide, rfl⟩⟩


/-- C37 (failing input): the sender holds 5 units of token `[5]`, nonce 7, in a
record without embedded metadata, and the system account holds nothing at the
nonce key.  The sender lookup succeeds with a record whose metadata is absent,
and the add-URI call then appends to the URI list of that absent metadata: the
call is aborted by the nil-pointer panic instead of returning an error.  (With
nonce 0 the call returns ErrNFTDoesNotHaveMetadata before the lookup.) -/
theorem add_uri_dereferences_absent_metadata :
    (sampleStorage liquidityGates).GetDCTNFTTokenOnSender sampleCore (sampleAccounts [] [])
        sampleNFTSender [100, 5] 7 = .ok { Value := 5, Type_ := 1, TokenMetaData := none } ∧
    sampleAddUri.ProcessBuiltinFunction sampleCore (sampleAccounts [] []) (some sampleNFTSender)
        (some (sampleAddUriInput 7))
      = (.error .GoPanic, some sampleNFTSender, sampleAccounts [] []) ∧
    (sampleAddUri.ProcessBuiltinFunction sampleCore (sampleAccounts [] [])
        (some sampleNFTSender) (some (sampleAddUriInput 0))).1
      = .error .ErrNFTDoesNotHaveMetadata :=
  ⟨rfl, rfl, rfl⟩


/-- A token that declares `2 ^ 63 - 1` intervals at the head of the argument
list sends the token loop back to its first argument: twice the number wraps
to `-2` in 64 bits, the interval loop does not run, and the index returns to 0.
No step budget suffices. -/
theorem deleteMetadataTokens_cycles (e : dctDeleteMetaData) (args : List Bytes)
    (tokenID numBytes : Bytes) (hlen : 4 ≤ args.length)
    (h0 : args[0]? = some tokenID) (h1 : args[1]? = some numBytes)
    (hv : ValidateToken tokenID = .ok true)
    (hnum : bigIntUint64 (bigIntSetBytes numBytes) = 2 ^ 63 - 1) :
    ∀ (fuel : Nat) (systemAcc : UserAccount),
      e.deleteMetadataTokens args fuel 0 systemAcc = none := by
  have e1 : (0 + 1) % 2 ^ 64 = 1 := rfl
  have e2 : (0 + 2) % 2 ^ 64 = 2 := rfl
  have e3 : (2 + (2 ^ 63 - 1) * 2) % 2 ^ 64 = 0 := by norm_num
  have hl1 : 1 < args.length := by omega
  have hl2 : ¬ 2 ≥ args.length := by omega
  intro fuel
  induction fuel with
  | zero => intro systemAcc; rfl
  | succ F ih =>
    intro systemAcc
    unfold dctDeleteMetaData.deleteMetadataTokens
    rw [e1, if_pos hl1, h0, h1]
    simp only [hv, hnum, e2, hl2, if_false]
    cases F with
    | zero => rfl
    | succ G =>
      have hlist : e.deleteMetadataForListIntervals tokenID args 2 (2 ^ 63 - 1) (G + 1) 2
          systemAcc = some (none, systemAcc) := by
        unfold dctDeleteMetaData.deleteMetadataForListIntervals
        rw [e3]
        simp
      rw [hlist]
      simp only [e3]
      exact ih systemAcc

/-- An interval that ends at the largest 64-bit nonce is never left: the
increment of the nonce wraps to 0, which is again at most the end.  No step
budget suffices. -/
theorem deleteNonces_max_end (dctTokenKey : Bytes) :
    ∀ (fuel nonce : Nat) (systemAcc : UserAccount), nonce < 2 ^ 64 →
      deleteNonces dctTokenKey (2 ^ 64 - 1) fuel nonce systemAcc = none := by
  intro fuel
  induction fuel with
  | zero => intro nonce systemAcc _; rfl
  | succ F ih =>
    intro nonce systemAcc hn
    unfold deleteNonces
    have hle : nonce ≤ 2 ^ 64 - 1 := by omega
    rw [if_pos hle]
    exact ih _ _ (Nat.mod_lt _ (by norm_num))

/-- C40 (failing input): the arguments name the valid token `ALC-6258d2`,
declare `2 ^ 63 - 1` intervals and carry one interval `[1, 1]`.  For every step
budget the deletion has not returned: the call does not terminate.  The same
holds for one declared interval `[1, 2 ^ 64 - 1]`. -/
theorem deleteMetadata_does_not_terminate :
    ValidateToken sampleTokenID = .ok true ∧
    bigIntUint64 (bigIntSetBytes halfOfUint64) = 2 ^ 63 - 1 ∧
    bigIntUint64 (bigIntSetBytes maxUint64Bytes) = 2 ^ 64 - 1 ∧
    (∀ fuel : Nat, sampleDeleteMetaData.deleteMetadata sampleCore fuel (sampleAccounts [] [])
      [sampleTokenID, halfOfUint64, [1], [1]] = none) ∧
    (∀ fuel : Nat, sampleDeleteMetaData.deleteMetadata sampleCore fuel (sampleAccounts [] [])
      [sampleTokenID, [1], [1], maxUint64Bytes] = none) := by
  have hv : ValidateToken sampleTokenID = .ok true := rfl
  have hhalf : bigIntUint64 (bigIntSetBytes halfOfUint64) = 2 ^ 63 - 1 := by
    norm_num [halfOfUint64, bigIntSetBytes, bigIntUint64]
  have hmax : bigIntUint64 (bigIntSetBytes maxUint64Bytes) = 2 ^ 64 - 1 := by
    norm_num [maxUint64Bytes, bigIntSetBytes, bigIntUint64]
  refine ⟨hv, hhalf, hmax, ?_, ?_⟩
  · intro fuel
    unfold dctDeleteMetaData.deleteMetadata
    rw [if_neg (by decide)]
    simp only [deleteMetadataTokens_cycles sampleDeleteMetaData
      [sampleTokenID, halfOfUint64, [1], [1]] sampleTokenID halfOfUint64 (by decide) rfl rfl hv
      hhalf fuel]
  · intro fuel
    unfold dctDeleteMetaData.deleteMetadata
    rw [if_neg (by decide)]
    have htok : sampleDeleteMetaData.deleteMetadataTokens
        [sampleTokenID, [1], [1], maxUint64Bytes] fuel 0
        ((sampleAccounts [] []).LoadAccount sampleCore.SystemAccountAddress) = none := by
      cases fuel with
      | zero => rfl
      | succ F =>
        have e1 : (0 + 1) % 2 ^ 64 = 1 := rfl
        have e2 : (0 + 2) % 2 ^ 64 = 2 := rfl
        have hone : bigIntUint64 (bigIntSetBytes [1]) = 1 := rfl
        unfold dctDeleteMetaData.deleteMetadataTokens
        rw [e1, if_pos (by decide)]
        simp only [List.getElem?_cons_zero, List.getElem?_cons_succ, hv, hone, e2]
        rw [if_neg (by decide)]
        cases F with
        | zero => rfl
        | succ G =>
          have e4 : (2 + 1 * 2) % 2 ^ 64 = 4 := rfl
          have e5 : (2 + 1) % 2 ^ 64 = 3 := rfl
          have e6 : subUint64 [sampleTokenID, [1], [1], maxUint64Bytes].length 2 = 2 := rfl
          have hint : sampleDeleteMetaData.deleteMetadataForListIntervals sampleTokenID
              [sampleTokenID, [1], [1], maxUint64Bytes] 2 1 (G + 1) 2
              ((sampleAccounts [] []).LoadAccount sampleCore.SystemAccountAddress) = none := by
            unfold dctDeleteMetaData.deleteMetadataForListIntervals
            rw [e4, if_pos (by decide), e6, if_neg (by decide), e5]
            simp only [List.getElem?_cons_zero, List.getElem?_cons_succ, hone, hmax,
              dctDeleteMetaData.deleteMetadataForInterval]
            rw [if_neg (by norm_num), if_neg (by norm_num),
              deleteNonces_max_end _ G 1 _ (by norm_num)]
          rw [hint]
    simp only [htok]


/-- An interval `[start, end]` whose end is below the largest 64-bit nonce is
processed within `end + 1 - start` steps, and exactly the keys of the nonces of
the interval are removed from the account. -/
theorem deleteNonces_in_range (dctTokenKey : Bytes) (endIndex : Nat)
    (hend : endIndex < 2 ^ 64 - 1) (n : Nat) :
    ∀ (startIndex fuel : Nat) (systemAcc : UserAccount),
      endIndex + 1 - startIndex = n → startIndex ≤ endIndex + 1 → n < fuel →
      ∃ systemAcc1 : UserAccount,
        deleteNonces dctTokenKey endIndex fuel startIndex systemAcc = some systemAcc1 ∧
        (∀ m, startIndex ≤ m → m ≤ endIndex →
          systemAcc1.RetrieveValue (computeDCTNFTTokenKey dctTokenKey m) = []) ∧
        (∀ k, (∀ m, startIndex ≤ m → m ≤ endIndex →
            k ≠ computeDCTNFTTokenKey dctTokenKey m) →
          systemAcc1.RetrieveValue k = systemAcc.RetrieveValue k) := by
  induction n with
  | zero =>
    intro startIndex fuel systemAcc hn hle hfuel
    obtain ⟨F, rfl⟩ : ∃ F, fuel = F + 1 := ⟨fuel - 1, by omega⟩
    have hgt : ¬ startIndex ≤ endIndex := by omega
    refine ⟨systemAcc, by simp [deleteNonces, hgt], ?_, fun k _ => rfl⟩
    intro m h1 h2
    omega
  | succ n ih =>
    intro startIndex fuel systemAcc hn hle hfuel
    obtain ⟨F, rfl⟩ : ∃ F, fuel = F + 1 := ⟨fuel - 1, by omega⟩
    have hin : startIndex ≤ endIndex := by omega
    have hstep : (startIndex + 1) % 2 ^ 64 = startIndex + 1 := Nat.mod_eq_of_lt (by omega)
    obtain ⟨systemAcc1, hrun, hgone, hkept⟩ := ih (startIndex + 1) F
      (systemAcc.SaveKeyValue (computeDCTNFTTokenKey dctTokenKey startIndex) [])
      (by omega) (by omega) (by omega)
    refine ⟨systemAcc1, ?_, ?_, ?_⟩
    · unfold deleteNonces
      rw [if_pos hin, hstep]
      exact hrun
    · intro m h1 h2
      by_cases hlater : ∃ m1, startIndex + 1 ≤ m1 ∧ m1 ≤ endIndex ∧
          computeDCTNFTTokenKey dctTokenKey m = computeDCTNFTTokenKey dctTokenKey m1
      · obtain ⟨m1, h3, h4, h5⟩ := hlater
        rw [h5]
        exact hgone m1 h3 h4
      · rw [hkept _ (fun m1 h3 h4 h5 => hlater ⟨m1, h3, h4, h5⟩)]
        have hm : m = startIndex := by
          by_contra hne
          exact hlater ⟨m, by omega, h2, rfl⟩
        rw [hm]
        exact retrieve_save_same _ _ _
    · intro k hk
      rw [hkept k (fun m h1 h2 => hk m (by omega) h2)]
      exact retrieve_save_other _ _ _ _ (hk startIndex (le_refl _) hin)

/-- The deletion of one interval `[start, end]` with `1 ≤ start ≤ end` and an
end below the largest 64-bit nonce returns without error within
`end + 2 - start` steps, having removed exactly the keys of the nonces of the
interval. -/
theorem deleteMetadataForInterval_in_range (e : dctDeleteMetaData) (fuel : Nat)
    (systemAcc : UserAccount) (tokenID : Bytes) (startIndex endIndex : Nat)
    (hstart : 1 ≤ startIndex) (hle : startIndex ≤ endIndex) (hend : endIndex < 2 ^ 64 - 1)
    (hfuel : endIndex + 1 - startIndex < fuel) :
    ∃ systemAcc1 : UserAccount,
      e.deleteMetadataForInterval fuel systemAcc tokenID startIndex endIndex
        = some (none, systemAcc1) ∧
      (∀ m, startIndex ≤ m → m ≤ endIndex →
        systemAcc1.RetrieveValue (computeDCTNFTTokenKey (e.keyPrefix ++ tokenID) m) = []) ∧
      (∀ k, (∀ m, startIndex ≤ m → m ≤ endIndex →
          k ≠ computeDCTNFTTokenKey (e.keyPrefix ++ tokenID) m) →
        systemAcc1.RetrieveValue k = systemAcc.RetrieveValue k) := by
  obtain ⟨systemAcc1, hrun, hgone, hkept⟩ := deleteNonces_in_range (e.keyPrefix ++ tokenID)
    endIndex hend _ startIndex fuel systemAcc rfl (by omega) hfuel
  refine ⟨systemAcc1, ?_, hgone, hkept⟩
  unfold dctDeleteMetaData.deleteMetadataForInterval
  rw [if_neg (by omega), if_neg (by omega), hrun]


/-- C14: on the sender shard of a single NFT transfer towards another shard, a
successful call emits one payload of the single-NFT-transfer function whose
arguments are the first three call arguments (token, nonce, quantity) followed
by a fourth argument `p` and the remaining call arguments.  The dedup check
runs on the account store left by the save of the sender's record and by the
liquidity update of the same call; with `was` its report on that store, `p` is
the marshaled record of the sender with the transferred quantity as value
whenever `was` is false or the quantity is exactly 1, and is the single byte
`0x00` when `was` is true and the quantity is not 1.  So in legacy mode
(always-propagate gate off) a transfer of a quantity other than 1 towards a
shard that the canonical record of the call's account store already marks as
sent carries the sentinel, and a transfer towards a shard that the record does
not mark yet carries the marshaled record. -/
theorem sender_payload_fourth_argument (e : dctNFTTransfer) (c : Core)
    (accounts : AccountsDB) (snd : UserAccount) (vmInput : ContractCallInput)
    (out : VMOutput) (snd1 : Option UserAccount) (accounts1 : AccountsDB)
    (hcross : e.shardCoordinator.SelfId ≠ e.shardCoordinator.ComputeId (argAt vmInput.Arguments 3))
    (hlen : 4 ≤ vmInput.Arguments.length)
    (hres : e.processNFTTransferOnSenderShard c accounts (some snd) vmInput
      = (.ok out, snd1, accounts1)) :
    ∃ (dS : DCToken) (was : Bool) (p : Bytes),
      e.dctStorageHandler.GetDCTNFTTokenOnSender c accounts snd
          (e.keyPrefix ++ argAt vmInput.Arguments 0)
          (bigIntUint64 (bigIntSetBytes (argAt vmInput.Arguments 1))) = .ok dS ∧
      e.dctStorageHandler.WasAlreadySentToDestinationShardAndUpdateState c
          (e.dctStorageHandler.AddToLiquiditySystemAcc c
            (e.dctStorageHandler.SaveDCTNFTToken c accounts snd.Address snd
              (e.keyPrefix ++ argAt vmInput.Arguments 0)
              (bigIntUint64 (bigIntSetBytes (argAt vmInput.Arguments 1)))
              { dS with Value := dS.Value - (bigIntSetBytes (argAt vmInput.Arguments 2) : Int) }
              false vmInput.ReturnCallAfterError).2.2
            (e.keyPrefix ++ argAt vmInput.Arguments 0)
            (bigIntUint64 (bigIntSetBytes (argAt vmInput.Arguments 1)))
            (-(bigIntSetBytes (argAt vmInput.Arguments 2) : Int))).2
          (argAt vmInput.Arguments 0)
          (bigIntUint64 (bigIntSetBytes (argAt vmInput.Arguments 1)))
          (argAt vmInput.Arguments 3) = (.ok was, accounts1) ∧
      (was = false ∨ (bigIntSetBytes (argAt vmInput.Arguments 2) : Int) = 1 →
        e.marshaller.Marshal { dS with Value := (bigIntSetBytes (argAt vmInput.Arguments 2) : Int) }
          = .ok p) ∧
      (was = true → (bigIntSetBytes (argAt vmInput.Arguments 2) : Int) ≠ 1 →
        p = zeroByteArray) ∧
      out.OutputAccounts.map (fun oa => oa.2.OutputTransfers.map
          (fun t => (t.DataFunction, t.DataArguments.take 3, argAt t.DataArguments 3,
            t.DataArguments.drop 4)))
        = [[(c.BuiltInFunctionDCTNFTTransfer, vmInput.Arguments.take 3, p,
            vmInput.Arguments.drop 4)]] ∧
      (∀ rec : DCToken,
        e.dctStorageHandler.enableEpochsHandler.IsSaveToSystemAccountFlagEnabled = true →
        e.dctStorageHandler.enableEpochsHandler.IsSendAlwaysFlagEnabled = false →
        e.dctStorageHandler.keyPrefix = e.keyPrefix →
        e.dctStorageHandler.shardCoordinator.ComputeId (argAt vmInput.Arguments 3)
          ≠ e.dctStorageHandler.shardCoordinator.SelfId →
        e.dctStorageHandler.shardCoordinator.ComputeId (argAt vmInput.Arguments 3)
          ≠ c.MetachainShardId →
        e.dctStorageHandler.shardCoordinator.ComputeId (argAt vmInput.Arguments 3)
          < e.dctStorageHandler.shardCoordinator.NumberOfShards →
        (accounts.LoadAccount c.SystemAccountAddress).RetrieveValue
          (computeDCTNFTTokenKey (e.keyPrefix ++ argAt vmInput.Arguments 0)
            (bigIntUint64 (bigIntSetBytes (argAt vmInput.Arguments 1)))) ≠ [] →
        e.dctStorageHandler.marshaller.Unmarshal {}
          ((accounts.LoadAccount c.SystemAccountAddress).RetrieveValue
            (computeDCTNFTTokenKey (e.keyPrefix ++ argAt vmInput.Arguments 0)
              (bigIntUint64 (bigIntSetBytes (argAt vmInput.Arguments 1))))) = .ok rec →
        (rec.Properties.getD
            (e.dctStorageHandler.shardCoordinator.ComputeId (argAt vmInput.Arguments 3)) 0 > 0 →
          (bigIntSetBytes (argAt vmInput.Arguments 2) : Int) ≠ 1 →
          p = zeroByteArray) ∧
        (¬ rec.Properties.getD
            (e.dctStorageHandler.shardCoordinator.ComputeId (argAt vmInput.Arguments 3)) 0 > 0 →
          e.marshaller.Marshal
            { dS with Value := (bigIntSetBytes (argAt vmInput.Arguments 2) : Int) } = .ok p)) := by
  have hnonce : 0 < bigIntUint64 (bigIntSetBytes (argAt vmInput.Arguments 1)) :=
    Nat.pos_of_ne_zero
      (processNFTTransferOnSenderShard_cross e c accounts snd vmInput out snd1 accounts1
        hcross hres).2.1
  unfold dctNFTTransfer.processNFTTransferOnSenderShard at hres
  simp only at hres
  split at hres
  · cases hres
  · split at hres
    · cases hres
    · split at hres
      · cases hres
      · split at hres
        · cases hres
        · split at hres
          · cases hres
          · rename_i dS hget
            split at hres
            · cases hres
            · split at hres
              · cases hres
              · split at hres
                · cases hres
                · split at hres
                  · cases hres
                  · rename_i b sndMid accMid hsave
                    rw [moveOnSenderShard_cross e c accMid vmInput _ _ _ _ _ hcross] at hres
                    cases hliq : e.dctStorageHandler.AddToLiquiditySystemAcc c accMid
                      (e.keyPrefix ++ argAt vmInput.Arguments 0)
                      (bigIntUint64 (bigIntSetBytes (argAt vmInput.Arguments 1)))
                      (-(bigIntSetBytes (argAt vmInput.Arguments 2) : Int)) with
                    | mk lerr accLiq =>
                      rw [hliq] at hres
                      cases lerr with
                      | some err => cases hres
                      | none =>
                        simp only at hres
                        split at hres
                        · cases hres
                        · split at hres
                          · cases hres
                          · rename_i vmOutput accOut hcreate
                            injection hres with h1 h2
                            injection h1 with h1
                            injection h2 with _ h3
                            subst h3
                            obtain ⟨was, p, hwas, hfull, hsentinel, hargs⟩ :=
                              createNFTOutputTransfers_payload e c accLiq vmInput _ _ _ _ _
                                vmOutput accOut hcross hcreate
                            have hstore : (e.dctStorageHandler.AddToLiquiditySystemAcc c
                                (e.dctStorageHandler.SaveDCTNFTToken c accounts snd.Address snd
                                  (e.keyPrefix ++ argAt vmInput.Arguments 0)
                                  (bigIntUint64 (bigIntSetBytes (argAt vmInput.Arguments 1)))
                                  { dS with Value :=
                                      dS.Value - (bigIntSetBytes (argAt vmInput.Arguments 2) : Int) }
                                  false vmInput.ReturnCallAfterError).2.2
                                (e.keyPrefix ++ argAt vmInput.Arguments 0)
                                (bigIntUint64 (bigIntSetBytes (argAt vmInput.Arguments 1)))
                                (-(bigIntSetBytes (argAt vmInput.Arguments 2) : Int))).2
                                = accLiq := by
                              rw [hsave]
                              simp only
                              rw [hliq]
                            refine ⟨dS, was, p, hget, ?_, hfull, hsentinel, ?_, ?_⟩
                            · rw [hstore]
                              exact hwas
                            · have hmap : out.OutputAccounts = vmOutput.OutputAccounts := by
                                rw [← h1]
                                rfl
                              have hargs2 := congrArg
                                (List.map (List.map (fun (t : Bytes × List Bytes) =>
                                  (t.1, t.2.take 3, argAt t.2 3, t.2.drop 4)))) hargs
                              rw [hmap]
                              simp only [List.map_map, List.map_cons, List.map_nil] at hargs2
                              rw [show (fun oa : Bytes × OutputAccount => oa.2.OutputTransfers.map
                                  (fun t => (t.DataFunction, t.DataArguments.take 3,
                                    argAt t.DataArguments 3, t.DataArguments.drop 4)))
                                = ((List.map (fun (t : Bytes × List Bytes) =>
                                    (t.1, t.2.take 3, argAt t.2 3, t.2.drop 4))) ∘
                                  fun oa : Bytes × OutputAccount => oa.2.OutputTransfers.map
                                    (fun t => (t.DataFunction, t.DataArguments))) from by
                                funext oa
                                simp [Function.comp, List.map_map]]
                              rw [hargs2]
                              have hp := payload_args vmInput.Arguments p
                                (if vmInput.Arguments.length > MinLenArgumentsDCTNFTTransfer then
                                  vmInput.Arguments.drop 4 else []) hlen
                              have htake : (vmInput.Arguments.take 3 ++ [p] ++
                                  (if vmInput.Arguments.length > MinLenArgumentsDCTNFTTransfer then
                                    vmInput.Arguments.drop 4 else [])).take 3
                                  = vmInput.Arguments.take 3 := by
                                match hA : vmInput.Arguments, hlen with
                                | a0 :: a1 :: a2 :: a3 :: tl, _ => simp
                              have hdrop : (vmInput.Arguments.take 3 ++ [p] ++
                                  (if vmInput.Arguments.length > MinLenArgumentsDCTNFTTransfer then
                                    vmInput.Arguments.drop 4 else [])).drop 4
                                  = vmInput.Arguments.drop 4 := by
                                match hA : vmInput.Arguments, hlen with
                                | a0 :: a1 :: a2 :: a3 :: tl, _ =>
                                  simp [MinLenArgumentsDCTNFTTransfer]
                              rw [htake, hdrop, hp.2.2.2.1]
                            · intro rec hgsave hgsend hprefix hself hmeta hd hbytes hrec
                              have hmid : accMid = accounts := by
                                have h := SaveDCTNFTToken_store e.dctStorageHandler c accounts
                                  snd.Address snd (e.keyPrefix ++ argAt vmInput.Arguments 0)
                                  (bigIntUint64 (bigIntSetBytes (argAt vmInput.Arguments 1)))
                                  { dS with Value :=
                                      dS.Value - (bigIntSetBytes (argAt vmInput.Arguments 2) : Int) }
                                  false vmInput.ReturnCallAfterError
                                rw [hsave] at h
                                simp only at h
                                rw [h, saveDCTMetaDataToSystemAccount_skipped e.dctStorageHandler c
                                  accounts _ _ _ _ _ hbytes (Or.inr (Or.inl hgsend))]
                                split <;> rfl
                              have hliq2 : accLiq = accMid := by
                                have h := hliq
                                unfold dctDataStorage.AddToLiquiditySystemAcc at h
                                simp only [hgsend, Bool.not_false, Bool.or_true, Bool.true_or,
                                  if_true] at h
                                exact (congrArg Prod.snd h).symm
                              rw [hliq2, hmid] at hwas
                              rw [← hprefix] at hbytes hrec
                              rw [WasAlreadySent_legacy_eq e.dctStorageHandler c accounts _ _ _ rec
                                hgsave hgsend hnonce hself hmeta hd hbytes hrec] at hwas
                              constructor
                              · intro hbit hq
                                apply hsentinel _ hq
                                rw [if_pos hbit] at hwas
                                injection hwas with hw _
                                injection hw with hw
                                exact hw.symm
                              · intro hbit
                                apply hfull
                                left
                                rw [if_neg hbit] at hwas
                                split at hwas
                                · injection hwas with hw _
                                  injection hw with hw
                                  exact hw.symm
                                · injection hwas with hw _
                                  cases hw


/-- Witness for C14: in legacy mode a first transfer of 3 towards shard 1, never
marked before, carries the marshaled record and leaves the sender with 2; the
second transfer, of those 2, run on the account store that the first one left,
finds shard 1 marked in the canonical record and carries the one-byte
sentinel. -/
theorem sender_payload_fourth_argument_witness :
    (sampleLegacyResult false).1.toOption.map (fun out =>
        out.OutputAccounts.map (fun oa => oa.2.OutputTransfers.map
          (fun t => (t.DataFunction, t.DataArguments.take 3, argAt t.DataArguments 3,
            t.DataArguments.drop 4))))
      = some [[([2], [[5], [7], [3]], encodeDCToken (sampleNFT 3), [])]] ∧
    (sampleLegacyResult false).2.1 = some sampleLegacySecondSender ∧
    ((sampleLegacyResult false).2.2.LoadAccount sampleCore.SystemAccountAddress).RetrieveValue
        [100, 5, 7] = encodeDCToken { sampleNFT 10 with Properties := [0, 1, 0] } ∧
    sampleLegacySecondResult.1.toOption.map (fun out =>
        out.OutputAccounts.map (fun oa => oa.2.OutputTransfers.map
          (fun t => (t.DataFunction, t.DataArguments.take 3, argAt t.DataArguments 3,
            t.DataArguments.drop 4))))
      = some [[([2], [[5], [7], [2]], [0], [])]] ∧
    ∃ p : Bytes,
      (sampleLegacySecondResult.1.toOption.getD {}).OutputAccounts.map
          (fun oa => oa.2.OutputTransfers.map
            (fun t => (t.DataFunction, t.DataArguments.take 3, argAt t.DataArguments 3,
              t.DataArguments.drop 4)))
        = [[([2], [[5], [7], [2]], p, [])]] ∧
      p = zeroByteArray := by
  refine ⟨rfl, rfl, rfl, rfl, ?_⟩
  obtain ⟨_, _, p, _, _, _, _, hpayload, hsecond⟩ :=
    sender_payload_fourth_argument sampleLegacyNFTTransfer sampleCore
      (sampleLegacyResult false).2.2 sampleLegacySecondSender sampleLegacySecondInput
      (sampleLegacySecondResult.1.toOption.getD {})
      sampleLegacySecondResult.2.1 sampleLegacySecondResult.2.2
      (by decide) (by decide) rfl
  exact ⟨p, hpayload,
    (hsecond { sampleNFT 10 with Properties := [0, 1, 0] } rfl rfl rfl (by decide) (by decide)
      (by decide) (by decide) rfl).1 (by decide) (by decide)⟩

/-- The accumulator read from a store whose system account holds a record. -/
theorem liquidity_of_record (e : dctDataStorage) (c : Core) (accounts : AccountsDB)
    (dctTokenKey : Bytes) (nonce : Nat) (rec : DCToken)
    (hbytes : (accounts.LoadAccount c.SystemAccountAddress).RetrieveValue
      (computeDCTNFTTokenKey dctTokenKey nonce) ≠ [])
    (hrec : e.marshaller.Unmarshal {}
      ((accounts.LoadAccount c.SystemAccountAddress).RetrieveValue
        (computeDCTNFTTokenKey dctTokenKey nonce)) = .ok rec) :
    e.liquidity c accounts dctTokenKey nonce = rec.Value := by
  unfold dctDataStorage.liquidity dctDataStorage.getDCTDigitalTokenDataFromSystemAccount
    dctDataStorage.getSystemAccount dctDataStorage.loadSystemAccount
  have hlen : ¬ ((accounts.LoadAccount c.SystemAccountAddress).RetrieveValue
      (computeDCTNFTTokenKey dctTokenKey nonce)).length = 0 := by
    intro h
    exact hbytes (List.length_eq_zero.1 h)
  simp only [defaultQueryOptions, hlen, if_false, hrec]

/-- The accumulator read from a store whose system account holds no record. -/
theorem liquidity_absent (e : dctDataStorage) (c : Core) (accounts : AccountsDB)
    (dctTokenKey : Bytes) (nonce : Nat)
    (hbytes : (accounts.LoadAccount c.SystemAccountAddress).RetrieveValue
      (computeDCTNFTTokenKey dctTokenKey nonce) = []) :
    e.liquidity c accounts dctTokenKey nonce = 0 := by
  unfold dctDataStorage.liquidity dctDataStorage.getDCTDigitalTokenDataFromSystemAccount
    dctDataStorage.getSystemAccount dctDataStorage.loadSystemAccount
  simp only [defaultQueryOptions, hbytes, List.length_nil, if_true]

/-- The accumulator after a successful liquidity update of a tracked record:
the stored value plus the delta. -/
theorem liquidity_after_update (e : dctDataStorage) (c : Core) (accounts accounts1 : AccountsDB)
    (dctTokenKey : Bytes) (nonce : Nat) (delta v : Int) (rec : DCToken)
    (hsave : e.enableEpochsHandler.IsSaveToSystemAccountFlagEnabled = true)
    (hsend : e.enableEpochsHandler.IsSendAlwaysFlagEnabled = true)
    (hnonce : 0 < nonce)
    (hbytes : (accounts.LoadAccount c.SystemAccountAddress).RetrieveValue
      (computeDCTNFTTokenKey dctTokenKey nonce) ≠ [])
    (hrec : e.marshaller.Unmarshal {}
      ((accounts.LoadAccount c.SystemAccountAddress).RetrieveValue
        (computeDCTNFTTokenKey dctTokenKey nonce)) = .ok rec)
    (hres : rec.Reserved ≠ [])
    (hfix : ¬ (e.enableEpochsHandler.IsFixOldTokenLiquidityEnabled = true ∧ rec.Value = 0 ∧
      delta < 0))
    (hv : rec.Value + delta = v)
    (hrt : ∀ b, e.marshaller.Marshal { rec with Value := v } = .ok b →
      b ≠ [] ∧ e.marshaller.Unmarshal {} b = .ok { rec with Value := v })
    (hadd : e.AddToLiquiditySystemAcc c accounts dctTokenKey nonce delta = (none, accounts1)) :
    e.liquidity c accounts1 dctTokenKey nonce = v := by
  rw [AddToLiquiditySystemAcc_on_record e c accounts dctTokenKey nonce delta rec hsave hsend
    hnonce hbytes hrec hres, if_neg hfix, hv] at hadd
  split at hadd
  · cases hadd
  · split at hadd
    · rename_i hzero
      injection hadd with _ h2
      rw [← h2, hzero]
      apply liquidity_absent
      exact load_save_retrieve accounts c.SystemAccountAddress _ []
    · split at hadd
      · rename_i b hb
        injection hadd with _ h2
        rw [← h2]
        obtain ⟨hne, hback⟩ := hrt b hb
        have hstored := load_save_retrieve accounts c.SystemAccountAddress
          (computeDCTNFTTokenKey dctTokenKey nonce) b
        have h := liquidity_of_record e c
          (accounts.SaveAccount ((accounts.LoadAccount c.SystemAccountAddress).SaveKeyValue
            (computeDCTNFTTokenKey dctTokenKey nonce) b)) dctTokenKey nonce { rec with Value := v }
          (by rw [hstored]; exact hne) (by rw [hstored]; exact hback)
        exact h
      · cases hadd

/-- With both liquidity gates on and no canonical record stored, the liquidity
update fails. -/
theorem AddToLiquiditySystemAcc_no_record (e : dctDataStorage) (c : Core)
    (accounts : AccountsDB) (dctTokenKey : Bytes) (nonce : Nat) (delta : Int)
    (hsave : e.enableEpochsHandler.IsSaveToSystemAccountFlagEnabled = true)
    (hsend : e.enableEpochsHandler.IsSendAlwaysFlagEnabled = true)
    (hnonce : 0 < nonce)
    (hbytes : (accounts.LoadAccount c.SystemAccountAddress).RetrieveValue
      (computeDCTNFTTokenKey dctTokenKey nonce) = []) :
    e.AddToLiquiditySystemAcc c accounts dctTokenKey nonce delta
      = (some .ErrNilDCTData, accounts) := by
  unfold dctDataStorage.AddToLiquiditySystemAcc
    dctDataStorage.getDCTDigitalTokenDataFromSystemAccount
    dctDataStorage.getSystemAccount dctDataStorage.loadSystemAccount
  have hnz : ¬ nonce = 0 := Nat.pos_iff_ne_zero.1 hnonce
  simp only [hsave, hsend, hnz, Bool.not_true, Bool.or_false, decide_False, Bool.false_eq_true,
    if_false, defaultQueryOptions, hbytes, List.length_nil, if_true]

/-- Saving a token record without updating all fields leaves the account store
as it is when the system account already holds a canonical record with a
non-empty reserved marker. -/
theorem SaveDCTNFTToken_reserved_store (e : dctDataStorage) (c : Core) (accounts : AccountsDB)
    (senderAddress : Bytes) (acnt : UserAccount) (dctTokenKey : Bytes) (nonce : Nat)
    (dctData rec : DCToken) (isReturnWithError : Bool)
    (hnonce : 0 < nonce)
    (hbytes : (accounts.LoadAccount c.SystemAccountAddress).RetrieveValue
      (computeDCTNFTTokenKey dctTokenKey nonce) ≠ [])
    (hrec : e.marshaller.Unmarshal {}
      ((accounts.LoadAccount c.SystemAccountAddress).RetrieveValue
        (computeDCTNFTTokenKey dctTokenKey nonce)) = .ok rec)
    (hres : rec.Reserved ≠ []) :
    (e.SaveDCTNFTToken c accounts senderAddress acnt dctTokenKey nonce dctData false
      isReturnWithError).2.2 = accounts := by
  rw [SaveDCTNFTToken_store]
  split
  · by_cases hoff : e.enableEpochsHandler.IsAlwaysSaveTokenMetaDataEnabled = false ∨
        e.enableEpochsHandler.IsSendAlwaysFlagEnabled = false ∨ dctData.TokenMetaData = none
    · rw [saveDCTMetaDataToSystemAccount_skipped e c accounts _ _ _ _ _ hbytes hoff]
    · have halways : e.enableEpochsHandler.IsAlwaysSaveTokenMetaDataEnabled = true := by
        cases h : e.enableEpochsHandler.IsAlwaysSaveTokenMetaDataEnabled
        · exact absurd (Or.inl h) hoff
        · rfl
      have hsend : e.enableEpochsHandler.IsSendAlwaysFlagEnabled = true := by
        cases h : e.enableEpochsHandler.IsSendAlwaysFlagEnabled
        · exact absurd (Or.inr (Or.inl h)) hoff
        · rfl
      have hmeta : dctData.TokenMetaData.isSome = true := by
        cases h : dctData.TokenMetaData
        · exact absurd (Or.inr (Or.inr h)) hoff
        · rfl
      rw [saveDCTMetaDataToSystemAccount_overwrite e c accounts _ _ _ _ _ rec halways hsend
        hnonce hmeta hbytes hrec, if_neg hres]
  · rfl

/-- With the always-propagate gate on, the dedup check leaves the account store
as it is. -/
theorem WasAlreadySent_send_always_store (e : dctDataStorage) (c : Core)
    (accounts : AccountsDB) (tickerID : Bytes) (nonce : Nat) (dstAddress : Bytes)
    (hsend : e.enableEpochsHandler.IsSendAlwaysFlagEnabled = true) :
    (e.WasAlreadySentToDestinationShardAndUpdateState c accounts tickerID nonce dstAddress).2
      = accounts := by
  unfold dctDataStorage.WasAlreadySentToDestinationShardAndUpdateState
  simp only [hsend, if_true]
  split
  · rfl
  · split
    · rfl
    · split <;> rfl


/-- The accumulator of the sender shard after a successful sender-shard call
towards another shard, when the liquidity of the token nonce is tracked there:
the stored value minus the transferred quantity. -/
theorem sender_liquidity_after (e : dctNFTTransfer) (c : Core)
    (accounts : AccountsDB) (snd : UserAccount) (vmInput : ContractCallInput)
    (out : VMOutput) (snd1 : Option UserAccount) (accounts1 : AccountsDB) (rec : DCToken)
    (hcross : e.shardCoordinator.SelfId ≠ e.shardCoordinator.ComputeId (argAt vmInput.Arguments 3))
    (hres : e.processNFTTransferOnSenderShard c accounts (some snd) vmInput
      = (.ok out, snd1, accounts1))
    (hgsave : e.dctStorageHandler.enableEpochsHandler.IsSaveToSystemAccountFlagEnabled = true)
    (hgsend : e.dctStorageHandler.enableEpochsHandler.IsSendAlwaysFlagEnabled = true)
    (hbytes : (accounts.LoadAccount c.SystemAccountAddress).RetrieveValue
      (computeDCTNFTTokenKey (e.keyPrefix ++ argAt vmInput.Arguments 0)
        (bigIntUint64 (bigIntSetBytes (argAt vmInput.Arguments 1)))) ≠ [])
    (hrec : e.dctStorageHandler.marshaller.Unmarshal {}
      ((accounts.LoadAccount c.SystemAccountAddress).RetrieveValue
        (computeDCTNFTTokenKey (e.keyPrefix ++ argAt vmInput.Arguments 0)
          (bigIntUint64 (bigIntSetBytes (argAt vmInput.Arguments 1))))) = .ok rec)
    (hreserved : rec.Reserved ≠ [])
    (hfix : e.dctStorageHandler.enableEpochsHandler.IsFixOldTokenLiquidityEnabled = true →
      rec.Value ≠ 0)
    (hrt : ∀ b, e.dctStorageHandler.marshaller.Marshal
        { rec with Value := rec.Value - (bigIntSetBytes (argAt vmInput.Arguments 2) : Int) }
          = .ok b →
      b ≠ [] ∧ e.dctStorageHandler.marshaller.Unmarshal {} b
        = .ok { rec with
                Value := rec.Value - (bigIntSetBytes (argAt vmInput.Arguments 2) : Int) }) :
    e.dctStorageHandler.liquidity c accounts1 (e.keyPrefix ++ argAt vmInput.Arguments 0)
        (bigIntUint64 (bigIntSetBytes (argAt vmInput.Arguments 1)))
      = rec.Value - (bigIntSetBytes (argAt vmInput.Arguments 2) : Int) := by
  obtain ⟨_, hnz, dS, b, sndMid, accMid, accLiq, p, _, hsave, hliq, hacc, _, _⟩ :=
    processNFTTransferOnSenderShard_cross e c accounts snd vmInput out snd1 accounts1 hcross hres
  have hnonce : 0 < bigIntUint64 (bigIntSetBytes (argAt vmInput.Arguments 1)) :=
    Nat.pos_of_ne_zero hnz
  have hmid : accMid = accounts := by
    have h := SaveDCTNFTToken_reserved_store e.dctStorageHandler c accounts snd.Address snd
      (e.keyPrefix ++ argAt vmInput.Arguments 0)
      (bigIntUint64 (bigIntSetBytes (argAt vmInput.Arguments 1)))
      { dS with Value := dS.Value - (bigIntSetBytes (argAt vmInput.Arguments 2) : Int) } rec
      vmInput.ReturnCallAfterError hnonce hbytes hrec hreserved
    rw [hsave] at h
    exact h
  rw [hmid] at hliq
  rw [WasAlreadySent_send_always_store e.dctStorageHandler c accLiq _ _ _ hgsend] at hacc
  rw [hacc]
  exact liquidity_after_update e.dctStorageHandler c accounts accLiq _ _
    (-(bigIntSetBytes (argAt vmInput.Arguments 2) : Int)) _ rec hgsave hgsend hnonce hbytes hrec
    hreserved (fun h => hfix h.1 h.2.1) (sub_eq_add_neg _ _).symm hrt hliq

/-- Saving the canonical record is skipped for a record without metadata. -/
theorem saveDCTMetaDataToSystemAccount_no_metadata (e : dctDataStorage) (c : Core)
    (accounts : AccountsDB) (userAcc : Option UserAccount) (senderShardID : Nat)
    (dctNFTTokenKey : Bytes) (nonce : Nat) (dctData : DCToken) (mustUpdateAllFields : Bool)
    (hmeta : dctData.TokenMetaData = none) :
    e.saveDCTMetaDataToSystemAccount c accounts userAcc senderShardID dctNFTTokenKey nonce
      dctData mustUpdateAllFields = (none, accounts) := by
  unfold dctDataStorage.saveDCTMetaDataToSystemAccount
  simp only [hmeta, Option.isNone_none, if_true]
  split <;> rfl

/-- The accumulator of the destination shard after a successful
destination-shard call, for a sender in another shard, when the system account
of the destination shard holds a canonical record with a non-empty reserved
marker: the stored value plus the value of the carried record. -/
theorem destination_liquidity_after (e : dctNFTTransfer) (c : Core)
    (accounts : AccountsDB) (dst : UserAccount) (vmInput : ContractCallInput) (out : VMOutput)
    (snd1 dst1 : Option UserAccount) (accounts1 : AccountsDB) (recD : DCToken) (q : Nat)
    (hne : vmInput.CallerAddr ≠ vmInput.RecipientAddr)
    (hnotsame : e.shardCoordinator.SameShard vmInput.CallerAddr vmInput.RecipientAddr = false)
    (hres : e.ProcessBuiltinFunction c accounts none (some dst) (some vmInput)
      = (.ok out, snd1, dst1, accounts1))
    (hval : ∀ rec, e.transferDataOnDestination vmInput (bigIntSetBytes (argAt vmInput.Arguments 2))
      = .ok rec → rec.Value = (q : Int))
    (hnonce : 0 < bigIntUint64 (bigIntSetBytes (argAt vmInput.Arguments 1)))
    (hgsave : e.dctStorageHandler.enableEpochsHandler.IsSaveToSystemAccountFlagEnabled = true)
    (hgsend : e.dctStorageHandler.enableEpochsHandler.IsSendAlwaysFlagEnabled = true)
    (hbytes : (accounts.LoadAccount c.SystemAccountAddress).RetrieveValue
      (computeDCTNFTTokenKey (e.keyPrefix ++ argAt vmInput.Arguments 0)
        (bigIntUint64 (bigIntSetBytes (argAt vmInput.Arguments 1)))) ≠ [])
    (hrec : e.dctStorageHandler.marshaller.Unmarshal {}
      ((accounts.LoadAccount c.SystemAccountAddress).RetrieveValue
        (computeDCTNFTTokenKey (e.keyPrefix ++ argAt vmInput.Arguments 0)
          (bigIntUint64 (bigIntSetBytes (argAt vmInput.Arguments 1))))) = .ok recD)
    (hreserved : recD.Reserved ≠ [])
    (hrt : ∀ b, e.dctStorageHandler.marshaller.Marshal
        { recD with Value := recD.Value + (q : Int) } = .ok b →
      b ≠ [] ∧ e.dctStorageHandler.marshaller.Unmarshal {} b
        = .ok { recD with Value := recD.Value + (q : Int) }) :
    e.dctStorageHandler.liquidity c accounts1 (e.keyPrefix ++ argAt vmInput.Arguments 0)
        (bigIntUint64 (bigIntSetBytes (argAt vmInput.Arguments 1)))
      = recD.Value + (q : Int) := by
  obtain ⟨rec, cur, isNew, hdata, _, hliq⟩ := ProcessBuiltinFunction_destination e c accounts dst
    vmInput out snd1 dst1 accounts1 hne hnotsame hres
  rw [hval rec hdata,
    SaveDCTNFTToken_reserved_store e.dctStorageHandler c accounts vmInput.CallerAddr dst
      (e.keyPrefix ++ argAt vmInput.Arguments 0)
      (bigIntUint64 (bigIntSetBytes (argAt vmInput.Arguments 1))) _ recD
      vmInput.ReturnCallAfterError hnonce hbytes hrec hreserved] at hliq
  exact liquidity_after_update e.dctStorageHandler c accounts accounts1 _ _ (q : Int) _ recD
    hgsave hgsend hnonce hbytes hrec hreserved
    (fun h => absurd h.2.2 (not_lt.2 (Int.natCast_nonneg q))) rfl hrt hliq

/-- The accumulator of the destination shard after a successful
destination-shard call, for a sender in another shard, when the system account
of the destination shard holds no canonical record and the fix gate is off:
the call creates the record from the carried one and the accumulator is the
value of the carried record. -/
theorem destination_liquidity_created (e : dctNFTTransfer) (c : Core)
    (accounts : AccountsDB) (dst : UserAccount) (vmInput : ContractCallInput) (out : VMOutput)
    (snd1 dst1 : Option UserAccount) (accounts1 : AccountsDB) (q : Nat)
    (hne : vmInput.CallerAddr ≠ vmInput.RecipientAddr)
    (hnotsame : e.shardCoordinator.SameShard vmInput.CallerAddr vmInput.RecipientAddr = false)
    (hres : e.ProcessBuiltinFunction c accounts none (some dst) (some vmInput)
      = (.ok out, snd1, dst1, accounts1))
    (hval : ∀ rec, e.transferDataOnDestination vmInput (bigIntSetBytes (argAt vmInput.Arguments 2))
      = .ok rec → rec.Value = (q : Int))
    (hnonce : 0 < bigIntUint64 (bigIntSetBytes (argAt vmInput.Arguments 1)))
    (hgsave : e.dctStorageHandler.enableEpochsHandler.IsSaveToSystemAccountFlagEnabled = true)
    (hgsend : e.dctStorageHandler.enableEpochsHandler.IsSendAlwaysFlagEnabled = true)
    (hgfix : e.dctStorageHandler.enableEpochsHandler.IsFixOldTokenLiquidityEnabled = false)
    (hbytes : (accounts.LoadAccount c.SystemAccountAddress).RetrieveValue
      (computeDCTNFTTokenKey (e.keyPrefix ++ argAt vmInput.Arguments 0)
        (bigIntUint64 (bigIntSetBytes (argAt vmInput.Arguments 1)))) = [])
    (hrt : ∀ rec, e.transferDataOnDestination vmInput (bigIntSetBytes (argAt vmInput.Arguments 2))
        = .ok rec → rec.TokenMetaData.isSome = true →
      ∀ v : Int, v = 0 ∨ v = (q : Int) →
        ∀ b, e.dctStorageHandler.marshaller.Marshal
            { Type_ := rec.Type_, Value := v, TokenMetaData := rec.TokenMetaData,
              Properties := [], Reserved := [1] } = .ok b →
          b ≠ [] ∧ e.dctStorageHandler.marshaller.Unmarshal {} b
            = .ok { Type_ := rec.Type_, Value := v, TokenMetaData := rec.TokenMetaData,
                    Properties := [], Reserved := [1] }) :
    e.dctStorageHandler.liquidity c accounts1 (e.keyPrefix ++ argAt vmInput.Arguments 0)
        (bigIntUint64 (bigIntSetBytes (argAt vmInput.Arguments 1))) = (q : Int) := by
  obtain ⟨rec, cur, isNew, hdata, _, hliq⟩ := ProcessBuiltinFunction_destination e c accounts dst
    vmInput out snd1 dst1 accounts1 hne hnotsame hres
  rw [hval rec hdata] at hliq
  have hfail := AddToLiquiditySystemAcc_no_record e.dctStorageHandler c accounts
    (e.keyPrefix ++ argAt vmInput.Arguments 0)
    (bigIntUint64 (bigIntSetBytes (argAt vmInput.Arguments 1))) (q : Int) hgsave hgsend hnonce
    hbytes
  rw [SaveDCTNFTToken_store] at hliq
  split at hliq
  · by_cases hmeta : rec.TokenMetaData.isSome = true
    · have habs := saveDCTMetaDataToSystemAccount_absent e.dctStorageHandler c accounts
        (some dst) (e.dctStorageHandler.shardCoordinator.ComputeId vmInput.CallerAddr)
        (computeDCTNFTTokenKey (e.keyPrefix ++ argAt vmInput.Arguments 0)
          (bigIntUint64 (bigIntSetBytes (argAt vmInput.Arguments 1))))
        (bigIntUint64 (bigIntSetBytes (argAt vmInput.Arguments 1)))
        { rec with Value := (q : Int) + cur.Value } false hgsend hnonce hmeta hbytes
      have hkeep : e.dctStorageHandler.setReservedToNilForOldToken
          { Type_ := rec.Type_, Value := 0, TokenMetaData := rec.TokenMetaData,
            Properties := [], Reserved := [1] } (some dst)
          (computeDCTNFTTokenKey (e.keyPrefix ++ argAt vmInput.Arguments 0)
            (bigIntUint64 (bigIntSetBytes (argAt vmInput.Arguments 1))))
          = .ok { Type_ := rec.Type_, Value := 0, TokenMetaData := rec.TokenMetaData,
                  Properties := [], Reserved := [1] } := by
        unfold dctDataStorage.setReservedToNilForOldToken
        simp only [hgfix, Bool.not_false, if_true]
      simp only [hkeep] at habs
      rw [habs] at hliq
      cases hm : e.dctStorageHandler.marshaller.Marshal
          { Type_ := rec.Type_, Value := 0, TokenMetaData := rec.TokenMetaData,
            Properties := [], Reserved := [1] } with
      | error code =>
        rw [hm] at hliq
        simp only at hliq
        rw [hfail] at hliq
        cases hliq
      | ok bc =>
        rw [hm] at hliq
        simp only at hliq
        obtain ⟨hbc, hback⟩ := hrt rec hdata hmeta 0 (Or.inl rfl) bc hm
        have hstored := load_save_retrieve accounts c.SystemAccountAddress
          (computeDCTNFTTokenKey (e.keyPrefix ++ argAt vmInput.Arguments 0)
            (bigIntUint64 (bigIntSetBytes (argAt vmInput.Arguments 1)))) bc
        exact liquidity_after_update e.dctStorageHandler c _ accounts1 _ _ (q : Int) (q : Int)
          { Type_ := rec.Type_, Value := 0, TokenMetaData := rec.TokenMetaData,
            Properties := [], Reserved := [1] }
          hgsave hgsend hnonce (by rw [hstored]; exact hbc) (by rw [hstored]; exact hback)
          (List.cons_ne_nil 1 []) (fun h => absurd h.2.2 (not_lt.2 (Int.natCast_nonneg q)))
          (zero_add _) (hrt rec hdata hmeta (q : Int) (Or.inr rfl)) hliq
    · have hnone : ({ rec with Value := (q : Int) + cur.Value } : DCToken).TokenMetaData = none := by
        cases h : rec.TokenMetaData with
        | none => rfl
        | some m => rw [h] at hmeta; exact absurd rfl hmeta
      rw [saveDCTMetaDataToSystemAccount_no_metadata e.dctStorageHandler c accounts _ _ _ _ _ _
        hnone] at hliq
      simp only at hliq
      rw [hfail] at hliq
      cases hliq
  · rw [hfail] at hliq
    cases hliq


/-- What the two successful calls of one cross-shard single NFT transfer did:
the liquidity updates they made and, where the liquidity of the token nonce is
tracked, the change of the accumulator of each shard. -/
theorem crossShardNFTTransfer_facts (c : Core) (t : crossShardNFTTransfer)
    (h : t.vmInput.CallerAddr = t.vmInput.RecipientAddr ∧
      t.eS.shardCoordinator.SelfId
        ≠ t.eS.shardCoordinator.ComputeId (argAt t.vmInput.Arguments 3) ∧
      (t.senderCall c).1.toOption.map (fun out => out.OutputAccounts.map
          (fun oa => oa.2.OutputTransfers.map (fun x => x.DataArguments)))
        = some [[t.vmInputD.Arguments]] ∧
      t.vmInputD.CallerAddr = t.vmInput.CallerAddr ∧
      t.vmInputD.RecipientAddr = argAt t.vmInput.Arguments 3 ∧
      t.eD.shardCoordinator.SameShard t.vmInputD.CallerAddr t.vmInputD.RecipientAddr = false ∧
      (t.destinationCall c).1.toBool = true ∧
      ∀ (dS : DCToken) (b : Bytes),
        t.eS.dctStorageHandler.GetDCTNFTTokenOnSender c t.accS t.snd
          (t.eS.keyPrefix ++ argAt t.vmInput.Arguments 0) t.nonce = .ok dS →
        t.eS.marshaller.Marshal { dS with Value := t.quantity } = .ok b →
        t.eD.marshaller.Unmarshal {} b = .ok { dS with Value := t.quantity }) :
    0 < t.nonce ∧
    (∃ dS : DCToken,
      t.eS.dctStorageHandler.GetDCTNFTTokenOnSender c t.accS t.snd
        (t.eS.keyPrefix ++ argAt t.vmInput.Arguments 0) t.nonce = .ok dS ∧
      (t.eS.dctStorageHandler.AddToLiquiditySystemAcc c
        (t.eS.dctStorageHandler.SaveDCTNFTToken c t.accS t.snd.Address t.snd
          (t.eS.keyPrefix ++ argAt t.vmInput.Arguments 0) t.nonce
          { dS with Value := dS.Value - t.quantity } false
          t.vmInput.ReturnCallAfterError).2.2
        (t.eS.keyPrefix ++ argAt t.vmInput.Arguments 0) t.nonce (-t.quantity)).1 = none ∧
      (t.senderCall c).2.2.2 =
        (t.eS.dctStorageHandler.WasAlreadySentToDestinationShardAndUpdateState c
          (t.eS.dctStorageHandler.AddToLiquiditySystemAcc c
            (t.eS.dctStorageHandler.SaveDCTNFTToken c t.accS t.snd.Address t.snd
              (t.eS.keyPrefix ++ argAt t.vmInput.Arguments 0) t.nonce
              { dS with Value := dS.Value - t.quantity } false
              t.vmInput.ReturnCallAfterError).2.2
            (t.eS.keyPrefix ++ argAt t.vmInput.Arguments 0) t.nonce (-t.quantity)).2
          (argAt t.vmInput.Arguments 0) t.nonce (argAt t.vmInput.Arguments 3)).2 ∧
      (argAt t.vmInputD.Arguments 3 = zeroByteArray ∨
        t.eS.marshaller.Marshal { dS with Value := t.quantity }
          = .ok (argAt t.vmInputD.Arguments 3))) ∧
    (∃ (rec cur : DCToken) (isNew : Bool),
      t.eD.transferDataOnDestination t.vmInputD
        (bigIntSetBytes (argAt t.vmInputD.Arguments 2)) = .ok rec ∧
      rec.Value = t.quantity ∧
      t.eD.dctStorageHandler.GetDCTNFTTokenOnDestination c t.accD t.dst
        (t.eD.keyPrefix ++ argAt t.vmInput.Arguments 0) t.nonce = .ok (cur, isNew) ∧
      t.eD.dctStorageHandler.AddToLiquiditySystemAcc c
        (t.eD.dctStorageHandler.SaveDCTNFTToken c t.accD t.vmInput.CallerAddr t.dst
          (t.eD.keyPrefix ++ argAt t.vmInput.Arguments 0) t.nonce
          { rec with Value := t.quantity + cur.Value } false
          t.vmInputD.ReturnCallAfterError).2.2
        (t.eD.keyPrefix ++ argAt t.vmInput.Arguments 0) t.nonce t.quantity
        = (none, (t.destinationCall c).2.2.2)) ∧
    (t.liquidityTrackedOnSender c → t.senderDelta c = -t.quantity) ∧
    (t.liquidityTrackedOnDestination c → t.destinationDelta c = t.quantity) ∧
    (t.liquidityTrackedOnSender c → t.liquidityTrackedOnDestination c →
      t.senderDelta c + t.destinationDelta c = 0) := by
  obtain ⟨hself, hcross, hpayload, hcaller, hrecipient, hnotsame, hD, hrt⟩ := h
  unfold crossShardNFTTransfer.liquidityTrackedOnSender
    crossShardNFTTransfer.liquidityTrackedOnDestination crossShardNFTTransfer.senderDelta
    crossShardNFTTransfer.destinationDelta
  unfold crossShardNFTTransfer.senderCall at hpayload ⊢
  unfold crossShardNFTTransfer.destinationCall at hD ⊢
  unfold crossShardNFTTransfer.nonce crossShardNFTTransfer.quantity at hrt ⊢
  -- the two successful calls
  cases h1 : (t.eS.ProcessBuiltinFunction c t.accS (some t.snd) none (some t.vmInput)).1 with
  | error err =>
    rw [h1] at hpayload
    cases hpayload
  | ok outS =>
  cases h2 : (t.eD.ProcessBuiltinFunction c t.accD none (some t.dst) (some t.vmInputD)).1 with
  | error err =>
    rw [h2] at hD
    cases hD
  | ok outD =>
  rw [h1] at hpayload
  have hpayload1 : outS.OutputAccounts.map
      (fun oa => oa.2.OutputTransfers.map (fun x => x.DataArguments))
        = [[t.vmInputD.Arguments]] := by
    injection hpayload
  have hS : t.eS.ProcessBuiltinFunction c t.accS (some t.snd) none (some t.vmInput)
      = (.ok outS,
        (t.eS.ProcessBuiltinFunction c t.accS (some t.snd) none (some t.vmInput)).2.1,
        (t.eS.ProcessBuiltinFunction c t.accS (some t.snd) none (some t.vmInput)).2.2.1,
        (t.eS.ProcessBuiltinFunction c t.accS (some t.snd) none (some t.vmInput)).2.2.2) :=
    Prod.ext h1 rfl
  have hDres : t.eD.ProcessBuiltinFunction c t.accD none (some t.dst) (some t.vmInputD)
      = (.ok outD,
        (t.eD.ProcessBuiltinFunction c t.accD none (some t.dst) (some t.vmInputD)).2.1,
        (t.eD.ProcessBuiltinFunction c t.accD none (some t.dst) (some t.vmInputD)).2.2.1,
        (t.eD.ProcessBuiltinFunction c t.accD none (some t.dst) (some t.vmInputD)).2.2.2) :=
    Prod.ext h2 rfl
  generalize (t.eS.ProcessBuiltinFunction c t.accS (some t.snd) none (some t.vmInput)).2.2.2
    = accS1 at hS ⊢
  generalize (t.eD.ProcessBuiltinFunction c t.accD none (some t.dst) (some t.vmInputD)).2.2.2
    = accD1 at hDres ⊢
  obtain ⟨hlen, hproc⟩ := ProcessBuiltinFunction_sender t.eS c t.accS (some t.snd) none
    t.vmInput outS _ _ accS1 hself hS
  obtain ⟨hnotself, hnz, dS, b, sndMid, accMid, accLiq, p, hget, hsave, hliq, hacc, hp, hargs⟩ :=
    processNFTTransferOnSenderShard_cross t.eS c t.accS t.snd t.vmInput outS _ accS1 hcross hproc
  have hnonce : 0 < bigIntUint64 (bigIntSetBytes (argAt t.vmInput.Arguments 1)) :=
    Nat.pos_of_ne_zero hnz
  -- the arguments received on the destination shard
  have hargsD : t.vmInputD.Arguments = t.vmInput.Arguments.take 3 ++ [p] ++
      (if t.vmInput.Arguments.length > MinLenArgumentsDCTNFTTransfer then
        t.vmInput.Arguments.drop 4 else []) := by
    rw [hargs] at hpayload1
    injection hpayload1 with h _
    injection h with h _
    exact h.symm
  obtain ⟨ha0, ha1, ha2, ha3, _⟩ := payload_args t.vmInput.Arguments p
    (if t.vmInput.Arguments.length > MinLenArgumentsDCTNFTTransfer then
      t.vmInput.Arguments.drop 4 else []) hlen
  rw [← hargsD] at ha0 ha1 ha2 ha3
  have hneD : t.vmInputD.CallerAddr ≠ t.vmInputD.RecipientAddr := by
    rw [hcaller, hrecipient]
    exact fun h => hnotself h.symm
  obtain ⟨rec, cur, isNew, hrec, hcur, hliqD⟩ := ProcessBuiltinFunction_destination t.eD c
    t.accD t.dst t.vmInputD outD _ _ accD1 hneD hnotsame hDres
  -- the carried record is the sentinel's record or the sender's record, of value q
  have hform : ∀ r : DCToken,
      t.eD.transferDataOnDestination t.vmInputD (bigIntSetBytes (argAt t.vmInputD.Arguments 2))
        = .ok r →
      r = { Value := (bigIntSetBytes (argAt t.vmInput.Arguments 2) : Int),
            Type_ := NonFungible } ∨
      r = { dS with Value := (bigIntSetBytes (argAt t.vmInput.Arguments 2) : Int) } := by
    intro r hr
    unfold dctNFTTransfer.transferDataOnDestination at hr
    rw [ha3, ha2] at hr
    by_cases hsent : p = zeroByteArray
    · simp only [hsent, ne_eq, not_true_eq_false, if_false] at hr
      injection hr with hr
      exact Or.inl hr.symm
    · simp only [ne_eq, hsent, not_false_eq_true, if_true] at hr
      rcases hp with hp | hp
      · exact absurd hp hsent
      · rw [hrt dS p hget hp] at hr
        simp only [liftMarshal] at hr
        injection hr with hr
        exact Or.inr hr.symm
  have hvalD : ∀ r : DCToken,
      t.eD.transferDataOnDestination t.vmInputD (bigIntSetBytes (argAt t.vmInputD.Arguments 2))
        = .ok r →
      r.Value = ((bigIntSetBytes (argAt t.vmInput.Arguments 2) : Nat) : Int) := by
    intro r hr
    rcases hform r hr with h | h <;> rw [h]
  have hval := hvalD rec hrec
  have hdeltaS : (t.eS.dctStorageHandler.enableEpochsHandler.IsSaveToSystemAccountFlagEnabled
        = true ∧
      t.eS.dctStorageHandler.enableEpochsHandler.IsSendAlwaysFlagEnabled = true ∧
      ∃ recS : DCToken,
        (t.accS.LoadAccount c.SystemAccountAddress).RetrieveValue
            (computeDCTNFTTokenKey (t.eS.keyPrefix ++ argAt t.vmInput.Arguments 0)
              (bigIntUint64 (bigIntSetBytes (argAt t.vmInput.Arguments 1)))) ≠ [] ∧
        t.eS.dctStorageHandler.marshaller.Unmarshal {}
            ((t.accS.LoadAccount c.SystemAccountAddress).RetrieveValue
              (computeDCTNFTTokenKey (t.eS.keyPrefix ++ argAt t.vmInput.Arguments 0)
                (bigIntUint64 (bigIntSetBytes (argAt t.vmInput.Arguments 1)))))
          = .ok recS ∧
        recS.Reserved ≠ [] ∧
        (t.eS.dctStorageHandler.enableEpochsHandler.IsFixOldTokenLiquidityEnabled = true →
          recS.Value ≠ 0) ∧
        ∀ b, t.eS.dctStorageHandler.marshaller.Marshal
              { recS with
                Value := recS.Value - (bigIntSetBytes (argAt t.vmInput.Arguments 2) : Int) }
                = .ok b →
          b ≠ [] ∧
          t.eS.dctStorageHandler.marshaller.Unmarshal {} b
            = .ok { recS with
                    Value := recS.Value - (bigIntSetBytes (argAt t.vmInput.Arguments 2) : Int) }) →
      t.eS.dctStorageHandler.liquidity c accS1 (t.eS.keyPrefix ++ argAt t.vmInput.Arguments 0)
          (bigIntUint64 (bigIntSetBytes (argAt t.vmInput.Arguments 1)))
        - t.eS.dctStorageHandler.liquidity c t.accS
          (t.eS.keyPrefix ++ argAt t.vmInput.Arguments 0)
          (bigIntUint64 (bigIntSetBytes (argAt t.vmInput.Arguments 1)))
        = -(bigIntSetBytes (argAt t.vmInput.Arguments 2) : Int) := by
    rintro ⟨hgsave, hgsend, recS, hbytes, hrecS, hreserved, hfix, hrtS⟩
    rw [sender_liquidity_after t.eS c t.accS t.snd t.vmInput outS _ accS1 recS hcross hproc
        hgsave hgsend hbytes hrecS hreserved hfix hrtS,
      liquidity_of_record t.eS.dctStorageHandler c t.accS _ _ recS hbytes hrecS]
    ring
  have hdeltaD : (t.eD.dctStorageHandler.enableEpochsHandler.IsSaveToSystemAccountFlagEnabled
        = true ∧
      t.eD.dctStorageHandler.enableEpochsHandler.IsSendAlwaysFlagEnabled = true ∧
      ((∃ recD : DCToken,
          (t.accD.LoadAccount c.SystemAccountAddress).RetrieveValue
              (computeDCTNFTTokenKey (t.eD.keyPrefix ++ argAt t.vmInput.Arguments 0)
                (bigIntUint64 (bigIntSetBytes (argAt t.vmInput.Arguments 1)))) ≠ [] ∧
          t.eD.dctStorageHandler.marshaller.Unmarshal {}
              ((t.accD.LoadAccount c.SystemAccountAddress).RetrieveValue
                (computeDCTNFTTokenKey (t.eD.keyPrefix ++ argAt t.vmInput.Arguments 0)
                  (bigIntUint64 (bigIntSetBytes (argAt t.vmInput.Arguments 1)))))
            = .ok recD ∧
          recD.Reserved ≠ [] ∧
          ∀ b, t.eD.dctStorageHandler.marshaller.Marshal
                { recD with
                  Value := recD.Value + (bigIntSetBytes (argAt t.vmInput.Arguments 2) : Int) }
                  = .ok b →
            b ≠ [] ∧
            t.eD.dctStorageHandler.marshaller.Unmarshal {} b
              = .ok { recD with
                      Value := recD.Value
                        + (bigIntSetBytes (argAt t.vmInput.Arguments 2) : Int) }) ∨
        ((t.accD.LoadAccount c.SystemAccountAddress).RetrieveValue
            (computeDCTNFTTokenKey (t.eD.keyPrefix ++ argAt t.vmInput.Arguments 0)
              (bigIntUint64 (bigIntSetBytes (argAt t.vmInput.Arguments 1)))) = [] ∧
          t.eD.dctStorageHandler.enableEpochsHandler.IsFixOldTokenLiquidityEnabled = false ∧
          ∀ dS : DCToken,
            t.eS.dctStorageHandler.GetDCTNFTTokenOnSender c t.accS t.snd
              (t.eS.keyPrefix ++ argAt t.vmInput.Arguments 0)
              (bigIntUint64 (bigIntSetBytes (argAt t.vmInput.Arguments 1))) = .ok dS →
            ∀ v : Int, v = 0 ∨ v = (bigIntSetBytes (argAt t.vmInput.Arguments 2) : Int) →
              ∀ b, t.eD.dctStorageHandler.marshaller.Marshal
                  { Type_ := dS.Type_, Value := v, TokenMetaData := dS.TokenMetaData,
                    Properties := [], Reserved := [1] } = .ok b →
                b ≠ [] ∧
                t.eD.dctStorageHandler.marshaller.Unmarshal {} b
                  = .ok { Type_ := dS.Type_, Value := v, TokenMetaData := dS.TokenMetaData,
                          Properties := [], Reserved := [1] }))) →
      t.eD.dctStorageHandler.liquidity c accD1 (t.eD.keyPrefix ++ argAt t.vmInput.Arguments 0)
          (bigIntUint64 (bigIntSetBytes (argAt t.vmInput.Arguments 1)))
        - t.eD.dctStorageHandler.liquidity c t.accD
          (t.eD.keyPrefix ++ argAt t.vmInput.Arguments 0)
          (bigIntUint64 (bigIntSetBytes (argAt t.vmInput.Arguments 1)))
        = (bigIntSetBytes (argAt t.vmInput.Arguments 2) : Int) := by
    rintro ⟨hgsave, hgsend, hcase⟩
    have hnonceD : 0 < bigIntUint64 (bigIntSetBytes (argAt t.vmInputD.Arguments 1)) := by
      rw [ha1]
      exact hnonce
    rcases hcase with ⟨recD, hbytes, hrecD, hreserved, hrtD⟩ | ⟨hbytes, hgfix, hrtD⟩
    · have hA := destination_liquidity_after t.eD c t.accD t.dst t.vmInputD outD _ _ accD1 recD
        (bigIntSetBytes (argAt t.vmInput.Arguments 2)) hneD hnotsame hDres hvalD hnonceD
        hgsave hgsend (by rw [ha0, ha1]; exact hbytes) (by rw [ha0, ha1]; exact hrecD)
        hreserved hrtD
      rw [ha0, ha1] at hA
      rw [hA, liquidity_of_record t.eD.dctStorageHandler c t.accD _ _ recD hbytes hrecD]
      ring
    · have hA := destination_liquidity_created t.eD c t.accD t.dst t.vmInputD outD _ _ accD1
        (bigIntSetBytes (argAt t.vmInput.Arguments 2)) hneD hnotsame hDres hvalD hnonceD
        hgsave hgsend hgfix (by rw [ha0, ha1]; exact hbytes)
        (by
          intro r hr hmeta v hv b hb
          rcases hform r hr with h | h
          · rw [h] at hmeta
            cases hmeta
          · rw [h] at hb ⊢
            exact hrtD dS hget v hv b hb)
      rw [ha0, ha1] at hA
      rw [hA, liquidity_absent t.eD.dctStorageHandler c t.accD _ _ hbytes]
      ring
  refine ⟨hnonce, ⟨dS, hget, ?_, ?_, ?_⟩, ⟨rec, cur, isNew, hrec, hval, ?_, ?_⟩, hdeltaS, hdeltaD,
    ?_⟩
  · rw [hsave]
    simp only
    rw [hliq]
  · rw [hsave]
    simp only
    rw [hliq]
    exact hacc
  · rw [ha3]
    exact hp
  · rw [ha0, ha1] at hcur
    exact hcur
  · rw [ha0, ha1, hcaller, hval] at hliqD
    exact hliqD
  · intro hs hd
    rw [hdeltaS hs, hdeltaD hd]
    ring

/-- C2: cross-shard single NFT transfers of a token nonce, each given by the two
calls that process it: the call on the sender shard, towards a destination in
another shard, and the call on the destination shard that processes the
payload emitted by the sender; both calls succeed and the destination's
marshaler decodes what the sender's marshaler encoded.  For every such
transfer of quantity `q`: `nonce > 0`; the sender-shard call, right after
saving the sender's record, ran the liquidity update of the token nonce with
the delta `-q` on its system account, and the account store it returns is the
one this update (and the dedup check after it) left; the payload carries as
fourth argument the one-byte sentinel or the marshaled record of value `q`,
the destination-shard call reads a record of value `q` in both cases and,
right after saving the destination's record, ran the liquidity update with the
delta `+q`, which left the account store it returns.  Where the liquidity of
the token nonce is tracked on the sender shard, the accumulator stored in the
system account of the sender shard has decreased by exactly `q`; where it is
tracked on the destination shard, the accumulator stored there has increased
by exactly `q`, whichever payload was carried; where both hold the two deltas
of the transfer sum to zero.  Hence the deltas applied by any sequence of such
transfers, in particular by a closed cycle returning to the origin shard, sum
to zero. -/
theorem nft_cross_shard_liquidity_deltas (c : Core) (ts : List crossShardNFTTransfer)
    (hts : ∀ t ∈ ts,
      t.vmInput.CallerAddr = t.vmInput.RecipientAddr ∧
      t.eS.shardCoordinator.SelfId
        ≠ t.eS.shardCoordinator.ComputeId (argAt t.vmInput.Arguments 3) ∧
      (t.senderCall c).1.toOption.map (fun out => out.OutputAccounts.map
          (fun oa => oa.2.OutputTransfers.map (fun x => x.DataArguments)))
        = some [[t.vmInputD.Arguments]] ∧
      t.vmInputD.CallerAddr = t.vmInput.CallerAddr ∧
      t.vmInputD.RecipientAddr = argAt t.vmInput.Arguments 3 ∧
      t.eD.shardCoordinator.SameShard t.vmInputD.CallerAddr t.vmInputD.RecipientAddr = false ∧
      (t.destinationCall c).1.toBool = true ∧
      ∀ (dS : DCToken) (b : Bytes),
        t.eS.dctStorageHandler.GetDCTNFTTokenOnSender c t.accS t.snd
          (t.eS.keyPrefix ++ argAt t.vmInput.Arguments 0) t.nonce = .ok dS →
        t.eS.marshaller.Marshal { dS with Value := t.quantity } = .ok b →
        t.eD.marshaller.Unmarshal {} b = .ok { dS with Value := t.quantity }) :
    (∀ t ∈ ts,
      0 < t.nonce ∧
      (∃ dS : DCToken,
        t.eS.dctStorageHandler.GetDCTNFTTokenOnSender c t.accS t.snd
          (t.eS.keyPrefix ++ argAt t.vmInput.Arguments 0) t.nonce = .ok dS ∧
        (t.eS.dctStorageHandler.AddToLiquiditySystemAcc c
          (t.eS.dctStorageHandler.SaveDCTNFTToken c t.accS t.snd.Address t.snd
            (t.eS.keyPrefix ++ argAt t.vmInput.Arguments 0) t.nonce
            { dS with Value := dS.Value - t.quantity } false
            t.vmInput.ReturnCallAfterError).2.2
          (t.eS.keyPrefix ++ argAt t.vmInput.Arguments 0) t.nonce (-t.quantity)).1 = none ∧
        (t.senderCall c).2.2.2 =
          (t.eS.dctStorageHandler.WasAlreadySentToDestinationShardAndUpdateState c
            (t.eS.dctStorageHandler.AddToLiquiditySystemAcc c
              (t.eS.dctStorageHandler.SaveDCTNFTToken c t.accS t.snd.Address t.snd
                (t.eS.keyPrefix ++ argAt t.vmInput.Arguments 0) t.nonce
                { dS with Value := dS.Value - t.quantity } false
                t.vmInput.ReturnCallAfterError).2.2
              (t.eS.keyPrefix ++ argAt t.vmInput.Arguments 0) t.nonce (-t.quantity)).2
            (argAt t.vmInput.Arguments 0) t.nonce (argAt t.vmInput.Arguments 3)).2 ∧
        (argAt t.vmInputD.Arguments 3 = zeroByteArray ∨
          t.eS.marshaller.Marshal { dS with Value := t.quantity }
            = .ok (argAt t.vmInputD.Arguments 3))) ∧
      (∃ (rec cur : DCToken) (isNew : Bool),
        t.eD.transferDataOnDestination t.vmInputD
          (bigIntSetBytes (argAt t.vmInputD.Arguments 2)) = .ok rec ∧
        rec.Value = t.quantity ∧
        t.eD.dctStorageHandler.GetDCTNFTTokenOnDestination c t.accD t.dst
          (t.eD.keyPrefix ++ argAt t.vmInput.Arguments 0) t.nonce = .ok (cur, isNew) ∧
        t.eD.dctStorageHandler.AddToLiquiditySystemAcc c
          (t.eD.dctStorageHandler.SaveDCTNFTToken c t.accD t.vmInput.CallerAddr t.dst
            (t.eD.keyPrefix ++ argAt t.vmInput.Arguments 0) t.nonce
            { rec with Value := t.quantity + cur.Value } false
            t.vmInputD.ReturnCallAfterError).2.2
          (t.eD.keyPrefix ++ argAt t.vmInput.Arguments 0) t.nonce t.quantity
          = (none, (t.destinationCall c).2.2.2)) ∧
      (t.liquidityTrackedOnSender c → t.senderDelta c = -t.quantity) ∧
      (t.liquidityTrackedOnDestination c → t.destinationDelta c = t.quantity) ∧
      (t.liquidityTrackedOnSender c → t.liquidityTrackedOnDestination c →
        t.senderDelta c + t.destinationDelta c = 0)) ∧
    ((∀ t ∈ ts, t.liquidityTrackedOnSender c ∧ t.liquidityTrackedOnDestination c) →
      (ts.map (fun t => t.senderDelta c + t.destinationDelta c)).sum = 0) := by
  refine ⟨fun t ht => crossShardNFTTransfer_facts c t (hts t ht), fun htracked => ?_⟩
  apply List.sum_eq_zero
  intro x hx
  obtain ⟨t, ht, rfl⟩ := List.mem_map.1 hx
  exact (crossShardNFTTransfer_facts c t (hts t ht)).2.2.2.2.2 (htracked t ht).1
    (htracked t ht).2

/-- Witness for C2: a closed cycle of two transfers, and a transfer carrying the
sentinel.  3 units move from shard 0, whose system account holds a liquidity
of 10, to shard 1, which holds no record of the token nonce, and then back:
the accumulator of shard 0 goes from 10 to 7 and back to 10, the one of shard 1
from 0 to 3 and back to 0 (the key is removed again), each call applies the
delta `-3` or `+3`, and the four deltas sum to zero.  A payload with the
one-byte sentinel, emitted by a sender shard in legacy mode, increases the
accumulator of the destination shard from 4 to 7. -/
theorem nft_cross_shard_liquidity_deltas_witness :
    (sampleOutwardLeg.destinationCall sampleCore).2.2.1 = some sampleReturnLeg.snd ∧
    (sampleOutwardLeg.senderCall sampleCore).2.1 = some sampleReturnLeg.dst ∧
    [(sampleNFTTransfer 0).dctStorageHandler.liquidity sampleCore sampleOutwardLeg.accS
        [100, 5] 7,
      (sampleNFTTransfer 0).dctStorageHandler.liquidity sampleCore
        (sampleOutwardLeg.senderCall sampleCore).2.2.2 [100, 5] 7,
      (sampleNFTTransfer 0).dctStorageHandler.liquidity sampleCore
        (sampleReturnLeg.destinationCall sampleCore).2.2.2 [100, 5] 7] = [10, 7, 10] ∧
    [(sampleNFTTransfer 1).dctStorageHandler.liquidity sampleCore sampleOutwardLeg.accD
        [100, 5] 7,
      (sampleNFTTransfer 1).dctStorageHandler.liquidity sampleCore
        (sampleOutwardLeg.destinationCall sampleCore).2.2.2 [100, 5] 7,
      (sampleNFTTransfer 1).dctStorageHandler.liquidity sampleCore
        (sampleReturnLeg.senderCall sampleCore).2.2.2 [100, 5] 7] = [0, 3, 0] ∧
    sampleOutwardLeg.senderDelta sampleCore = -3 ∧
    sampleOutwardLeg.destinationDelta sampleCore = 3 ∧
    sampleReturnLeg.senderDelta sampleCore = -3 ∧
    sampleReturnLeg.destinationDelta sampleCore = 3 ∧
    ([sampleOutwardLeg, sampleReturnLeg].map
      (fun t => t.senderDelta sampleCore + t.destinationDelta sampleCore)).sum = 0 ∧
    argAt sampleSentinelLeg.vmInputD.Arguments 3 = zeroByteArray ∧
    [(sampleNFTTransfer 1).dctStorageHandler.liquidity sampleCore sampleSentinelLeg.accD
        [100, 5] 7,
      (sampleNFTTransfer 1).dctStorageHandler.liquidity sampleCore
        (sampleSentinelLeg.destinationCall sampleCore).2.2.2 [100, 5] 7] = [4, 7] ∧
    sampleSentinelLeg.destinationDelta sampleCore = 3 := by
  have hOutS : sampleOutwardLeg.liquidityTrackedOnSender sampleCore :=
    ⟨rfl, rfl, { sampleNFT 10 with Reserved := [1] }, by decide, rfl, by decide, by decide,
      fun b hb => by
        injection hb with h
        subst h
        exact ⟨by decide, rfl⟩⟩
  have hOutD : sampleOutwardLeg.liquidityTrackedOnDestination sampleCore :=
    ⟨rfl, rfl, Or.inr ⟨rfl, rfl, fun dS hget v hv b hb => by
      injection hget with h
      subst h
      injection hb with h
      subst h
      rcases hv with hv | hv <;> subst hv <;> exact ⟨by decide, rfl⟩⟩⟩
  have hRetS : sampleReturnLeg.liquidityTrackedOnSender sampleCore :=
    ⟨rfl, rfl, { sampleNFT 3 with Reserved := [1] }, by decide, rfl, by decide, by decide,
      fun b hb => by
        injection hb with h
        subst h
        exact ⟨by decide, rfl⟩⟩
  have hRetD : sampleReturnLeg.liquidityTrackedOnDestination sampleCore :=
    ⟨rfl, rfl, Or.inl ⟨{ sampleNFT 7 with Reserved := [1] }, by decide, rfl, by decide,
      fun b hb => by
        injection hb with h
        subst h
        exact ⟨by decide, rfl⟩⟩⟩
  have hSenD : sampleSentinelLeg.liquidityTrackedOnDestination sampleCore :=
    ⟨rfl, rfl, Or.inl ⟨{ sampleNFT 4 with Reserved := [1] }, by decide, rfl, by decide,
      fun b hb => by
        injection hb with h
        subst h
        exact ⟨by decide, rfl⟩⟩⟩
  obtain ⟨hper, hsum⟩ := nft_cross_shard_liquidity_deltas sampleCore
    [sampleOutwardLeg, sampleReturnLeg]
    (fun t ht => by
      rcases List.mem_cons.1 ht with h | h
      · subst h
        exact ⟨rfl, by decide, rfl, rfl, rfl, rfl, rfl, fun dS b hget hb => by
          injection hget with h
          subst h
          injection hb with h
          subst h
          rfl⟩
      · rcases List.mem_cons.1 h with h | h
        · subst h
          exact ⟨rfl, by decide, rfl, rfl, rfl, rfl, rfl, fun dS b hget hb => by
            injection hget with h
            subst h
            injection hb with h
            subst h
            rfl⟩
        · cases h)
  have hSen := (nft_cross_shard_liquidity_deltas sampleCore [sampleSentinelLeg]
    (fun t ht => by
      rcases List.mem_cons.1 ht with h | h
      · subst h
        exact ⟨rfl, by decide, rfl, rfl, rfl, rfl, rfl, fun dS b hget hb => by
          injection hget with h
          subst h
          injection hb with h
          subst h
          rfl⟩
      · cases h)).1 sampleSentinelLeg (List.mem_cons_self _ _)
  have hOut := hper sampleOutwardLeg (List.mem_cons_self _ _)
  have hRet := hper sampleReturnLeg (List.mem_cons_of_mem _ (List.mem_cons_self _ _))
  exact ⟨rfl, rfl, rfl, rfl, hOut.2.2.2.1 hOutS, hOut.2.2.2.2.1 hOutD, hRet.2.2.2.1 hRetS,
    hRet.2.2.2.2.1 hRetD,
    hsum (fun t ht => by
      rcases List.mem_cons.1 ht with h | h
      · subst h
        exact ⟨hOutS, hOutD⟩
      · rcases List.mem_cons.1 h with h | h
        · subst h
          exact ⟨hRetS, hRetD⟩
        · cases h),
    rfl, rfl, hSen.2.2.2.2.1 hSenD⟩

end DCT
